import Mathlib

/-!
# Laser-tag sensing core: ring container, power tracker and hit detector

A shallow embedding of `queue.c`, of `filter.c` (FIR and IIR filters, power
computation, normalized powers), of `hit_detect` of `detector.c` and of the
tick function of `lockoutTimer.c`, followed by the properties proved about
them.

Modelling conventions.

* C `double` values are exact rationals (`ℚ`), and their arithmetic is exact.
  The one place where rounding decides the outcome, the threshold comparison of
  `hit_detect`, is also embedded in `double` arithmetic (`double_round`,
  `hit_detect_threshold`, `hit_detect_double`).
* The cursors, counts and indices of the ring container (`queue_index_t`,
  `queue_size_t` of queue.h) are natural numbers.  Inside every state that is
  reachable from `queue_init` the cursors stay below the capacity and the count
  does not exceed it, so the increments of `queue_push` and `queue_pop` never
  wrap; the capacity is taken to be small enough for the sum of a cursor and an
  in-range index to be representable.
* The `uint16_t` hit counters of detector.c wrap explicitly (modulo 2^16).
* Global (file-static) variables become fields of explicit state records that
  are passed to and returned from the operations.  Arrays indexed by a filter or
  frequency number are functions of that number.
* `printf` calls are dropped; `queue_readElementAt` records in its result
  whether the out-of-range message was printed.  Calls into the sound module,
  which is outside the core, are logged.
-/

namespace Lasertag

/-! ## queue.c -/

/-- The element type `queue_data_t` of the ring container (a C `double`). -/
abbrev queue_data_t := ℚ

/-- The record `queue_t`.  The debugging `name` field is left out; `data` is the
heap block of `size` elements. -/
structure queue_t where
  indexIn : Nat
  indexOut : Nat
  size : Nat
  elementCount : Nat
  data : List queue_data_t
  underflowFlag : Bool
  overflowFlag : Bool
deriving DecidableEq, Repr

/-- Function `queue_init`: both cursors and the count are cleared, both flags are
false.  `mem` is the (indeterminate) content of the block returned by `malloc`;
a failing `malloc` aborts the program and is not modelled. -/
def queue_init (size : Nat) (mem : Nat → queue_data_t) : queue_t :=
  { indexIn := 0
    indexOut := 0
    size := size
    elementCount := 0
    data := (List.range size).map mem
    underflowFlag := false
    overflowFlag := false }

/-- Function `queue_size`. -/
def queue_size (q : queue_t) : Nat := q.size

/-- Function `queue_full`. -/
def queue_full (q : queue_t) : Bool := q.elementCount == q.size

/-- Function `queue_empty`. -/
def queue_empty (q : queue_t) : Bool := q.elementCount == 0

/-- Function `queue_elementCount`. -/
def queue_elementCount (q : queue_t) : Nat := q.elementCount

/-- Function `queue_underflow`. -/
def queue_underflow (q : queue_t) : Bool := q.underflowFlag

/-- Function `queue_overflow`. -/
def queue_overflow (q : queue_t) : Bool := q.overflowFlag

/-- Function `queue_push`: store at `indexIn`, advance it with wrap-around, count up and
clear the underflow flag; on a full queue only set the overflow flag. -/
def queue_push (q : queue_t) (value : queue_data_t) : queue_t :=
  if q.elementCount < q.size then
    { q with
      data := q.data.set q.indexIn value
      indexIn := if q.indexIn = q.size - 1 then 0 else q.indexIn + 1
      elementCount := q.elementCount + 1
      underflowFlag := false }
  else if q.elementCount = q.size then
    { q with overflowFlag := true }
  else q

/-- Function `queue_pop`: the returned value and the queue afterwards.  On an empty
queue the underflow flag is set and 0 is returned. -/
def queue_pop (q : queue_t) : queue_data_t × queue_t :=
  if q.elementCount > 0 then
    (q.data.getD q.indexOut 0,
      { q with
        indexOut := if q.indexOut = q.size - 1 then 0 else q.indexOut + 1
        elementCount := q.elementCount - 1
        overflowFlag := false })
  else if q.elementCount = 0 then
    (0, { q with underflowFlag := true })
  else
    (0, q)

/-- Function `queue_overwritePush`: on a full queue pop, then push; otherwise push. -/
def queue_overwritePush (q : queue_t) (value : queue_data_t) : queue_t :=
  if queue_full q then queue_push (queue_pop q).2 value
  else queue_push q value

/-- What a call of `queue_readElementAt` yields: the returned value, whether the
out-of-range message was printed, and the queue after the call. -/
structure read_result where
  value : queue_data_t
  outOfRange : Bool
  queue : queue_t
deriving DecidableEq, Repr

/-- Function `queue_readElementAt`, branch for branch.  The function has no store
through `q`, so the queue is handed back as it came. -/
def queue_readElementAt (q : queue_t) (index : Nat) : read_result :=
  if q.indexOut < q.indexIn then
    if q.indexOut + index < q.indexIn then
      ⟨q.data.getD (q.indexOut + index) 0, false, q⟩
    else
      ⟨0, true, q⟩
  else
    if q.indexOut + index < q.size then
      ⟨q.data.getD (q.indexOut + index) 0, false, q⟩
    else
      if q.indexOut + index - q.size < q.indexIn then
        ⟨q.data.getD (q.indexOut + index - q.size) 0, false, q⟩
      else
        ⟨0, true, q⟩

/-- The values returned by `n` successive calls of `queue_pop`, and the queue
after them. -/
def queue_popN : Nat → queue_t → List queue_data_t × queue_t
  | 0, q => ([], q)
  | n + 1, q =>
    let r := queue_pop q
    let rest := queue_popN n r.2
    (r.1 :: rest.1, rest.2)

/-- A call made by a client of the container. -/
inductive queue_op where
  | push (value : queue_data_t)
  | pop
  | overwritePush (value : queue_data_t)
deriving DecidableEq, Repr

/-- The queue after one client call. -/
def queue_step (q : queue_t) : queue_op → queue_t
  | .push v => queue_push q v
  | .pop => (queue_pop q).2
  | .overwritePush v => queue_overwritePush q v

/-- The queue after a sequence of client calls. -/
def queue_run (q : queue_t) (ops : List queue_op) : queue_t :=
  ops.foldl queue_step q

/-- The states a queue of capacity `C` can be in: those that a sequence of
`queue_push`, `queue_pop` and `queue_overwritePush` calls produces from
`queue_init`. -/
def queue_reachable (C : Nat) (q : queue_t) : Prop :=
  ∃ mem ops, q = queue_run (queue_init C mem) ops

/-- A sequence of calls that uses only `queue_push` and `queue_pop` and never
pushes onto a full queue nor pops from an empty one. -/
def queue_legal : queue_t → List queue_op → Bool
  | _, [] => true
  | q, .push v :: ops => !queue_full q && queue_legal (queue_push q v) ops
  | q, .pop :: ops => !queue_empty q && queue_legal (queue_pop q).2 ops
  | _, .overwritePush _ :: _ => false

/-- The values handed to `queue_push`, in call order. -/
def queue_pushed : List queue_op → List queue_data_t
  | [] => []
  | .push v :: ops => v :: queue_pushed ops
  | _ :: ops => queue_pushed ops

/-- The values returned by the `queue_pop` calls of a sequence, in call
order. -/
def queue_popped : queue_t → List queue_op → List queue_data_t
  | _, [] => []
  | q, .pop :: ops => (queue_pop q).1 :: queue_popped (queue_pop q).2 ops
  | q, op :: ops => queue_popped (queue_step q op) ops

/-! ## Auxiliary notions for the ring container -/

/-- Position `k` folded back into a block of `size` slots (one wrap at most). -/
def wrapIdx (size k : Nat) : Nat := if k < size then k else k - size

/-- Representation invariant of the ring container. -/
def queue_wf (q : queue_t) : Prop :=
  0 < q.size ∧ q.data.length = q.size ∧ q.indexOut < q.size ∧
  q.elementCount ≤ q.size ∧
  q.indexIn = wrapIdx q.size (q.indexOut + q.elementCount)

/-- The stored elements, oldest first: `elementCount` slots starting at
`indexOut`, wrapping at `size`. -/
def queue_contents (q : queue_t) : List queue_data_t :=
  (List.range q.elementCount).map
    (fun i => q.data.getD (wrapIdx q.size (q.indexOut + i)) 0)

/-! ## filter.c: the power computation -/

/-- Constant `FILTER_IIR_FILTER_COUNT` (filter.h). -/
def FILTER_IIR_FILTER_COUNT : Nat := 10

/-- Constant `OUTPUT_QUEUE_SIZE` (filter.c). -/
def OUTPUT_QUEUE_SIZE : Nat := 2000

/-- The file-static data of filter.c.  The arrays of
`FILTER_IIR_FILTER_COUNT` entries are functions of the filter number. -/
structure filter_t where
  xQueue : queue_t
  yQueue : queue_t
  zQueues : Nat → queue_t
  outputQueues : Nat → queue_t
  prevPower : Nat → ℚ
  oldestValue : Nat → ℚ

/-- Constant `QUEUE_INIT_VALUE` (filter.c). -/
def QUEUE_INIT_VALUE : ℚ := 0

/-- The loop shared by `initXQueue`, `initYQueue`, `initZQueues` and
`initOutputQueues`: `queue_init`, then `size` calls of
`queue_overwritePush(q, QUEUE_INIT_VALUE)`. -/
def filter_initQueue (size : Nat) (mem : Nat → queue_data_t) : queue_t :=
  (List.replicate size QUEUE_INIT_VALUE).foldl queue_overwritePush (queue_init size mem)

/-- Constant `X_QUEUE_SIZE` (filter.c). -/
def X_QUEUE_SIZE : Nat := 81

/-- Constant `Y_QUEUE_SIZE` (filter.c). -/
def Y_QUEUE_SIZE : Nat := 11

/-- Constant `Z_QUEUE_SIZE` (filter.c). -/
def Z_QUEUE_SIZE : Nat := 10

/-- Function `filter_init`: all queues are created and filled with zeros; `prevPower` and
`oldestValue` are not touched.  `mem k` is the content of the `k`-th block handed
out by `malloc` (0: x, 1: y, 2 + i: z of filter i, 12 + i: output of filter i). -/
def filter_init (fs : filter_t) (mem : Nat → Nat → queue_data_t) : filter_t :=
  { fs with
    xQueue := filter_initQueue X_QUEUE_SIZE (mem 0)
    yQueue := filter_initQueue Y_QUEUE_SIZE (mem 1)
    zQueues := fun i => filter_initQueue Z_QUEUE_SIZE (mem (2 + i))
    outputQueues := fun i => filter_initQueue OUTPUT_QUEUE_SIZE (mem (12 + i)) }

/-- The filter data at program start: the statics `prevPower` and `oldestValue`
are zero-initialised, the queues are not yet created. -/
def filter_programStart : filter_t :=
  { xQueue := ⟨0, 0, 0, 0, [], false, false⟩
    yQueue := ⟨0, 0, 0, 0, [], false, false⟩
    zQueues := fun _ => ⟨0, 0, 0, 0, [], false, false⟩
    outputQueues := fun _ => ⟨0, 0, 0, 0, [], false, false⟩
    prevPower := fun _ => 0
    oldestValue := fun _ => 0 }

/-- The from-scratch loop of `filter_computePower`: the running sum of
`queue_readElementAt(q, i) * queue_readElementAt(q, i)` for
`i = 0 .. OUTPUT_QUEUE_SIZE - 1`, starting from 0. -/
def filter_powerFromScratch (q : queue_t) : ℚ :=
  (List.range OUTPUT_QUEUE_SIZE).foldl
    (fun power i =>
      power + (queue_readElementAt q i).value * (queue_readElementAt q i).value)
    0

/-- Function `filter_computePower`: the returned power and the filter data afterwards
(`prevPower` and `oldestValue` of the filter are rewritten on every call). -/
def filter_computePower (fs : filter_t) (filterNumber : Nat)
    (forceComputeFromScratch : Bool) (_debugPrint : Bool) : ℚ × filter_t :=
  let power :=
    if forceComputeFromScratch then
      filter_powerFromScratch (fs.outputQueues filterNumber)
    else
      let newestValue :=
        (queue_readElementAt (fs.outputQueues filterNumber) (OUTPUT_QUEUE_SIZE - 1)).value
      fs.prevPower filterNumber
        - fs.oldestValue filterNumber * fs.oldestValue filterNumber
        + newestValue * newestValue
  (power,
    { fs with
      prevPower := Function.update fs.prevPower filterNumber power
      oldestValue := Function.update fs.oldestValue filterNumber
        (queue_readElementAt (fs.outputQueues filterNumber) 0).value })

/-- Function `filter_getCurrentPowerValue`. -/
def filter_getCurrentPowerValue (fs : filter_t) (filterNumber : Nat) : ℚ :=
  fs.prevPower filterNumber

/-- Function `filter_setCurrentPowerValue`. -/
def filter_setCurrentPowerValue (fs : filter_t) (filterNumber : Nat) (value : ℚ) :
    filter_t :=
  { fs with prevPower := Function.update fs.prevPower filterNumber value }

/-- One `queue_overwritePush` of `value` onto `outputQueues[filterNumber]`. -/
def filter_pushOutput (fs : filter_t) (filterNumber : Nat) (value : ℚ) : filter_t :=
  { fs with
    outputQueues := Function.update fs.outputQueues filterNumber
      (queue_overwritePush (fs.outputQueues filterNumber) value) }

/-- One step of the incremental regime: a push onto the output queue of the
filter, then `filter_computePower(filterNumber, false, false)`. -/
def filter_powerStep (filterNumber : Nat) (fs : filter_t) (value : ℚ) : filter_t :=
  (filter_computePower (filter_pushOutput fs filterNumber value) filterNumber false false).2

/-- The sum of the squares of the stored elements of a queue. -/
def queue_sumSquares (q : queue_t) : ℚ :=
  ((queue_contents q).map (fun v => v * v)).sum

/-- What the incremental regime maintains for one filter: its output queue is a
well-formed full queue of `OUTPUT_QUEUE_SIZE` elements, `prevPower` is the sum of
the squares of the stored elements and `oldestValue` is the oldest of them. -/
def filter_powerInv (f : Nat) (fs : filter_t) : Prop :=
  queue_wf (fs.outputQueues f) ∧
  (fs.outputQueues f).size = OUTPUT_QUEUE_SIZE ∧
  (fs.outputQueues f).elementCount = OUTPUT_QUEUE_SIZE ∧
  fs.prevPower f = queue_sumSquares (fs.outputQueues f) ∧
  fs.oldestValue f = (queue_contents (fs.outputQueues f)).getD 0 0

/-! ## lockoutTimer.c, hitLedTimer.c, trigger.c, sound: what `hit_detect` calls -/

/-- The states of the lock-out timer. -/
inductive lockoutTimer_st_t where
  | INIT_ST
  | IDLE_ST
  | LOCKOUT_ST
deriving DecidableEq, Repr

/-- The file-static data of lockoutTimer.c. -/
structure lockoutTimer_t where
  currentState : lockoutTimer_st_t
  lockoutCount : Nat
  startTimer : Bool
  timerRunning : Bool
deriving DecidableEq, Repr

/-- Function `lockoutTimer_start`. -/
def lockoutTimer_start (t : lockoutTimer_t) : lockoutTimer_t :=
  { t with startTimer := true }

/-- Function `lockoutTimer_running`. -/
def lockoutTimer_running (t : lockoutTimer_t) : Bool := t.timerRunning

/-- The states of the hit-LED timer. -/
inductive hitLed_state_t where
  | LED_INIT_ST
  | LED_IDLE_ST
  | LED_ON_ST
deriving DecidableEq, Repr

/-- The file-static data of hitLedTimer.c. -/
structure hitLedTimer_t where
  hitLedState : hitLed_state_t
  onCount : Nat
  disabled : Bool
  startTimer : Bool
deriving DecidableEq, Repr

/-- Function `hitLedTimer_start`: the request is recorded unless the timer is disabled. -/
def hitLedTimer_start (t : hitLedTimer_t) : hitLedTimer_t :=
  if !t.disabled then { t with startTimer := true } else t

/-- The states of the trigger machine. -/
inductive trigger_state_t where
  | TRIGGER_INIT_ST
  | TRIGGER_DISABLED_ST
  | TRIGGER_IDLE_ST
  | TRIGGER_COUNT_1_ST
  | TRIGGER_PRESSED_ST
  | TRIGGER_COUNT_2_ST
  | TRIGGER_RELOAD_ST
deriving DecidableEq, Repr

/-- The file-static data of trigger.c. -/
structure trigger_t where
  triggerState : trigger_state_t
  waitCount : Nat
  reloadCount : Nat
  disabled : Bool
  reloadFlag : Bool
  remainingShots : Nat
deriving DecidableEq, Repr

/-- Function `trigger_enable`. -/
def trigger_enable (t : trigger_t) : trigger_t := { t with disabled := false }

/-- Function `trigger_disable`. -/
def trigger_disable (t : trigger_t) : trigger_t := { t with disabled := true }

/-- The sound identifiers that detector.c and trigger.c hand to
`sound_setSound`. -/
inductive sound_sounds_t where
  | sound_gameStart_e
  | sound_loseLife_e
  | sound_hit_e
  | sound_gunFire_e
  | sound_gunClick_e
  | sound_gunReload_e
deriving DecidableEq, Repr

/-- A call into the sound module, which is outside the core: the calls are
logged in call order. -/
inductive sound_call where
  | setSound (sound : sound_sounds_t)
  | startSound
deriving DecidableEq, Repr

/-! ## detector.c: `hit_detect` -/

/-- Constant `NUM_PLAYERS`. -/
def NUM_PLAYERS : Nat := 10

/-- Constant `MAX_ARRAY_INDEX`. -/
def MAX_ARRAY_INDEX : Nat := 9

/-- Constant `MEDIAN_INDEX`. -/
def MEDIAN_INDEX : Nat := 4

/-- Constant `THRESHOLD_FACTOR` (the C literal `.1`) as an exact rational; the
`double` it denotes is `THRESHOLD_FACTOR_double`. -/
def THRESHOLD_FACTOR : ℚ := 1 / 10

/-- Constant `TOTAL_LIVES`. -/
def TOTAL_LIVES : Nat := 1

/-- Constant `FUDGE_FACTOR_ARRAY_SIZE`. -/
def FUDGE_FACTOR_ARRAY_SIZE : Nat := 5

/-- The table `fudgeFactors`. -/
def fudgeFactors : List ℚ := [100, 450, 600, 800, 1000]

/-- The file-static data of detector.c.  `ignoredSignals` and `hitCounts` are
arrays of `NUM_PLAYERS` entries; `hitCounts` holds `uint16_t` values. -/
structure detector_t where
  elementCount : Nat
  sampleCnt : Nat
  hitDetected : Bool
  frequencyDetected : Nat
  fudgeFactorIndex : Nat
  ignoredSignals : Nat → Bool
  hitCounts : Nat → Nat
  invocationCount : Nat
  lives : Nat
  ownFrequency : Nat
  frozen : Bool

/-- Everything `hit_detect` reads or writes: the detector's own data, the filter
data, the three device machines it calls into and the log of sound calls. -/
structure system_t where
  detector : detector_t
  filter : filter_t
  lockoutTimer : lockoutTimer_t
  hitLedTimer : hitLedTimer_t
  trigger : trigger_t
  sound : List sound_call

/-- The three-assignment exchange of `a[i]` and `a[minIndex]`. -/
def array_swap {α : Type} (a : Nat → α) (i minIndex : Nat) : Nat → α :=
  let temp := a i
  Function.update (Function.update a i (a minIndex)) minIndex temp

/-- The inner loop of the sort: `minIndex` starts at `i` and moves to every
`j = i + 1 .. NUM_PLAYERS - 1` whose value is strictly below the value at the
current `minIndex`. -/
def hit_detect_minIndex (tempArrayValues : Nat → ℚ) (i : Nat) : Nat :=
  (List.range' (i + 1) (NUM_PLAYERS - (i + 1))).foldl
    (fun minIndex j =>
      if tempArrayValues j < tempArrayValues minIndex then j else minIndex)
    i

/-- One pass of the outer loop of the sort: find `minIndex`, then exchange
positions `i` and `minIndex` in both arrays. -/
def hit_detect_sortPass (arrays : (Nat → ℚ) × (Nat → Nat)) (i : Nat) :
    (Nat → ℚ) × (Nat → Nat) :=
  let minIndex := hit_detect_minIndex arrays.1 i
  (array_swap arrays.1 i minIndex, array_swap arrays.2 i minIndex)

/-- The sort loop of `hit_detect` (`i = 0 .. MAX_ARRAY_INDEX - 1`) on the arrays
`tempArrayValues` and `tempArrayIndeces`. -/
def hit_detect_sort (tempArrayValues : Nat → ℚ) (tempArrayIndeces : Nat → Nat) :
    (Nat → ℚ) × (Nat → Nat) :=
  (List.range MAX_ARRAY_INDEX).foldl hit_detect_sortPass
    (tempArrayValues, tempArrayIndeces)

/-- The exchange of positions `i` and `minIndex`, as a map of positions. -/
def swapIdx (i minIndex x : Nat) : Nat :=
  if x = minIndex then i else if x = i then minIndex else x

/-- What holds after `k` passes of the sort loop started on the powers `p` and
the identity index array: every value is the power of the frequency stored next
to it, the index array is a bijection of `0 .. NUM_PLAYERS - 1`, and the first
`k` positions hold values that are in ascending order and not above any later
value. -/
def sort_inv (p : Nat → ℚ) (k : Nat) (arrays : (Nat → ℚ) × (Nat → Nat)) : Prop :=
  (∀ x, arrays.1 x = p (arrays.2 x)) ∧
  (∀ x, x < NUM_PLAYERS → arrays.2 x < NUM_PLAYERS) ∧
  (∀ x y, x < NUM_PLAYERS → y < NUM_PLAYERS → arrays.2 x = arrays.2 y → x = y) ∧
  (∀ g, g < NUM_PLAYERS → ∃ x, x < NUM_PLAYERS ∧ arrays.2 x = g) ∧
  (∀ a b, a < k → a ≤ b → b < NUM_PLAYERS → arrays.1 a ≤ arrays.1 b)

/-- The statement `hitCounts[f]++` on a `uint16_t` counter. -/
def hitCounts_increment (hitCounts : Nat → Nat) (f : Nat) : Nat → Nat :=
  Function.update hitCounts f ((hitCounts f + 1) % 65536)

/-- The first two loops of `hit_detect` fill `tempArrayIndeces[i] = i` and
`tempArrayValues[i] = filter_getCurrentPowerValue(i)`; this is the second
array. -/
def detector_powers (s : system_t) : Nat → ℚ :=
  fun i => filter_getCurrentPowerValue s.filter i

/-- Function `hit_detect`. -/
def hit_detect (s : system_t) : system_t :=
  let sorted := hit_detect_sort (detector_powers s) (fun i => i)
  let tempArrayValues := sorted.1
  let tempArrayIndeces := sorted.2
  let frequencyDetected := tempArrayIndeces MAX_ARRAY_INDEX
  let median := tempArrayValues MEDIAN_INDEX
  let threshold :=
    median * fudgeFactors.getD s.detector.fudgeFactorIndex 0 + THRESHOLD_FACTOR
  let d : detector_t := { s.detector with frequencyDetected := frequencyDetected }
  if tempArrayValues MAX_ARRAY_INDEX > threshold
      ∧ d.ignoredSignals frequencyDetected = false
      ∧ lockoutTimer_running s.lockoutTimer = false then
    if d.frozen then
      if frequencyDetected = d.ownFrequency then
        { s with
          detector :=
            { d with
              lives := TOTAL_LIVES
              hitDetected := true
              hitCounts := hitCounts_increment d.hitCounts frequencyDetected
              frozen := false }
          trigger := trigger_enable s.trigger
          hitLedTimer := hitLedTimer_start s.hitLedTimer
          lockoutTimer := lockoutTimer_start s.lockoutTimer
          sound := s.sound ++
            [sound_call.setSound sound_sounds_t.sound_gameStart_e, sound_call.startSound] }
      else
        { s with detector := d }
    else
      if frequencyDetected ≠ d.ownFrequency then
        { s with
          detector :=
            { d with
              lives := 0
              hitDetected := true
              frozen := true
              hitCounts := hitCounts_increment d.hitCounts frequencyDetected }
          lockoutTimer := lockoutTimer_start s.lockoutTimer
          hitLedTimer := hitLedTimer_start s.hitLedTimer
          sound := s.sound ++
            [sound_call.setSound sound_sounds_t.sound_loseLife_e, sound_call.startSound]
          trigger := trigger_disable s.trigger }
      else
        { s with detector := d }
  else
    { s with detector := { d with hitDetected := false } }

/-- Function `detector_hitDetected`. -/
def detector_hitDetected (s : system_t) : Bool := s.detector.hitDetected

/-- Function `detector_getFrequencyNumberOfLastHit`. -/
def detector_getFrequencyNumberOfLastHit (s : system_t) : Nat :=
  s.detector.frequencyDetected

/-- Function `detector_getLives`. -/
def detector_getLives (s : system_t) : Nat := s.detector.lives

/-- The ten powers in ascending order, by a reference sort. -/
def sorted_powers (powers : Nat → ℚ) : List ℚ :=
  ((List.range NUM_PLAYERS).map powers).insertionSort (· ≤ ·)

/-- The median: the rank-4 value (ranks `0 .. 9`) of the ascending-sorted
powers. -/
def power_median (powers : Nat → ℚ) : ℚ := (sorted_powers powers).getD MEDIAN_INDEX 0

/-- The max-power frequency: the frequency number the sort loop leaves in the
top rank (what `hit_detect` stores in `frequencyDetected`). -/
def hit_topFrequency (s : system_t) : Nat :=
  (hit_detect_sort (detector_powers s) (fun i => i)).2 MAX_ARRAY_INDEX

/-- A hit is recognized: the power of the max-power frequency is strictly above
`median * fudgeFactors[fudgeFactorIndex] + THRESHOLD_FACTOR`, that frequency is
not ignored and the lock-out timer is not running. -/
def hit_recognized (s : system_t) : Prop :=
  detector_powers s (hit_topFrequency s) >
      power_median (detector_powers s) * fudgeFactors.getD s.detector.fudgeFactorIndex 0
        + THRESHOLD_FACTOR
    ∧ s.detector.ignoredSignals (hit_topFrequency s) = false
    ∧ lockoutTimer_running s.lockoutTimer = false

instance hit_recognized_decidable (s : system_t) : Decidable (hit_recognized s) := by
  unfold hit_recognized
  infer_instance

/-- Function `detector_init`; `frequencySetting` is what
`runningModes_getFrequencySetting()` returns. -/
def detector_init (d : detector_t) (frequencySetting : Nat) : detector_t :=
  { d with
    ignoredSignals := fun i => if i < NUM_PLAYERS then false else d.ignoredSignals i
    hitCounts := fun i => if i < NUM_PLAYERS then 0 else d.hitCounts i
    invocationCount := 0
    elementCount := 0
    sampleCnt := 0
    hitDetected := false
    fudgeFactorIndex := 0
    lives := TOTAL_LIVES
    frozen := false
    ownFrequency := if frequencySetting % 2 ≠ 0 then 8 else 4 }

/-- Function `detector_setOwnFrequency`. -/
def detector_setOwnFrequency (d : detector_t) (playerNum : Nat) : detector_t :=
  { d with ownFrequency := playerNum }

/-- The state at program start: every static variable is zero-initialised. -/
def system_programStart : system_t :=
  { detector :=
      { elementCount := 0, sampleCnt := 0, hitDetected := false, frequencyDetected := 0,
        fudgeFactorIndex := 0, ignoredSignals := fun _ => false, hitCounts := fun _ => 0,
        invocationCount := 0, lives := 0, ownFrequency := 0, frozen := false }
    filter := filter_programStart
    lockoutTimer := ⟨lockoutTimer_st_t.INIT_ST, 0, false, false⟩
    hitLedTimer := ⟨hitLed_state_t.LED_INIT_ST, 0, false, false⟩
    trigger := ⟨trigger_state_t.TRIGGER_INIT_ST, 0, 0, false, false, 0⟩
    sound := [] }

/-- The state after `detector_init` with frequency setting 0 (own frequency 4)
in which `filter_setCurrentPowerValue(i, powers[i])` has been called for
`i = 0 .. 9`. -/
def system_withPowers (powers : List ℚ) : system_t :=
  { system_programStart with
    detector := detector_init system_programStart.detector 0
    filter :=
      (List.range NUM_PLAYERS).foldl
        (fun fs i => filter_setCurrentPowerValue fs i (powers.getD i 0))
        filter_programStart }

/-- A frozen shooter (own frequency 4, no lives) that has been revived `count`
times on frequency 4 and frozen `count + 1` times by frequency 7, with a dominant
power on frequency 4. -/
def system_frozen (count : Nat) : system_t :=
  { system_withPowers [1, 2, 3, 4, 5000, 5, 6, 7, 8, 9] with
    detector :=
      { detector_init system_programStart.detector 0 with
        frozen := true
        lives := 0
        hitCounts := fun i =>
          if i = 4 then count else if i = 7 then (count + 1) % 65536 else 0 } }

/-- A shooter that is not frozen (own frequency 4) and has been frozen `count`
times by frequency 7 and revived as often on frequency 4, with a dominant power
on frequency 7. -/
def system_unfrozen (count : Nat) : system_t :=
  { system_withPowers [1, 2, 3, 4, 5, 6, 7, 5000, 8, 9] with
    detector :=
      { detector_init system_programStart.detector 0 with
        hitCounts := fun i => if i = 7 then count else if i = 4 then count else 0 } }

/-- A step of `hit_detect` accepts a hit: the lock-out timer has been started and
exactly one hit counter has been incremented (all others are unchanged). -/
def hit_accepted (s : system_t) : Prop :=
  (hit_detect s).lockoutTimer = lockoutTimer_start s.lockoutTimer ∧
  ∃ f, (hit_detect s).detector.hitCounts = hitCounts_increment s.detector.hitCounts f

/-! ## Further notions for the ring container -/

/-- A call of the container interface: one of the three mutators, or a
`queue_readElementAt` at some index. -/
inductive queue_call where
  | op (o : queue_op)
  | readElementAt (index : Nat)
deriving DecidableEq, Repr

/-- The queue after one call of the container interface. -/
def queue_call_step (q : queue_t) : queue_call → queue_t
  | .op o => queue_step q o
  | .readElementAt index => (queue_readElementAt q index).queue

/-- The queue after a sequence of calls of the container interface. -/
def queue_run_calls (q : queue_t) (calls : List queue_call) : queue_t :=
  calls.foldl queue_call_step q

/-- The stored elements, oldest first, as `queue_elementCount` successive
`queue_pop` calls return them. -/
def queue_elements (q : queue_t) : List queue_data_t :=
  (queue_popN (queue_elementCount q) q).1

/-! ## detector.c: further functions and the test data of `detector_runTest` -/

/-- Function `detector_setFudgeFactorIndex`. -/
def detector_setFudgeFactorIndex (d : detector_t) (factor : Nat) : detector_t :=
  { d with fudgeFactorIndex := factor }

/-- Function `detector_clearHit`. -/
def detector_clearHit (d : detector_t) : detector_t :=
  { d with hitDetected := false }

/-- The loop of `detector_runTest` that stores a power set:
`filter_setCurrentPowerValue(i, powers[i])` for `i = 0 .. NUM_PLAYERS - 1`. -/
def system_setPowers (s : system_t) (powers : List ℚ) : system_t :=
  { s with
    filter :=
      (List.range NUM_PLAYERS).foldl
        (fun fs i => filter_setCurrentPowerValue fs i (powers.getD i 0))
        s.filter }

/-- The array `testData1` of `detector_runTest`. -/
def testData1 : List ℚ := [150, 20, 40, 10, 15, 30, 35, 15, 25, 80]

/-- The array `testData2` of `detector_runTest`. -/
def testData2 : List ℚ := [10, 20, 15, 10, 15, 10, 20, 15, 10, 15]

/-! ## lockoutTimer.c: the tick function; detector.c: the guarded call -/

/-- Function `lockoutTimer_init`. -/
def lockoutTimer_init : lockoutTimer_t :=
  { currentState := lockoutTimer_st_t.INIT_ST
    lockoutCount := 0
    startTimer := false
    timerRunning := false }

/-- The first `switch` of `lockoutTimer_tick` (state update).  `expire` is
`LOCKOUT_TIMER_EXPIRE_VALUE` of lockoutTimer.h. -/
def lockoutTimer_tick_transition (expire : Nat) (t : lockoutTimer_t) : lockoutTimer_t :=
  match t.currentState with
  | lockoutTimer_st_t.INIT_ST => { t with currentState := lockoutTimer_st_t.IDLE_ST }
  | lockoutTimer_st_t.IDLE_ST =>
    if t.startTimer then
      { t with
        currentState := lockoutTimer_st_t.LOCKOUT_ST
        timerRunning := true
        startTimer := false }
    else t
  | lockoutTimer_st_t.LOCKOUT_ST =>
    if t.lockoutCount ≥ expire then
      { t with
        currentState := lockoutTimer_st_t.IDLE_ST
        timerRunning := false
        lockoutCount := 0 }
    else t

/-- The second `switch` of `lockoutTimer_tick` (state actions); `lockoutCount`
is a `uint32_t`. -/
def lockoutTimer_tick_action (t : lockoutTimer_t) : lockoutTimer_t :=
  match t.currentState with
  | lockoutTimer_st_t.INIT_ST => t
  | lockoutTimer_st_t.IDLE_ST => t
  | lockoutTimer_st_t.LOCKOUT_ST =>
    { t with lockoutCount := (t.lockoutCount + 1) % 4294967296 }

/-- Function `lockoutTimer_tick`: the state update, then the action of the
now-current state. -/
def lockoutTimer_tick (expire : Nat) (t : lockoutTimer_t) : lockoutTimer_t :=
  lockoutTimer_tick_action (lockoutTimer_tick_transition expire t)

/-- The guarded call at the end of the decimation block of `detector`:
`if (!lockoutTimer_running()) hit_detect();`. -/
def detector_hitStep (s : system_t) : system_t :=
  if lockoutTimer_running s.lockoutTimer = false then hit_detect s else s

/-- An event of an execution that interleaves the detector's decimated steps
with timer ticks: one `lockoutTimer_tick`, or one guarded `hit_detect` call on
the powers the filters have just produced. -/
inductive lockout_event where
  | tick
  | detect (powers : List ℚ)

/-- The state after one event. -/
def lockout_event_step (expire : Nat) (s : system_t) : lockout_event → system_t
  | .tick => { s with lockoutTimer := lockoutTimer_tick expire s.lockoutTimer }
  | .detect powers => detector_hitStep (system_setPowers s powers)

/-- The state after a sequence of events. -/
def lockout_run (expire : Nat) (s : system_t) (events : List lockout_event) : system_t :=
  events.foldl (lockout_event_step expire) s

/-- The state after `detector_init` (own frequency 4) and `lockoutTimer_init`
followed by one `lockoutTimer_tick`, which leaves the timer idle. -/
def system_idle : system_t :=
  { system_withPowers [] with
    lockoutTimer :=
      { currentState := lockoutTimer_st_t.IDLE_ST
        lockoutCount := 0
        startTimer := false
        timerRunning := false } }

/-- A power set whose largest power, 5000, is on frequency 7, closely followed
by 4999 on frequency 4. -/
def powers_top7 : List ℚ := [1, 2, 3, 4, 4999, 5, 6, 5000, 8, 9]

/-- The power set `powers_top7` after the power of frequency 4 has risen from
4999 to 5001, which makes frequency 4 the largest. -/
def powers_top4 : List ℚ := [1, 2, 3, 4, 5001, 5, 6, 5000, 8, 9]

/-! ## filter.c: `filter_getNormalizedPowerValues` -/

/-- The quotient `a / b` of two C `double` values.  Division by zero does not
yield a number (it yields a NaN or an infinity): that outcome is `none`. -/
def double_div (a b : ℚ) : Option ℚ :=
  if b = 0 then none else some (a / b)

/-- The first loop of `filter_getNormalizedPowerValues`: the pair
(`maxPower`, `*indexOfMaxValue`) after the scan of `prevPower[0 .. 9]`, started
with `maxPower = 0` and the value the caller's variable holds. -/
def filter_maxScan (prevPower : Nat → ℚ) (indexOfMaxValue : Nat) : ℚ × Nat :=
  (List.range FILTER_IIR_FILTER_COUNT).foldl
    (fun acc i => if prevPower i > acc.1 then (prevPower i, i) else acc)
    (0, indexOfMaxValue)

/-- Function `filter_getNormalizedPowerValues`: the array `normalizedArray` and
the variable `*indexOfMaxValue` after the call, given what both held before
it. -/
def filter_getNormalizedPowerValues (fs : filter_t) (normalizedArray : Nat → Option ℚ)
    (indexOfMaxValue : Nat) : (Nat → Option ℚ) × Nat :=
  let index := (filter_maxScan fs.prevPower indexOfMaxValue).2
  (fun i =>
      if i < FILTER_IIR_FILTER_COUNT then
        double_div (fs.prevPower i) (fs.prevPower index)
      else normalizedArray i,
    index)

/-! ## filter.h: the coefficient tables; filter.c: the FIR and IIR filters -/

/-- Constant `FIR_FILTER_TAP_COUNT`. -/
def FIR_FILTER_TAP_COUNT : Nat := 81

/-- Constant `IIR_A_COEFFICIENT_COUNT`. -/
def IIR_A_COEFFICIENT_COUNT : Nat := 10

/-- Constant `IIR_B_COEFFICIENT_COUNT`. -/
def IIR_B_COEFFICIENT_COUNT : Nat := 11

/-- Constant `INDEX_ONE` (filter.c). -/
def INDEX_ONE : Nat := 1

/-- The table `firCoefficients` (81 taps), each decimal literal read as the
rational it denotes. -/
def firCoefficients : List ℚ :=
  [
    6.0546138291252597e-4, 5.2507143315267811e-4, 3.8449091272701525e-4, 1.7398667197948182e-4,
    -1.1360489934931548e-4, -4.7488111478632532e-4, -8.8813878356223768e-4,
    -1.3082618178394971e-3, -1.6663618496969908e-3, -1.8755700366336781e-3,
    -1.8432363328817916e-3, -1.4884258721727399e-3, -7.6225514924622853e-4,
    3.3245249132384837e-4, 1.7262548802593762e-3, 3.2768418720744217e-3, 4.7744814146589041e-3,
    5.9606317814670249e-3, 6.5591485566565593e-3, 6.3172870282586493e-3, 5.0516421324586546e-3,
    2.6926388909554420e-3, -6.7950808883015244e-4, -4.8141100026888716e-3,
    -9.2899200683230643e-3, -1.3538595939086505e-2, -1.6891587875325020e-2,
    -1.8646984919441702e-2, -1.8149697899123560e-2, -1.4875876924586697e-2,
    -8.5110608557150517e-3, 9.8848931927316319e-4, 1.3360421141947857e-2,
    2.8033301291042201e-2, 4.4158668590312596e-2, 6.0676486642862550e-2, 7.6408062643700314e-2,
    9.0166807112971648e-2, 1.0087463525509034e-1, 1.0767073207825099e-1, 1.1000000000000000e-1,
    1.0767073207825099e-1, 1.0087463525509034e-1, 9.0166807112971648e-2, 7.6408062643700314e-2,
    6.0676486642862550e-2, 4.4158668590312596e-2, 2.8033301291042201e-2, 1.3360421141947857e-2,
    9.8848931927316319e-4, -8.5110608557150517e-3, -1.4875876924586697e-2,
    -1.8149697899123560e-2, -1.8646984919441702e-2, -1.6891587875325020e-2,
    -1.3538595939086505e-2, -9.2899200683230643e-3, -4.8141100026888716e-3,
    -6.7950808883015244e-4, 2.6926388909554420e-3, 5.0516421324586546e-3,
    6.3172870282586493e-3, 6.5591485566565593e-3, 5.9606317814670249e-3, 4.7744814146589041e-3,
    3.2768418720744217e-3, 1.7262548802593762e-3, 3.3245249132384837e-4,
    -7.6225514924622853e-4, -1.4884258721727399e-3, -1.8432363328817916e-3,
    -1.8755700366336781e-3, -1.6663618496969908e-3, -1.3082618178394971e-3,
    -8.8813878356223768e-4, -4.7488111478632532e-4, -1.1360489934931548e-4,
    1.7398667197948182e-4, 3.8449091272701525e-4, 5.2507143315267811e-4, 6.0546138291252597e-4
  ]

/-- The table `iirACoefficientConstants` (10 filters, 10 coefficients each). -/
def iirACoefficientConstants : List (List ℚ) :=
  [
    [
      -5.9637727070164033e0, 1.9125339333078262e1, -4.0341474540744223e1, 6.1537466875368928e1,
      -7.0019717951472359e1, 6.0298814235239057e1, -3.8733792862566446e1, 1.7993533279581140e1,
      -5.4979061224867953e0, 9.0332828533800158e-1
    ],
    [
      -4.6377947119071443e0, 1.3502215749461563e1, -2.6155952405269730e1, 3.8589668330738292e1,
      -4.3038990303252554e1, 3.7812927599537034e1, -2.5113598088113712e1, 1.2703182701888043e1,
      -4.2755083391143316e0, 9.0332828533799781e-1
    ],
    [
      -3.0591317915750951e0, 8.6417489609637563e0, -1.4278790253808854e1, 2.1302268283304326e1,
      -2.2193853972079253e1, 2.0873499791105470e1, -1.3709764520609415e1, 8.1303553577931851e0,
      -2.8201643879900580e0, 9.0332828533800236e-1
    ],
    [
      -1.4071749185996771e0, 5.6904141470697578e0, -5.7374718273676413e0, 1.1958028362868918e1,
      -8.5435280598354826e0, 1.1717345583835980e1, -5.5088290876998780e0, 5.3536787286077736e0,
      -1.2972519209655626e0, 9.0332828533800136e-1
    ],
    [
      8.2010906117760329e-1, 5.1673756579268595e0, 3.2580350909220921e0, 1.0392903763919190e1,
      4.8101776408669066e0, 1.0183724507092503e1, 3.1282000712126736e0, 4.8615933365571946e0,
      7.5604535083144853e-1, 9.0332828533799947e-1
    ],
    [
      2.7080869856154464e0, 7.8319071217995475e0, 1.2201607990980694e1, 1.8651500443681531e1,
      1.8758157568004435e1, 1.8276088095998901e1, 1.1715361303018808e1, 7.3684394621252913e0,
      2.4965418284511678e0, 9.0332828533799581e-1
    ],
    [
      4.9479835250075874e0, 1.4691607003177591e1, 2.9082414772101028e1, 4.3179839108869274e1,
      4.8440791644688801e1, 4.2310703962394257e1, 2.7923434247706368e1, 1.3822186510470974e1,
      4.5614664160654215e0, 9.0332828533799658e-1
    ],
    [
      6.1701893352279829e0, 2.0127225876810321e1, 4.2974193398071641e1, 6.5958045321253366e1,
      7.5230437667866497e1, 6.4630411355739767e1, 4.1261591079244056e1, 1.8936128791950505e1,
      5.6881982915180203e0, 9.0332828533799647e-1
    ],
    [
      7.4092912870072354e0, 2.6857944460290113e1, 6.1578787811202183e1, 9.8258255839887198e1,
      1.1359460153696280e2, 9.6280452143025911e1, 5.9124742025776264e1, 2.5268527576524143e1,
      6.8305064480742885e0, 9.0332828533799747e-1
    ],
    [
      8.5743055776347745e0, 3.4306584753117939e1, 8.4035290411037266e1, 1.3928510844056862e2,
      1.6305115418161688e2, 1.3648147221895857e2, 8.0686288623300214e1, 3.2276361903872321e1,
      7.9045143816245282e0, 9.0332828533800358e-1
    ]
  ]

/-- The table `iirBCoefficientConstants` (10 filters, 11 coefficients each). -/
def iirBCoefficientConstants : List (List ℚ) :=
  [
    [
      9.0928661148194273e-10, 0.0000000000000000e0, -4.5464330574097132e-9,
      0.0000000000000000e0, 9.0928661148194265e-9, 0.0000000000000000e0,
      -9.0928661148194265e-9, 0.0000000000000000e0, 4.5464330574097132e-9,
      0.0000000000000000e0, -9.0928661148194273e-10
    ],
    [
      9.0928661148200467e-10, 0.0000000000000000e0, -4.5464330574100234e-9,
      0.0000000000000000e0, 9.0928661148200469e-9, 0.0000000000000000e0,
      -9.0928661148200469e-9, 0.0000000000000000e0, 4.5464330574100234e-9,
      0.0000000000000000e0, -9.0928661148200467e-10
    ],
    [
      9.0928661148188338e-10, 0.0000000000000000e0, -4.5464330574094171e-9,
      0.0000000000000000e0, 9.0928661148188342e-9, 0.0000000000000000e0,
      -9.0928661148188342e-9, 0.0000000000000000e0, 4.5464330574094171e-9,
      0.0000000000000000e0, -9.0928661148188338e-10
    ],
    [
      9.0928661148192443e-10, 0.0000000000000000e0, -4.5464330574096223e-9,
      0.0000000000000000e0, 9.0928661148192445e-9, 0.0000000000000000e0,
      -9.0928661148192445e-9, 0.0000000000000000e0, 4.5464330574096223e-9,
      0.0000000000000000e0, -9.0928661148192443e-10
    ],
    [
      9.0928661148202390e-10, 0.0000000000000000e0, -4.5464330574101194e-9,
      0.0000000000000000e0, 9.0928661148202388e-9, 0.0000000000000000e0,
      -9.0928661148202388e-9, 0.0000000000000000e0, 4.5464330574101194e-9,
      0.0000000000000000e0, -9.0928661148202390e-10
    ],
    [
      9.0928661148205316e-10, 0.0000000000000000e0, -4.5464330574102658e-9,
      0.0000000000000000e0, 9.0928661148205316e-9, 0.0000000000000000e0,
      -9.0928661148205316e-9, 0.0000000000000000e0, 4.5464330574102658e-9,
      0.0000000000000000e0, -9.0928661148205316e-10
    ],
    [
      9.0928661148200353e-10, 0.0000000000000000e0, -4.5464330574100176e-9,
      0.0000000000000000e0, 9.0928661148200353e-9, 0.0000000000000000e0,
      -9.0928661148200353e-9, 0.0000000000000000e0, 4.5464330574100176e-9,
      0.0000000000000000e0, -9.0928661148200353e-10
    ],
    [
      9.0928661148210507e-10, 0.0000000000000000e0, -4.5464330574105255e-9,
      0.0000000000000000e0, 9.0928661148210511e-9, 0.0000000000000000e0,
      -9.0928661148210511e-9, 0.0000000000000000e0, 4.5464330574105255e-9,
      0.0000000000000000e0, -9.0928661148210507e-10
    ],
    [
      9.0928661148201087e-10, 0.0000000000000000e0, -4.5464330574100540e-9,
      0.0000000000000000e0, 9.0928661148201081e-9, 0.0000000000000000e0,
      -9.0928661148201081e-9, 0.0000000000000000e0, 4.5464330574100540e-9,
      0.0000000000000000e0, -9.0928661148201087e-10
    ],
    [
      9.0928661148192753e-10, 0.0000000000000000e0, -4.5464330574096380e-9,
      0.0000000000000000e0, 9.0928661148192759e-9, 0.0000000000000000e0,
      -9.0928661148192759e-9, 0.0000000000000000e0, 4.5464330574096380e-9,
      0.0000000000000000e0, -9.0928661148192753e-10
    ]
  ]

/-- Function `filter_addNewInput`. -/
def filter_addNewInput (fs : filter_t) (x : ℚ) : filter_t :=
  { fs with xQueue := queue_overwritePush fs.xQueue x }

/-- Function `filter_firFilter`: the returned `y` and the filter data
afterwards. -/
def filter_firFilter (fs : filter_t) : ℚ × filter_t :=
  let y :=
    (List.range FIR_FILTER_TAP_COUNT).foldl
      (fun y i =>
        y + (queue_readElementAt fs.xQueue i).value
            * firCoefficients.getD (FIR_FILTER_TAP_COUNT - i - INDEX_ONE) 0)
      0
  (y, { fs with yQueue := queue_overwritePush fs.yQueue y })

/-- The loop of `filter_iirFilter`: the pair (`yTotal`, `zTotal`) after
`j = 0 .. IIR_B_COEFFICIENT_COUNT - 1`. -/
def filter_iirTotals (fs : filter_t) (filterNumber : Nat) : ℚ × ℚ :=
  (List.range IIR_B_COEFFICIENT_COUNT).foldl
    (fun totals j =>
      (totals.1
          + (iirBCoefficientConstants.getD filterNumber []).getD j 0
            * (queue_readElementAt fs.yQueue (IIR_B_COEFFICIENT_COUNT - j - INDEX_ONE)).value,
        if j ≠ IIR_B_COEFFICIENT_COUNT - INDEX_ONE then
          totals.2
            + (iirACoefficientConstants.getD filterNumber []).getD j 0
              * (queue_readElementAt (fs.zQueues filterNumber)
                  (IIR_A_COEFFICIENT_COUNT - j - INDEX_ONE)).value
        else totals.2))
    (0, 0)

/-- Function `filter_iirFilter`: the returned `z` and the filter data
afterwards. -/
def filter_iirFilter (fs : filter_t) (filterNumber : Nat) : ℚ × filter_t :=
  let z := (filter_iirTotals fs filterNumber).1 - (filter_iirTotals fs filterNumber).2
  (z,
    { fs with
      zQueues := Function.update fs.zQueues filterNumber
        (queue_overwritePush (fs.zQueues filterNumber) z)
      outputQueues := Function.update fs.outputQueues filterNumber
        (queue_overwritePush (fs.outputQueues filterNumber) z) })

/-- The newest stored element of a queue: the last value a run of
`queue_elementCount` successive `queue_pop` calls returns. -/
def queue_newest (q : queue_t) : Option queue_data_t := (queue_elements q).getLast?

/-! ## transmitter.c: the square-wave generator

The file-static variables of transmitter.c are the fields of `transmitter_t`;
the field `jf1` is the level last written to the transmitter pin by
`transmitter_set_jf1`.  The counters are `uint32_t` and wrap. -/

/-- The states of the transmitter state machine. -/
inductive transmitter_state_t where
  | TRANSMITTER_INIT_ST
  | TRANSMITTER_IDLE_ST
  | TRANSMITTER_HIGH_ST
  | TRANSMITTER_LOW_ST
deriving DecidableEq, Repr

/-- The file-static variables of transmitter.c and the level of the output pin. -/
@[ext] structure transmitter_t where
  transmitterState : transmitter_state_t
  continuousMode : Bool
  runFlag : Bool
  timeOnTicks : Nat
  timeOnCount : Nat
  pulseCount : Nat
  frequencyNum : Nat
  jf1 : Nat
deriving DecidableEq, Repr

/-- Table `filter_frequencyTickTable` of filter.h: ticks per period of each player frequency. -/
def filter_frequencyTickTable : List Nat := [68, 58, 50, 44, 38, 34, 30, 28, 26, 24]

/-- Constant `PULSE_TICKS` of transmitter.c. -/
def PULSE_TICKS : Nat := 20000

/-- Constant `HALF_VALUE` of transmitter.c. -/
def HALF_VALUE : Nat := 2

/-- Constant `TRANSMITTER_HIGH_VALUE` of transmitter.c. -/
def TRANSMITTER_HIGH_VALUE : Nat := 1

/-- Constant `TRANSMITTER_LOW_VALUE` of transmitter.c. -/
def TRANSMITTER_LOW_VALUE : Nat := 0

/-- The expression `filter_frequencyTickTable[frequencyNum] / HALF_VALUE`. -/
def transmitter_halfPeriod (frequencyNum : Nat) : Nat :=
  filter_frequencyTickTable.getD frequencyNum 0 / HALF_VALUE

/-- Function `transmitter_init`; `level` is the level of the pin before the call. -/
def transmitter_init (level : Nat) : transmitter_t :=
  { transmitterState := transmitter_state_t.TRANSMITTER_INIT_ST
    continuousMode := false
    runFlag := false
    timeOnTicks := transmitter_halfPeriod 0
    timeOnCount := 0
    pulseCount := 0
    frequencyNum := 0
    jf1 := level }

/-- The first `switch` of `transmitter_tick` (transitions). -/
def transmitter_tick_transition (t : transmitter_t) : transmitter_t :=
  match t.transmitterState with
  | transmitter_state_t.TRANSMITTER_INIT_ST =>
    { t with transmitterState := transmitter_state_t.TRANSMITTER_IDLE_ST }
  | transmitter_state_t.TRANSMITTER_IDLE_ST =>
    if t.runFlag then
      { t with
        transmitterState := transmitter_state_t.TRANSMITTER_HIGH_ST
        jf1 := TRANSMITTER_HIGH_VALUE
        runFlag := false }
    else t
  | transmitter_state_t.TRANSMITTER_HIGH_ST =>
    if t.timeOnCount ≥ t.timeOnTicks then
      { t with
        jf1 := TRANSMITTER_LOW_VALUE
        transmitterState := transmitter_state_t.TRANSMITTER_LOW_ST
        timeOnCount := 0 }
    else t
  | transmitter_state_t.TRANSMITTER_LOW_ST =>
    if t.pulseCount ≥ PULSE_TICKS then
      if t.timeOnCount ≥ t.timeOnTicks then
        if t.continuousMode then
          { t with
            timeOnCount := 0
            pulseCount := 0
            jf1 := TRANSMITTER_HIGH_VALUE
            transmitterState := transmitter_state_t.TRANSMITTER_HIGH_ST
            timeOnTicks := transmitter_halfPeriod t.frequencyNum }
        else
          { t with
            timeOnCount := 0
            pulseCount := 0
            jf1 := TRANSMITTER_LOW_VALUE
            transmitterState := transmitter_state_t.TRANSMITTER_IDLE_ST
            timeOnTicks := transmitter_halfPeriod t.frequencyNum }
      else t
    else
      if t.timeOnCount ≥ t.timeOnTicks then
        { t with
          jf1 := TRANSMITTER_HIGH_VALUE
          transmitterState := transmitter_state_t.TRANSMITTER_HIGH_ST
          timeOnCount := 0 }
      else t

/-- The second `switch` of `transmitter_tick` (actions). -/
def transmitter_tick_action (t : transmitter_t) : transmitter_t :=
  match t.transmitterState with
  | transmitter_state_t.TRANSMITTER_INIT_ST => t
  | transmitter_state_t.TRANSMITTER_IDLE_ST =>
    { t with timeOnTicks := transmitter_halfPeriod t.frequencyNum }
  | transmitter_state_t.TRANSMITTER_HIGH_ST =>
    { t with
      timeOnCount := (t.timeOnCount + 1) % 4294967296
      pulseCount := (t.pulseCount + 1) % 4294967296 }
  | transmitter_state_t.TRANSMITTER_LOW_ST =>
    { t with
      timeOnCount := (t.timeOnCount + 1) % 4294967296
      pulseCount := (t.pulseCount + 1) % 4294967296 }

/-- Function `transmitter_tick`. -/
def transmitter_tick (t : transmitter_t) : transmitter_t :=
  transmitter_tick_action (transmitter_tick_transition t)

/-- Function `transmitter_run`. -/
def transmitter_run (t : transmitter_t) : transmitter_t :=
  { t with runFlag := true }

/-- Function `transmitter_running`. -/
def transmitter_running (t : transmitter_t) : Bool :=
  t.transmitterState != transmitter_state_t.TRANSMITTER_IDLE_ST

/-- Function `transmitter_setFrequencyNumber`; the argument is a `uint16_t`. -/
def transmitter_setFrequencyNumber (t : transmitter_t) (frequencyNumber : Nat) : transmitter_t :=
  { t with frequencyNum := frequencyNumber % 65536 }

/-- Function `transmitter_setContinuousMode`. -/
def transmitter_setContinuousMode (t : transmitter_t) (continuousModeFlag : Bool) :
    transmitter_t :=
  { t with continuousMode := continuousModeFlag }

/-- The state after `n` further calls of `transmitter_tick`. -/
def transmitter_ticks : Nat → transmitter_t → transmitter_t
  | 0, t => t
  | n + 1, t => transmitter_tick (transmitter_ticks n t)

/-- A call made on the transmitter between or at interrupts. -/
inductive transmitter_call where
  | tick
  | run
  | setFrequencyNumber (frequencyNumber : Nat)
  | setContinuousMode (continuousModeFlag : Bool)
deriving DecidableEq, Repr

/-- One call on the transmitter. -/
def transmitter_call_step (t : transmitter_t) : transmitter_call → transmitter_t
  | transmitter_call.tick => transmitter_tick t
  | transmitter_call.run => transmitter_run t
  | transmitter_call.setFrequencyNumber f => transmitter_setFrequencyNumber t f
  | transmitter_call.setContinuousMode b => transmitter_setContinuousMode t b

/-- A sequence of calls on the transmitter, first call first. -/
def transmitter_calls (t : transmitter_t) (cs : List transmitter_call) : transmitter_t :=
  cs.foldl transmitter_call_step t

/-- The condition under which the low state ends a burst: both tests of the
`TRANSMITTER_LOW_ST` transition succeed. -/
def transmitter_burstBoundary (t : transmitter_t) : Prop :=
  t.transmitterState = transmitter_state_t.TRANSMITTER_LOW_ST ∧
    t.pulseCount ≥ PULSE_TICKS ∧ t.timeOnCount ≥ t.timeOnTicks

/-- The number of ticks of a one-shot burst of half-period `T`: whole periods
until `PULSE_TICKS` ticks have passed. -/
def transmitter_burstTicks (T : Nat) : Nat :=
  2 * T * ((PULSE_TICKS + 2 * T - 1) / (2 * T))

/-! ## lockoutTimer.c and hitLedTimer.c: runs of ticks -/

/-- The state after `n` further calls of `lockoutTimer_tick`. -/
def lockoutTimer_ticks (expire : Nat) : Nat → lockoutTimer_t → lockoutTimer_t
  | 0, t => t
  | n + 1, t => lockoutTimer_tick expire (lockoutTimer_ticks expire n t)

/-- A call made on the lockout timer. -/
inductive lockoutTimer_call where
  | tick
  | start
deriving DecidableEq, Repr

/-- One call on the lockout timer. -/
def lockoutTimer_call_step (expire : Nat) (t : lockoutTimer_t) :
    lockoutTimer_call → lockoutTimer_t
  | lockoutTimer_call.tick => lockoutTimer_tick expire t
  | lockoutTimer_call.start => lockoutTimer_start t

/-- The states the lockout timer can be in: those reached from
`lockoutTimer_init` by calls of `lockoutTimer_tick` and `lockoutTimer_start`. -/
def lockoutTimer_reachable (expire : Nat) (t : lockoutTimer_t) : Prop :=
  ∃ cs : List lockoutTimer_call, t = cs.foldl (lockoutTimer_call_step expire) lockoutTimer_init

/-- Constant `ON_TICKS` of hitLedTimer.c. -/
def ON_TICKS : Nat := 50000

/-- Constant `LED_ON` of hitLedTimer.c. -/
def LED_ON : Nat := 1

/-- Constant `LED_OFF` of hitLedTimer.c. -/
def LED_OFF : Nat := 0

/-- A write to one of the two hit indicators: `led_set_jf3` (MIO pin 11) or
`leds_write` (LD0). -/
inductive hitLed_write where
  | jf3 (val : Nat)
  | leds (val : Nat)
deriving DecidableEq, Repr

/-- Function `hitLedTimer_init`. -/
def hitLedTimer_init : hitLedTimer_t :=
  { hitLedState := hitLed_state_t.LED_INIT_ST
    onCount := 0
    disabled := false
    startTimer := false }

/-- The first `switch` of `hitLedTimer_tick` (transitions), with the indicator
writes it performs. -/
def hitLedTimer_tick_transition (t : hitLedTimer_t) : hitLedTimer_t × List hitLed_write :=
  match t.hitLedState with
  | hitLed_state_t.LED_INIT_ST => ({ t with hitLedState := hitLed_state_t.LED_IDLE_ST }, [])
  | hitLed_state_t.LED_IDLE_ST =>
    if t.startTimer && !t.disabled then
      ({ t with hitLedState := hitLed_state_t.LED_ON_ST, startTimer := false },
        [hitLed_write.jf3 LED_ON, hitLed_write.leds LED_ON])
    else (t, [])
  | hitLed_state_t.LED_ON_ST =>
    if t.onCount ≥ ON_TICKS then
      ({ t with hitLedState := hitLed_state_t.LED_IDLE_ST, onCount := 0 },
        [hitLed_write.jf3 LED_OFF, hitLed_write.leds LED_OFF])
    else (t, [])

/-- The second `switch` of `hitLedTimer_tick` (actions); `onCount` is a `uint32_t`. -/
def hitLedTimer_tick_action (t : hitLedTimer_t) : hitLedTimer_t :=
  match t.hitLedState with
  | hitLed_state_t.LED_INIT_ST => t
  | hitLed_state_t.LED_IDLE_ST => t
  | hitLed_state_t.LED_ON_ST => { t with onCount := (t.onCount + 1) % 4294967296 }

/-- Function `hitLedTimer_tick`: the new state and the indicator writes of this tick. -/
def hitLedTimer_tick (t : hitLedTimer_t) : hitLedTimer_t × List hitLed_write :=
  (hitLedTimer_tick_action (hitLedTimer_tick_transition t).1, (hitLedTimer_tick_transition t).2)

/-- Function `hitLedTimer_running`. -/
def hitLedTimer_running (t : hitLedTimer_t) : Bool :=
  t.hitLedState == hitLed_state_t.LED_ON_ST

/-- Function `hitLedTimer_disable`. -/
def hitLedTimer_disable (t : hitLedTimer_t) : hitLedTimer_t := { t with disabled := true }

/-- Function `hitLedTimer_enable`. -/
def hitLedTimer_enable (t : hitLedTimer_t) : hitLedTimer_t := { t with disabled := false }

/-- The state after `n` further calls of `hitLedTimer_tick`. -/
def hitLedTimer_ticks : Nat → hitLedTimer_t → hitLedTimer_t
  | 0, t => t
  | n + 1, t => (hitLedTimer_tick (hitLedTimer_ticks n t)).1

/-- The indicator writes of the `n`-th tick (counted from 1) after state `t`. -/
def hitLedTimer_writesAt (n : Nat) (t : hitLedTimer_t) : List hitLed_write :=
  (hitLedTimer_tick (hitLedTimer_ticks (n - 1) t)).2

/-- A call made on the hit-LED timer. -/
inductive hitLedTimer_call where
  | tick
  | start
  | enable
  | disable
deriving DecidableEq, Repr

/-- One call on the hit-LED timer (the indicator writes are dropped). -/
def hitLedTimer_call_step (t : hitLedTimer_t) : hitLedTimer_call → hitLedTimer_t
  | hitLedTimer_call.tick => (hitLedTimer_tick t).1
  | hitLedTimer_call.start => hitLedTimer_start t
  | hitLedTimer_call.enable => hitLedTimer_enable t
  | hitLedTimer_call.disable => hitLedTimer_disable t

/-- The states the hit-LED timer can be in: those reached from
`hitLedTimer_init` by calls of its tick, start, enable and disable functions. -/
def hitLedTimer_reachable (t : hitLedTimer_t) : Prop :=
  ∃ cs : List hitLedTimer_call, t = cs.foldl hitLedTimer_call_step hitLedTimer_init

/-- A tick in state `t` starts a burst: the machine is idle with a run request
(counters at rest), or it is at a burst boundary in continuous mode. -/
def transmitter_burstStarts (t : transmitter_t) : Prop :=
  (t.transmitterState = transmitter_state_t.TRANSMITTER_IDLE_ST ∧ t.runFlag = true ∧
      t.timeOnCount = 0 ∧ t.pulseCount = 0) ∨
    (transmitter_burstBoundary t ∧ t.continuousMode = true)

/-- The closed form of the state `2 * T * j + i` ticks after the first tick of a
burst of half-period `T` (period `j`, offset `i < 2 * T` in the period). -/
def transmitter_burstAt (c rf : Bool) (T fn j i : Nat) : transmitter_t :=
  if i < T then
    ⟨transmitter_state_t.TRANSMITTER_HIGH_ST, c, rf, T, i + 1, 2 * T * j + i + 1, fn,
      TRANSMITTER_HIGH_VALUE⟩
  else
    ⟨transmitter_state_t.TRANSMITTER_LOW_ST, c, rf, T, i - T + 1, 2 * T * j + i + 1, fn,
      TRANSMITTER_LOW_VALUE⟩

/-! ## trigger.c: the trigger state machine

The inputs read by `trigger_tick` are the level of the gun-trigger pin
(`mio_readPin(TRIGGER_INPUT_PIN)`), whether BTN0 is down
(`buttons_read() & BUTTONS_BTN0_MASK`), and the answer of
`sound_isSoundComplete()`.  The calls it makes on the transmitter and on the
sound module are returned as a list, first call first. -/

/-- Constant `DEBOUNCE_TICKS` of trigger.c. -/
def DEBOUNCE_TICKS : Nat := 5000

/-- Constant `RELOAD_TICKS` of trigger.c. -/
def RELOAD_TICKS : Nat := 300000

/-- Constant `GUN_TRIGGER_PRESSED` of trigger.c. -/
def GUN_TRIGGER_PRESSED : Nat := 1

/-- Constant `SHOTS_PER_CLIP` of trigger.c. -/
def SHOTS_PER_CLIP : Nat := 10

/-- What one `trigger_tick` reads from the outside. -/
structure trigger_input where
  pin : Nat
  btn0 : Bool
  soundComplete : Bool
deriving DecidableEq, Repr

/-- A call that `trigger_tick` makes on another module. -/
inductive trigger_call where
  | transmitter_run
  | sound (c : sound_call)
deriving DecidableEq, Repr

/-- Function `triggerPressed`. -/
def triggerPressed (t : trigger_t) (x : trigger_input) : Bool :=
  (!t.disabled && x.pin == GUN_TRIGGER_PRESSED) || x.btn0

/-- Function `trigger_init` (it does not assign `triggerState`, which `t` carries). -/
def trigger_init (t : trigger_t) : trigger_t :=
  { t with
    disabled := true
    reloadFlag := false
    waitCount := 0
    reloadCount := 0
    remainingShots := SHOTS_PER_CLIP }

/-- The trigger variables at program start (zeroed statics). -/
def trigger_programStart : trigger_t :=
  ⟨trigger_state_t.TRIGGER_INIT_ST, 0, 0, false, false, 0⟩

/-- The first `switch` of `trigger_tick` (transitions), with the calls made. -/
def trigger_tick_transition (t : trigger_t) (x : trigger_input) :
    trigger_t × List trigger_call :=
  match t.triggerState with
  | trigger_state_t.TRIGGER_INIT_ST =>
    ({ t with triggerState := trigger_state_t.TRIGGER_DISABLED_ST }, [])
  | trigger_state_t.TRIGGER_DISABLED_ST =>
    if !t.disabled && decide (t.remainingShots > 0) then
      ({ t with triggerState := trigger_state_t.TRIGGER_IDLE_ST }, [])
    else (t, [])
  | trigger_state_t.TRIGGER_IDLE_ST =>
    if t.disabled then
      ({ t with triggerState := trigger_state_t.TRIGGER_DISABLED_ST }, [])
    else if t.remainingShots = 0 then
      ({ t with triggerState := trigger_state_t.TRIGGER_RELOAD_ST, reloadCount := 0 }, [])
    else if triggerPressed t x then
      ({ t with triggerState := trigger_state_t.TRIGGER_COUNT_1_ST }, [])
    else (t, [])
  | trigger_state_t.TRIGGER_COUNT_1_ST =>
    if !triggerPressed t x then
      ({ t with triggerState := trigger_state_t.TRIGGER_IDLE_ST }, [])
    else if t.waitCount ≥ DEBOUNCE_TICKS then
      if t.remainingShots ≠ 0 then
        ({ t with
            triggerState := trigger_state_t.TRIGGER_PRESSED_ST
            waitCount := 0
            remainingShots := t.remainingShots - 1 },
          [trigger_call.sound (sound_call.setSound sound_sounds_t.sound_gunFire_e),
            trigger_call.transmitter_run,
            trigger_call.sound sound_call.startSound])
      else
        ({ t with
            triggerState := trigger_state_t.TRIGGER_PRESSED_ST
            waitCount := 0 },
          [trigger_call.sound (sound_call.setSound sound_sounds_t.sound_gunClick_e),
            trigger_call.sound sound_call.startSound])
    else (t, [])
  | trigger_state_t.TRIGGER_PRESSED_ST =>
    let r : trigger_t × List trigger_call :=
      if t.reloadCount > RELOAD_TICKS then
        ({ t with
            triggerState := trigger_state_t.TRIGGER_COUNT_2_ST
            remainingShots := SHOTS_PER_CLIP
            reloadCount := 0 },
          trigger_call.sound (sound_call.setSound sound_sounds_t.sound_gunReload_e) ::
            (if x.soundComplete then
              [trigger_call.sound (sound_call.setSound sound_sounds_t.sound_gunReload_e),
                trigger_call.sound sound_call.startSound]
            else []))
      else (t, [])
    if !triggerPressed r.1 x then
      ({ r.1 with triggerState := trigger_state_t.TRIGGER_COUNT_2_ST, reloadCount := 0 }, r.2)
    else r
  | trigger_state_t.TRIGGER_COUNT_2_ST =>
    if triggerPressed t x then
      ({ t with triggerState := trigger_state_t.TRIGGER_PRESSED_ST }, [])
    else if t.waitCount ≥ DEBOUNCE_TICKS then
      ({ t with triggerState := trigger_state_t.TRIGGER_IDLE_ST }, [])
    else (t, [])
  | trigger_state_t.TRIGGER_RELOAD_ST =>
    if t.reloadCount > RELOAD_TICKS then
      ({ t with
          reloadCount := 0
          triggerState := trigger_state_t.TRIGGER_DISABLED_ST
          remainingShots := SHOTS_PER_CLIP },
        [trigger_call.sound (sound_call.setSound sound_sounds_t.sound_gunReload_e),
          trigger_call.sound sound_call.startSound])
    else if triggerPressed t x then
      (t, [trigger_call.sound (sound_call.setSound sound_sounds_t.sound_gunClick_e),
        trigger_call.sound sound_call.startSound])
    else (t, [])

/-- The second `switch` of `trigger_tick` (actions); the counters are `uint32_t`. -/
def trigger_tick_action (t : trigger_t) : trigger_t :=
  match t.triggerState with
  | trigger_state_t.TRIGGER_INIT_ST => t
  | trigger_state_t.TRIGGER_DISABLED_ST => t
  | trigger_state_t.TRIGGER_IDLE_ST => t
  | trigger_state_t.TRIGGER_COUNT_1_ST => { t with waitCount := (t.waitCount + 1) % 4294967296 }
  | trigger_state_t.TRIGGER_PRESSED_ST =>
    { t with reloadCount := (t.reloadCount + 1) % 4294967296 }
  | trigger_state_t.TRIGGER_COUNT_2_ST => { t with waitCount := (t.waitCount + 1) % 4294967296 }
  | trigger_state_t.TRIGGER_RELOAD_ST =>
    { t with reloadCount := (t.reloadCount + 1) % 4294967296 }

/-- Function `trigger_tick`: the new state and the calls made by this tick. -/
def trigger_tick (t : trigger_t) (x : trigger_input) : trigger_t × List trigger_call :=
  (trigger_tick_action (trigger_tick_transition t x).1, (trigger_tick_transition t x).2)

/-- Consecutive calls of `trigger_tick`, one per input: the final state and all
calls made, in order. -/
def trigger_run (t : trigger_t) : List trigger_input → trigger_t × List trigger_call
  | [] => (t, [])
  | x :: xs =>
    ((trigger_run (trigger_tick t x).1 xs).1,
      (trigger_tick t x).2 ++ (trigger_run (trigger_tick t x).1 xs).2)

/-- The number of shots fired in a list of calls: the calls of `transmitter_run`. -/
def trigger_shots (cs : List trigger_call) : Nat :=
  cs.count trigger_call.transmitter_run

/-- With the trigger enabled, `triggerPressed` on this input: the gun trigger is
pulled or BTN0 is down. -/
def trigger_input_pressed (x : trigger_input) : Bool :=
  x.pin == GUN_TRIGGER_PRESSED || x.btn0

/-- A press: the trigger is down at every tick, for more than `DEBOUNCE_TICKS`
ticks and for no more than `RELOAD_TICKS` ticks. -/
def trigger_press (ps : List trigger_input) : Prop :=
  (∀ x ∈ ps, trigger_input_pressed x = true) ∧ DEBOUNCE_TICKS < ps.length ∧
    ps.length ≤ RELOAD_TICKS

/-- A release: the trigger is up at every tick, for more than `DEBOUNCE_TICKS` ticks. -/
def trigger_release (rs : List trigger_input) : Prop :=
  (∀ x ∈ rs, trigger_input_pressed x = false) ∧ DEBOUNCE_TICKS < rs.length

/-- The inputs of a list of press/release cycles, in order. -/
def trigger_cycles : List (List trigger_input × List trigger_input) → List trigger_input
  | [] => []
  | c :: cs => c.1 ++ c.2 ++ trigger_cycles cs

/-- The tick of a press, counted from 1, at which the shot is fired when the
press starts in the idle state with `waitCount = w`. -/
def trigger_fireTick (w : Nat) : Nat :=
  if w + 2 ≤ DEBOUNCE_TICKS + 1 then DEBOUNCE_TICKS + 1 - w else 2

/-- The closed form of the state after `n` ticks of a press that starts in the
idle state with `waitCount = w`, `reloadCount = 0` and `r` shots left. -/
def trigger_pressAt (w r : Nat) (rl : Bool) (n : Nat) : trigger_t :=
  if n = 0 then ⟨trigger_state_t.TRIGGER_IDLE_ST, w, 0, false, rl, r⟩
  else if n < trigger_fireTick w then ⟨trigger_state_t.TRIGGER_COUNT_1_ST, w + n, 0, false, rl, r⟩
  else ⟨trigger_state_t.TRIGGER_PRESSED_ST, 0, n - trigger_fireTick w + 1, false, rl, r - 1⟩

/-- The calls made by the first `n` ticks of such a press. -/
def trigger_pressCalls (w n : Nat) : List trigger_call :=
  if n < trigger_fireTick w then []
  else
    [trigger_call.sound (sound_call.setSound sound_sounds_t.sound_gunFire_e),
      trigger_call.transmitter_run,
      trigger_call.sound sound_call.startSound]

/-- The closed form of the state after `n` ticks of a release that starts in the
pressed state with `waitCount = 0`. -/
def trigger_releaseAt (c r : Nat) (rl : Bool) (n : Nat) : trigger_t :=
  if n = 0 then ⟨trigger_state_t.TRIGGER_PRESSED_ST, 0, c, false, rl, r⟩
  else if n ≤ DEBOUNCE_TICKS then ⟨trigger_state_t.TRIGGER_COUNT_2_ST, n, 0, false, rl, r⟩
  else ⟨trigger_state_t.TRIGGER_IDLE_ST, DEBOUNCE_TICKS, 0, false, rl, r⟩

/-! ## buffer.c: the ADC buffer

The static `buff` is a value of `buffer_t`; its array `data` is a function from
slot numbers to values.  `buffer_data_t` is declared in buffer.h; its values
are modelled as natural numbers. -/

/-- Constant `BUFFER_SIZE` of buffer.c. -/
def BUFFER_SIZE : Nat := 32768

/-- The struct `buffer_t` of buffer.c. -/
structure buffer_t where
  indexIn : Nat
  indexOut : Nat
  elementCount : Nat
  data : Nat → Nat

/-- Function `buffer_init`: the three cursors are zeroed, the array is left as it is. -/
def buffer_init (b : buffer_t) : buffer_t :=
  { b with indexIn := 0, indexOut := 0, elementCount := 0 }

/-- Function `buffer_push`. -/
def buffer_push (b : buffer_t) (value : Nat) : buffer_t :=
  if b.elementCount < BUFFER_SIZE then
    { b with
      data := Function.update b.data b.indexIn value
      elementCount := b.elementCount + 1
      indexIn := if b.indexIn = BUFFER_SIZE - 1 then 0 else b.indexIn + 1 }
  else b

/-- Function `buffer_pop`: the returned value and the buffer afterwards. -/
def buffer_pop (b : buffer_t) : Nat × buffer_t :=
  if b.elementCount > 0 then
    (b.data b.indexOut,
      { b with
        elementCount := b.elementCount - 1
        indexOut := if b.indexOut = BUFFER_SIZE - 1 then 0 else b.indexOut + 1 })
  else (0, b)

/-- Function `buffer_pushover`. -/
def buffer_pushover (b : buffer_t) (value : Nat) : buffer_t :=
  if b.elementCount = BUFFER_SIZE then buffer_push (buffer_pop b).2 value
  else buffer_push b value

/-- Function `buffer_elements`. -/
def buffer_elements (b : buffer_t) : Nat := b.elementCount

/-- Function `buffer_size`. -/
def buffer_size (_b : buffer_t) : Nat := BUFFER_SIZE

/-- The values returned by `n` successive calls of `buffer_pop`, and the buffer
afterwards. -/
def buffer_popN : Nat → buffer_t → List Nat × buffer_t
  | 0, b => ([], b)
  | n + 1, b =>
    ((buffer_pop b).1 :: (buffer_popN n (buffer_pop b).2).1, (buffer_popN n (buffer_pop b).2).2)

/-- What a consumer gets by draining the buffer: the values returned by
`buffer_elements()` successive calls of `buffer_pop`. -/
def buffer_drain (b : buffer_t) : List Nat := (buffer_popN (buffer_elements b) b).1

/-- A call made on the buffer. -/
inductive buffer_op where
  | push (value : Nat)
  | pop
  | pushover (value : Nat)
deriving DecidableEq, Repr

/-- One call on the buffer. -/
def buffer_step (b : buffer_t) : buffer_op → buffer_t
  | buffer_op.push v => buffer_push b v
  | buffer_op.pop => (buffer_pop b).2
  | buffer_op.pushover v => buffer_pushover b v

/-- The buffers of an execution: those reached from `buffer_init` by calls of
`buffer_push`, `buffer_pop` and `buffer_pushover`. -/
def buffer_reachable (b : buffer_t) : Prop :=
  ∃ (b0 : buffer_t) (ops : List buffer_op), b = ops.foldl buffer_step (buffer_init b0)

/-- Representation invariant of the buffer. -/
def buffer_wf (b : buffer_t) : Prop :=
  b.indexOut < BUFFER_SIZE ∧ b.elementCount ≤ BUFFER_SIZE ∧
    b.indexIn = wrapIdx BUFFER_SIZE (b.indexOut + b.elementCount)

/-- The stored samples, oldest first. -/
def buffer_contents (b : buffer_t) : List Nat :=
  (List.range b.elementCount).map (fun i => b.data (wrapIdx BUFFER_SIZE (b.indexOut + i)))

/-! ## isr.c: the interrupt service routine -/

/-- The file-static state of the modules that `isr_function` and `detector` work
on: the detector, filter, timers, trigger and sound log of `system_t`, the
transmitter and the ADC buffer. -/
structure world_t where
  system : system_t
  transmitter : transmitter_t
  buffer : buffer_t

/-- What one `isr_function` reads from the outside: the inputs of `trigger_tick`
and the sample returned by `interrupts_getAdcData()`. -/
structure isr_input where
  trigger : trigger_input
  adc : Nat

/-- The effect of a call made by `trigger_tick` on the transmitter. -/
def trigger_call_transmitter (t : transmitter_t) : trigger_call → transmitter_t
  | trigger_call.transmitter_run => transmitter_run t
  | trigger_call.sound _ => t

/-- The sound calls among the calls made by `trigger_tick`. -/
def trigger_call_sounds : List trigger_call → List sound_call
  | [] => []
  | trigger_call.transmitter_run :: cs => trigger_call_sounds cs
  | trigger_call.sound c :: cs => c :: trigger_call_sounds cs

/-- Function `isr_function`: the four ticks, then
`buffer_pushover(interrupts_getAdcData())`.  `expire` is
`LOCKOUT_TIMER_EXPIRE_VALUE`.  The calls `sound_tick()` and
`bluetooth_isr_function()` belong to modules outside these sources and touch
none of the variables kept here. -/
def isr_function (expire : Nat) (w : world_t) (x : isr_input) : world_t :=
  let transmitter := transmitter_tick w.transmitter
  let trig := trigger_tick w.system.trigger x.trigger
  { system :=
      { w.system with
        trigger := trig.1
        sound := w.system.sound ++ trigger_call_sounds trig.2
        hitLedTimer := (hitLedTimer_tick w.system.hitLedTimer).1
        lockoutTimer := lockoutTimer_tick expire w.system.lockoutTimer }
    transmitter := trig.2.foldl trigger_call_transmitter transmitter
    buffer := buffer_pushover w.buffer x.adc }

/-! ## detector.c: the function `detector`

The calls that the body of `detector` makes are returned as a list, first call
first, next to the state afterwards. -/

/-- Constant `SCALED_ADC_FACTOR` of detector.c (2047.5). -/
def SCALED_ADC_FACTOR : ℚ := 4095 / 2

/-- Constant `SCALED_ADC_RANGE` of detector.c. -/
def SCALED_ADC_RANGE : ℚ := 1

/-- Constant `INPUT_BEFORE_CALCULATION` of detector.c. -/
def INPUT_BEFORE_CALCULATION : Nat := 10

/-- Constant `FILTER_FREQUENCY_COUNT` of filter.h. -/
def FILTER_FREQUENCY_COUNT : Nat := 10

/-- A call made by the body of `detector`. -/
inductive detector_call where
  | buffer_elements
  | interrupts_disableArmInts
  | buffer_pop
  | interrupts_enableArmInts
  | filter_addNewInput (x : ℚ)
  | filter_firFilter
  | filter_iirFilter (filterNumber : Nat)
  | filter_computePower (filterNumber : Nat)
  | lockoutTimer_running
  | hit_detect
deriving DecidableEq

/-- The two interrupt-masking calls. -/
def detector_call_isMasking : detector_call → Bool
  | detector_call.interrupts_disableArmInts => true
  | detector_call.interrupts_enableArmInts => true
  | _ => false

/-- The inner `for` loop of the decimation block: for each filter number,
`filter_iirFilter` and then `filter_computePower(filterNumber, false, false)`. -/
def detector_filterBank (fs : filter_t) : filter_t × List detector_call :=
  (List.range FILTER_FREQUENCY_COUNT).foldl
    (fun r filterNumber =>
      ((filter_computePower (filter_iirFilter r.1 filterNumber).2 filterNumber false false).2,
        r.2 ++ [detector_call.filter_iirFilter filterNumber,
          detector_call.filter_computePower filterNumber]))
    (fs, [])

/-- The decimation block of `detector`: `sampleCnt` is reset, the FIR filter and
the filter bank run, and `hit_detect` is called unless the lockout timer runs. -/
def detector_decimate (s : system_t) : system_t × List detector_call :=
  let s1 : system_t := { s with detector := { s.detector with sampleCnt := 0 } }
  let bank := detector_filterBank (filter_firFilter s1.filter).2
  let s2 : system_t := { s1 with filter := bank.1 }
  (detector_hitStep s2,
    detector_call.filter_firFilter :: bank.2 ++
      (if lockoutTimer_running s2.lockoutTimer = false then
        [detector_call.lockoutTimer_running, detector_call.hit_detect]
      else [detector_call.lockoutTimer_running]))

/-- What `detector` does with one popped sample: scaling, `filter_addNewInput`,
the increment of the `uint8_t sampleCnt`, and every tenth time the decimation
block. -/
def detector_process (s : system_t) (rawAdcValue : Nat) : system_t × List detector_call :=
  let scaledAdcValue : ℚ := (rawAdcValue : ℚ) / SCALED_ADC_FACTOR - SCALED_ADC_RANGE
  let s1 : system_t :=
    { s with
      filter := filter_addNewInput s.filter scaledAdcValue
      detector := { s.detector with sampleCnt := (s.detector.sampleCnt + 1) % 256 } }
  if s1.detector.sampleCnt = INPUT_BEFORE_CALCULATION then
    ((detector_decimate s1).1,
      detector_call.filter_addNewInput scaledAdcValue :: (detector_decimate s1).2)
  else (s1, [detector_call.filter_addNewInput scaledAdcValue])

/-- One iteration of the loop of `detector`: the sample is popped, between the
two masking calls if `interruptsCurrentlyEnabled`, and then processed;
`rawAdcValue` is a `uint32_t`. -/
def detector_iteration (interruptsCurrentlyEnabled : Bool) (w : world_t) :
    world_t × List detector_call :=
  let rawAdcValue := (buffer_pop w.buffer).1 % 4294967296
  let r := detector_process w.system rawAdcValue
  ({ w with system := r.1, buffer := (buffer_pop w.buffer).2 },
    (if interruptsCurrentlyEnabled then
      [detector_call.interrupts_disableArmInts, detector_call.buffer_pop,
        detector_call.interrupts_enableArmInts]
    else [detector_call.buffer_pop]) ++ r.2)

/-- The loop of `detector`, `n` iterations. -/
def detector_loop (interruptsCurrentlyEnabled : Bool) :
    Nat → world_t → world_t × List detector_call
  | 0, w => (w, [])
  | n + 1, w =>
    ((detector_loop interruptsCurrentlyEnabled n
        (detector_iteration interruptsCurrentlyEnabled w).1).1,
      (detector_iteration interruptsCurrentlyEnabled w).2 ++
        (detector_loop interruptsCurrentlyEnabled n
          (detector_iteration interruptsCurrentlyEnabled w).1).2)

/-- Function `detector`; `invocationCount` and `elementCount` are `uint32_t`. -/
def detector (interruptsCurrentlyEnabled : Bool) (w : world_t) :
    world_t × List detector_call :=
  let d : detector_t :=
    { w.system.detector with
      invocationCount := (w.system.detector.invocationCount + 1) % 4294967296
      elementCount := buffer_elements w.buffer % 4294967296 }
  let w1 : world_t := { w with system := { w.system with detector := d } }
  ((detector_loop interruptsCurrentlyEnabled d.elementCount w1).1,
    detector_call.buffer_elements ::
      (detector_loop interruptsCurrentlyEnabled d.elementCount w1).2)

/-- In a list of calls every `buffer_pop` has `interrupts_disableArmInts` right
before it and `interrupts_enableArmInts` right after it. -/
def detector_bracketed (l : List detector_call) : Prop :=
  ∀ i, l[i]? = some detector_call.buffer_pop →
    ∃ j, i = j + 1 ∧ l[j]? = some detector_call.interrupts_disableArmInts ∧
      l[i + 1]? = some detector_call.interrupts_enableArmInts

/-- The powers `{1, 0, 1, 0, 0, 0, 0, 0, 0, 0}`: frequencies 0 and 2 tie for the
largest power. -/
def powers_tie02 : Nat → ℚ := fun i => ([1, 0, 1, 0, 0, 0, 0, 0, 0, 0] : List ℚ).getD i 0

/-- What the two error flags say about a queue: `overflowFlag` is set only on a
full queue and `underflowFlag` only on an empty one. -/
def queue_flags_ok (q : queue_t) : Prop :=
  (q.overflowFlag = true → q.elementCount = q.size) ∧
    (q.underflowFlag = true → q.elementCount = 0)

/-- A queue of capacity `c` that is full and from which `queue_readElementAt`
returns 0, without an out-of-range message, at every index below `c`. -/
def queue_zero_filled (c : Nat) (q : queue_t) : Prop :=
  queue_size q = c ∧ queue_full q = true ∧
    ∀ k, k < c →
      (queue_readElementAt q k).value = 0 ∧ (queue_readElementAt q k).outOfRange = false

/-- What the detector does to the filter data between two hit detections: it
adds an input sample, or it runs the decimation block (`filter_firFilter`, then
`filter_iirFilter(f)` and `filter_computePower(f, false, false)` for each `f`). -/
inductive filter_event where
  | addNewInput (x : ℚ)
  | decimate
deriving DecidableEq

/-- The filter data after one event. -/
def filter_event_step (fs : filter_t) : filter_event → filter_t
  | filter_event.addNewInput x => filter_addNewInput fs x
  | filter_event.decimate => (detector_filterBank (filter_firFilter fs).2).1

/-- The filter data after a sequence of events, first event first. -/
def filter_run (fs : filter_t) (events : List filter_event) : filter_t :=
  events.foldl filter_event_step fs

/-! ## detector.c: the remaining setter functions and the runs of the detector -/

/-- Function `detector_setIgnoredFrequencies`. -/
def detector_setIgnoredFrequencies (d : detector_t) (freqArray : Nat → Bool) : detector_t :=
  { d with
    ignoredSignals := fun i => if i < NUM_PLAYERS then freqArray i else d.ignoredSignals i }

/-- Function `detector_ignoreAllHits`. -/
def detector_ignoreAllHits (d : detector_t) (flagValue : Bool) : detector_t :=
  { d with
    ignoredSignals := fun i => if i < NUM_PLAYERS then flagValue else d.ignoredSignals i }

/-- A step of an execution as the detector sees it: a `hit_detect` call, a call
of one of the detector's setter functions, or a change of everything outside
the detector (the filters produce new powers, the timers tick, the trigger
moves, sounds are played). -/
inductive detector_event where
  | hit_detect
  | setIgnoredFrequencies (freqArray : Nat → Bool)
  | ignoreAllHits (flagValue : Bool)
  | setFudgeFactorIndex (factor : Nat)
  | setOwnFrequency (playerNum : Nat)
  | clearHit
  | surroundings (filter : filter_t) (lockoutTimer : lockoutTimer_t)
      (hitLedTimer : hitLedTimer_t) (trigger : trigger_t) (sound : List sound_call)

/-- The state after one step. -/
def detector_event_step (s : system_t) : detector_event → system_t
  | detector_event.hit_detect => hit_detect s
  | detector_event.setIgnoredFrequencies freqArray =>
    { s with detector := detector_setIgnoredFrequencies s.detector freqArray }
  | detector_event.ignoreAllHits flagValue =>
    { s with detector := detector_ignoreAllHits s.detector flagValue }
  | detector_event.setFudgeFactorIndex factor =>
    { s with detector := detector_setFudgeFactorIndex s.detector factor }
  | detector_event.setOwnFrequency playerNum =>
    { s with detector := detector_setOwnFrequency s.detector playerNum }
  | detector_event.clearHit => { s with detector := detector_clearHit s.detector }
  | detector_event.surroundings filter lockoutTimer hitLedTimer trigger sound =>
    { s with
      filter := filter
      lockoutTimer := lockoutTimer
      hitLedTimer := hitLedTimer
      trigger := trigger
      sound := sound }

/-- The states of an execution that starts with `detector_init`. -/
def detector_reachable (s : system_t) : Prop :=
  ∃ (s0 : system_t) (frequencySetting : Nat) (events : List detector_event),
    s = events.foldl detector_event_step
      { s0 with detector := detector_init s0.detector frequencySetting }

/-- A call made on the trigger: a tick with its inputs, `trigger_enable` or
`trigger_disable`. -/
inductive trigger_event where
  | tick (x : trigger_input)
  | enable
  | disable
deriving DecidableEq, Repr

/-- The trigger after one call (the calls a tick makes on other modules are dropped). -/
def trigger_event_step (t : trigger_t) : trigger_event → trigger_t
  | trigger_event.tick x => (trigger_tick t x).1
  | trigger_event.enable => trigger_enable t
  | trigger_event.disable => trigger_disable t

/-- The trigger after a sequence of calls, first call first. -/
def trigger_events (t : trigger_t) (events : List trigger_event) : trigger_t :=
  events.foldl trigger_event_step t

/-- The trigger states of an execution: those reached from `trigger_init` at
program start by ticks and `trigger_enable`/`trigger_disable` calls. -/
def trigger_reachable (t : trigger_t) : Prop :=
  ∃ events : List trigger_event, t = trigger_events (trigger_init trigger_programStart) events

/-- Function `detector_getInvocationCount`. -/
def detector_getInvocationCount (s : system_t) : Nat := s.detector.invocationCount

/-- What `detector` hands to `filter_addNewInput` for a value popped from the
buffer: the value as a `uint32_t`, divided by `SCALED_ADC_FACTOR`, minus
`SCALED_ADC_RANGE`. -/
def detector_scaled (value : Nat) : ℚ :=
  ((value % 4294967296 : Nat) : ℚ) / SCALED_ADC_FACTOR - SCALED_ADC_RANGE

/-- The arguments of the `filter_addNewInput` calls in a list of calls, in
call order. -/
def detector_inputs : List detector_call → List ℚ
  | [] => []
  | detector_call.filter_addNewInput x :: cs => x :: detector_inputs cs
  | _ :: cs => detector_inputs cs

/-- The calls of the filter bank: `filter_iirFilter(f)` and
`filter_computePower(f)` for `f = 0 .. 9`. -/
def detector_bankCalls : List detector_call :=
  (List.range FILTER_FREQUENCY_COUNT).foldl
    (fun acc filterNumber =>
      acc ++ [detector_call.filter_iirFilter filterNumber,
        detector_call.filter_computePower filterNumber])
    []

/-- A state in which the next `detector` call wraps the invocation count: program
start with `invocationCount = 4294967295` and an empty buffer. -/
def world_lastInvocation : world_t :=
  { system :=
      { system_programStart with
        detector := { system_programStart.detector with invocationCount := 4294967295 } }
    transmitter := transmitter_init 0
    buffer := buffer_init ⟨0, 0, 0, fun _ => 0⟩ }

/-- A state with three samples 0, 4095, 2048 in the buffer and sample counter 8:
the second sample is the tenth of its decimation group. -/
def world_threeSamples : world_t :=
  { system :=
      { system_programStart with
        detector := { system_programStart.detector with sampleCnt := 8 } }
    transmitter := transmitter_init 0
    buffer :=
      [buffer_op.pushover 0, buffer_op.pushover 4095, buffer_op.pushover 2048].foldl
        buffer_step (buffer_init ⟨0, 0, 0, fun _ => 0⟩) }


/-! ## detector.c: the threshold of `hit_detect` in `double` arithmetic

The powers, the fudge factors and the literal `.1` are C `double` values (IEEE
754 binary64).  A finite `double` is a rational number, a comparison of two
doubles is exact, and the result of a multiplication or an addition is the
exact result rounded to the nearest `double`, ties to the even significand;
the product and the sum of the threshold are rounded one after the other. -/

/-- Rounding of a rational to the nearest integer, ties to the even one. -/
def roundHalfEven (x : ℚ) : ℤ :=
  if x - ⌊x⌋ < 1 / 2 then ⌊x⌋
  else if 1 / 2 < x - ⌊x⌋ then ⌊x⌋ + 1
  else if ⌊x⌋ % 2 = 0 then ⌊x⌋ else ⌊x⌋ + 1

/-- The value of a `double` operation on finite operands: a finite number or,
after an overflow, an infinity with its sign. -/
inductive double_t where
  | finite (value : ℚ)
  | infinity (negative : Bool)
deriving DecidableEq, Repr

/-- The exponent of the doubles around `x`: the `e` with `2^e ≤ |x| < 2^(e+1)`,
and `-1022` (the exponent of the subnormal numbers) when that is larger. -/
def double_exponent (x : ℚ) : ℤ := max (Int.log 2 |x|) (-1022)

/-- The spacing of the doubles around `x`: the significand has 53 bits. -/
def double_ulp (x : ℚ) : ℚ := 2 ^ (double_exponent x - 52)

/-- The `double` result of an operation whose exact result is `x`: the nearest
multiple of the spacing, ties to the even multiple; a rounded result of
magnitude `2^1024` or more is an infinity. -/
def double_round (x : ℚ) : double_t :=
  if |(roundHalfEven (x / double_ulp x) : ℚ) * double_ulp x| < 2 ^ (1024 : ℤ) then
    double_t.finite (roundHalfEven (x / double_ulp x) * double_ulp x)
  else double_t.infinity (decide (x < 0))

/-- The `double` that the literal `.1` of `THRESHOLD_FACTOR` denotes: the double
nearest to `1/10`, with the bits `0x3FB999999999999A`, which is
`3602879701896397 / 2^55`. -/
def THRESHOLD_FACTOR_double : ℚ := 3602879701896397 / 36028797018963968

/-- The expression `median*fudgeFactors[fudgeFactorIndex] + THRESHOLD_FACTOR` of
`hit_detect` in `double` arithmetic: the product is rounded, then the sum of the
rounded product and the literal; an infinite product gives an infinite sum. -/
def hit_detect_threshold (median fudgeFactor : ℚ) : double_t :=
  match double_round (median * fudgeFactor) with
  | double_t.finite product => double_round (product + THRESHOLD_FACTOR_double)
  | double_t.infinity negative => double_t.infinity negative

/-- The comparison `x > threshold` of a finite `double` with the value of an
expression. -/
def double_gt (x : ℚ) : double_t → Prop
  | double_t.finite value => x > value
  | double_t.infinity negative => negative = true

instance double_gt_decidable (x : ℚ) : (threshold : double_t) → Decidable (double_gt x threshold)
  | double_t.finite value => inferInstanceAs (Decidable (x > value))
  | double_t.infinity negative => inferInstanceAs (Decidable (negative = true))

/-- Function `hit_detect`, with the threshold and its comparison in `double`
arithmetic as the compiled code computes them.  `hit_detect` above differs from
it in this one expression, which it takes over the exact rationals. -/
def hit_detect_double (s : system_t) : system_t :=
  let sorted := hit_detect_sort (detector_powers s) (fun i => i)
  let tempArrayValues := sorted.1
  let tempArrayIndeces := sorted.2
  let frequencyDetected := tempArrayIndeces MAX_ARRAY_INDEX
  let median := tempArrayValues MEDIAN_INDEX
  let threshold :=
    hit_detect_threshold median (fudgeFactors.getD s.detector.fudgeFactorIndex 0)
  let d : detector_t := { s.detector with frequencyDetected := frequencyDetected }
  if double_gt (tempArrayValues MAX_ARRAY_INDEX) threshold
      ∧ d.ignoredSignals frequencyDetected = false
      ∧ lockoutTimer_running s.lockoutTimer = false then
    if d.frozen then
      if frequencyDetected = d.ownFrequency then
        { s with
          detector :=
            { d with
              lives := TOTAL_LIVES
              hitDetected := true
              hitCounts := hitCounts_increment d.hitCounts frequencyDetected
              frozen := false }
          trigger := trigger_enable s.trigger
          hitLedTimer := hitLedTimer_start s.hitLedTimer
          lockoutTimer := lockoutTimer_start s.lockoutTimer
          sound := s.sound ++
            [sound_call.setSound sound_sounds_t.sound_gameStart_e, sound_call.startSound] }
      else
        { s with detector := d }
    else
      if frequencyDetected ≠ d.ownFrequency then
        { s with
          detector :=
            { d with
              lives := 0
              hitDetected := true
              frozen := true
              hitCounts := hitCounts_increment d.hitCounts frequencyDetected }
          lockoutTimer := lockoutTimer_start s.lockoutTimer
          hitLedTimer := hitLedTimer_start s.hitLedTimer
          sound := s.sound ++
            [sound_call.setSound sound_sounds_t.sound_loseLife_e, sound_call.startSound]
          trigger := trigger_disable s.trigger }
      else
        { s with detector := d }
  else
    { s with detector := { d with hitDetected := false } }

/-- A hit is recognized by the compiled code: the power of the max-power
frequency is strictly above the `double` value of
`median * fudgeFactors[fudgeFactorIndex] + THRESHOLD_FACTOR`, that frequency is
not ignored and the lock-out timer is not running. -/
def hit_recognized_double (s : system_t) : Prop :=
  double_gt (detector_powers s (hit_topFrequency s))
      (hit_detect_threshold (power_median (detector_powers s))
        (fudgeFactors.getD s.detector.fudgeFactorIndex 0))
    ∧ s.detector.ignoredSignals (hit_topFrequency s) = false
    ∧ lockoutTimer_running s.lockoutTimer = false

instance hit_recognized_double_decidable (s : system_t) :
    Decidable (hit_recognized_double s) := by
  unfold hit_recognized_double
  infer_instance

/-- A step of `hit_detect_double` accepts a hit: the lock-out timer has been
started and exactly one hit counter has been incremented. -/
def hit_accepted_double (s : system_t) : Prop :=
  (hit_detect_double s).lockoutTimer = lockoutTimer_start s.lockoutTimer ∧
  ∃ f, (hit_detect_double s).detector.hitCounts =
    hitCounts_increment s.detector.hitCounts f

/-- The state after `detector_init` (own frequency 4, not frozen, fudge-factor
index 0, nothing ignored, lock-out timer not running) in which the power of
frequency 7 is the double nearest to 0.1 and the other nine powers are 0. -/
def system_atThreshold : system_t :=
  system_withPowers [0, 0, 0, 0, 0, 0, 0, THRESHOLD_FACTOR_double, 0, 0]


/-! ## Ring container: basic lemmas -/

theorem wrapIdx_lt {size k : Nat} (h : k < 2 * size) :
    wrapIdx size k < size := by
  unfold wrapIdx; split_ifs <;> omega

theorem queue_wf_init (C : Nat) (hC : 0 < C) (mem : Nat → queue_data_t) :
    queue_wf (queue_init C mem) := by
  simp [queue_wf, queue_init, wrapIdx, hC]

theorem queue_contents_init (C : Nat) (mem : Nat → queue_data_t) :
    queue_contents (queue_init C mem) = [] := by
  simp [queue_contents, queue_init]

theorem queue_push_of_lt (q : queue_t) (v : queue_data_t)
    (h : q.elementCount < q.size) :
    queue_push q v =
      { q with
        data := q.data.set q.indexIn v
        indexIn := if q.indexIn = q.size - 1 then 0 else q.indexIn + 1
        elementCount := q.elementCount + 1
        underflowFlag := false } := by
  simp [queue_push, h]

theorem queue_push_of_full (q : queue_t) (v : queue_data_t)
    (h : q.elementCount = q.size) :
    queue_push q v = { q with overflowFlag := true } := by
  simp [queue_push, h]

theorem queue_pop_of_pos (q : queue_t) (h : 0 < q.elementCount) :
    queue_pop q =
      (q.data.getD q.indexOut 0,
        { q with
          indexOut := if q.indexOut = q.size - 1 then 0 else q.indexOut + 1
          elementCount := q.elementCount - 1
          overflowFlag := false }) := by
  simp [queue_pop, h]

theorem queue_pop_of_empty (q : queue_t) (h : q.elementCount = 0) :
    queue_pop q = (0, { q with underflowFlag := true }) := by
  simp [queue_pop, h]

theorem queue_wf_push (q : queue_t) (v : queue_data_t) (h : queue_wf q) :
    queue_wf (queue_push q v) := by
  obtain ⟨hs, hl, ho, hc, hi⟩ := h
  rcases Nat.lt_or_ge q.elementCount q.size with h1 | h1
  · rw [queue_push_of_lt q v h1]
    refine ⟨hs, by simpa using hl, ho, h1, ?_⟩
    simp only [wrapIdx] at hi ⊢
    split_ifs at hi ⊢ <;> omega
  · rw [queue_push_of_full q v (by omega)]
    exact ⟨hs, hl, ho, hc, hi⟩

theorem queue_wf_pop (q : queue_t) (h : queue_wf q) :
    queue_wf (queue_pop q).2 := by
  obtain ⟨hs, hl, ho, hc, hi⟩ := h
  rcases Nat.eq_zero_or_pos q.elementCount with h1 | h1
  · rw [queue_pop_of_empty q h1]
    exact ⟨hs, hl, ho, hc, hi⟩
  · rw [queue_pop_of_pos q h1]
    refine ⟨hs, hl, ?_, ?_, ?_⟩
    · show (if q.indexOut = q.size - 1 then 0 else q.indexOut + 1) < q.size
      split_ifs <;> omega
    · show q.elementCount - 1 ≤ q.size
      omega
    · show q.indexIn = wrapIdx q.size
        ((if q.indexOut = q.size - 1 then 0 else q.indexOut + 1) + (q.elementCount - 1))
      simp only [wrapIdx] at hi ⊢
      split_ifs at hi ⊢ <;> omega

theorem queue_wf_overwritePush (q : queue_t) (v : queue_data_t) (h : queue_wf q) :
    queue_wf (queue_overwritePush q v) := by
  unfold queue_overwritePush
  split_ifs
  · exact queue_wf_push _ v (queue_wf_pop q h)
  · exact queue_wf_push q v h

theorem queue_wf_step (q : queue_t) (op : queue_op) (h : queue_wf q) :
    queue_wf (queue_step q op) := by
  cases op with
  | push v => exact queue_wf_push q v h
  | pop => exact queue_wf_pop q h
  | overwritePush v => exact queue_wf_overwritePush q v h

theorem queue_wf_run (ops : List queue_op) (q : queue_t) (h : queue_wf q) :
    queue_wf (queue_run q ops) := by
  induction ops generalizing q with
  | nil => exact h
  | cons op ops ih => exact ih _ (queue_wf_step q op h)

theorem queue_wf_of_reachable {C : Nat} {q : queue_t} (hC : 0 < C)
    (h : queue_reachable C q) : queue_wf q := by
  obtain ⟨mem, ops, rfl⟩ := h
  exact queue_wf_run ops _ (queue_wf_init C hC mem)

theorem getD_set_self (l : List queue_data_t) (i : Nat) (v : queue_data_t)
    (h : i < l.length) : (l.set i v).getD i 0 = v := by
  simp [List.getD_eq_getElem?_getD, List.getElem?_set, h]

theorem getD_set_ne (l : List queue_data_t) (i k : Nat) (v : queue_data_t)
    (h : i ≠ k) : (l.set i v).getD k 0 = l.getD k 0 := by
  simp [List.getD_eq_getElem?_getD, List.getElem?_set, h]

theorem queue_contents_length (q : queue_t) :
    (queue_contents q).length = q.elementCount := by
  simp [queue_contents]

theorem queue_contents_push (q : queue_t) (v : queue_data_t) (h : queue_wf q)
    (h1 : q.elementCount < q.size) :
    queue_contents (queue_push q v) = queue_contents q ++ [v] := by
  obtain ⟨hs, hl, ho, hc, hi⟩ := h
  rw [queue_push_of_lt q v h1]
  simp only [queue_contents, List.range_succ, List.map_append, List.map_singleton]
  congr 1
  · apply List.map_congr_left
    intro i hi'
    rw [List.mem_range] at hi'
    apply getD_set_ne
    simp only [wrapIdx] at hi ⊢
    split_ifs at hi ⊢ <;> omega
  · rw [← hi, getD_set_self]
    rw [hl, hi]
    exact wrapIdx_lt (by omega)

theorem queue_contents_pop (q : queue_t) (h : queue_wf q)
    (h1 : 0 < q.elementCount) :
    queue_contents q = (queue_pop q).1 :: queue_contents (queue_pop q).2 := by
  obtain ⟨hs, hl, ho, hc, hi⟩ := h
  rw [queue_pop_of_pos q h1]
  obtain ⟨c, hc'⟩ : ∃ c, q.elementCount = c + 1 := ⟨q.elementCount - 1, by omega⟩
  simp only [queue_contents, hc', List.range_succ_eq_map, List.map_cons, List.map_map,
    Nat.add_sub_cancel]
  congr 1
  · simp [wrapIdx, ho]
  · apply List.map_congr_left
    intro i hi'
    rw [List.mem_range] at hi'
    simp only [Function.comp, wrapIdx]
    congr 1
    split_ifs <;> omega

theorem queue_popN_contents (n : Nat) (q : queue_t) (h : queue_wf q)
    (hn : n ≤ q.elementCount) :
    (queue_popN n q).1 = (queue_contents q).take n ∧
    queue_contents (queue_popN n q).2 = (queue_contents q).drop n ∧
    queue_wf (queue_popN n q).2 := by
  induction n generalizing q with
  | zero => simp [queue_popN, h]
  | succ n ih =>
    have hpos : 0 < q.elementCount := by omega
    have hc := queue_contents_pop q h hpos
    have hcount : (queue_pop q).2.elementCount = q.elementCount - 1 := by
      rw [queue_pop_of_pos q hpos]
    obtain ⟨h1, h2, h3⟩ := ih (queue_pop q).2 (queue_wf_pop q h) (by omega)
    refine ⟨?_, ?_, h3⟩
    · show (queue_pop q).1 :: (queue_popN n (queue_pop q).2).1 = _
      rw [h1, hc]; rfl
    · show queue_contents (queue_popN n (queue_pop q).2).2 = _
      rw [h2, hc]; rfl

theorem queue_readElementAt_contents (q : queue_t) (i : Nat) (h : queue_wf q)
    (hi : i < q.elementCount) :
    queue_readElementAt q i = ⟨(queue_contents q).getD i 0, false, q⟩ := by
  obtain ⟨hs, hl, ho, hc, hin⟩ := h
  have hget : (queue_contents q).getD i 0 =
      q.data.getD (wrapIdx q.size (q.indexOut + i)) 0 := by
    simp [queue_contents, List.getD_eq_getElem?_getD, hi]
  rw [hget]
  simp only [wrapIdx] at hin ⊢
  unfold queue_readElementAt
  split_ifs at hin ⊢ <;> first | rfl | omega

theorem queue_fifo_invariant (ops : List queue_op) (q : queue_t) (h : queue_wf q)
    (hl : queue_legal q ops = true) :
    queue_contents q ++ queue_pushed ops =
      queue_popped q ops ++ queue_contents (queue_run q ops) := by
  induction ops generalizing q with
  | nil => simp [queue_pushed, queue_popped, queue_run]
  | cons op ops ih =>
    cases op with
    | push v =>
      simp only [queue_legal, Bool.and_eq_true, Bool.not_eq_true', queue_full,
        beq_eq_false_iff_ne, ne_eq] at hl
      have hlt : q.elementCount < q.size := by
        have := h.2.2.2.1
        omega
      have := ih (queue_push q v) (queue_wf_push q v h) hl.2
      rw [queue_contents_push q v h hlt] at this
      simpa [queue_pushed, queue_popped, queue_run, queue_step] using this
    | pop =>
      simp only [queue_legal, Bool.and_eq_true, Bool.not_eq_true', queue_empty,
        beq_eq_false_iff_ne, ne_eq] at hl
      have hpos : 0 < q.elementCount := by omega
      have := ih (queue_pop q).2 (queue_wf_pop q h) hl.2
      rw [queue_contents_pop q h hpos]
      simpa [queue_pushed, queue_popped, queue_run, queue_step] using this
    | overwritePush v => simp [queue_legal] at hl

theorem queue_contents_overwritePush (q : queue_t) (v : queue_data_t)
    (h : queue_wf q) :
    queue_contents (queue_overwritePush q v) =
      (queue_contents q ++ [v]).drop (q.elementCount + 1 - q.size) := by
  have hc := h.2.2.2.1
  have hs := h.1
  unfold queue_overwritePush
  by_cases hf : q.elementCount = q.size
  · have hpos : 0 < q.elementCount := by omega
    have hcount : (queue_pop q).2.elementCount = q.elementCount - 1 := by
      rw [queue_pop_of_pos q hpos]
    have hsize : (queue_pop q).2.size = q.size := by
      rw [queue_pop_of_pos q hpos]
    simp only [queue_full, hf, beq_self_eq_true, if_true]
    rw [queue_contents_push _ v (queue_wf_pop q h) (by omega),
      queue_contents_pop q h hpos]
    have : q.size + 1 - q.size = 1 := by omega
    simp [this]
  · have hlt : q.elementCount < q.size := by omega
    have : q.elementCount + 1 - q.size = 0 := by omega
    simp [queue_full, hf, queue_contents_push q v h hlt, this]

theorem queue_contents_foldl_overwritePush (vs : List queue_data_t) (q : queue_t)
    (h : queue_wf q) :
    queue_wf (vs.foldl queue_overwritePush q) ∧
    (vs.foldl queue_overwritePush q).size = q.size ∧
    queue_contents (vs.foldl queue_overwritePush q) =
      (queue_contents q ++ vs).drop (q.elementCount + vs.length - q.size) := by
  induction vs generalizing q with
  | nil =>
    have := h.2.2.2.1
    have h0 : q.elementCount - q.size = 0 := by omega
    simp [h, h0]
  | cons v vs ih =>
    obtain ⟨h1, h2, h3⟩ := ih (queue_overwritePush q v) (queue_wf_overwritePush q v h)
    have hsz : (queue_overwritePush q v).size = q.size := by
      unfold queue_overwritePush queue_push queue_pop
      split_ifs <;> rfl
    have hlen := queue_contents_length (queue_overwritePush q v)
    have hlen0 := queue_contents_length q
    have hc := h.2.2.2.1
    rw [queue_contents_overwritePush q v h] at hlen
    simp only [List.length_drop, List.length_append, List.length_singleton] at hlen
    refine ⟨h1, by rw [List.foldl_cons, h2, hsz], ?_⟩
    rw [List.foldl_cons, h3, queue_contents_overwritePush q v h, ← hlen, hsz]
    have hd : (List.drop (q.elementCount + 1 - q.size) (queue_contents q ++ [v])) ++ vs =
        List.drop (q.elementCount + 1 - q.size) (queue_contents q ++ [v] ++ vs) := by
      have hle : q.elementCount + 1 - q.size ≤ (queue_contents q ++ [v]).length := by
        rw [List.length_append, List.length_singleton, hlen0]
        omega
      rw [List.drop_append_of_le_length hle]
    rw [hd, List.drop_drop, hlen0, List.append_assoc, List.singleton_append,
      List.length_cons]
    congr 1
    omega

theorem queue_run_map_overwritePush (vs : List queue_data_t) (q : queue_t) :
    queue_run q (vs.map queue_op.overwritePush) = vs.foldl queue_overwritePush q := by
  induction vs generalizing q with
  | nil => rfl
  | cons v vs ih => exact ih (queue_overwritePush q v)

theorem queue_reachable_foldl_overwritePush (C : Nat) (mem : Nat → queue_data_t)
    (vs : List queue_data_t) :
    queue_reachable C (vs.foldl queue_overwritePush (queue_init C mem)) :=
  ⟨mem, vs.map queue_op.overwritePush, (queue_run_map_overwritePush vs _).symm⟩

theorem queue_elementCount_foldl_overwritePush (C : Nat) (hC : 1 ≤ C)
    (mem : Nat → queue_data_t) (vs : List queue_data_t) :
    (vs.foldl queue_overwritePush (queue_init C mem)).elementCount = min vs.length C := by
  obtain ⟨_, _, hcont⟩ :=
    queue_contents_foldl_overwritePush vs _ (queue_wf_init C hC mem)
  rw [← queue_contents_length, hcont, queue_contents_init, List.nil_append,
    List.length_drop]
  simp only [queue_init]
  omega

/-! ## Power computation: lemmas -/

theorem foldl_add_range (h : Nat → ℚ) (n : Nat) :
    (List.range n).foldl (fun acc i => acc + h i) 0 = ((List.range n).map h).sum := by
  induction n with
  | zero => rfl
  | succ n ih =>
    rw [List.range_succ, List.foldl_append, ih, List.map_append, List.sum_append]
    simp

theorem filter_powerFromScratch_eq (q : queue_t) (h : queue_wf q)
    (hfull : q.elementCount = OUTPUT_QUEUE_SIZE) :
    filter_powerFromScratch q = queue_sumSquares q := by
  unfold filter_powerFromScratch queue_sumSquares
  rw [foldl_add_range, ← hfull]
  congr 1
  have hc : queue_contents q =
      (List.range q.elementCount).map (fun i => (queue_readElementAt q i).value) := by
    unfold queue_contents
    apply List.map_congr_left
    intro i hi
    rw [List.mem_range] at hi
    rw [queue_readElementAt_contents q i h hi]
    simp [queue_contents, List.getD_eq_getElem?_getD, hi]
  rw [hc, List.map_map]
  rfl

theorem filter_powerInv_seed (f : Nat) (fs : filter_t) (h : queue_wf (fs.outputQueues f))
    (hfull : (fs.outputQueues f).elementCount = OUTPUT_QUEUE_SIZE)
    (hsize : (fs.outputQueues f).size = OUTPUT_QUEUE_SIZE) :
    filter_powerInv f (filter_computePower fs f true false).2 := by
  refine ⟨h, hsize, hfull, ?_, ?_⟩
  · simp [filter_computePower, filter_powerFromScratch_eq _ h hfull]
  · have h0 : 0 < (fs.outputQueues f).elementCount := by
      rw [hfull]; decide
    simp [filter_computePower, queue_readElementAt_contents _ 0 h h0]

theorem filter_powerStep_spec (f : Nat) (fs : filter_t) (v : ℚ)
    (h : filter_powerInv f fs) :
    (filter_computePower (filter_pushOutput fs f v) f false false).1 =
      queue_sumSquares ((filter_pushOutput fs f v).outputQueues f) ∧
    filter_powerInv f (filter_powerStep f fs v) := by
  obtain ⟨hwf, hsize, hfull, hprev, hold⟩ := h
  have hwf' := queue_wf_overwritePush (fs.outputQueues f) v hwf
  have hcont := queue_contents_overwritePush (fs.outputQueues f) v hwf
  have hlen := queue_contents_length (fs.outputQueues f)
  rw [hfull, hsize] at hcont
  have hone : OUTPUT_QUEUE_SIZE + 1 - OUTPUT_QUEUE_SIZE = 1 := by decide
  rw [hone] at hcont
  rw [hfull] at hlen
  obtain ⟨a, t, hat⟩ : ∃ a t, queue_contents (fs.outputQueues f) = a :: t := by
    cases hq : queue_contents (fs.outputQueues f) with
    | nil => rw [hq] at hlen; exact absurd hlen (by decide)
    | cons a t => exact ⟨a, t, rfl⟩
  rw [hat] at hcont hlen hold
  have htl : t.length = OUTPUT_QUEUE_SIZE - 1 := by
    simp only [List.length_cons] at hlen
    omega
  have hcount' : (queue_overwritePush (fs.outputQueues f) v).elementCount =
      OUTPUT_QUEUE_SIZE := by
    rw [← queue_contents_length, hcont]
    simp [htl, OUTPUT_QUEUE_SIZE]
  have hsize' : (queue_overwritePush (fs.outputQueues f) v).size = OUTPUT_QUEUE_SIZE := by
    rw [← hsize]
    unfold queue_overwritePush queue_push queue_pop
    split_ifs <;> rfl
  have hnew : (queue_readElementAt (queue_overwritePush (fs.outputQueues f) v)
      (OUTPUT_QUEUE_SIZE - 1)).value = v := by
    rw [queue_readElementAt_contents _ _ hwf' (by rw [hcount']; decide), hcont]
    simp [List.getD_eq_getElem?_getD, ← htl]
  have hsum : queue_sumSquares (queue_overwritePush (fs.outputQueues f) v) =
      fs.prevPower f - fs.oldestValue f * fs.oldestValue f + v * v := by
    rw [hprev, hold]
    simp only [queue_sumSquares, hcont, hat, List.drop_one, List.cons_append, List.tail_cons,
      List.map_append, List.map_cons, List.map_nil, List.sum_append, List.sum_cons,
      List.sum_nil, List.getD_cons_zero]
    ring
  have hret : (filter_computePower (filter_pushOutput fs f v) f false false).1 =
      queue_sumSquares ((filter_pushOutput fs f v).outputQueues f) := by
    simp only [filter_computePower, filter_pushOutput, Function.update_same, Bool.false_eq_true,
      if_false]
    rw [hnew, hsum]
  refine ⟨hret, ?_⟩
  unfold filter_powerStep
  refine ⟨?_, ?_, ?_, ?_, ?_⟩
  · simpa [filter_computePower, filter_pushOutput] using hwf'
  · simpa [filter_computePower, filter_pushOutput] using hsize'
  · simpa [filter_computePower, filter_pushOutput] using hcount'
  · have : ((filter_computePower (filter_pushOutput fs f v) f false false).2).prevPower f =
        (filter_computePower (filter_pushOutput fs f v) f false false).1 := by
      simp [filter_computePower]
    rw [this, hret]
    simp [filter_computePower, filter_pushOutput]
  · simp [filter_computePower, filter_pushOutput,
      queue_readElementAt_contents _ 0 hwf' (by rw [hcount']; decide)]

theorem filter_powerInv_steps (f : Nat) (vs : List ℚ) (fs : filter_t)
    (h : filter_powerInv f fs) :
    filter_powerInv f (vs.foldl (filter_powerStep f) fs) := by
  induction vs generalizing fs with
  | nil => exact h
  | cons v vs ih => exact ih _ (filter_powerStep_spec f fs v h).2

theorem filter_initQueue_full (size : Nat) (hs : 1 ≤ size) (mem : Nat → queue_data_t) :
    queue_reachable size (filter_initQueue size mem) ∧
    queue_elementCount (filter_initQueue size mem) = size := by
  refine ⟨queue_reachable_foldl_overwritePush size mem _, ?_⟩
  unfold filter_initQueue queue_elementCount
  rw [queue_elementCount_foldl_overwritePush size hs mem]
  simp

theorem filter_init_outputQueues (fs : filter_t) (mem : Nat → Nat → queue_data_t)
    (i : Nat) :
    (filter_init fs mem).outputQueues i =
      filter_initQueue OUTPUT_QUEUE_SIZE (mem (12 + i)) := by
  simp only [filter_init]

theorem filter_init_outputQueue_full (fs : filter_t) (mem : Nat → Nat → queue_data_t)
    (i : Nat) :
    queue_reachable OUTPUT_QUEUE_SIZE ((filter_init fs mem).outputQueues i) ∧
    queue_elementCount ((filter_init fs mem).outputQueues i) = OUTPUT_QUEUE_SIZE := by
  rw [filter_init_outputQueues]
  exact filter_initQueue_full OUTPUT_QUEUE_SIZE (by decide) (mem (12 + i))

/-! ## Power computation: the property -/

/-- C5: over exact arithmetic, for a filter number `f < 10` whose output queue is
a full queue of 2000 elements: after the seeding call
`filter_computePower(f, true, _)` and any number of steps (one
`queue_overwritePush` onto `outputQueues[f]`, then
`filter_computePower(f, false, _)`), the incremental call of the next step
returns what a from-scratch call returns on the same queue, namely the sum of
the squares of the 2000 stored elements. -/
theorem C5_incremental_power_eq_from_scratch (fs0 : filter_t) (f : Nat)
    (_hf : f < FILTER_IIR_FILTER_COUNT)
    (hq : queue_reachable OUTPUT_QUEUE_SIZE (fs0.outputQueues f))
    (hfull : queue_elementCount (fs0.outputQueues f) = OUTPUT_QUEUE_SIZE)
    (vs : List ℚ) (v : ℚ) :
    (filter_computePower
        (filter_pushOutput
          (vs.foldl (filter_powerStep f) (filter_computePower fs0 f true false).2) f v)
        f false false).1 =
      (filter_computePower
        (filter_pushOutput
          (vs.foldl (filter_powerStep f) (filter_computePower fs0 f true false).2) f v)
        f true false).1 ∧
    (filter_computePower
        (filter_pushOutput
          (vs.foldl (filter_powerStep f) (filter_computePower fs0 f true false).2) f v)
        f false false).1 =
      queue_sumSquares
        ((filter_pushOutput
          (vs.foldl (filter_powerStep f) (filter_computePower fs0 f true false).2) f v
          ).outputQueues f) := by
  have hwf : queue_wf (fs0.outputQueues f) :=
    queue_wf_of_reachable (by decide) hq
  have hsize : (fs0.outputQueues f).size = OUTPUT_QUEUE_SIZE := by
    obtain ⟨mem, ops, hrun⟩ := hq
    rw [hrun]
    clear hrun hwf hfull
    generalize hq0 : queue_init OUTPUT_QUEUE_SIZE mem = q0
    have h0 : q0.size = OUTPUT_QUEUE_SIZE := by rw [← hq0]; rfl
    clear hq0
    induction ops generalizing q0 with
    | nil => exact h0
    | cons op ops ih =>
      apply ih
      rw [← h0]
      cases op <;>
        simp only [queue_step, queue_overwritePush, queue_push, queue_pop] <;>
        split_ifs <;> rfl
  have hinv := filter_powerInv_steps f vs _ (filter_powerInv_seed f fs0 hwf hfull hsize)
  obtain ⟨hret, hinv'⟩ := filter_powerStep_spec f _ v hinv
  refine ⟨?_, hret⟩
  rw [hret]
  have hscratch : ∀ fs : filter_t, (filter_computePower fs f true false).1 =
      filter_powerFromScratch (fs.outputQueues f) := fun fs => by
    simp [filter_computePower]
  rw [hscratch]
  have hq' : (filter_powerStep f
      (vs.foldl (filter_powerStep f) (filter_computePower fs0 f true false).2) v
      ).outputQueues f =
      (filter_pushOutput
        (vs.foldl (filter_powerStep f) (filter_computePower fs0 f true false).2) f v
        ).outputQueues f := by
    simp [filter_powerStep, filter_computePower]
  rw [← hq']
  exact (filter_powerFromScratch_eq _ hinv'.1 hinv'.2.2.1).symm

/-- Witness of C5: filter 3 after `filter_init`, two steps pushing 1 and 2, and
a third step pushing 5. -/
theorem C5_incremental_power_eq_from_scratch_witness :
    queue_elementCount ((filter_init filter_programStart (fun _ _ => 0)).outputQueues 3) =
      OUTPUT_QUEUE_SIZE ∧
    (filter_computePower
        (filter_pushOutput
          ([1, 2].foldl (filter_powerStep 3)
            (filter_computePower (filter_init filter_programStart (fun _ _ => 0)) 3
              true false).2) 3 5)
        3 false false).1 =
      (filter_computePower
        (filter_pushOutput
          ([1, 2].foldl (filter_powerStep 3)
            (filter_computePower (filter_init filter_programStart (fun _ _ => 0)) 3
              true false).2) 3 5)
        3 true false).1 :=
  ⟨(filter_init_outputQueue_full filter_programStart (fun _ _ => 0) 3).2,
   (C5_incremental_power_eq_from_scratch
      (filter_init filter_programStart (fun _ _ => 0)) 3 (by decide)
      (filter_init_outputQueue_full filter_programStart (fun _ _ => 0) 3).1
      (filter_init_outputQueue_full filter_programStart (fun _ _ => 0) 3).2 [1, 2] 5).1⟩

/-! ## The sort loop of `hit_detect` -/

theorem array_swap_apply {α : Type} (a : Nat → α) (i m x : Nat) :
    array_swap a i m x = a (swapIdx i m x) := by
  unfold array_swap swapIdx
  by_cases h1 : x = m
  · subst h1; simp
  · by_cases h2 : x = i
    · subst h2; simp [Function.update_noteq h1, h1]
    · simp [Function.update_noteq h1, Function.update_noteq h2, h1, h2]

theorem swapIdx_involutive (i m x : Nat) : swapIdx i m (swapIdx i m x) = x := by
  unfold swapIdx
  split_ifs <;> omega

theorem swapIdx_lt {i m x n : Nat} (hi : i < n) (hm : m < n) (hx : x < n) :
    swapIdx i m x < n := by
  unfold swapIdx
  split_ifs <;> omega

theorem minIndex_fold_spec (vals : Nat → ℚ) (len a m0 : Nat) :
    ((List.range' a len).foldl
        (fun minIndex j => if vals j < vals minIndex then j else minIndex) m0 = m0 ∨
      (a ≤ (List.range' a len).foldl
          (fun minIndex j => if vals j < vals minIndex then j else minIndex) m0 ∧
        (List.range' a len).foldl
          (fun minIndex j => if vals j < vals minIndex then j else minIndex) m0 < a + len)) ∧
    vals ((List.range' a len).foldl
        (fun minIndex j => if vals j < vals minIndex then j else minIndex) m0) ≤ vals m0 ∧
    ∀ j, a ≤ j → j < a + len →
      vals ((List.range' a len).foldl
        (fun minIndex j => if vals j < vals minIndex then j else minIndex) m0) ≤ vals j := by
  induction len generalizing a m0 with
  | zero =>
    refine ⟨Or.inl rfl, le_refl _, ?_⟩
    intro j h1 h2
    omega
  | succ len ih =>
    rw [List.range'_succ, List.foldl_cons]
    obtain ⟨h1, h2, h3⟩ := ih (a + 1) (if vals a < vals m0 then a else m0)
    have hm1 : vals (if vals a < vals m0 then a else m0) ≤ vals m0 := by
      split_ifs with h
      · exact le_of_lt h
      · exact le_refl _
    have hma : vals (if vals a < vals m0 then a else m0) ≤ vals a := by
      split_ifs with h
      · exact le_refl _
      · exact not_lt.mp h
    refine ⟨?_, le_trans h2 hm1, ?_⟩
    · rcases h1 with h1 | h1
      · rw [h1]
        split_ifs
        · right; omega
        · left; rfl
      · right; omega
    · intro j hj1 hj2
      rcases Nat.eq_or_lt_of_le hj1 with h | h
      · rw [← h]; exact le_trans h2 hma
      · exact h3 j h (by omega)

theorem hit_detect_minIndex_spec (vals : Nat → ℚ) (i : Nat) (hi : i < NUM_PLAYERS) :
    i ≤ hit_detect_minIndex vals i ∧ hit_detect_minIndex vals i < NUM_PLAYERS ∧
    ∀ j, i ≤ j → j < NUM_PLAYERS →
      vals (hit_detect_minIndex vals i) ≤ vals j := by
  obtain ⟨h1, h2, h3⟩ := minIndex_fold_spec vals (NUM_PLAYERS - (i + 1)) (i + 1) i
  have hr : hit_detect_minIndex vals i =
      (List.range' (i + 1) (NUM_PLAYERS - (i + 1))).foldl
        (fun minIndex j => if vals j < vals minIndex then j else minIndex) i := rfl
  rw [← hr] at h1 h2 h3
  refine ⟨by omega, by omega, ?_⟩
  intro j hj1 hj2
  rcases Nat.eq_or_lt_of_le hj1 with h | h
  · rw [← h]; exact h2
  · exact h3 j h (by omega)

theorem sort_inv_pass (p : Nat → ℚ) (k : Nat) (arrays : (Nat → ℚ) × (Nat → Nat))
    (hk : k < NUM_PLAYERS) (h : sort_inv p k arrays) :
    sort_inv p (k + 1) (hit_detect_sortPass arrays k) := by
  obtain ⟨hval, hlt, hinj, hsurj, hsorted⟩ := h
  obtain ⟨hm1, hm2, hm3⟩ := hit_detect_minIndex_spec arrays.1 k hk
  unfold hit_detect_sortPass
  generalize hit_detect_minIndex arrays.1 k = m at hm1 hm2 hm3
  refine ⟨?_, ?_, ?_, ?_, ?_⟩
  · intro x
    simp only [array_swap_apply]
    exact hval _
  · intro x hx
    simp only [array_swap_apply]
    exact hlt _ (swapIdx_lt hk hm2 hx)
  · intro x y hx hy hxy
    simp only [array_swap_apply] at hxy
    have := hinj _ _ (swapIdx_lt hk hm2 hx) (swapIdx_lt hk hm2 hy) hxy
    rw [← swapIdx_involutive k m x, this, swapIdx_involutive]
  · intro g hg
    obtain ⟨x, hx, hxg⟩ := hsurj g hg
    refine ⟨swapIdx k m x, swapIdx_lt hk hm2 hx, ?_⟩
    simp only [array_swap_apply, swapIdx_involutive]
    exact hxg
  · intro a b ha hab hb
    simp only [array_swap_apply]
    have hb' : swapIdx k m b < NUM_PLAYERS := swapIdx_lt hk hm2 hb
    rcases Nat.lt_or_ge a k with hak | hak
    · have ha' : swapIdx k m a = a := by
        unfold swapIdx
        split_ifs <;> omega
      rw [ha']
      apply hsorted a _ hak _ hb'
      unfold swapIdx
      split_ifs <;> omega
    · have hak' : a = k := by omega
      have ha' : swapIdx k m a = m := by
        unfold swapIdx
        split_ifs <;> omega
      rw [ha']
      apply hm3 _ _ hb'
      unfold swapIdx
      split_ifs <;> omega

theorem sort_inv_foldl (p : Nat → ℚ) (n : Nat) (hn : n ≤ NUM_PLAYERS) :
    sort_inv p n ((List.range n).foldl hit_detect_sortPass (p, fun i => i)) := by
  induction n with
  | zero =>
    refine ⟨fun _ => rfl, fun _ hx => hx, fun _ _ _ _ h => h, fun g hg => ⟨g, hg, rfl⟩, ?_⟩
    intro a b ha
    omega
  | succ n ih =>
    rw [List.range_succ, List.foldl_append, List.foldl_cons, List.foldl_nil]
    exact sort_inv_pass p n _ (by omega) (ih (by omega))

theorem hit_detect_sort_inv (p : Nat → ℚ) :
    sort_inv p MAX_ARRAY_INDEX (hit_detect_sort p (fun i => i)) :=
  sort_inv_foldl p MAX_ARRAY_INDEX (by decide)

theorem hit_detect_sort_value (p : Nat → ℚ) (x : Nat) :
    (hit_detect_sort p (fun i => i)).1 x = p ((hit_detect_sort p (fun i => i)).2 x) :=
  (hit_detect_sort_inv p).1 x

theorem hit_detect_sort_index_lt (p : Nat → ℚ) (x : Nat) (hx : x < NUM_PLAYERS) :
    (hit_detect_sort p (fun i => i)).2 x < NUM_PLAYERS :=
  (hit_detect_sort_inv p).2.1 x hx

theorem hit_detect_sort_sorted (p : Nat → ℚ) (a b : Nat) (hab : a ≤ b)
    (hb : b < NUM_PLAYERS) :
    (hit_detect_sort p (fun i => i)).1 a ≤ (hit_detect_sort p (fun i => i)).1 b := by
  rcases Nat.lt_or_ge a MAX_ARRAY_INDEX with h | h
  · exact (hit_detect_sort_inv p).2.2.2.2 a b h hab hb
  · have hab' : a = b := by
      simp only [MAX_ARRAY_INDEX, NUM_PLAYERS] at h hb
      omega
    rw [hab']

theorem hit_detect_sort_max (p : Nat → ℚ) (g : Nat) (hg : g < NUM_PLAYERS) :
    p g ≤ (hit_detect_sort p (fun i => i)).1 MAX_ARRAY_INDEX := by
  obtain ⟨x, hx, hxg⟩ := (hit_detect_sort_inv p).2.2.2.1 g hg
  rw [← hxg, ← hit_detect_sort_value p x]
  apply hit_detect_sort_sorted p x MAX_ARRAY_INDEX _ (by decide)
  simp only [MAX_ARRAY_INDEX, NUM_PLAYERS] at hx ⊢
  omega

theorem hit_detect_sort_perm (p : Nat → ℚ) :
    ((List.range NUM_PLAYERS).map (hit_detect_sort p (fun i => i)).1).Perm
      ((List.range NUM_PLAYERS).map p) := by
  obtain ⟨hval, hlt, hinj, hsurj, _⟩ := hit_detect_sort_inv p
  have hidx : ((List.range NUM_PLAYERS).map (hit_detect_sort p (fun i => i)).2).Perm
      (List.range NUM_PLAYERS) := by
    rw [List.perm_ext_iff_of_nodup _ (List.nodup_range _)]
    · intro g
      simp only [List.mem_map, List.mem_range]
      constructor
      · rintro ⟨x, hx, rfl⟩
        exact hlt x hx
      · intro hg
        exact hsurj g hg
    · apply List.Nodup.map_on _ (List.nodup_range _)
      intro x hx y hy hxy
      rw [List.mem_range] at hx hy
      exact hinj x y hx hy hxy
  have hmap : (List.range NUM_PLAYERS).map (hit_detect_sort p (fun i => i)).1 =
      ((List.range NUM_PLAYERS).map (hit_detect_sort p (fun i => i)).2).map p := by
    rw [List.map_map]
    apply List.map_congr_left
    intro x _
    exact hval x
  rw [hmap]
  exact hidx.map p

theorem hit_detect_sort_eq_sorted_powers (p : Nat → ℚ) :
    (List.range NUM_PLAYERS).map (hit_detect_sort p (fun i => i)).1 = sorted_powers p := by
  apply List.eq_of_perm_of_sorted (r := (· ≤ ·))
  · exact (hit_detect_sort_perm p).trans (List.perm_insertionSort _ _).symm
  · rw [List.Sorted, List.pairwise_map]
    apply (List.pairwise_lt_range NUM_PLAYERS).imp_of_mem
    intro a b _ hb hab
    rw [List.mem_range] at hb
    exact hit_detect_sort_sorted p a b (le_of_lt hab) hb
  · exact List.sorted_insertionSort _ _

theorem hit_detect_sort_median (p : Nat → ℚ) :
    (hit_detect_sort p (fun i => i)).1 MEDIAN_INDEX = power_median p := by
  unfold power_median
  rw [← hit_detect_sort_eq_sorted_powers]
  simp [NUM_PLAYERS, MEDIAN_INDEX, List.range_succ]

/-! ## `hit_detect`, branch by branch -/

theorem hit_topFrequency_lt (s : system_t) : hit_topFrequency s < NUM_PLAYERS :=
  hit_detect_sort_index_lt _ _ (by decide)

theorem hit_topFrequency_max (s : system_t) (g : Nat) (hg : g < NUM_PLAYERS) :
    detector_powers s g ≤ detector_powers s (hit_topFrequency s) := by
  unfold hit_topFrequency
  rw [← hit_detect_sort_value (detector_powers s) MAX_ARRAY_INDEX]
  exact hit_detect_sort_max _ g hg

theorem hit_detect_cond_iff (s : system_t) :
    ((hit_detect_sort (detector_powers s) (fun i => i)).1 MAX_ARRAY_INDEX >
        (hit_detect_sort (detector_powers s) (fun i => i)).1 MEDIAN_INDEX
          * fudgeFactors.getD s.detector.fudgeFactorIndex 0 + THRESHOLD_FACTOR
      ∧ s.detector.ignoredSignals
          ((hit_detect_sort (detector_powers s) (fun i => i)).2 MAX_ARRAY_INDEX) = false
      ∧ lockoutTimer_running s.lockoutTimer = false) ↔ hit_recognized s := by
  unfold hit_recognized hit_topFrequency
  rw [hit_detect_sort_median, hit_detect_sort_value]

theorem hit_detect_unfold (s : system_t) :
    hit_detect s =
      if hit_recognized s then
        if s.detector.frozen then
          if hit_topFrequency s = s.detector.ownFrequency then
            { s with
              detector :=
                { s.detector with
                  frequencyDetected := hit_topFrequency s
                  lives := TOTAL_LIVES
                  hitDetected := true
                  hitCounts := hitCounts_increment s.detector.hitCounts (hit_topFrequency s)
                  frozen := false }
              trigger := trigger_enable s.trigger
              hitLedTimer := hitLedTimer_start s.hitLedTimer
              lockoutTimer := lockoutTimer_start s.lockoutTimer
              sound := s.sound ++
                [sound_call.setSound sound_sounds_t.sound_gameStart_e,
                  sound_call.startSound] }
          else
            { s with detector := { s.detector with frequencyDetected := hit_topFrequency s } }
        else
          if hit_topFrequency s ≠ s.detector.ownFrequency then
            { s with
              detector :=
                { s.detector with
                  frequencyDetected := hit_topFrequency s
                  lives := 0
                  hitDetected := true
                  frozen := true
                  hitCounts := hitCounts_increment s.detector.hitCounts (hit_topFrequency s) }
              lockoutTimer := lockoutTimer_start s.lockoutTimer
              hitLedTimer := hitLedTimer_start s.hitLedTimer
              sound := s.sound ++
                [sound_call.setSound sound_sounds_t.sound_loseLife_e,
                  sound_call.startSound]
              trigger := trigger_disable s.trigger }
          else
            { s with detector := { s.detector with frequencyDetected := hit_topFrequency s } }
      else
        { s with
          detector :=
            { s.detector with
              frequencyDetected := hit_topFrequency s
              hitDetected := false } } := by
  by_cases h : hit_recognized s
  · have h' := (hit_detect_cond_iff s).mpr h
    rw [if_pos h]
    unfold hit_detect
    dsimp only
    rw [if_pos h']
    rfl
  · have h' := (not_congr (hit_detect_cond_iff s)).mpr h
    rw [if_neg h]
    unfold hit_detect
    dsimp only
    rw [if_neg h']
    rfl

theorem hitCounts_increment_ne (h : Nat → Nat) (f : Nat) :
    h ≠ hitCounts_increment h f := by
  intro he
  have hf := congrFun he f
  simp only [hitCounts_increment, Function.update_same] at hf
  omega

theorem hit_accepted_iff (s : system_t) :
    hit_accepted s ↔
      (hit_recognized s ∧
        (s.detector.frozen = true → hit_topFrequency s = s.detector.ownFrequency) ∧
        (s.detector.frozen = false → hit_topFrequency s ≠ s.detector.ownFrequency)) := by
  unfold hit_accepted
  rw [hit_detect_unfold]
  split_ifs with hr hfz ho ho
  · exact ⟨fun _ => ⟨hr, fun _ => ho, fun h => by simp [hfz] at h⟩,
      fun _ => ⟨rfl, hit_topFrequency s, rfl⟩⟩
  · refine ⟨fun h => ?_, fun h => absurd (h.2.1 hfz) ho⟩
    obtain ⟨_, f, hf⟩ := h
    exact absurd hf (hitCounts_increment_ne _ f)
  · exact ⟨fun _ => ⟨hr, fun h => absurd h hfz, fun _ => ho⟩, fun _ => ⟨rfl, hit_topFrequency s, rfl⟩⟩
  · refine ⟨fun h => ?_, fun h => ?_⟩
    · obtain ⟨_, f, hf⟩ := h
      exact absurd hf (hitCounts_increment_ne _ f)
    · have hfz' : s.detector.frozen = false := by simpa using hfz
      exact absurd (not_not.mp ho) (h.2.2 hfz')
  · refine ⟨fun h => ?_, fun h => absurd h.1 hr⟩
    obtain ⟨_, f, hf⟩ := h
    exact absurd hf (hitCounts_increment_ne _ f)

theorem hit_detect_revive (s : system_t) (hr : hit_recognized s)
    (hfz : s.detector.frozen = true)
    (ho : hit_topFrequency s = s.detector.ownFrequency) :
    hit_detect s =
      { s with
        detector :=
          { s.detector with
            frequencyDetected := hit_topFrequency s
            lives := TOTAL_LIVES
            hitDetected := true
            hitCounts := hitCounts_increment s.detector.hitCounts (hit_topFrequency s)
            frozen := false }
        trigger := trigger_enable s.trigger
        hitLedTimer := hitLedTimer_start s.hitLedTimer
        lockoutTimer := lockoutTimer_start s.lockoutTimer
        sound := s.sound ++
          [sound_call.setSound sound_sounds_t.sound_gameStart_e, sound_call.startSound] } := by
  rw [hit_detect_unfold, if_pos hr, if_pos hfz, if_pos ho]

theorem hit_detect_freeze (s : system_t) (hr : hit_recognized s)
    (hfz : s.detector.frozen = false)
    (ho : hit_topFrequency s ≠ s.detector.ownFrequency) :
    hit_detect s =
      { s with
        detector :=
          { s.detector with
            frequencyDetected := hit_topFrequency s
            lives := 0
            hitDetected := true
            frozen := true
            hitCounts := hitCounts_increment s.detector.hitCounts (hit_topFrequency s) }
        lockoutTimer := lockoutTimer_start s.lockoutTimer
        hitLedTimer := hitLedTimer_start s.hitLedTimer
        sound := s.sound ++
          [sound_call.setSound sound_sounds_t.sound_loseLife_e, sound_call.startSound]
        trigger := trigger_disable s.trigger } := by
  have hfz' : ¬ s.detector.frozen = true := by simp [hfz]
  rw [hit_detect_unfold, if_pos hr, if_neg hfz', if_pos ho]

theorem hit_detect_rejected (s : system_t) (hr : hit_recognized s)
    (h : (s.detector.frozen = true ∧ hit_topFrequency s ≠ s.detector.ownFrequency) ∨
      (s.detector.frozen = false ∧ hit_topFrequency s = s.detector.ownFrequency)) :
    hit_detect s =
      { s with detector := { s.detector with frequencyDetected := hit_topFrequency s } } := by
  rw [hit_detect_unfold, if_pos hr]
  rcases h with ⟨hfz, ho⟩ | ⟨hfz, ho⟩
  · rw [if_pos hfz, if_neg ho]
  · have hfz' : ¬ s.detector.frozen = true := by simp [hfz]
    rw [if_neg hfz', if_neg (not_not.mpr ho)]

theorem hit_detect_unrecognized (s : system_t) (hr : ¬ hit_recognized s) :
    hit_detect s =
      { s with
        detector :=
          { s.detector with
            frequencyDetected := hit_topFrequency s
            hitDetected := false } } := by
  rw [hit_detect_unfold, if_neg hr]

theorem hit_recognized_of (s : system_t) (f : Nat) (m pf ff : ℚ)
    (hf : hit_topFrequency s = f) (hm : power_median (detector_powers s) = m)
    (hp : detector_powers s f = pf)
    (hff : fudgeFactors.getD s.detector.fudgeFactorIndex 0 = ff)
    (hgt : pf > m * ff + 1 / 10)
    (hign : s.detector.ignoredSignals f = false)
    (hrun : lockoutTimer_running s.lockoutTimer = false) : hit_recognized s := by
  unfold hit_recognized THRESHOLD_FACTOR
  rw [hf, hm, hp, hff]
  exact ⟨hgt, hign, hrun⟩

theorem hit_recognized_congr (s t : system_t) (hfilter : t.filter = s.filter)
    (hidx : t.detector.fudgeFactorIndex = s.detector.fudgeFactorIndex)
    (hign : t.detector.ignoredSignals = s.detector.ignoredSignals)
    (hlock : lockoutTimer_running t.lockoutTimer = lockoutTimer_running s.lockoutTimer) :
    hit_topFrequency t = hit_topFrequency s ∧ (hit_recognized t ↔ hit_recognized s) := by
  have hp : detector_powers t = detector_powers s := by
    unfold detector_powers
    rw [hfilter]
  have hf : hit_topFrequency t = hit_topFrequency s := by
    unfold hit_topFrequency
    rw [hp]
  refine ⟨hf, ?_⟩
  unfold hit_recognized
  rw [hf, hp, hidx, hign, hlock]

set_option maxRecDepth 100000 in
theorem system_frozen_recognized (count : Nat) :
    hit_recognized (system_frozen count) ∧ hit_topFrequency (system_frozen count) = 4 := by
  have hf : hit_topFrequency (system_frozen 0) = 4 := by decide
  have hr : hit_recognized (system_frozen 0) :=
    hit_recognized_of _ 4 5 5000 100 hf (by decide) (by decide) (by decide)
      (by norm_num) (by decide) (by decide)
  obtain ⟨h1, h2⟩ := hit_recognized_congr (system_frozen 0) (system_frozen count)
    rfl rfl rfl rfl
  exact ⟨h2.mpr hr, h1.trans hf⟩

set_option maxRecDepth 100000 in
theorem system_unfrozen_recognized (count : Nat) :
    hit_recognized (system_unfrozen count) ∧ hit_topFrequency (system_unfrozen count) = 7 := by
  have hf : hit_topFrequency (system_unfrozen 0) = 7 := by decide
  have hr : hit_recognized (system_unfrozen 0) :=
    hit_recognized_of _ 7 5 5000 100 hf (by decide) (by decide) (by decide)
      (by norm_num) (by decide) (by decide)
  obtain ⟨h1, h2⟩ := hit_recognized_congr (system_unfrozen 0) (system_unfrozen count)
    rfl rfl rfl rfl
  exact ⟨h2.mpr hr, h1.trans hf⟩

/-! ## `hit_detect`: the properties -/

/-- C4 (evaluation at the failing input): a frozen shooter with a dominant power
on its own frequency 4 is revived by a first `hit_detect` step, which sets
`hitDetected`.  A second step on the same powers, taken before the lock-out
timer has ticked, recognizes frequency 4 again and rejects it as a self-hit: it
accepts no hit, and `detector_hitDetected()` still returns true after it. -/
theorem C4_rejected_hit_keeps_flag :
    hit_accepted (system_frozen 0) ∧
    detector_hitDetected (hit_detect (system_frozen 0)) = true ∧
    hit_recognized (hit_detect (system_frozen 0)) ∧
    ¬ hit_accepted (hit_detect (system_frozen 0)) ∧
    detector_hitDetected (hit_detect (hit_detect (system_frozen 0))) = true := by
  obtain ⟨hr0, hf0⟩ := system_frozen_recognized 0
  have hfz0 : (system_frozen 0).detector.frozen = true := by decide
  have hown0 : (system_frozen 0).detector.ownFrequency = 4 := by decide
  have ho0 : hit_topFrequency (system_frozen 0) = (system_frozen 0).detector.ownFrequency :=
    hf0.trans hown0.symm
  have hacc : hit_accepted (system_frozen 0) :=
    (hit_accepted_iff _).mpr ⟨hr0, fun _ => ho0, fun h => by rw [hfz0] at h; cases h⟩
  have hstep := hit_detect_revive _ hr0 hfz0 ho0
  have hfilter : (hit_detect (system_frozen 0)).filter = (system_frozen 0).filter := by
    rw [hstep]
  have hidx : (hit_detect (system_frozen 0)).detector.fudgeFactorIndex =
      (system_frozen 0).detector.fudgeFactorIndex := by
    rw [hstep]
  have hign : (hit_detect (system_frozen 0)).detector.ignoredSignals =
      (system_frozen 0).detector.ignoredSignals := by
    rw [hstep]
  have hrun : lockoutTimer_running (hit_detect (system_frozen 0)).lockoutTimer =
      lockoutTimer_running (system_frozen 0).lockoutTimer := by
    rw [hstep]
    rfl
  have hfz1 : (hit_detect (system_frozen 0)).detector.frozen = false := by
    rw [hstep]
  have hown1 : (hit_detect (system_frozen 0)).detector.ownFrequency = 4 := by
    rw [hstep]
    exact hown0
  have hflag1 : (hit_detect (system_frozen 0)).detector.hitDetected = true := by
    rw [hstep]
  obtain ⟨hf1, hr1⟩ := hit_recognized_congr _ _ hfilter hidx hign hrun
  have ho1 : hit_topFrequency (hit_detect (system_frozen 0)) =
      (hit_detect (system_frozen 0)).detector.ownFrequency := by
    rw [hf1, hf0, hown1]
  refine ⟨hacc, hflag1, hr1.mpr hr0, ?_, ?_⟩
  · intro h
    exact ((hit_accepted_iff _).mp h).2.2 hfz1 ho1
  · rw [hit_detect_rejected _ (hr1.mpr hr0) (Or.inr ⟨hfz1, ho1⟩)]
    exact hflag1

/-! ## Ring container: the properties -/

/-- C6: on a queue created by `queue_init` with capacity `C ≥ 1`, in every
sequence of `queue_push` and `queue_pop` calls that never pushes onto a full
queue and never pops from an empty one, the `k`-th `queue_pop` returns the
value handed to the `k`-th `queue_push`, for every `k`. -/
theorem C6_queue_fifo (C : Nat) (hC : 1 ≤ C) (mem : Nat → queue_data_t)
    (ops : List queue_op) (hl : queue_legal (queue_init C mem) ops = true)
    (k : Nat) (hk : k < (queue_popped (queue_init C mem) ops).length) :
    (queue_popped (queue_init C mem) ops)[k]? = (queue_pushed ops)[k]? := by
  have h := queue_fifo_invariant ops _ (queue_wf_init C hC mem) hl
  rw [queue_contents_init, List.nil_append] at h
  rw [h, List.getElem?_append_left hk]

/-- Witness of C6: capacity 2, calls push 1, push 2, pop, push 3, pop, pop. -/
theorem C6_queue_fifo_witness :
    queue_legal (queue_init 2 (fun _ => 0))
        [.push 1, .push 2, .pop, .push 3, .pop, .pop] = true ∧
    (queue_popped (queue_init 2 (fun _ => 0))
        [.push 1, .push 2, .pop, .push 3, .pop, .pop])[2]? =
      (queue_pushed [.push 1, .push 2, .pop, .push 3, .pop, .pop])[2]? :=
  ⟨by decide,
   C6_queue_fifo 2 (by decide) (fun _ => 0)
     [.push 1, .push 2, .pop, .push 3, .pop, .pop] (by decide) 2 (by decide)⟩

/-- C7: after `queue_overwritePush` of `v_1 .. v_n` onto a freshly initialised
queue of capacity `C ≥ 1`, `queue_elementCount` is `min n C` and that many
successive `queue_pop` calls return the last `min n C` values in push order. -/
theorem C7_overwritePush_keeps_newest (C : Nat) (hC : 1 ≤ C)
    (mem : Nat → queue_data_t) (vs : List queue_data_t) :
    queue_elementCount (vs.foldl queue_overwritePush (queue_init C mem)) =
      min vs.length C ∧
    (queue_popN (min vs.length C)
        (vs.foldl queue_overwritePush (queue_init C mem))).1 =
      vs.drop (vs.length - min vs.length C) := by
  obtain ⟨hwf, _, hcont⟩ :=
    queue_contents_foldl_overwritePush vs _ (queue_wf_init C hC mem)
  have hcont' : queue_contents (vs.foldl queue_overwritePush (queue_init C mem)) =
      vs.drop (vs.length - C) := by
    rw [hcont, queue_contents_init]
    simp [queue_init]
  have hcount : (vs.foldl queue_overwritePush (queue_init C mem)).elementCount =
      min vs.length C := by
    rw [← queue_contents_length, hcont', List.length_drop]
    omega
  refine ⟨hcount, ?_⟩
  rw [(queue_popN_contents _ _ hwf (by omega)).1, hcont',
    List.take_of_length_le (by rw [List.length_drop]; omega)]
  congr 1
  omega

/-- Witness of C7: capacity 2 and the pushes 1, 2, 3. -/
theorem C7_overwritePush_keeps_newest_witness :
    queue_elementCount ([1, 2, 3].foldl queue_overwritePush (queue_init 2 (fun _ => 0))) =
      min [(1 : queue_data_t), 2, 3].length 2 ∧
    (queue_popN (min [(1 : queue_data_t), 2, 3].length 2)
        ([1, 2, 3].foldl queue_overwritePush (queue_init 2 (fun _ => 0)))).1 =
      [(1 : queue_data_t), 2, 3].drop
        ([(1 : queue_data_t), 2, 3].length - min [(1 : queue_data_t), 2, 3].length 2) :=
  C7_overwritePush_keeps_newest 2 (by decide) (fun _ => 0) [1, 2, 3]

/-- C8: in every queue state reachable from `queue_init` (capacity at least 1)
and for every index `i < queue_elementCount`, `queue_readElementAt q i` returns
the value of the `(i+1)`-th of successive `queue_pop` calls, prints no error and
leaves the queue as it was. -/
theorem C8_readElementAt_in_range (C : Nat) (hC : 1 ≤ C) (q : queue_t)
    (hq : queue_reachable C q) (i : Nat) (hi : i < queue_elementCount q) :
    (queue_popN (i + 1) q).1[i]? = some (queue_readElementAt q i).value ∧
    (queue_readElementAt q i).outOfRange = false ∧
    (queue_readElementAt q i).queue = q := by
  have hwf := queue_wf_of_reachable hC hq
  have hi' : i < q.elementCount := hi
  rw [queue_readElementAt_contents q i hwf hi',
    (queue_popN_contents (i + 1) q hwf (by omega)).1]
  refine ⟨?_, rfl, rfl⟩
  have hlen := queue_contents_length q
  rw [List.getElem?_take_of_lt (by omega), List.getD_eq_getElem?_getD]
  rw [List.getElem?_eq_getElem (by omega)]
  rfl

/-- Witness of C8: a wrapped queue of capacity 2 holding 2 and 3, read at
index 1. -/
theorem C8_readElementAt_in_range_witness :
    queue_reachable 2
      (queue_run (queue_init 2 (fun _ => 0)) [.push 1, .push 2, .pop, .push 3]) ∧
    (queue_readElementAt
      (queue_run (queue_init 2 (fun _ => 0)) [.push 1, .push 2, .pop, .push 3]) 1).outOfRange
      = false :=
  ⟨⟨fun _ => 0, [.push 1, .push 2, .pop, .push 3], rfl⟩,
   (C8_readElementAt_in_range 2 (by decide)
     (queue_run (queue_init 2 (fun _ => 0)) [.push 1, .push 2, .pop, .push 3])
     ⟨fun _ => 0, [.push 1, .push 2, .pop, .push 3], rfl⟩ 1 (by decide)).2.1⟩

/-- C9 (evaluation at the failing input): on the empty queue obtained from
`queue_init 2`, `queue_push 7`, `queue_pop`, the call `queue_readElementAt q 0`
does not take the error branch: it prints nothing and returns the stale
content of slot 1. -/
theorem C9_readElementAt_empty_reads_slot :
    queue_reachable 2 (queue_run (queue_init 2 (fun _ => 9)) [.push 7, .pop]) ∧
    queue_elementCount (queue_run (queue_init 2 (fun _ => 9)) [.push 7, .pop]) = 0 ∧
    (queue_readElementAt
      (queue_run (queue_init 2 (fun _ => 9)) [.push 7, .pop]) 0).outOfRange = false ∧
    (queue_readElementAt
      (queue_run (queue_init 2 (fun _ => 9)) [.push 7, .pop]) 0).value = 9 ∧
    (queue_readElementAt
      (queue_run (queue_init 2 (fun _ => 9)) [.push 7, .pop]) 1).outOfRange = false ∧
    (queue_readElementAt
      (queue_run (queue_init 2 (fun _ => 9)) [.push 7, .pop]) 1).value = 7 :=
  ⟨⟨fun _ => 9, [.push 7, .pop], rfl⟩, by decide, by decide, by decide, by decide,
    by decide⟩

/-- C10: on a full queue (`elementCount = size`) `queue_push` sets
`overflowFlag` and leaves `data`, `indexIn`, `indexOut` and `elementCount`
(and `size`, `underflowFlag`) as they were. -/
theorem C10_push_on_full (q : queue_t) (v : queue_data_t)
    (hfull : queue_elementCount q = queue_size q) :
    (queue_push q v).overflowFlag = true ∧
    (queue_push q v).data = q.data ∧
    (queue_push q v).indexIn = q.indexIn ∧
    (queue_push q v).indexOut = q.indexOut ∧
    (queue_push q v).elementCount = q.elementCount ∧
    (queue_push q v).size = q.size ∧
    (queue_push q v).underflowFlag = q.underflowFlag := by
  rw [queue_push_of_full q v hfull]
  exact ⟨rfl, rfl, rfl, rfl, rfl, rfl, rfl⟩

/-- Witness of C10: a queue of capacity 1 holding 4, and a push of 5. -/
theorem C10_push_on_full_witness :
    queue_elementCount (queue_push (queue_init 1 (fun _ => 0)) 4) =
      queue_size (queue_push (queue_init 1 (fun _ => 0)) 4) ∧
    (queue_push (queue_push (queue_init 1 (fun _ => 0)) 4) 5).overflowFlag = true ∧
    (queue_push (queue_push (queue_init 1 (fun _ => 0)) 4) 5).data =
      (queue_push (queue_init 1 (fun _ => 0)) 4).data :=
  ⟨by decide,
   (C10_push_on_full (queue_push (queue_init 1 (fun _ => 0)) 4) 5 (by decide)).1,
   (C10_push_on_full (queue_push (queue_init 1 (fun _ => 0)) 4) 5 (by decide)).2.1⟩

/-! ## Ring container: further lemmas -/

theorem queue_readElementAt_queue (q : queue_t) (index : Nat) :
    (queue_readElementAt q index).queue = q := by
  unfold queue_readElementAt
  split_ifs <;> rfl

theorem queue_push_size (q : queue_t) (v : queue_data_t) :
    (queue_push q v).size = q.size := by
  unfold queue_push
  split_ifs <;> rfl

theorem queue_pop_size (q : queue_t) : (queue_pop q).2.size = q.size := by
  unfold queue_pop
  split_ifs <;> rfl

theorem queue_overwritePush_size (q : queue_t) (v : queue_data_t) :
    (queue_overwritePush q v).size = q.size := by
  unfold queue_overwritePush
  split_ifs
  · rw [queue_push_size, queue_pop_size]
  · rw [queue_push_size]

theorem queue_call_step_wf (q : queue_t) (c : queue_call) (h : queue_wf q) :
    queue_wf (queue_call_step q c) ∧ (queue_call_step q c).size = q.size := by
  cases c with
  | op o =>
    refine ⟨queue_wf_step q o h, ?_⟩
    cases o with
    | push v => exact queue_push_size q v
    | pop => exact queue_pop_size q
    | overwritePush v => exact queue_overwritePush_size q v
  | readElementAt index =>
    show queue_wf (queue_readElementAt q index).queue ∧
      (queue_readElementAt q index).queue.size = q.size
    rw [queue_readElementAt_queue]
    exact ⟨h, rfl⟩

theorem queue_run_calls_wf (calls : List queue_call) (q : queue_t) (h : queue_wf q) :
    queue_wf (queue_run_calls q calls) ∧ (queue_run_calls q calls).size = q.size := by
  induction calls generalizing q with
  | nil => exact ⟨h, rfl⟩
  | cons c calls ih =>
    obtain ⟨h1, h2⟩ := queue_call_step_wf q c h
    obtain ⟨h3, h4⟩ := ih _ h1
    exact ⟨h3, h4.trans h2⟩

theorem wrapIdx_eq_mod (size k : Nat) (hk : k < 2 * size) :
    wrapIdx size k = k % size := by
  unfold wrapIdx
  split_ifs with h
  · exact (Nat.mod_eq_of_lt h).symm
  · rw [Nat.mod_eq_sub_mod (by omega), Nat.mod_eq_of_lt (by omega)]

theorem queue_elements_eq_contents (q : queue_t) (h : queue_wf q) :
    queue_elements q = queue_contents q := by
  unfold queue_elements queue_elementCount
  rw [(queue_popN_contents _ q h (le_refl _)).1]
  exact List.take_of_length_le (by rw [queue_contents_length])

/-! ## Ring container: further properties -/

/-- C11: on an empty queue (`elementCount = 0`) `queue_pop` returns 0, sets
`underflowFlag` and leaves `data`, `indexIn`, `indexOut` and `elementCount`
(and `size`, `overflowFlag`) as they were. -/
theorem C11_pop_on_empty (q : queue_t) (hempty : queue_elementCount q = 0) :
    (queue_pop q).1 = 0 ∧
    (queue_pop q).2.underflowFlag = true ∧
    (queue_pop q).2.data = q.data ∧
    (queue_pop q).2.indexIn = q.indexIn ∧
    (queue_pop q).2.indexOut = q.indexOut ∧
    (queue_pop q).2.elementCount = q.elementCount ∧
    (queue_pop q).2.size = q.size ∧
    (queue_pop q).2.overflowFlag = q.overflowFlag := by
  rw [queue_pop_of_empty q hempty]
  exact ⟨rfl, rfl, rfl, rfl, rfl, rfl, rfl, rfl⟩

/-- Witness of C11: a queue of capacity 2 after a push of 7 and a pop. -/
theorem C11_pop_on_empty_witness :
    queue_elementCount (queue_run (queue_init 2 (fun _ => 0)) [.push 7, .pop]) = 0 ∧
    (queue_pop (queue_run (queue_init 2 (fun _ => 0)) [.push 7, .pop])).1 = 0 ∧
    (queue_pop (queue_run (queue_init 2 (fun _ => 0)) [.push 7, .pop])).2.underflowFlag
      = true :=
  ⟨by decide,
   (C11_pop_on_empty (queue_run (queue_init 2 (fun _ => 0)) [.push 7, .pop])
      (by decide)).1,
   (C11_pop_on_empty (queue_run (queue_init 2 (fun _ => 0)) [.push 7, .pop])
      (by decide)).2.1⟩

/-- C12: every queue state reached from `queue_init` with capacity `C ≥ 1` by a
sequence of `queue_push`, `queue_pop`, `queue_overwritePush` and
`queue_readElementAt` calls has capacity `C` and satisfies
`elementCount ≤ C`, `indexIn < C`, `indexOut < C` and
`indexIn = (indexOut + elementCount) mod C`. -/
theorem C12_queue_invariant (C : Nat) (hC : 1 ≤ C) (mem : Nat → queue_data_t)
    (calls : List queue_call) :
    queue_size (queue_run_calls (queue_init C mem) calls) = C ∧
    queue_elementCount (queue_run_calls (queue_init C mem) calls) ≤ C ∧
    (queue_run_calls (queue_init C mem) calls).indexIn < C ∧
    (queue_run_calls (queue_init C mem) calls).indexOut < C ∧
    (queue_run_calls (queue_init C mem) calls).indexIn =
      ((queue_run_calls (queue_init C mem) calls).indexOut +
        queue_elementCount (queue_run_calls (queue_init C mem) calls)) % C := by
  obtain ⟨hwf, hsize⟩ := queue_run_calls_wf calls _ (queue_wf_init C hC mem)
  have hsize' : (queue_run_calls (queue_init C mem) calls).size = C := hsize
  obtain ⟨hs, _, ho, hc, hi⟩ := hwf
  rw [hsize'] at hs ho hc hi
  have hmod := wrapIdx_eq_mod C
    ((queue_run_calls (queue_init C mem) calls).indexOut +
      (queue_run_calls (queue_init C mem) calls).elementCount) (by omega)
  refine ⟨hsize', hc, ?_, ho, ?_⟩
  · rw [hi, hmod]
    exact Nat.mod_lt _ hs
  · rw [hi, hmod]
    rfl

/-- Witness of C12: capacity 2 and the calls push 1, push 2, read at 1, pop,
overwrite-push 3, overwrite-push 4. -/
theorem C12_queue_invariant_witness :
    (queue_run_calls (queue_init 2 (fun _ => 0))
      [.op (.push 1), .op (.push 2), .readElementAt 1, .op .pop,
        .op (.overwritePush 3), .op (.overwritePush 4)]).indexIn < 2 :=
  (C12_queue_invariant 2 (by decide) (fun _ => 0)
    [.op (.push 1), .op (.push 2), .readElementAt 1, .op .pop,
      .op (.overwritePush 3), .op (.overwritePush 4)]).2.2.1

theorem queue_overwritePush_full (q : queue_t) (v : queue_data_t) (hs : 1 ≤ q.size)
    (hfull : q.elementCount = q.size) :
    queue_overwritePush q v = queue_push (queue_pop q).2 v ∧
    queue_overwritePush q v =
      { q with
        data := q.data.set q.indexIn v
        indexIn := if q.indexIn = q.size - 1 then 0 else q.indexIn + 1
        indexOut := if q.indexOut = q.size - 1 then 0 else q.indexOut + 1
        elementCount := q.elementCount - 1 + 1
        underflowFlag := false
        overflowFlag := false } := by
  have h1 : queue_overwritePush q v = queue_push (queue_pop q).2 v := by
    simp [queue_overwritePush, queue_full, hfull]
  refine ⟨h1, ?_⟩
  rw [h1, queue_pop_of_pos q (by omega)]
  rw [queue_push_of_lt _ v (by show q.elementCount - 1 < q.size; omega)]

theorem queue_overwritePush_not_full (q : queue_t) (v : queue_data_t)
    (h : queue_full q = false) : queue_overwritePush q v = queue_push q v := by
  simp [queue_overwritePush, h]

/-- C13: on a full queue of capacity at least 1, `queue_overwritePush(q, v)`
yields exactly the state of `queue_pop(q)` followed by `queue_push(q, v)`:
`overflowFlag` is false afterwards, `elementCount` stays at the capacity and (in
a state reachable from `queue_init`) the oldest element is gone and `v` is the
newest; on a queue that is not full it yields exactly the state of
`queue_push(q, v)`. -/
theorem C13_overwritePush_is_pop_push (q : queue_t) (v : queue_data_t)
    (hC : 1 ≤ queue_size q) :
    (queue_full q = true →
      queue_overwritePush q v = queue_push (queue_pop q).2 v ∧
      (queue_overwritePush q v).overflowFlag = false ∧
      queue_elementCount (queue_overwritePush q v) = queue_size q ∧
      (queue_reachable (queue_size q) q →
        queue_elements (queue_overwritePush q v) = (queue_elements q).drop 1 ++ [v])) ∧
    (queue_full q = false → queue_overwritePush q v = queue_push q v) := by
  have hC' : 1 ≤ q.size := hC
  refine ⟨fun hfull => ?_, queue_overwritePush_not_full q v⟩
  have hfull' : q.elementCount = q.size := by
    simpa [queue_full] using hfull
  obtain ⟨h1, h2⟩ := queue_overwritePush_full q v hC' hfull'
  refine ⟨h1, by rw [h2], ?_, ?_⟩
  · rw [h2]
    show q.elementCount - 1 + 1 = q.size
    omega
  · intro hr
    have hwf := queue_wf_of_reachable hC hr
    rw [queue_elements_eq_contents _ (queue_wf_overwritePush q v hwf),
      queue_elements_eq_contents q hwf, queue_contents_overwritePush q v hwf]
    have hd : q.elementCount + 1 - q.size = 1 := by omega
    rw [hd, List.drop_append_of_le_length]
    rw [queue_contents_length]
    omega

/-- Witness of C13: the full queue of capacity 2 holding 1 and 2, and a push
of 3. -/
theorem C13_overwritePush_is_pop_push_witness :
    queue_full (queue_run (queue_init 2 (fun _ => 0)) [.push 1, .push 2]) = true ∧
    queue_elements
        (queue_overwritePush
          (queue_run (queue_init 2 (fun _ => 0)) [.push 1, .push 2]) 3) =
      (queue_elements (queue_run (queue_init 2 (fun _ => 0)) [.push 1, .push 2])).drop 1
        ++ [3] :=
  ⟨by decide,
   ((C13_overwritePush_is_pop_push
      (queue_run (queue_init 2 (fun _ => 0)) [.push 1, .push 2]) 3 (by decide)).1
      (by decide)).2.2.2 ⟨fun _ => 0, [.push 1, .push 2], rfl⟩⟩

/-! ## `hit_detect`: further lemmas -/

theorem hit_detect_frame (s : system_t) :
    (hit_detect s).filter = s.filter ∧
    (hit_detect s).detector.fudgeFactorIndex = s.detector.fudgeFactorIndex ∧
    (hit_detect s).detector.ignoredSignals = s.detector.ignoredSignals ∧
    (hit_detect s).detector.ownFrequency = s.detector.ownFrequency ∧
    (hit_detect s).detector.frequencyDetected = hit_topFrequency s ∧
    lockoutTimer_running (hit_detect s).lockoutTimer =
      lockoutTimer_running s.lockoutTimer := by
  rw [hit_detect_unfold]
  split_ifs <;> refine ⟨rfl, rfl, rfl, rfl, ?_, rfl⟩ <;> simp only

theorem hit_not_recognized_of (s : system_t) (f : Nat) (m pf ff : ℚ)
    (hf : hit_topFrequency s = f) (hm : power_median (detector_powers s) = m)
    (hp : detector_powers s f = pf)
    (hff : fudgeFactors.getD s.detector.fudgeFactorIndex 0 = ff)
    (hle : pf ≤ m * ff + 1 / 10) : ¬ hit_recognized s := by
  unfold hit_recognized THRESHOLD_FACTOR
  rw [hf, hm, hp, hff]
  intro h
  exact absurd h.1 (not_lt.mpr hle)

theorem power_median_mem (p : Nat → ℚ) :
    ∃ g, g < NUM_PLAYERS ∧ power_median p = p g :=
  ⟨(hit_detect_sort p (fun i => i)).2 MEDIAN_INDEX,
    hit_detect_sort_index_lt p MEDIAN_INDEX (by decide),
    by rw [← hit_detect_sort_median, hit_detect_sort_value]⟩

theorem fudgeFactors_ge (i : Nat) (hi : i < FUDGE_FACTOR_ARRAY_SIZE) :
    100 ≤ fudgeFactors.getD i 0 := by
  unfold FUDGE_FACTOR_ARRAY_SIZE at hi
  interval_cases i <;> simp [fudgeFactors] <;> norm_num

theorem hit_not_recognized_of_le_factor (s : system_t)
    (hi : s.detector.fudgeFactorIndex < FUDGE_FACTOR_ARRAY_SIZE)
    (hnn : ∀ g, g < NUM_PLAYERS → 0 ≤ detector_powers s g)
    (hmax : ∀ g, g < NUM_PLAYERS →
      detector_powers s g ≤ 100 * power_median (detector_powers s)) :
    ¬ hit_recognized s := by
  obtain ⟨g, hg, hmed⟩ := power_median_mem (detector_powers s)
  have hm0 : 0 ≤ power_median (detector_powers s) := by
    rw [hmed]
    exact hnn g hg
  have hff := fudgeFactors_ge _ hi
  have htop := hmax _ (hit_topFrequency_lt s)
  intro h
  have hgt := h.1
  unfold THRESHOLD_FACTOR at hgt
  have hmul : power_median (detector_powers s) * 100 ≤
      power_median (detector_powers s) * fudgeFactors.getD s.detector.fudgeFactorIndex 0 :=
    mul_le_mul_of_nonneg_left hff hm0
  linarith

/-! ## `hit_detect`: further properties -/

/-- C15: for every vector of 10 non-negative powers whose maximum is at most 100
times its rank-4 (median) value and each fudge-factor index `0 .. 4`,
`hit_detect` reports no hit: no hit is accepted, `hitDetected` is false
afterwards, and lives, the frozen flag, every hit counter, both timers and the
trigger are as before. -/
theorem C15_no_hit_within_factor (s : system_t)
    (hi : s.detector.fudgeFactorIndex < FUDGE_FACTOR_ARRAY_SIZE)
    (hnn : ∀ g, g < NUM_PLAYERS → 0 ≤ detector_powers s g)
    (hmax : ∀ g, g < NUM_PLAYERS →
      detector_powers s g ≤ 100 * power_median (detector_powers s)) :
    ¬ hit_accepted s ∧
    detector_hitDetected (hit_detect s) = false ∧
    (hit_detect s).detector.hitCounts = s.detector.hitCounts ∧
    (hit_detect s).detector.lives = s.detector.lives ∧
    (hit_detect s).detector.frozen = s.detector.frozen ∧
    (hit_detect s).lockoutTimer = s.lockoutTimer ∧
    (hit_detect s).hitLedTimer = s.hitLedTimer ∧
    (hit_detect s).trigger = s.trigger := by
  have hr := hit_not_recognized_of_le_factor s hi hnn hmax
  refine ⟨fun h => hr ((hit_accepted_iff s).mp h).1, ?_⟩
  rw [hit_detect_unrecognized s hr]
  exact ⟨rfl, rfl, rfl, rfl, rfl, rfl, rfl⟩

theorem testData1_powers (g : Nat) (hg : g < NUM_PLAYERS) :
    detector_powers (system_withPowers testData1) g = testData1.getD g 0 := by
  unfold NUM_PLAYERS at hg
  interval_cases g <;> decide

theorem testData2_powers (g : Nat) (hg : g < NUM_PLAYERS) :
    detector_powers (system_withPowers testData2) g = testData2.getD g 0 := by
  unfold NUM_PLAYERS at hg
  interval_cases g <;> decide

theorem testData1_median :
    power_median (detector_powers (system_withPowers testData1)) = 25 := by
  decide

theorem testData2_median :
    power_median (detector_powers (system_withPowers testData2)) = 15 := by
  decide

theorem testData1_within_factor :
    (∀ g, g < NUM_PLAYERS → 0 ≤ detector_powers (system_withPowers testData1) g) ∧
    (∀ g, g < NUM_PLAYERS →
      detector_powers (system_withPowers testData1) g ≤
        100 * power_median (detector_powers (system_withPowers testData1))) := by
  constructor
  · intro g hg
    rw [testData1_powers g hg]
    unfold NUM_PLAYERS at hg
    interval_cases g <;> simp [testData1]
  · intro g hg
    rw [testData1_powers g hg, testData1_median]
    unfold NUM_PLAYERS at hg
    interval_cases g <;> simp [testData1] <;> norm_num

theorem testData2_within_factor :
    (∀ g, g < NUM_PLAYERS → 0 ≤ detector_powers (system_withPowers testData2) g) ∧
    (∀ g, g < NUM_PLAYERS →
      detector_powers (system_withPowers testData2) g ≤
        100 * power_median (detector_powers (system_withPowers testData2))) := by
  constructor
  · intro g hg
    rw [testData2_powers g hg]
    unfold NUM_PLAYERS at hg
    interval_cases g <;> simp [testData2]
  · intro g hg
    rw [testData2_powers g hg, testData2_median]
    unfold NUM_PLAYERS at hg
    interval_cases g <;> simp [testData2] <;> norm_num

/-- Witness of C15: the near-uniform power set `testData2` after
`detector_init`. -/
theorem C15_no_hit_within_factor_witness :
    (system_withPowers testData2).detector.fudgeFactorIndex < FUDGE_FACTOR_ARRAY_SIZE ∧
    detector_hitDetected (hit_detect (system_withPowers testData2)) = false ∧
    (hit_detect (system_withPowers testData2)).detector.hitCounts =
      (system_withPowers testData2).detector.hitCounts :=
  ⟨by decide,
   (C15_no_hit_within_factor (system_withPowers testData2) (by decide)
      testData2_within_factor.1 testData2_within_factor.2).2.1,
   (C15_no_hit_within_factor (system_withPowers testData2) (by decide)
      testData2_within_factor.1 testData2_within_factor.2).2.2.1⟩

theorem system_setPowers_frame (s : system_t) (powers : List ℚ) :
    (system_setPowers s powers).detector = s.detector ∧
    (system_setPowers s powers).lockoutTimer = s.lockoutTimer := by
  unfold system_setPowers
  exact ⟨rfl, rfl⟩

theorem system_setPowers_filter_congr (s t : system_t) (powers : List ℚ)
    (h : t.filter = s.filter) :
    (system_setPowers t powers).filter = (system_setPowers s powers).filter := by
  unfold system_setPowers
  simp only [h]

set_option maxRecDepth 100000 in
theorem testData1_topFrequency : hit_topFrequency (system_withPowers testData1) = 0 := by
  decide

set_option maxRecDepth 100000 in
theorem testData2_after_hit_topFrequency :
    hit_topFrequency (system_setPowers (system_unfrozen 0) testData2) = 6 := by
  decide

/-- C16 (evaluation at the failing input): after `detector_init`, with
fudge-factor index 0 (factor 100), not frozen, nothing ignored and the lock-out
timer not running, `hit_detect` on `testData1` finds the largest power 150 on
frequency 0 and the median 25, so the threshold is 2500.1: no hit is accepted
and `hitDetected` is false afterwards.  On `testData2` no hit is detected
either. -/
theorem C16_testData1_no_hit :
    (system_withPowers testData1).detector.fudgeFactorIndex = 0 ∧
    (system_withPowers testData1).detector.frozen = false ∧
    (system_withPowers testData1).detector.ignoredSignals 0 = false ∧
    lockoutTimer_running (system_withPowers testData1).lockoutTimer = false ∧
    hit_topFrequency (system_withPowers testData1) = 0 ∧
    detector_powers (system_withPowers testData1) 0 = 150 ∧
    power_median (detector_powers (system_withPowers testData1)) = 25 ∧
    fudgeFactors.getD 0 0 = 100 ∧
    ¬ hit_accepted (system_withPowers testData1) ∧
    detector_hitDetected (hit_detect (system_withPowers testData1)) = false ∧
    detector_hitDetected (hit_detect (system_withPowers testData2)) = false := by
  have hr1 : ¬ hit_recognized (system_withPowers testData1) :=
    hit_not_recognized_of _ 0 25 150 100 testData1_topFrequency testData1_median
      (by decide) (by decide) (by norm_num)
  have hr2 : ¬ hit_recognized (system_withPowers testData2) :=
    hit_not_recognized_of_le_factor _ (by decide) testData2_within_factor.1
      testData2_within_factor.2
  refine ⟨by decide, by decide, by decide, by decide, testData1_topFrequency, by decide,
    testData1_median, by decide, fun h => hr1 ((hit_accepted_iff _).mp h).1, ?_, ?_⟩
  · rw [hit_detect_unrecognized _ hr1]
    rfl
  · rw [hit_detect_unrecognized _ hr2]
    rfl

/-- C17 (evaluation at the failing input): a shooter that is not frozen (own
frequency 4) accepts a hit on frequency 7, after which
`detector_getFrequencyNumberOfLastHit()` returns 7.  The next `hit_detect`
step, on the near-uniform powers `testData2`, accepts no hit, and afterwards
`detector_getFrequencyNumberOfLastHit()` returns 6, the frequency that step
ranked highest. -/
theorem C17_last_hit_frequency_overwritten :
    hit_accepted (system_unfrozen 0) ∧
    detector_getFrequencyNumberOfLastHit (hit_detect (system_unfrozen 0)) = 7 ∧
    ¬ hit_accepted (system_setPowers (hit_detect (system_unfrozen 0)) testData2) ∧
    detector_getFrequencyNumberOfLastHit
      (hit_detect (system_setPowers (hit_detect (system_unfrozen 0)) testData2)) = 6 := by
  obtain ⟨hr0, hf0⟩ := system_unfrozen_recognized 0
  have hfz0 : (system_unfrozen 0).detector.frozen = false := by decide
  have hown0 : (system_unfrozen 0).detector.ownFrequency = 4 := by decide
  have hne0 : hit_topFrequency (system_unfrozen 0) ≠ (system_unfrozen 0).detector.ownFrequency := by
    rw [hf0, hown0]
    decide
  have hacc : hit_accepted (system_unfrozen 0) :=
    (hit_accepted_iff _).mpr ⟨hr0, fun h => (by rw [hfz0] at h; cases h), fun _ => hne0⟩
  obtain ⟨hfilter, hidx, hign, _, hfreq, hrun⟩ := hit_detect_frame (system_unfrozen 0)
  have hfilter' := system_setPowers_filter_congr _ _ testData2 hfilter
  obtain ⟨hd1, hl1⟩ := system_setPowers_frame (hit_detect (system_unfrozen 0)) testData2
  obtain ⟨hd0, hl0⟩ := system_setPowers_frame (system_unfrozen 0) testData2
  obtain ⟨hf1, hr1⟩ := hit_recognized_congr
    (system_setPowers (system_unfrozen 0) testData2)
    (system_setPowers (hit_detect (system_unfrozen 0)) testData2) hfilter'
    (by rw [hd1, hd0, hidx]) (by rw [hd1, hd0, hign]) (by rw [hl1, hl0, hrun])
  have hnr : ¬ hit_recognized (system_setPowers (system_unfrozen 0) testData2) :=
    hit_not_recognized_of _ 6 15 20 100 testData2_after_hit_topFrequency
      (by decide) (by decide) (by decide) (by norm_num)
  have hnr1 := (not_congr hr1).mpr hnr
  refine ⟨hacc, ?_, fun h => hnr1 ((hit_accepted_iff _).mp h).1, ?_⟩
  · unfold detector_getFrequencyNumberOfLastHit
    rw [hfreq, hf0]
  · unfold detector_getFrequencyNumberOfLastHit
    rw [(hit_detect_frame _).2.2.2.2.1, hf1, testData2_after_hit_topFrequency]

/-! ## Lock-out: the guarded `hit_detect` call between timer ticks -/

theorem system_idle_tick (expire : Nat) :
    system_idle.lockoutTimer = lockoutTimer_tick expire lockoutTimer_init := rfl

theorem lockout_run_nil (expire : Nat) (s : system_t) : lockout_run expire s [] = s := rfl

theorem lockout_run_cons (expire : Nat) (s : system_t) (e : lockout_event)
    (es : List lockout_event) :
    lockout_run expire s (e :: es) = lockout_run expire (lockout_event_step expire s e) es :=
  rfl

theorem lockout_event_step_detect (expire : Nat) (s : system_t) (powers : List ℚ) :
    lockout_event_step expire s (.detect powers) =
      detector_hitStep (system_setPowers s powers) := rfl

theorem lockout_event_step_tick (expire : Nat) (s : system_t) :
    lockout_event_step expire s .tick =
      { s with lockoutTimer := lockoutTimer_tick expire s.lockoutTimer } := rfl

theorem detector_hitStep_not_running (s : system_t)
    (h : lockoutTimer_running s.lockoutTimer = false) :
    detector_hitStep s = hit_detect s := by
  unfold detector_hitStep
  rw [if_pos h]

theorem detector_hitStep_running (s : system_t)
    (h : lockoutTimer_running s.lockoutTimer = true) :
    detector_hitStep s = s := by
  unfold detector_hitStep
  rw [if_neg (by simp [h])]

set_option maxRecDepth 100000 in
theorem powers_top7_recognized :
    hit_recognized (system_setPowers system_idle powers_top7) ∧
    hit_topFrequency (system_setPowers system_idle powers_top7) = 7 := by
  have hf : hit_topFrequency (system_setPowers system_idle powers_top7) = 7 := by decide
  exact ⟨hit_recognized_of _ 7 5 5000 100 hf (by decide) (by decide) (by decide)
    (by norm_num) (by decide) (by decide), hf⟩

set_option maxRecDepth 100000 in
theorem powers_top4_recognized :
    hit_recognized (system_setPowers (system_setPowers system_idle powers_top7) powers_top4) ∧
    hit_topFrequency
      (system_setPowers (system_setPowers system_idle powers_top7) powers_top4) = 4 := by
  have hf : hit_topFrequency
      (system_setPowers (system_setPowers system_idle powers_top7) powers_top4) = 4 := by
    decide
  exact ⟨hit_recognized_of _ 4 5 5001 100 hf (by decide) (by decide) (by decide)
    (by norm_num) (by decide) (by decide), hf⟩

/-- C14 (evaluation at the failing input): from the idle state after
`detector_init`, two decimated steps of `detector` with no `lockoutTimer_tick`
between them.  The first, on powers whose largest is on frequency 7, accepts a
hit and calls `lockoutTimer_start`; `lockoutTimer_running()` is still false
after it, because `timerRunning` is only set by the next tick.  The second, on
powers whose largest is now on the own frequency 4, therefore runs
`hit_detect` again and accepts a second hit (the revival of the shooter just
frozen). -/
theorem C14_second_hit_before_tick (expire : Nat) :
    hit_accepted (system_setPowers system_idle powers_top7) ∧
    lockout_run expire system_idle [.detect powers_top7] =
      hit_detect (system_setPowers system_idle powers_top7) ∧
    (hit_detect (system_setPowers system_idle powers_top7)).lockoutTimer.startTimer = true ∧
    lockoutTimer_running
      (hit_detect (system_setPowers system_idle powers_top7)).lockoutTimer = false ∧
    hit_accepted
      (system_setPowers (hit_detect (system_setPowers system_idle powers_top7))
        powers_top4) ∧
    lockout_run expire system_idle [.detect powers_top7, .detect powers_top4] =
      hit_detect
        (system_setPowers (hit_detect (system_setPowers system_idle powers_top7))
          powers_top4) := by
  obtain ⟨hr0, hf0⟩ := powers_top7_recognized
  obtain ⟨hr1, hf1⟩ := powers_top4_recognized
  have hfz0 : (system_setPowers system_idle powers_top7).detector.frozen = false := by
    decide
  have hown0 : (system_setPowers system_idle powers_top7).detector.ownFrequency = 4 := by
    decide
  have hrun0 : lockoutTimer_running
      (system_setPowers system_idle powers_top7).lockoutTimer = false := by
    decide
  have hne0 : hit_topFrequency (system_setPowers system_idle powers_top7) ≠
      (system_setPowers system_idle powers_top7).detector.ownFrequency := by
    rw [hf0, hown0]
    decide
  have hacc0 : hit_accepted (system_setPowers system_idle powers_top7) :=
    (hit_accepted_iff _).mpr
      ⟨hr0, fun h => (by rw [hfz0] at h; cases h), fun _ => hne0⟩
  obtain ⟨hfilter, hidx, hign, hown, _, hrun⟩ :=
    hit_detect_frame (system_setPowers system_idle powers_top7)
  have hstep := hit_detect_freeze _ hr0 hfz0 hne0
  have hfz1 : (hit_detect (system_setPowers system_idle powers_top7)).detector.frozen
      = true := by
    rw [hstep]
  have hstart : (hit_detect (system_setPowers system_idle powers_top7)).lockoutTimer.startTimer
      = true := by
    rw [hstep]
    simp only [lockoutTimer_start]
  have hfilter' := system_setPowers_filter_congr _ _ powers_top4 hfilter
  obtain ⟨hd1, hl1⟩ := system_setPowers_frame
    (hit_detect (system_setPowers system_idle powers_top7)) powers_top4
  obtain ⟨hd0, hl0⟩ := system_setPowers_frame
    (system_setPowers system_idle powers_top7) powers_top4
  obtain ⟨hf2, hr2⟩ := hit_recognized_congr
    (system_setPowers (system_setPowers system_idle powers_top7) powers_top4)
    (system_setPowers (hit_detect (system_setPowers system_idle powers_top7)) powers_top4)
    hfilter' (by rw [hd1, hd0, hidx]) (by rw [hd1, hd0, hign]) (by rw [hl1, hl0, hrun])
  have hrun1 : lockoutTimer_running
      (hit_detect (system_setPowers system_idle powers_top7)).lockoutTimer = false := by
    rw [hrun, hrun0]
  have hrun2 : lockoutTimer_running
      (system_setPowers (hit_detect (system_setPowers system_idle powers_top7))
        powers_top4).lockoutTimer = false := by
    rw [hl1, hrun1]
  have hacc1 : hit_accepted
      (system_setPowers (hit_detect (system_setPowers system_idle powers_top7))
        powers_top4) := by
    refine (hit_accepted_iff _).mpr ⟨hr2.mpr hr1, fun _ => ?_, fun h => ?_⟩
    · rw [hf2, hf1, hd1, hown, hown0]
    · rw [hd1, hfz1] at h
      cases h
  have hrun_one : lockout_run expire system_idle [.detect powers_top7] =
      hit_detect (system_setPowers system_idle powers_top7) := by
    rw [lockout_run_cons, lockout_run_nil, lockout_event_step_detect,
      detector_hitStep_not_running _ hrun0]
  refine ⟨hacc0, hrun_one, hstart, hrun1, hacc1, ?_⟩
  rw [lockout_run_cons, lockout_run_cons, lockout_run_nil, lockout_event_step_detect,
    lockout_event_step_detect, detector_hitStep_not_running _ hrun0,
    detector_hitStep_not_running _ hrun2]

/-! ## `filter_getNormalizedPowerValues` on powers that are all zero -/

theorem filter_maxScan_fold_no_positive (prevPower : Nat → ℚ) (l : List Nat)
    (h : ∀ i, i ∈ l → prevPower i ≤ 0) (index : Nat) :
    l.foldl (fun acc i => if prevPower i > acc.1 then (prevPower i, i) else acc)
      ((0 : ℚ), index) = (0, index) := by
  induction l with
  | nil => rfl
  | cons a l ih =>
    rw [List.foldl_cons, if_neg (not_lt.mpr (h a (List.mem_cons_self a l)))]
    exact ih (fun i hi => h i (List.mem_cons_of_mem a hi))

theorem filter_maxScan_no_positive (prevPower : Nat → ℚ)
    (h : ∀ i, i < FILTER_IIR_FILTER_COUNT → prevPower i ≤ 0) (index : Nat) :
    filter_maxScan prevPower index = (0, index) :=
  filter_maxScan_fold_no_positive prevPower _
    (fun i hi => h i (List.mem_range.mp hi)) index

/-- C18 (evaluation at the failing input): with all ten stored powers equal to
0 (the state right after program start) and a caller whose variable holds 5,
`filter_getNormalizedPowerValues` never assigns `*indexOfMaxValue`, which still
holds 5 afterwards, and every element of `normalizedArray` is the outcome of
the division `0 / prevPower[5] = 0 / 0`, which is not the number 0. -/
theorem C18_normalized_zero_powers :
    (∀ i, i < FILTER_IIR_FILTER_COUNT → filter_programStart.prevPower i = 0) ∧
    (filter_getNormalizedPowerValues filter_programStart (fun _ => some 1) 5).2 = 5 ∧
    (∀ i, i < FILTER_IIR_FILTER_COUNT →
      (filter_getNormalizedPowerValues filter_programStart (fun _ => some 1) 5).1 i
        = none) ∧
    (∀ i, i < FILTER_IIR_FILTER_COUNT →
      (filter_getNormalizedPowerValues filter_programStart (fun _ => some 1) 5).1 i
        ≠ some 0) := by
  have hz : ∀ i, i < FILTER_IIR_FILTER_COUNT → filter_programStart.prevPower i ≤ 0 :=
    fun _ _ => le_refl _
  have hscan := filter_maxScan_no_positive filter_programStart.prevPower hz 5
  have hidx : (filter_getNormalizedPowerValues filter_programStart (fun _ => some 1) 5).2
      = 5 := by
    simp only [filter_getNormalizedPowerValues, hscan]
  have hval : ∀ i, i < FILTER_IIR_FILTER_COUNT →
      (filter_getNormalizedPowerValues filter_programStart (fun _ => some 1) 5).1 i
        = none := by
    intro i hi
    simp only [filter_getNormalizedPowerValues, hscan, if_pos hi]
    rfl
  refine ⟨fun _ _ => rfl, hidx, hval, fun i hi => ?_⟩
  rw [hval i hi]
  exact fun h => Option.noConfusion h

/-! ## FIR and IIR filters: lemmas -/

theorem queue_readElementAt_elements (q : queue_t) (i : Nat) (h : queue_wf q)
    (hi : i < q.elementCount) :
    (queue_readElementAt q i).value = (queue_elements q).getD i 0 := by
  rw [queue_readElementAt_contents q i h hi, queue_elements_eq_contents q h]

theorem queue_elements_overwritePush_full (q : queue_t) (v : queue_data_t)
    (h : queue_wf q) (hfull : q.elementCount = q.size) :
    queue_elements (queue_overwritePush q v) = (queue_elements q).drop 1 ++ [v] := by
  have hs := h.1
  rw [queue_elements_eq_contents _ (queue_wf_overwritePush q v h),
    queue_elements_eq_contents q h, queue_contents_overwritePush q v h]
  have hd : q.elementCount + 1 - q.size = 1 := by omega
  rw [hd, List.drop_append_of_le_length]
  rw [queue_contents_length]
  omega

theorem queue_newest_overwritePush (q : queue_t) (v : queue_data_t) (h : queue_wf q) :
    queue_newest (queue_overwritePush q v) = some v := by
  unfold queue_newest
  have hs := h.1
  have hc := h.2.2.2.1
  rw [queue_elements_eq_contents _ (queue_wf_overwritePush q v h),
    queue_contents_overwritePush q v h, List.drop_append_of_le_length]
  · simp
  · rw [queue_contents_length]
    omega

theorem foldl_pair_range (a b : Nat → ℚ) (c : Nat → Prop) [DecidablePred c] (n : Nat) :
    (List.range n).foldl
        (fun (totals : ℚ × ℚ) j =>
          (totals.1 + a j, if c j then totals.2 + b j else totals.2)) (0, 0) =
      (((List.range n).map a).sum,
        ((List.range n).map (fun j => if c j then b j else 0)).sum) := by
  induction n with
  | zero => rfl
  | succ n ih =>
    rw [List.range_succ, List.foldl_append, ih, List.map_append, List.map_append,
      List.sum_append, List.sum_append]
    simp only [List.foldl_cons, List.foldl_nil, List.map_cons, List.map_nil, List.sum_cons,
      List.sum_nil, add_zero]
    split_ifs <;> simp

theorem filter_firFilter_value (fs : filter_t) (hwf : queue_wf fs.xQueue)
    (hfull : fs.xQueue.elementCount = X_QUEUE_SIZE) :
    (filter_firFilter fs).1 =
      ((List.range 81).map
        (fun i => firCoefficients.getD (80 - i) 0 * (queue_elements fs.xQueue).getD i 0)).sum := by
  have h1 : (filter_firFilter fs).1 =
      (List.range FIR_FILTER_TAP_COUNT).foldl
        (fun y i =>
          y + (queue_readElementAt fs.xQueue i).value
              * firCoefficients.getD (FIR_FILTER_TAP_COUNT - i - INDEX_ONE) 0) 0 := rfl
  rw [h1, foldl_add_range]
  congr 1
  apply List.map_congr_left
  intro i hi
  rw [List.mem_range] at hi
  have hidx : FIR_FILTER_TAP_COUNT - i - INDEX_ONE = 80 - i := by
    show 81 - i - 1 = 80 - i
    omega
  have hi' : i < fs.xQueue.elementCount := by
    rw [hfull]
    exact hi
  rw [hidx, queue_readElementAt_elements _ i hwf hi', mul_comm]

theorem filter_iirFilter_value (fs : filter_t) (f : Nat) (hy : queue_wf fs.yQueue)
    (hyfull : fs.yQueue.elementCount = Y_QUEUE_SIZE) (hz : queue_wf (fs.zQueues f))
    (hzfull : (fs.zQueues f).elementCount = Z_QUEUE_SIZE) :
    (filter_iirFilter fs f).1 =
      ((List.range 11).map
          (fun j => (iirBCoefficientConstants.getD f []).getD j 0
            * (queue_elements fs.yQueue).getD (10 - j) 0)).sum
        - ((List.range 10).map
          (fun j => (iirACoefficientConstants.getD f []).getD j 0
            * (queue_elements (fs.zQueues f)).getD (9 - j) 0)).sum := by
  have h1 : (filter_iirFilter fs f).1 =
      (filter_iirTotals fs f).1 - (filter_iirTotals fs f).2 := rfl
  have h2 : filter_iirTotals fs f =
      (((List.range IIR_B_COEFFICIENT_COUNT).map
          (fun j => (iirBCoefficientConstants.getD f []).getD j 0
            * (queue_readElementAt fs.yQueue
                (IIR_B_COEFFICIENT_COUNT - j - INDEX_ONE)).value)).sum,
        ((List.range IIR_B_COEFFICIENT_COUNT).map
          (fun j => if j ≠ IIR_B_COEFFICIENT_COUNT - INDEX_ONE then
            (iirACoefficientConstants.getD f []).getD j 0
              * (queue_readElementAt (fs.zQueues f)
                  (IIR_A_COEFFICIENT_COUNT - j - INDEX_ONE)).value
            else 0)).sum) := by
    unfold filter_iirTotals
    exact foldl_pair_range _ _ _ _
  rw [h1, h2]
  dsimp only
  congr 1
  · congr 1
    apply List.map_congr_left
    intro j hj
    rw [List.mem_range] at hj
    have hlt : IIR_B_COEFFICIENT_COUNT - j - INDEX_ONE < fs.yQueue.elementCount := by
      rw [hyfull]
      show 11 - j - 1 < 11
      omega
    have hidx : IIR_B_COEFFICIENT_COUNT - j - INDEX_ONE = 10 - j := by
      show 11 - j - 1 = 10 - j
      omega
    rw [queue_readElementAt_elements _ _ hy hlt, hidx]
  · have hr : List.range IIR_B_COEFFICIENT_COUNT = List.range 10 ++ [10] := by
      show List.range 11 = _
      rw [List.range_succ]
    rw [hr, List.map_append, List.sum_append]
    have hlast : IIR_B_COEFFICIENT_COUNT - INDEX_ONE = 10 := by decide
    simp only [List.map_cons, List.map_nil, List.sum_cons, List.sum_nil, hlast, ne_eq,
      not_true_eq_false, if_false, add_zero]
    congr 1
    apply List.map_congr_left
    intro j hj
    rw [List.mem_range] at hj
    have hne : ¬ j = 10 := by omega
    have hlt : IIR_A_COEFFICIENT_COUNT - j - INDEX_ONE < (fs.zQueues f).elementCount := by
      rw [hzfull]
      show 10 - j - 1 < 10
      omega
    have hidx : IIR_A_COEFFICIENT_COUNT - j - INDEX_ONE = 9 - j := by
      show 10 - j - 1 = 9 - j
      omega
    rw [if_pos hne, queue_readElementAt_elements _ _ hz hlt, hidx]

theorem coefficient_table_sizes :
    firCoefficients.length = FIR_FILTER_TAP_COUNT ∧
    iirACoefficientConstants.map List.length =
      List.replicate FILTER_IIR_FILTER_COUNT IIR_A_COEFFICIENT_COUNT ∧
    iirBCoefficientConstants.map List.length =
      List.replicate FILTER_IIR_FILTER_COUNT IIR_B_COEFFICIENT_COUNT := by
  refine ⟨rfl, rfl, rfl⟩

theorem filter_init_queues (fs : filter_t) (mem : Nat → Nat → queue_data_t) (i : Nat) :
    (filter_init fs mem).xQueue = filter_initQueue X_QUEUE_SIZE (mem 0) ∧
    (filter_init fs mem).yQueue = filter_initQueue Y_QUEUE_SIZE (mem 1) ∧
    (filter_init fs mem).zQueues i = filter_initQueue Z_QUEUE_SIZE (mem (2 + i)) := by
  simp only [filter_init, and_self]

theorem filter_init_queues_full (fs : filter_t) (mem : Nat → Nat → queue_data_t)
    (i : Nat) :
    (queue_reachable X_QUEUE_SIZE (filter_init fs mem).xQueue ∧
      queue_elementCount (filter_init fs mem).xQueue = X_QUEUE_SIZE) ∧
    (queue_reachable Y_QUEUE_SIZE (filter_init fs mem).yQueue ∧
      queue_elementCount (filter_init fs mem).yQueue = Y_QUEUE_SIZE) ∧
    (queue_reachable Z_QUEUE_SIZE ((filter_init fs mem).zQueues i) ∧
      queue_elementCount ((filter_init fs mem).zQueues i) = Z_QUEUE_SIZE) := by
  obtain ⟨hx, hy, hz⟩ := filter_init_queues fs mem i
  rw [hx, hy, hz]
  exact ⟨filter_initQueue_full X_QUEUE_SIZE (by decide) _,
    filter_initQueue_full Y_QUEUE_SIZE (by decide) _,
    filter_initQueue_full Z_QUEUE_SIZE (by decide) _⟩

/-! ## FIR and IIR filters: the properties -/

/-- C19: over exact arithmetic, on a full 81-element `xQueue` and a full
`yQueue`, `filter_firFilter` returns
`y = sum over i = 0..80 of firCoefficients[80 - i] * x_i`, with `x_i` the `i`-th
oldest element of `xQueue`; it leaves `xQueue` unchanged and makes `y` the
newest element of `yQueue`, whose oldest element is evicted. -/
theorem C19_firFilter (fs : filter_t)
    (hx : queue_reachable X_QUEUE_SIZE fs.xQueue)
    (hxfull : queue_elementCount fs.xQueue = X_QUEUE_SIZE)
    (hy : queue_reachable Y_QUEUE_SIZE fs.yQueue)
    (hyfull : queue_elementCount fs.yQueue = Y_QUEUE_SIZE) :
    (filter_firFilter fs).1 =
      ((List.range 81).map
        (fun i => firCoefficients.getD (80 - i) 0 * (queue_elements fs.xQueue).getD i 0)).sum ∧
    (filter_firFilter fs).2.xQueue = fs.xQueue ∧
    queue_newest (filter_firFilter fs).2.yQueue = some (filter_firFilter fs).1 ∧
    queue_elements (filter_firFilter fs).2.yQueue =
      (queue_elements fs.yQueue).drop 1 ++ [(filter_firFilter fs).1] := by
  have hxwf : queue_wf fs.xQueue := queue_wf_of_reachable (by decide) hx
  have hywf : queue_wf fs.yQueue := queue_wf_of_reachable (by decide) hy
  have hysize : fs.yQueue.size = Y_QUEUE_SIZE := by
    obtain ⟨mem, ops, hrun⟩ := hy
    have hcalls : queue_run (queue_init Y_QUEUE_SIZE mem) ops =
        queue_run_calls (queue_init Y_QUEUE_SIZE mem) (ops.map queue_call.op) := by
      unfold queue_run queue_run_calls
      rw [List.foldl_map]
      rfl
    rw [hrun, hcalls]
    exact (queue_run_calls_wf _ _ (queue_wf_init _ (by decide) mem)).2
  have hq : (filter_firFilter fs).2.yQueue =
      queue_overwritePush fs.yQueue (filter_firFilter fs).1 := rfl
  refine ⟨filter_firFilter_value fs hxwf hxfull, rfl, ?_, ?_⟩
  · rw [hq, queue_newest_overwritePush _ _ hywf]
  · rw [hq, queue_elements_overwritePush_full _ _ hywf (hyfull.trans hysize.symm)]

/-- Witness of C19: the filter data right after `filter_init`. -/
theorem C19_firFilter_witness :
    queue_elementCount (filter_init filter_programStart (fun _ _ => 0)).xQueue = X_QUEUE_SIZE ∧
    queue_newest (filter_firFilter (filter_init filter_programStart (fun _ _ => 0))).2.yQueue =
      some (filter_firFilter (filter_init filter_programStart (fun _ _ => 0))).1 :=
  ⟨(filter_init_queues_full filter_programStart (fun _ _ => 0) 0).1.2,
   (C19_firFilter (filter_init filter_programStart (fun _ _ => 0))
      (filter_init_queues_full filter_programStart (fun _ _ => 0) 0).1.1
      (filter_init_queues_full filter_programStart (fun _ _ => 0) 0).1.2
      (filter_init_queues_full filter_programStart (fun _ _ => 0) 0).2.1.1
      (filter_init_queues_full filter_programStart (fun _ _ => 0) 0).2.1.2).2.2.1⟩

theorem queue_size_of_reachable {C : Nat} {q : queue_t} (hC : 1 ≤ C)
    (h : queue_reachable C q) : q.size = C := by
  obtain ⟨mem, ops, hrun⟩ := h
  have hcalls : queue_run (queue_init C mem) ops =
      queue_run_calls (queue_init C mem) (ops.map queue_call.op) := by
    unfold queue_run queue_run_calls
    rw [List.foldl_map]
    rfl
  rw [hrun, hcalls]
  exact (queue_run_calls_wf _ _ (queue_wf_init _ hC mem)).2

/-- C20: over exact arithmetic, for a filter number `f < 10`, on a full
11-element `yQueue` and a full 10-element `zQueues[f]`, `filter_iirFilter(f)`
returns `z = (sum over j = 0..10 of iirBCoefficientConstants[f][j] * y_(10-j))
- (sum over j = 0..9 of iirACoefficientConstants[f][j] * z_(9-j))`, with `y_k`
and `z_k` the `k`-th oldest elements of `yQueue` and `zQueues[f]`; `z` becomes
the newest element of `zQueues[f]` (whose oldest element is evicted) and of
`outputQueues[f]`, and `xQueue`, `yQueue` and the queues of every other filter
number are unchanged. -/
theorem C20_iirFilter (fs : filter_t) (f : Nat) (_hf : f < FILTER_IIR_FILTER_COUNT)
    (hy : queue_reachable Y_QUEUE_SIZE fs.yQueue)
    (hyfull : queue_elementCount fs.yQueue = Y_QUEUE_SIZE)
    (hz : queue_reachable Z_QUEUE_SIZE (fs.zQueues f))
    (hzfull : queue_elementCount (fs.zQueues f) = Z_QUEUE_SIZE)
    (ho : queue_reachable OUTPUT_QUEUE_SIZE (fs.outputQueues f)) :
    (filter_iirFilter fs f).1 =
      ((List.range 11).map
          (fun j => (iirBCoefficientConstants.getD f []).getD j 0
            * (queue_elements fs.yQueue).getD (10 - j) 0)).sum
        - ((List.range 10).map
          (fun j => (iirACoefficientConstants.getD f []).getD j 0
            * (queue_elements (fs.zQueues f)).getD (9 - j) 0)).sum ∧
    queue_newest ((filter_iirFilter fs f).2.zQueues f) = some (filter_iirFilter fs f).1 ∧
    queue_elements ((filter_iirFilter fs f).2.zQueues f) =
      (queue_elements (fs.zQueues f)).drop 1 ++ [(filter_iirFilter fs f).1] ∧
    queue_newest ((filter_iirFilter fs f).2.outputQueues f) =
      some (filter_iirFilter fs f).1 ∧
    (filter_iirFilter fs f).2.yQueue = fs.yQueue ∧
    (filter_iirFilter fs f).2.xQueue = fs.xQueue ∧
    ∀ g, g ≠ f →
      (filter_iirFilter fs f).2.zQueues g = fs.zQueues g ∧
      (filter_iirFilter fs f).2.outputQueues g = fs.outputQueues g := by
  have hywf : queue_wf fs.yQueue := queue_wf_of_reachable (by decide) hy
  have hzwf : queue_wf (fs.zQueues f) := queue_wf_of_reachable (by decide) hz
  have howf : queue_wf (fs.outputQueues f) := queue_wf_of_reachable (by decide) ho
  have hzsize : (fs.zQueues f).size = Z_QUEUE_SIZE :=
    queue_size_of_reachable (by decide) hz
  have hqz : (filter_iirFilter fs f).2.zQueues f =
      queue_overwritePush (fs.zQueues f) (filter_iirFilter fs f).1 := by
    simp only [filter_iirFilter, Function.update_same]
  have hqo : (filter_iirFilter fs f).2.outputQueues f =
      queue_overwritePush (fs.outputQueues f) (filter_iirFilter fs f).1 := by
    simp only [filter_iirFilter, Function.update_same]
  refine ⟨filter_iirFilter_value fs f hywf hyfull hzwf hzfull, ?_, ?_, ?_, rfl, rfl, ?_⟩
  · rw [hqz, queue_newest_overwritePush _ _ hzwf]
  · rw [hqz, queue_elements_overwritePush_full _ _ hzwf (hzfull.trans hzsize.symm)]
  · rw [hqo, queue_newest_overwritePush _ _ howf]
  · intro g hg
    simp only [filter_iirFilter, Function.update_noteq hg, and_self]

/-- Witness of C20: filter 3 on the filter data right after `filter_init`. -/
theorem C20_iirFilter_witness :
    queue_elementCount ((filter_init filter_programStart (fun _ _ => 0)).zQueues 3) =
      Z_QUEUE_SIZE ∧
    queue_newest
        ((filter_iirFilter (filter_init filter_programStart (fun _ _ => 0)) 3).2.zQueues 3) =
      some (filter_iirFilter (filter_init filter_programStart (fun _ _ => 0)) 3).1 :=
  ⟨(filter_init_queues_full filter_programStart (fun _ _ => 0) 3).2.2.2,
   (C20_iirFilter (filter_init filter_programStart (fun _ _ => 0)) 3 (by decide)
      (filter_init_queues_full filter_programStart (fun _ _ => 0) 3).2.1.1
      (filter_init_queues_full filter_programStart (fun _ _ => 0) 3).2.1.2
      (filter_init_queues_full filter_programStart (fun _ _ => 0) 3).2.2.1
      (filter_init_queues_full filter_programStart (fun _ _ => 0) 3).2.2.2
      (filter_init_outputQueue_full filter_programStart (fun _ _ => 0) 3).1).2.1⟩

/-! ## Lockout timer: duration of one lockout -/

theorem lockoutTimer_tick_idle_start (E c : Nat) (r : Bool) :
    lockoutTimer_tick E ⟨lockoutTimer_st_t.IDLE_ST, c, true, r⟩ =
      ⟨lockoutTimer_st_t.LOCKOUT_ST, (c + 1) % 4294967296, false, true⟩ := rfl

theorem lockoutTimer_tick_idle_nostart (E c : Nat) (r : Bool) :
    lockoutTimer_tick E ⟨lockoutTimer_st_t.IDLE_ST, c, false, r⟩ =
      ⟨lockoutTimer_st_t.IDLE_ST, c, false, r⟩ := rfl

theorem lockoutTimer_tick_init (E c : Nat) (b r : Bool) :
    lockoutTimer_tick E ⟨lockoutTimer_st_t.INIT_ST, c, b, r⟩ =
      ⟨lockoutTimer_st_t.IDLE_ST, c, b, r⟩ := rfl

theorem lockoutTimer_tick_lockout_lt (E c : Nat) (b r : Bool) (h : c < E) :
    lockoutTimer_tick E ⟨lockoutTimer_st_t.LOCKOUT_ST, c, b, r⟩ =
      ⟨lockoutTimer_st_t.LOCKOUT_ST, (c + 1) % 4294967296, b, r⟩ := by
  have h' : ¬ c ≥ E := by omega
  simp [lockoutTimer_tick, lockoutTimer_tick_transition, lockoutTimer_tick_action, h']

theorem lockoutTimer_tick_lockout_ge (E c : Nat) (b r : Bool) (h : E ≤ c) :
    lockoutTimer_tick E ⟨lockoutTimer_st_t.LOCKOUT_ST, c, b, r⟩ =
      ⟨lockoutTimer_st_t.IDLE_ST, 0, b, false⟩ := by
  have h' : c ≥ E := h
  simp [lockoutTimer_tick, lockoutTimer_tick_transition, lockoutTimer_tick_action, h']

/-- The invariant of the lockout timer: outside the lockout state the counter
is 0 and the running flag is clear; inside it the flag is set and the counter
has not passed the expiry value. -/
theorem lockoutTimer_reachable_inv (E : Nat) (hE : 1 ≤ E) (hE32 : E < 4294967296)
    (t : lockoutTimer_t) (h : lockoutTimer_reachable E t) :
    (t.currentState ≠ lockoutTimer_st_t.LOCKOUT_ST → t.lockoutCount = 0 ∧ t.timerRunning = false) ∧
    (t.currentState = lockoutTimer_st_t.LOCKOUT_ST →
      t.lockoutCount ≤ E ∧ t.timerRunning = true) := by
  obtain ⟨cs, rfl⟩ := h
  induction cs using List.reverseRecOn with
  | nil => exact ⟨fun _ => ⟨rfl, rfl⟩, fun h => by cases h⟩
  | append_singleton cs c ih =>
    rw [List.foldl_append, List.foldl_cons, List.foldl_nil]
    generalize List.foldl (lockoutTimer_call_step E) lockoutTimer_init cs = t at ih
    obtain ⟨st, cnt, sf, rn⟩ := t
    cases c with
    | start => exact ih
    | tick =>
      simp only [lockoutTimer_call_step]
      cases st with
      | INIT_ST =>
        rw [lockoutTimer_tick_init]
        have h1 := ih.1 (by simp)
        exact ⟨fun _ => h1, fun h => by cases h⟩
      | IDLE_ST =>
        have h1 := ih.1 (by simp)
        simp only at h1
        cases sf with
        | false =>
          rw [lockoutTimer_tick_idle_nostart]
          exact ⟨fun _ => h1, fun h => by cases h⟩
        | true =>
          rw [lockoutTimer_tick_idle_start]
          refine ⟨fun h => absurd rfl h, fun _ => ⟨?_, rfl⟩⟩
          simp only
          rw [h1.1]
          omega
      | LOCKOUT_ST =>
        have h1 := ih.2 rfl
        simp only at h1
        by_cases hc : cnt < E
        · rw [lockoutTimer_tick_lockout_lt E cnt sf rn hc]
          refine ⟨fun h => absurd rfl h, fun _ => ⟨?_, h1.2⟩⟩
          simp only
          omega
        · rw [lockoutTimer_tick_lockout_ge E cnt sf rn (by omega)]
          exact ⟨fun _ => ⟨rfl, rfl⟩, fun h => by cases h⟩

/-- After the tick that starts a lockout, the `n`-th tick finds the timer in the
lockout state with counter `n`. -/
theorem lockoutTimer_ticks_lockout (E : Nat) (hE32 : E < 4294967296) (r : Bool) (n : Nat)
    (h1 : 1 ≤ n) (hn : n ≤ E) :
    lockoutTimer_ticks E n ⟨lockoutTimer_st_t.IDLE_ST, 0, true, r⟩ =
      ⟨lockoutTimer_st_t.LOCKOUT_ST, n, false, true⟩ := by
  induction n with
  | zero => omega
  | succ n ih =>
    rw [lockoutTimer_ticks]
    by_cases h0 : n = 0
    · subst h0
      rw [lockoutTimer_ticks, lockoutTimer_tick_idle_start]
    · rw [ih (by omega) (by omega), lockoutTimer_tick_lockout_lt E n false true (by omega)]
      have : (n + 1) % 4294967296 = n + 1 := Nat.mod_eq_of_lt (by omega)
      rw [this]

/-- Claim C27: for an expiry value `E ≥ 1` (a 32-bit constant), from a reachable
idle state with no pending start, after `lockoutTimer_start` the timer reports
running after each of the next `E` ticks and not running after tick `E + 1`,
when it is idle again with its counter at 0. -/
theorem C27_lockout_lasts_E_ticks (E : Nat) (hE : 1 ≤ E) (hE32 : E < 4294967296)
    (t : lockoutTimer_t) (hreach : lockoutTimer_reachable E t)
    (hidle : t.currentState = lockoutTimer_st_t.IDLE_ST) (hstart : t.startTimer = false) :
    (∀ n, 1 ≤ n → n ≤ E →
      lockoutTimer_running (lockoutTimer_ticks E n (lockoutTimer_start t)) = true) ∧
    lockoutTimer_running (lockoutTimer_ticks E (E + 1) (lockoutTimer_start t)) = false ∧
    (lockoutTimer_ticks E (E + 1) (lockoutTimer_start t)).currentState =
      lockoutTimer_st_t.IDLE_ST ∧
    (lockoutTimer_ticks E (E + 1) (lockoutTimer_start t)).lockoutCount = 0 := by
  have hinv := (lockoutTimer_reachable_inv E hE hE32 t hreach).1 (by rw [hidle]; simp)
  obtain ⟨st, cnt, sf, rn⟩ := t
  simp only at hidle hstart hinv
  obtain ⟨hc, hr⟩ := hinv
  subst hidle hstart hc hr
  have hs : lockoutTimer_start ⟨lockoutTimer_st_t.IDLE_ST, 0, false, false⟩ =
      ⟨lockoutTimer_st_t.IDLE_ST, 0, true, false⟩ := rfl
  rw [hs]
  refine ⟨fun n h1 hn => ?_, ?_⟩
  · rw [lockoutTimer_ticks_lockout E hE32 false n h1 hn]
    rfl
  · rw [lockoutTimer_ticks, lockoutTimer_ticks_lockout E hE32 false E hE (le_refl E),
      lockoutTimer_tick_lockout_ge E E false true (le_refl E)]
    exact ⟨rfl, rfl, rfl⟩

/-- Claim C27 at `E = 3`, from the idle state reached by one tick after `lockoutTimer_init`. -/
theorem C27_lockout_lasts_E_ticks_witness :
    (∀ n, 1 ≤ n → n ≤ 3 →
      lockoutTimer_running (lockoutTimer_ticks 3 n
        (lockoutTimer_start (lockoutTimer_tick 3 lockoutTimer_init))) = true) ∧
    lockoutTimer_running (lockoutTimer_ticks 3 (3 + 1)
        (lockoutTimer_start (lockoutTimer_tick 3 lockoutTimer_init))) = false ∧
    (lockoutTimer_ticks 3 (3 + 1)
        (lockoutTimer_start (lockoutTimer_tick 3 lockoutTimer_init))).currentState =
      lockoutTimer_st_t.IDLE_ST ∧
    (lockoutTimer_ticks 3 (3 + 1)
        (lockoutTimer_start (lockoutTimer_tick 3 lockoutTimer_init))).lockoutCount = 0 :=
  C27_lockout_lasts_E_ticks 3 (by decide) (by decide) (lockoutTimer_tick 3 lockoutTimer_init)
    ⟨[lockoutTimer_call.tick], rfl⟩ rfl rfl

/-! ## Hit-LED timer: duration of one flash -/

theorem hitLedTimer_tick_init (c : Nat) (d b : Bool) :
    hitLedTimer_tick ⟨hitLed_state_t.LED_INIT_ST, c, d, b⟩ =
      (⟨hitLed_state_t.LED_IDLE_ST, c, d, b⟩, []) := rfl

theorem hitLedTimer_tick_idle_start (c : Nat) :
    hitLedTimer_tick ⟨hitLed_state_t.LED_IDLE_ST, c, false, true⟩ =
      (⟨hitLed_state_t.LED_ON_ST, (c + 1) % 4294967296, false, false⟩,
        [hitLed_write.jf3 LED_ON, hitLed_write.leds LED_ON]) := rfl

theorem hitLedTimer_tick_idle_nostart (c : Nat) (d : Bool) :
    hitLedTimer_tick ⟨hitLed_state_t.LED_IDLE_ST, c, d, false⟩ =
      (⟨hitLed_state_t.LED_IDLE_ST, c, d, false⟩, []) := by
  cases d <;> rfl

theorem hitLedTimer_tick_idle_disabled (c : Nat) (b : Bool) :
    hitLedTimer_tick ⟨hitLed_state_t.LED_IDLE_ST, c, true, b⟩ =
      (⟨hitLed_state_t.LED_IDLE_ST, c, true, b⟩, []) := by
  cases b <;> rfl

theorem hitLedTimer_tick_on_lt (c : Nat) (d b : Bool) (h : c < ON_TICKS) :
    hitLedTimer_tick ⟨hitLed_state_t.LED_ON_ST, c, d, b⟩ =
      (⟨hitLed_state_t.LED_ON_ST, (c + 1) % 4294967296, d, b⟩, []) := by
  have h' : ¬ c ≥ ON_TICKS := by omega
  simp [hitLedTimer_tick, hitLedTimer_tick_transition, hitLedTimer_tick_action, h']

theorem hitLedTimer_tick_on_ge (c : Nat) (d b : Bool) (h : ON_TICKS ≤ c) :
    hitLedTimer_tick ⟨hitLed_state_t.LED_ON_ST, c, d, b⟩ =
      (⟨hitLed_state_t.LED_IDLE_ST, 0, d, b⟩,
        [hitLed_write.jf3 LED_OFF, hitLed_write.leds LED_OFF]) := by
  have h' : c ≥ ON_TICKS := h
  simp [hitLedTimer_tick, hitLedTimer_tick_transition, hitLedTimer_tick_action, h']

theorem ON_TICKS_pos : 1 ≤ ON_TICKS := by
  unfold ON_TICKS
  omega

/-- The invariant of the hit-LED timer: outside the on state the counter is 0,
inside it the counter has not passed `ON_TICKS`. -/
theorem hitLedTimer_reachable_inv (t : hitLedTimer_t) (h : hitLedTimer_reachable t) :
    (t.hitLedState ≠ hitLed_state_t.LED_ON_ST → t.onCount = 0) ∧
    (t.hitLedState = hitLed_state_t.LED_ON_ST → t.onCount ≤ ON_TICKS) := by
  obtain ⟨cs, rfl⟩ := h
  induction cs using List.reverseRecOn with
  | nil => exact ⟨fun _ => rfl, fun h => by cases h⟩
  | append_singleton cs c ih =>
    rw [List.foldl_append, List.foldl_cons, List.foldl_nil]
    generalize List.foldl hitLedTimer_call_step hitLedTimer_init cs = t at ih
    obtain ⟨st, cnt, d, sf⟩ := t
    cases c with
    | start =>
      cases d
      · exact ih
      · exact ih
    | enable => exact ih
    | disable => exact ih
    | tick =>
      simp only [hitLedTimer_call_step]
      cases st with
      | LED_INIT_ST =>
        rw [hitLedTimer_tick_init]
        have h1 := ih.1 (by simp)
        exact ⟨fun _ => h1, fun h => by cases h⟩
      | LED_IDLE_ST =>
        have h1 := ih.1 (by simp)
        simp only at h1
        subst h1
        cases sf with
        | false =>
          rw [hitLedTimer_tick_idle_nostart]
          exact ⟨fun _ => rfl, fun h => by cases h⟩
        | true =>
          cases d with
          | true =>
            rw [hitLedTimer_tick_idle_disabled]
            exact ⟨fun _ => rfl, fun h => by cases h⟩
          | false =>
            rw [hitLedTimer_tick_idle_start]
            refine ⟨fun h => absurd rfl h, fun _ => ?_⟩
            simp [ON_TICKS]
      | LED_ON_ST =>
        have h1 := ih.2 rfl
        simp only at h1
        by_cases hc : cnt < ON_TICKS
        · rw [hitLedTimer_tick_on_lt cnt d sf hc]
          refine ⟨fun h => absurd rfl h, fun _ => ?_⟩
          simp only
          unfold ON_TICKS at hc ⊢
          omega
        · rw [hitLedTimer_tick_on_ge cnt d sf (by omega)]
          exact ⟨fun _ => rfl, fun h => by cases h⟩

/-- After a start in the idle state, the `n`-th tick finds the timer in the on
state with counter `n`. -/
theorem hitLedTimer_ticks_on (n : Nat) (h1 : 1 ≤ n) (hn : n ≤ ON_TICKS) :
    hitLedTimer_ticks n ⟨hitLed_state_t.LED_IDLE_ST, 0, false, true⟩ =
      ⟨hitLed_state_t.LED_ON_ST, n, false, false⟩ := by
  induction n with
  | zero => omega
  | succ n ih =>
    rw [hitLedTimer_ticks]
    by_cases h0 : n = 0
    · subst h0
      rw [hitLedTimer_ticks, hitLedTimer_tick_idle_start]
    · rw [ih (by omega) (by omega), hitLedTimer_tick_on_lt n false false (by omega)]
      have : (n + 1) % 4294967296 = n + 1 := by
        unfold ON_TICKS at hn
        exact Nat.mod_eq_of_lt (by omega)
      rw [this]

/-- While the timer is disabled, ticks in the idle state change nothing. -/
theorem hitLedTimer_ticks_idle_disabled (c : Nat) (b : Bool) (n : Nat) :
    hitLedTimer_ticks n ⟨hitLed_state_t.LED_IDLE_ST, c, true, b⟩ =
      ⟨hitLed_state_t.LED_IDLE_ST, c, true, b⟩ := by
  induction n with
  | zero => rfl
  | succ n ih => rw [hitLedTimer_ticks, ih, hitLedTimer_tick_idle_disabled]

theorem hitLedTimer_writesAt_succ (n : Nat) (t : hitLedTimer_t) :
    hitLedTimer_writesAt (n + 1) t = (hitLedTimer_tick (hitLedTimer_ticks n t)).2 := rfl

/-- Claim C28: from a reachable idle state, if the timer is enabled then after
`hitLedTimer_start` the next tick switches both indicators on, the timer reports
running after each of the next `ON_TICKS` ticks and not running after the
following tick, which switches both indicators off; if the timer is disabled,
`hitLedTimer_start` changes nothing and every later tick leaves the timer idle
and writes no indicator. -/
theorem C28_hitLed_lasts_ON_TICKS (t : hitLedTimer_t) (hreach : hitLedTimer_reachable t)
    (hidle : t.hitLedState = hitLed_state_t.LED_IDLE_ST) :
    (t.disabled = false →
      hitLedTimer_writesAt 1 (hitLedTimer_start t) =
        [hitLed_write.jf3 LED_ON, hitLed_write.leds LED_ON] ∧
      (∀ n, 1 ≤ n → n ≤ ON_TICKS →
        hitLedTimer_running (hitLedTimer_ticks n (hitLedTimer_start t)) = true ∧
        (2 ≤ n → hitLedTimer_writesAt n (hitLedTimer_start t) = [])) ∧
      hitLedTimer_running (hitLedTimer_ticks (ON_TICKS + 1) (hitLedTimer_start t)) = false ∧
      hitLedTimer_writesAt (ON_TICKS + 1) (hitLedTimer_start t) =
        [hitLed_write.jf3 LED_OFF, hitLed_write.leds LED_OFF]) ∧
    (t.disabled = true →
      hitLedTimer_start t = t ∧
      ∀ n, (hitLedTimer_ticks n (hitLedTimer_start t)).hitLedState =
          hitLed_state_t.LED_IDLE_ST ∧
        hitLedTimer_writesAt (n + 1) (hitLedTimer_start t) = []) := by
  have hinv := (hitLedTimer_reachable_inv t hreach).1 (by rw [hidle]; simp)
  obtain ⟨st, cnt, d, sf⟩ := t
  simp only at hidle hinv
  subst hidle hinv
  refine ⟨fun hd => ?_, fun hd => ?_⟩
  · simp only at hd
    subst hd
    have hs : hitLedTimer_start ⟨hitLed_state_t.LED_IDLE_ST, 0, false, sf⟩ =
        ⟨hitLed_state_t.LED_IDLE_ST, 0, false, true⟩ := rfl
    rw [hs]
    refine ⟨rfl, fun n h1 hn => ⟨?_, fun h2 => ?_⟩, ?_, ?_⟩
    · rw [hitLedTimer_ticks_on n h1 hn]
      rfl
    · unfold hitLedTimer_writesAt
      rw [hitLedTimer_ticks_on (n - 1) (by omega) (by omega),
        hitLedTimer_tick_on_lt (n - 1) false false (by omega)]
    · rw [hitLedTimer_ticks, hitLedTimer_ticks_on ON_TICKS ON_TICKS_pos (le_refl _),
        hitLedTimer_tick_on_ge ON_TICKS false false (le_refl _)]
      rfl
    · rw [hitLedTimer_writesAt_succ, hitLedTimer_ticks_on ON_TICKS ON_TICKS_pos (le_refl _),
        hitLedTimer_tick_on_ge ON_TICKS false false (le_refl _)]
  · simp only at hd
    subst hd
    have hs : hitLedTimer_start ⟨hitLed_state_t.LED_IDLE_ST, 0, true, sf⟩ =
        ⟨hitLed_state_t.LED_IDLE_ST, 0, true, sf⟩ := rfl
    rw [hs]
    refine ⟨rfl, fun n => ⟨?_, ?_⟩⟩
    · rw [hitLedTimer_ticks_idle_disabled]
    · rw [hitLedTimer_writesAt_succ, hitLedTimer_ticks_idle_disabled,
        hitLedTimer_tick_idle_disabled]

/-- Claim C28 at the idle state reached by one tick after `hitLedTimer_init`
(enabled), whose first conjunct is then unconditional. -/
theorem C28_hitLed_lasts_ON_TICKS_witness :
    hitLedTimer_writesAt 1 (hitLedTimer_start (hitLedTimer_tick hitLedTimer_init).1) =
      [hitLed_write.jf3 LED_ON, hitLed_write.leds LED_ON] ∧
    hitLedTimer_running (hitLedTimer_ticks (ON_TICKS + 1)
      (hitLedTimer_start (hitLedTimer_tick hitLedTimer_init).1)) = false :=
  have h := (C28_hitLed_lasts_ON_TICKS (hitLedTimer_tick hitLedTimer_init).1
    ⟨[hitLedTimer_call.tick], rfl⟩ rfl).1 rfl
  ⟨h.1, h.2.2.1⟩

/-! ## Transmitter: single ticks -/

theorem transmitter_ticks_succ (n : Nat) (t : transmitter_t) :
    transmitter_ticks (n + 1) t = transmitter_ticks n (transmitter_tick t) := by
  induction n with
  | zero => rfl
  | succ n ih => rw [transmitter_ticks, ih, ← transmitter_ticks]

theorem transmitter_ticks_add (m n : Nat) (t : transmitter_t) :
    transmitter_ticks (m + n) t = transmitter_ticks m (transmitter_ticks n t) := by
  induction m with
  | zero => rw [Nat.zero_add]; rfl
  | succ m ih => rw [Nat.succ_add, transmitter_ticks, ih, ← transmitter_ticks]

theorem transmitter_tick_init (c rf : Bool) (T a p fn pin : Nat) :
    transmitter_tick ⟨transmitter_state_t.TRANSMITTER_INIT_ST, c, rf, T, a, p, fn, pin⟩ =
      ⟨transmitter_state_t.TRANSMITTER_IDLE_ST, c, rf, transmitter_halfPeriod fn, a, p, fn,
        pin⟩ := rfl

theorem transmitter_tick_idle_run (c : Bool) (T a p fn pin : Nat) :
    transmitter_tick ⟨transmitter_state_t.TRANSMITTER_IDLE_ST, c, true, T, a, p, fn, pin⟩ =
      ⟨transmitter_state_t.TRANSMITTER_HIGH_ST, c, false, T, (a + 1) % 4294967296,
        (p + 1) % 4294967296, fn, TRANSMITTER_HIGH_VALUE⟩ := rfl

theorem transmitter_tick_idle_norun (c : Bool) (T a p fn pin : Nat) :
    transmitter_tick ⟨transmitter_state_t.TRANSMITTER_IDLE_ST, c, false, T, a, p, fn, pin⟩ =
      ⟨transmitter_state_t.TRANSMITTER_IDLE_ST, c, false, transmitter_halfPeriod fn, a, p, fn,
        pin⟩ := rfl

theorem transmitter_tick_high_lt (c rf : Bool) (T a p fn pin : Nat) (h : a < T) :
    transmitter_tick ⟨transmitter_state_t.TRANSMITTER_HIGH_ST, c, rf, T, a, p, fn, pin⟩ =
      ⟨transmitter_state_t.TRANSMITTER_HIGH_ST, c, rf, T, (a + 1) % 4294967296,
        (p + 1) % 4294967296, fn, pin⟩ := by
  have h' : ¬ a ≥ T := by omega
  simp [transmitter_tick, transmitter_tick_transition, transmitter_tick_action, h']

theorem transmitter_tick_high_ge (c rf : Bool) (T a p fn pin : Nat) (h : T ≤ a) :
    transmitter_tick ⟨transmitter_state_t.TRANSMITTER_HIGH_ST, c, rf, T, a, p, fn, pin⟩ =
      ⟨transmitter_state_t.TRANSMITTER_LOW_ST, c, rf, T, 1, (p + 1) % 4294967296, fn,
        TRANSMITTER_LOW_VALUE⟩ := by
  have h' : a ≥ T := h
  simp [transmitter_tick, transmitter_tick_transition, transmitter_tick_action, h']

theorem transmitter_tick_low_lt (c rf : Bool) (T a p fn pin : Nat) (h : a < T) :
    transmitter_tick ⟨transmitter_state_t.TRANSMITTER_LOW_ST, c, rf, T, a, p, fn, pin⟩ =
      ⟨transmitter_state_t.TRANSMITTER_LOW_ST, c, rf, T, (a + 1) % 4294967296,
        (p + 1) % 4294967296, fn, pin⟩ := by
  have h' : ¬ a ≥ T := by omega
  by_cases hp : p ≥ PULSE_TICKS <;>
    simp [transmitter_tick, transmitter_tick_transition, transmitter_tick_action, h', hp]

theorem transmitter_tick_low_ge (c rf : Bool) (T a p fn pin : Nat) (h : T ≤ a)
    (hp : p < PULSE_TICKS) :
    transmitter_tick ⟨transmitter_state_t.TRANSMITTER_LOW_ST, c, rf, T, a, p, fn, pin⟩ =
      ⟨transmitter_state_t.TRANSMITTER_HIGH_ST, c, rf, T, 1, (p + 1) % 4294967296, fn,
        TRANSMITTER_HIGH_VALUE⟩ := by
  have h' : a ≥ T := h
  have hp' : ¬ p ≥ PULSE_TICKS := by omega
  simp [transmitter_tick, transmitter_tick_transition, transmitter_tick_action, h', hp']

theorem transmitter_tick_boundary_oneshot (rf : Bool) (T a p fn pin : Nat) (h : T ≤ a)
    (hp : PULSE_TICKS ≤ p) :
    transmitter_tick ⟨transmitter_state_t.TRANSMITTER_LOW_ST, false, rf, T, a, p, fn, pin⟩ =
      ⟨transmitter_state_t.TRANSMITTER_IDLE_ST, false, rf, transmitter_halfPeriod fn, 0, 0, fn,
        TRANSMITTER_LOW_VALUE⟩ := by
  have h' : a ≥ T := h
  have hp' : p ≥ PULSE_TICKS := hp
  simp [transmitter_tick, transmitter_tick_transition, transmitter_tick_action, h', hp']

theorem transmitter_tick_boundary_continuous (rf : Bool) (T a p fn pin : Nat) (h : T ≤ a)
    (hp : PULSE_TICKS ≤ p) :
    transmitter_tick ⟨transmitter_state_t.TRANSMITTER_LOW_ST, true, rf, T, a, p, fn, pin⟩ =
      ⟨transmitter_state_t.TRANSMITTER_HIGH_ST, true, rf, transmitter_halfPeriod fn, 1, 1, fn,
        TRANSMITTER_HIGH_VALUE⟩ := by
  have h' : a ≥ T := h
  have hp' : p ≥ PULSE_TICKS := hp
  simp [transmitter_tick, transmitter_tick_transition, transmitter_tick_action, h', hp']

/-! ## Transmitter: the shape of a burst -/

/-- Inside a period the closed form advances by one tick. -/
theorem transmitter_tick_burstAt (c rf : Bool) (T fn j i : Nat) (hT2 : T ≤ 32767)
    (hj : 2 * T * j < PULSE_TICKS) (hi : i + 1 < 2 * T) :
    transmitter_tick (transmitter_burstAt c rf T fn j i) =
      transmitter_burstAt c rf T fn j (i + 1) := by
  unfold PULSE_TICKS at hj
  have h1 : ∀ x, x < 100000 → (x + 1) % 4294967296 = x + 1 :=
    fun x hx => Nat.mod_eq_of_lt (by omega)
  unfold transmitter_burstAt
  by_cases hlt : i + 1 < T
  · rw [if_pos (show i < T by omega), if_pos hlt, transmitter_tick_high_lt _ _ _ _ _ _ _ hlt,
      h1 _ (by omega), h1 _ (by omega)]
    refine transmitter_t.ext rfl rfl rfl rfl ?_ ?_ rfl rfl
    all_goals (simp only; try omega)
  · by_cases hlt2 : i < T
    · rw [if_pos hlt2, if_neg hlt, transmitter_tick_high_ge _ _ _ _ _ _ _ (by omega),
        h1 _ (by omega)]
      refine transmitter_t.ext rfl rfl rfl rfl ?_ ?_ rfl rfl
      all_goals (simp only; try omega)
    · rw [if_neg hlt2, if_neg hlt,
        transmitter_tick_low_lt _ _ _ _ _ _ _ (show i - T + 1 < T by omega),
        h1 _ (by omega), h1 _ (by omega)]
      refine transmitter_t.ext rfl rfl rfl rfl ?_ ?_ rfl rfl
      all_goals (simp only; try omega)

/-- At the end of a period that is not the last, the next period starts. -/
theorem transmitter_tick_burstAt_wrap (c rf : Bool) (T fn j : Nat) (hT : 1 ≤ T)
    (hT2 : T ≤ 32767) (hj : 2 * T * (j + 1) < PULSE_TICKS) :
    transmitter_tick (transmitter_burstAt c rf T fn j (2 * T - 1)) =
      transmitter_burstAt c rf T fn (j + 1) 0 := by
  have hmul : 2 * T * (j + 1) = 2 * T * j + 2 * T := Nat.mul_succ _ _
  rw [hmul] at hj
  unfold PULSE_TICKS at hj
  have h1 : ∀ x, x < 100000 → (x + 1) % 4294967296 = x + 1 :=
    fun x hx => Nat.mod_eq_of_lt (by omega)
  unfold transmitter_burstAt
  rw [if_neg (show ¬ 2 * T - 1 < T by omega), if_pos (show 0 < T by omega),
    transmitter_tick_low_ge _ _ _ _ _ _ _ (by omega) (by unfold PULSE_TICKS; omega),
    h1 _ (by omega), hmul]
  refine transmitter_t.ext rfl rfl rfl rfl ?_ ?_ rfl rfl
  all_goals (simp only; try omega)

/-- The state `2 * T * j + i` ticks after the first tick of a burst. -/
theorem transmitter_ticks_burst (c rf : Bool) (T fn : Nat) (hT : 1 ≤ T) (hT2 : T ≤ 32767)
    (j i : Nat) (hj : 2 * T * j < PULSE_TICKS) (hi : i < 2 * T) :
    transmitter_ticks (2 * T * j + i)
        ⟨transmitter_state_t.TRANSMITTER_HIGH_ST, c, rf, T, 1, 1, fn, TRANSMITTER_HIGH_VALUE⟩ =
      transmitter_burstAt c rf T fn j i := by
  induction j generalizing i with
  | zero =>
    induction i with
    | zero =>
      unfold transmitter_burstAt
      rw [if_pos (show 0 < T by omega)]
      rfl
    | succ i ih =>
      have h := ih (by omega)
      rw [← Nat.add_assoc, transmitter_ticks, h,
        transmitter_tick_burstAt c rf T fn 0 i hT2 hj hi]
  | succ j ihj =>
    have hmul : 2 * T * (j + 1) = 2 * T * j + 2 * T := Nat.mul_succ _ _
    have hj' : 2 * T * j < PULSE_TICKS := by omega
    induction i with
    | zero =>
      have h := ihj (2 * T - 1) hj' (by omega)
      have e : 2 * T * (j + 1) + 0 = (2 * T * j + (2 * T - 1)) + 1 := by omega
      rw [e, transmitter_ticks, h, transmitter_tick_burstAt_wrap c rf T fn j hT hT2 hj]
    | succ i ih =>
      have h := ih (by omega)
      rw [← Nat.add_assoc, transmitter_ticks, h,
        transmitter_tick_burstAt c rf T fn (j + 1) i hT2 hj hi]

/-- The number of periods of a burst is the least `k` with `2 * T * k ≥ PULSE_TICKS`. -/
theorem transmitter_burstTicks_spec (T : Nat) (hT : 1 ≤ T) :
    ∃ k, transmitter_burstTicks T = 2 * T * (k + 1) ∧ 2 * T * k < PULSE_TICKS ∧
      PULSE_TICKS ≤ 2 * T * (k + 1) := by
  have hD : 0 < 2 * T := by omega
  have h1 := Nat.div_add_mod (PULSE_TICKS + 2 * T - 1) (2 * T)
  have h2 := Nat.mod_lt (PULSE_TICKS + 2 * T - 1) hD
  have hk : 1 ≤ (PULSE_TICKS + 2 * T - 1) / (2 * T) := by
    rw [Nat.le_div_iff_mul_le hD]
    unfold PULSE_TICKS
    omega
  obtain ⟨k, hk'⟩ : ∃ k, (PULSE_TICKS + 2 * T - 1) / (2 * T) = k + 1 := ⟨_, (Nat.sub_add_cancel hk).symm⟩
  rw [hk'] at h1
  have hmul : 2 * T * (k + 1) = 2 * T * k + 2 * T := Nat.mul_succ _ _
  refine ⟨k, ?_, ?_, ?_⟩
  · unfold transmitter_burstTicks
    rw [hk']
  · unfold PULSE_TICKS at h1 h2 ⊢
    omega
  · unfold PULSE_TICKS at h1 h2 ⊢
    omega

/-! ## Transmitter: the claims about bursts -/

/-- For the ten player frequencies the half-period is between 12 and 34 ticks
and is exactly half of the table entry. -/
theorem transmitter_halfPeriod_bounds (f : Nat) (hf : f < 10) :
    12 ≤ transmitter_halfPeriod f ∧ transmitter_halfPeriod f ≤ 34 ∧
      2 * transmitter_halfPeriod f = filter_frequencyTickTable.getD f 0 := by
  interval_cases f <;> decide

/-- The tick that starts a burst leaves the machine in the high state with both
counters at 1 and the pin high. -/
theorem transmitter_tick_of_burstStarts (t : transmitter_t) (h : transmitter_burstStarts t) :
    ∃ c rf, transmitter_tick t =
      ⟨transmitter_state_t.TRANSMITTER_HIGH_ST, c, rf, (transmitter_tick t).timeOnTicks, 1, 1,
        t.frequencyNum, TRANSMITTER_HIGH_VALUE⟩ := by
  obtain ⟨st, c, rf, T, a, p, fn, pin⟩ := t
  rcases h with ⟨hs, hr, ha, hp⟩ | ⟨⟨hs, hp, ha⟩, hc⟩
  · simp only at hs hr ha hp
    subst hs hr ha hp
    exact ⟨c, false, rfl⟩
  · simp only at hs hp ha hc
    subst hs hc
    refine ⟨true, rf, ?_⟩
    rw [transmitter_tick_boundary_continuous rf T a p fn pin ha hp]

theorem transmitter_burstAt_jf1 (c rf : Bool) (T fn j i : Nat) :
    (transmitter_burstAt c rf T fn j i).jf1 =
      if i < T then TRANSMITTER_HIGH_VALUE else TRANSMITTER_LOW_VALUE := by
  unfold transmitter_burstAt
  split <;> rfl

theorem transmitter_burstAt_timeOnTicks (c rf : Bool) (T fn j i : Nat) :
    (transmitter_burstAt c rf T fn j i).timeOnTicks = T := by
  unfold transmitter_burstAt
  split <;> rfl

theorem transmitter_burstAt_running (c rf : Bool) (T fn j i : Nat) :
    transmitter_running (transmitter_burstAt c rf T fn j i) = true := by
  unfold transmitter_burstAt
  split <;> rfl

/-- Claim C21: for a frequency number `f < 10` whose half-period
`T = filter_frequencyTickTable[f] / 2` is in effect for a burst, in every period
`j` of the burst the pin is high after each of the first `T` ticks and low after
each of the next `T` ticks; the period `2 * T` is the table entry, and the
half-period in use does not change during the burst. -/
theorem C21_square_wave (f : Nat) (hf : f < 10) (t : transmitter_t)
    (hstart : transmitter_burstStarts t)
    (hT : (transmitter_tick t).timeOnTicks = transmitter_halfPeriod f)
    (j i : Nat) (hj : 2 * transmitter_halfPeriod f * j < PULSE_TICKS)
    (hi : i < 2 * transmitter_halfPeriod f) :
    2 * transmitter_halfPeriod f = filter_frequencyTickTable.getD f 0 ∧
    (transmitter_ticks (2 * transmitter_halfPeriod f * j + i) (transmitter_tick t)).jf1 =
      (if i < transmitter_halfPeriod f then TRANSMITTER_HIGH_VALUE
        else TRANSMITTER_LOW_VALUE) ∧
    (transmitter_ticks (2 * transmitter_halfPeriod f * j + i)
      (transmitter_tick t)).timeOnTicks = transmitter_halfPeriod f := by
  obtain ⟨hlo, hhi, heven⟩ := transmitter_halfPeriod_bounds f hf
  obtain ⟨c, rf, htick⟩ := transmitter_tick_of_burstStarts t hstart
  rw [hT] at htick
  rw [htick, transmitter_ticks_burst c rf (transmitter_halfPeriod f) t.frequencyNum
    (by omega) (by omega) j i hj hi]
  exact ⟨heven, transmitter_burstAt_jf1 _ _ _ _ _ _, transmitter_burstAt_timeOnTicks _ _ _ _ _ _⟩

/-- Claim C21 at frequency 9 (half-period 12): the pin is low again after the
13th tick of a burst started from idle. -/
theorem C21_square_wave_witness :
    2 * transmitter_halfPeriod 9 = filter_frequencyTickTable.getD 9 0 ∧
    (transmitter_ticks (2 * transmitter_halfPeriod 9 * 0 + 12)
      (transmitter_tick (transmitter_run
        ⟨transmitter_state_t.TRANSMITTER_IDLE_ST, false, false, 12, 0, 0, 9, 0⟩))).jf1 =
      (if 12 < transmitter_halfPeriod 9 then TRANSMITTER_HIGH_VALUE
        else TRANSMITTER_LOW_VALUE) ∧
    (transmitter_ticks (2 * transmitter_halfPeriod 9 * 0 + 12)
      (transmitter_tick (transmitter_run
        ⟨transmitter_state_t.TRANSMITTER_IDLE_ST, false, false, 12, 0, 0, 9, 0⟩))).timeOnTicks =
      transmitter_halfPeriod 9 :=
  C21_square_wave 9 (by decide)
    (transmitter_run ⟨transmitter_state_t.TRANSMITTER_IDLE_ST, false, false, 12, 0, 0, 9, 0⟩)
    (Or.inl ⟨rfl, rfl, rfl, rfl⟩) (by decide) 0 12 (by decide) (by decide)

/-- In the idle state without a run request, ticks only reload the half-period. -/
theorem transmitter_ticks_idle (c : Bool) (T a p fn pin : Nat) (m : Nat) :
    (transmitter_ticks m
      ⟨transmitter_state_t.TRANSMITTER_IDLE_ST, c, false, T, a, p, fn, pin⟩).transmitterState =
        transmitter_state_t.TRANSMITTER_IDLE_ST := by
  induction m generalizing T with
  | zero => rfl
  | succ m ih => rw [transmitter_ticks_succ, transmitter_tick_idle_norun, ih]

/-- Claim C22: in one-shot mode, for a frequency number `f < 10` with half-period
`T`, after `transmitter_run` from the idle state the transmitter reports running
after each of the next `2 * T * ceil(20000 / (2 * T))` ticks and not running
after the following tick, when the pin is low and the machine idle; with no
further `transmitter_run` it stays idle. -/
theorem C22_one_shot_burst (f : Nat) (hf : f < 10) (t : transmitter_t)
    (hidle : t.transmitterState = transmitter_state_t.TRANSMITTER_IDLE_ST)
    (hmode : t.continuousMode = false) (hc0 : t.timeOnCount = 0) (hp0 : t.pulseCount = 0)
    (hT : t.timeOnTicks = transmitter_halfPeriod f) :
    (∀ n, 1 ≤ n → n ≤ transmitter_burstTicks (transmitter_halfPeriod f) →
      transmitter_running (transmitter_ticks n (transmitter_run t)) = true) ∧
    transmitter_running (transmitter_ticks (transmitter_burstTicks (transmitter_halfPeriod f) + 1)
      (transmitter_run t)) = false ∧
    (transmitter_ticks (transmitter_burstTicks (transmitter_halfPeriod f) + 1)
      (transmitter_run t)).jf1 = TRANSMITTER_LOW_VALUE ∧
    (∀ m, (transmitter_ticks (transmitter_burstTicks (transmitter_halfPeriod f) + 1 + m)
      (transmitter_run t)).transmitterState = transmitter_state_t.TRANSMITTER_IDLE_ST) := by
  obtain ⟨hlo, hhi, -⟩ := transmitter_halfPeriod_bounds f hf
  obtain ⟨k, hN, hk1, hk2⟩ := transmitter_burstTicks_spec (transmitter_halfPeriod f) (by omega)
  generalize transmitter_halfPeriod f = T at *
  generalize transmitter_burstTicks T = N at *
  obtain ⟨st, c, rf, T0, a, p, fn, pin⟩ := t
  simp only at hidle hmode hc0 hp0 hT
  subst hidle hmode hc0 hp0 hT
  have hmul : 2 * T0 * (k + 1) = 2 * T0 * k + 2 * T0 := Nat.mul_succ _ _
  have hrun : transmitter_tick (transmitter_run
      ⟨transmitter_state_t.TRANSMITTER_IDLE_ST, false, rf, T0, 0, 0, fn, pin⟩) =
      ⟨transmitter_state_t.TRANSMITTER_HIGH_ST, false, false, T0, 1, 1, fn,
        TRANSMITTER_HIGH_VALUE⟩ := rfl
  have hlast : transmitter_ticks (N + 1) (transmitter_run
      ⟨transmitter_state_t.TRANSMITTER_IDLE_ST, false, rf, T0, 0, 0, fn, pin⟩) =
      ⟨transmitter_state_t.TRANSMITTER_IDLE_ST, false, false, transmitter_halfPeriod fn, 0, 0,
        fn, TRANSMITTER_LOW_VALUE⟩ := by
    have e : N = (2 * T0 * k + (2 * T0 - 1)) + 1 := by omega
    rw [transmitter_ticks_succ, hrun, e, transmitter_ticks,
      transmitter_ticks_burst false false T0 fn (by omega) (by omega) k (2 * T0 - 1) hk1
        (by omega)]
    unfold transmitter_burstAt
    rw [if_neg (show ¬ 2 * T0 - 1 < T0 by omega),
      transmitter_tick_boundary_oneshot false T0 _ _ fn _ (by omega) (by omega)]
  refine ⟨fun n h1 hn => ?_, ?_, ?_, fun m => ?_⟩
  · obtain ⟨m, rfl⟩ : ∃ m, n = m + 1 := ⟨n - 1, by omega⟩
    have hD : 0 < 2 * T0 := by omega
    have hm : m < 2 * T0 * (k + 1) := by omega
    have hq : m / (2 * T0) < k + 1 := Nat.div_lt_of_lt_mul hm
    have hle : 2 * T0 * (m / (2 * T0)) ≤ 2 * T0 * k := Nat.mul_le_mul_left _ (by omega)
    have hdm := Nat.div_add_mod m (2 * T0)
    rw [transmitter_ticks_succ, hrun, ← hdm,
      transmitter_ticks_burst false false T0 fn (by omega) (by omega) (m / (2 * T0))
        (m % (2 * T0)) (by omega) (Nat.mod_lt _ hD)]
    exact transmitter_burstAt_running _ _ _ _ _ _
  · rw [hlast]
    rfl
  · rw [hlast]
  · rw [Nat.add_comm _ m, transmitter_ticks_add, hlast, transmitter_ticks_idle]

/-- Claim C22 at frequency 0 from the idle state that follows `transmitter_init`. -/
theorem C22_one_shot_burst_witness :
    transmitter_running (transmitter_ticks (transmitter_burstTicks (transmitter_halfPeriod 0) + 1)
      (transmitter_run (transmitter_tick (transmitter_init 0)))) = false :=
  (C22_one_shot_burst 0 (by decide) (transmitter_tick (transmitter_init 0)) rfl rfl rfl rfl
    rfl).2.1

/-! ## Transmitter: continuous mode and frequency changes -/

/-- In continuous mode a tick in the high or low state ends in the high or low
state, and the mode is kept. -/
theorem transmitter_tick_continuous_inv (t : transmitter_t)
    (hs : t.transmitterState = transmitter_state_t.TRANSMITTER_HIGH_ST ∨
      t.transmitterState = transmitter_state_t.TRANSMITTER_LOW_ST)
    (hc : t.continuousMode = true) :
    ((transmitter_tick t).transmitterState = transmitter_state_t.TRANSMITTER_HIGH_ST ∨
      (transmitter_tick t).transmitterState = transmitter_state_t.TRANSMITTER_LOW_ST) ∧
    (transmitter_tick t).continuousMode = true := by
  obtain ⟨st, c, rf, T, a, p, fn, pin⟩ := t
  simp only at hs hc
  subst hc
  rcases hs with hs | hs <;> subst hs
  · by_cases h : a < T
    · rw [transmitter_tick_high_lt _ _ _ _ _ _ _ h]
      exact ⟨Or.inl rfl, rfl⟩
    · rw [transmitter_tick_high_ge _ _ _ _ _ _ _ (by omega)]
      exact ⟨Or.inr rfl, rfl⟩
  · by_cases h : a < T
    · rw [transmitter_tick_low_lt _ _ _ _ _ _ _ h]
      exact ⟨Or.inr rfl, rfl⟩
    · by_cases hp : p < PULSE_TICKS
      · rw [transmitter_tick_low_ge _ _ _ _ _ _ _ (by omega) hp]
        exact ⟨Or.inl rfl, rfl⟩
      · rw [transmitter_tick_boundary_continuous _ _ _ _ _ _ (by omega) (by omega)]
        exact ⟨Or.inl rfl, rfl⟩

/-- Calls other than `transmitter_setContinuousMode(false)` keep a continuous
burst going. -/
theorem transmitter_calls_continuous_inv (cs : List transmitter_call) (t : transmitter_t)
    (hs : t.transmitterState = transmitter_state_t.TRANSMITTER_HIGH_ST ∨
      t.transmitterState = transmitter_state_t.TRANSMITTER_LOW_ST)
    (hc : t.continuousMode = true)
    (hcs : ∀ c ∈ cs, c ≠ transmitter_call.setContinuousMode false) :
    ((transmitter_calls t cs).transmitterState = transmitter_state_t.TRANSMITTER_HIGH_ST ∨
      (transmitter_calls t cs).transmitterState = transmitter_state_t.TRANSMITTER_LOW_ST) ∧
    (transmitter_calls t cs).continuousMode = true := by
  induction cs generalizing t with
  | nil => exact ⟨hs, hc⟩
  | cons c cs ih =>
    have hc' := hcs c (List.mem_cons_self _ _)
    have hcs' : ∀ c ∈ cs, c ≠ transmitter_call.setContinuousMode false :=
      fun x hx => hcs x (List.mem_cons_of_mem _ hx)
    unfold transmitter_calls
    rw [List.foldl_cons]
    cases c with
    | tick =>
      have h := transmitter_tick_continuous_inv t hs hc
      exact ih _ h.1 h.2 hcs'
    | run => exact ih _ hs hc hcs'
    | setFrequencyNumber f => exact ih _ hs hc hcs'
    | setContinuousMode b =>
      cases b with
      | false => exact absurd rfl hc'
      | true => exact ih _ hs rfl hcs'

/-- After `transmitter_run` in continuous mode the next tick ends in the high or
low state, when the machine has left its initial state; from the initial state
it takes two ticks. -/
theorem transmitter_tick_run_continuous (t : transmitter_t) (hc : t.continuousMode = true) :
    (t.transmitterState ≠ transmitter_state_t.TRANSMITTER_INIT_ST →
      ((transmitter_tick (transmitter_run t)).transmitterState =
          transmitter_state_t.TRANSMITTER_HIGH_ST ∨
        (transmitter_tick (transmitter_run t)).transmitterState =
          transmitter_state_t.TRANSMITTER_LOW_ST) ∧
      (transmitter_tick (transmitter_run t)).continuousMode = true) ∧
    (t.transmitterState = transmitter_state_t.TRANSMITTER_INIT_ST →
      (transmitter_tick (transmitter_run t)).transmitterState =
        transmitter_state_t.TRANSMITTER_IDLE_ST ∧
      (transmitter_tick (transmitter_tick (transmitter_run t))).transmitterState =
        transmitter_state_t.TRANSMITTER_HIGH_ST ∧
      (transmitter_tick (transmitter_tick (transmitter_run t))).continuousMode = true) := by
  obtain ⟨st, c, rf, T, a, p, fn, pin⟩ := t
  simp only at hc
  subst hc
  refine ⟨fun hinit => ?_, fun hinit => ?_⟩
  · simp only at hinit
    cases st with
    | TRANSMITTER_INIT_ST => exact absurd rfl hinit
    | TRANSMITTER_IDLE_ST => exact ⟨Or.inl rfl, rfl⟩
    | TRANSMITTER_HIGH_ST => exact transmitter_tick_continuous_inv _ (Or.inl rfl) rfl
    | TRANSMITTER_LOW_ST => exact transmitter_tick_continuous_inv _ (Or.inr rfl) rfl
  · simp only at hinit
    subst hinit
    exact ⟨rfl, rfl, rfl⟩

/-- C23 as stated fails when `transmitter_run` is called before the first tick:
after `transmitter_init`, `transmitter_setContinuousMode(true)` and
`transmitter_run`, continuous mode is set and the run flag is up, but the first
tick only moves the machine from the initial state to idle, where
`transmitter_running` is false; it is true after the second tick. -/
theorem C23_run_before_first_tick :
    (transmitter_run
      (transmitter_setContinuousMode (transmitter_init 0) true)).continuousMode = true ∧
    (transmitter_run
      (transmitter_setContinuousMode (transmitter_init 0) true)).runFlag = true ∧
    (transmitter_tick (transmitter_run
      (transmitter_setContinuousMode (transmitter_init 0) true))).transmitterState =
        transmitter_state_t.TRANSMITTER_IDLE_ST ∧
    (transmitter_tick (transmitter_run
      (transmitter_setContinuousMode (transmitter_init 0) true))).continuousMode = true ∧
    transmitter_running (transmitter_tick (transmitter_run
      (transmitter_setContinuousMode (transmitter_init 0) true))) = false ∧
    transmitter_running (transmitter_tick (transmitter_tick (transmitter_run
      (transmitter_setContinuousMode (transmitter_init 0) true)))) = true := by
  refine ⟨rfl, rfl, rfl, rfl, rfl, rfl⟩

/-- Claim C23, amended: in continuous mode a tick taken in the high or low state,
with any counter values, ends in the high or low state; hence after
`transmitter_run` in a machine that has left its initial state (at least one
tick since `transmitter_init`), `transmitter_running` is true after the next tick
and after every later call, as long as continuous mode is not switched off.
When `transmitter_run` is called in the initial state, the first tick ends in
idle, where `transmitter_running` is false, and `transmitter_running` is true
after the second tick and after every later call. -/
theorem C23_continuous_never_idle (t : transmitter_t) (hc : t.continuousMode = true) :
    ((t.transmitterState = transmitter_state_t.TRANSMITTER_HIGH_ST ∨
        t.transmitterState = transmitter_state_t.TRANSMITTER_LOW_ST) →
      ((transmitter_tick t).transmitterState = transmitter_state_t.TRANSMITTER_HIGH_ST ∨
        (transmitter_tick t).transmitterState = transmitter_state_t.TRANSMITTER_LOW_ST)) ∧
    (t.transmitterState ≠ transmitter_state_t.TRANSMITTER_INIT_ST →
      ∀ cs : List transmitter_call,
        (∀ c ∈ cs, c ≠ transmitter_call.setContinuousMode false) →
        transmitter_running
          (transmitter_calls (transmitter_tick (transmitter_run t)) cs) = true) ∧
    (t.transmitterState = transmitter_state_t.TRANSMITTER_INIT_ST →
      transmitter_running (transmitter_tick (transmitter_run t)) = false ∧
      ∀ cs : List transmitter_call,
        (∀ c ∈ cs, c ≠ transmitter_call.setContinuousMode false) →
        transmitter_running
          (transmitter_calls
            (transmitter_tick (transmitter_tick (transmitter_run t))) cs) = true) := by
  refine ⟨fun hs => (transmitter_tick_continuous_inv t hs hc).1, fun hinit cs hcs => ?_,
    fun hinit => ⟨?_, fun cs hcs => ?_⟩⟩
  · have hfirst := (transmitter_tick_run_continuous t hc).1 hinit
    have h := (transmitter_calls_continuous_inv cs _ hfirst.1 hfirst.2 hcs).1
    unfold transmitter_running
    rcases h with h | h <;> rw [h] <;> rfl
  · have h := ((transmitter_tick_run_continuous t hc).2 hinit).1
    unfold transmitter_running
    rw [h]
    rfl
  · have hsecond := ((transmitter_tick_run_continuous t hc).2 hinit).2
    have h := (transmitter_calls_continuous_inv cs _ (Or.inl hsecond.1) hsecond.2 hcs).1
    unfold transmitter_running
    rcases h with h | h <;> rw [h] <;> rfl

/-- Claim C23 at the idle state after `transmitter_init` and
`transmitter_setContinuousMode(true)`: after `transmitter_run`, a tick, a change
of frequency and two more ticks the transmitter is running. -/
theorem C23_continuous_never_idle_witness :
    transmitter_running (transmitter_calls
      (transmitter_tick (transmitter_run
        (transmitter_setContinuousMode (transmitter_tick (transmitter_init 0)) true)))
      [transmitter_call.setFrequencyNumber 3, transmitter_call.tick,
        transmitter_call.tick]) = true :=
  (C23_continuous_never_idle
    (transmitter_setContinuousMode (transmitter_tick (transmitter_init 0)) true) rfl).2.1
    (by decide) _ (by decide)

theorem transmitter_setFrequencyNumber_mk (st : transmitter_state_t) (c rf : Bool)
    (T a p fn pin f : Nat) :
    transmitter_setFrequencyNumber ⟨st, c, rf, T, a, p, fn, pin⟩ f =
      ⟨st, c, rf, T, a, p, f % 65536, pin⟩ := rfl

/-- Away from a burst boundary, a tick in the high or low state does not read
the frequency number: it commutes with `transmitter_setFrequencyNumber`, stays
in the burst and keeps the half-period. -/
theorem transmitter_tick_in_burst (t : transmitter_t) (f : Nat)
    (hs : t.transmitterState = transmitter_state_t.TRANSMITTER_HIGH_ST ∨
      t.transmitterState = transmitter_state_t.TRANSMITTER_LOW_ST)
    (hnb : ¬ transmitter_burstBoundary t) :
    transmitter_tick (transmitter_setFrequencyNumber t f) =
      transmitter_setFrequencyNumber (transmitter_tick t) f ∧
    ((transmitter_tick t).transmitterState = transmitter_state_t.TRANSMITTER_HIGH_ST ∨
      (transmitter_tick t).transmitterState = transmitter_state_t.TRANSMITTER_LOW_ST) ∧
    (transmitter_tick t).timeOnTicks = t.timeOnTicks := by
  obtain ⟨st, c, rf, T, a, p, fn, pin⟩ := t
  unfold transmitter_burstBoundary at hnb
  simp only at hs hnb
  rw [transmitter_setFrequencyNumber_mk]
  rcases hs with hs | hs <;> subst hs
  · by_cases h : a < T
    · rw [transmitter_tick_high_lt _ _ _ _ _ _ _ h, transmitter_tick_high_lt _ _ _ _ _ _ _ h]
      exact ⟨rfl, Or.inl rfl, rfl⟩
    · rw [transmitter_tick_high_ge _ _ _ _ _ _ _ (by omega),
        transmitter_tick_high_ge _ _ _ _ _ _ _ (by omega)]
      exact ⟨rfl, Or.inr rfl, rfl⟩
  · by_cases h : a < T
    · rw [transmitter_tick_low_lt _ _ _ _ _ _ _ h, transmitter_tick_low_lt _ _ _ _ _ _ _ h]
      exact ⟨rfl, Or.inr rfl, rfl⟩
    · have hp : p < PULSE_TICKS := by
        by_contra hp
        exact hnb ⟨rfl, by omega, by omega⟩
      rw [transmitter_tick_low_ge _ _ _ _ _ _ _ (by omega) hp,
        transmitter_tick_low_ge _ _ _ _ _ _ _ (by omega) hp]
      exact ⟨rfl, Or.inl rfl, rfl⟩

/-- A tick changes the half-period only at a burst boundary or when it ends in
the idle state. -/
theorem transmitter_tick_reload (u : transmitter_t)
    (h : (transmitter_tick u).timeOnTicks ≠ u.timeOnTicks) :
    transmitter_burstBoundary u ∨
      (transmitter_tick u).transmitterState = transmitter_state_t.TRANSMITTER_IDLE_ST := by
  obtain ⟨st, c, rf, T, a, p, fn, pin⟩ := u
  cases st with
  | TRANSMITTER_INIT_ST => exact Or.inr rfl
  | TRANSMITTER_IDLE_ST =>
    cases rf with
    | false => exact Or.inr rfl
    | true => exact absurd rfl h
  | TRANSMITTER_HIGH_ST =>
    have h2 := (transmitter_tick_in_burst
      ⟨transmitter_state_t.TRANSMITTER_HIGH_ST, c, rf, T, a, p, fn, pin⟩ 0 (Or.inl rfl)
      (fun hb => by cases hb.1)).2.2
    exact absurd h2 h
  | TRANSMITTER_LOW_ST =>
    by_cases hb : transmitter_burstBoundary
        ⟨transmitter_state_t.TRANSMITTER_LOW_ST, c, rf, T, a, p, fn, pin⟩
    · exact Or.inl hb
    · exact absurd (transmitter_tick_in_burst _ 0 (Or.inr rfl) hb).2.2 h

/-- Claim C24: `transmitter_setFrequencyNumber` does not write the half-period;
called in the high or low state, it leaves every tick up to the burst boundary
as it would have been (same state, counters, pin and half-period, only the
stored frequency number differs); and a tick changes the half-period only at a
burst boundary or when it ends in the idle state. -/
theorem C24_frequency_change_waits (t : transmitter_t) (f n : Nat)
    (hs : t.transmitterState = transmitter_state_t.TRANSMITTER_HIGH_ST ∨
      t.transmitterState = transmitter_state_t.TRANSMITTER_LOW_ST)
    (hnb : ∀ m, m < n → ¬ transmitter_burstBoundary (transmitter_ticks m t)) :
    (transmitter_setFrequencyNumber t f).timeOnTicks = t.timeOnTicks ∧
    transmitter_ticks n (transmitter_setFrequencyNumber t f) =
      transmitter_setFrequencyNumber (transmitter_ticks n t) f ∧
    (transmitter_ticks n (transmitter_setFrequencyNumber t f)).timeOnTicks = t.timeOnTicks ∧
    (∀ u : transmitter_t, (transmitter_tick u).timeOnTicks ≠ u.timeOnTicks →
      transmitter_burstBoundary u ∨
        (transmitter_tick u).transmitterState = transmitter_state_t.TRANSMITTER_IDLE_ST) := by
  have key : ∀ n, (∀ m, m < n → ¬ transmitter_burstBoundary (transmitter_ticks m t)) →
      transmitter_ticks n (transmitter_setFrequencyNumber t f) =
        transmitter_setFrequencyNumber (transmitter_ticks n t) f ∧
      ((transmitter_ticks n t).transmitterState = transmitter_state_t.TRANSMITTER_HIGH_ST ∨
        (transmitter_ticks n t).transmitterState = transmitter_state_t.TRANSMITTER_LOW_ST) ∧
      (transmitter_ticks n t).timeOnTicks = t.timeOnTicks := by
    intro n
    induction n with
    | zero => exact fun _ => ⟨rfl, hs, rfl⟩
    | succ n ih =>
      intro h
      obtain ⟨h1, h2, h3⟩ := ih (fun m hm => h m (by omega))
      obtain ⟨k1, k2, k3⟩ := transmitter_tick_in_burst (transmitter_ticks n t) f h2
        (h n (by omega))
      refine ⟨?_, k2, ?_⟩
      · rw [transmitter_ticks, h1, k1]
        rfl
      · rw [transmitter_ticks, k3, h3]
  obtain ⟨h1, -, h3⟩ := key n hnb
  refine ⟨rfl, h1, ?_, transmitter_tick_reload⟩
  rw [h1]
  exact h3

/-- Claim C24 on a burst of frequency 0 just started: switching to frequency 9
leaves the next three ticks as they were. -/
theorem C24_frequency_change_waits_witness :
    transmitter_ticks 3 (transmitter_setFrequencyNumber
      ⟨transmitter_state_t.TRANSMITTER_HIGH_ST, false, false, 34, 1, 1, 0, 1⟩ 9) =
    transmitter_setFrequencyNumber (transmitter_ticks 3
      ⟨transmitter_state_t.TRANSMITTER_HIGH_ST, false, false, 34, 1, 1, 0, 1⟩) 9 :=
  (C24_frequency_change_waits
    ⟨transmitter_state_t.TRANSMITTER_HIGH_ST, false, false, 34, 1, 1, 0, 1⟩ 9 3 (Or.inl rfl)
    (by
      intro m hm hb
      have h3 : m = 0 ∨ m = 1 ∨ m = 2 := by omega
      rcases h3 with h | h | h <;> subst h <;> cases hb.1)).2.1

/-! ## Trigger: single ticks with the trigger enabled -/

theorem triggerPressed_enabled (st : trigger_state_t) (w rc r : Nat) (rl : Bool)
    (x : trigger_input) :
    triggerPressed ⟨st, w, rc, false, rl, r⟩ x = trigger_input_pressed x := by
  simp [triggerPressed, trigger_input_pressed]

theorem trigger_tick_idle_pressed (w rc r : Nat) (rl : Bool) (x : trigger_input)
    (hr : r ≠ 0) (hx : trigger_input_pressed x = true) :
    trigger_tick ⟨trigger_state_t.TRIGGER_IDLE_ST, w, rc, false, rl, r⟩ x =
      (⟨trigger_state_t.TRIGGER_COUNT_1_ST, (w + 1) % 4294967296, rc, false, rl, r⟩, []) := by
  simp [trigger_tick, trigger_tick_transition, trigger_tick_action, triggerPressed_enabled,
    hr, hx]

theorem trigger_tick_idle_released (w rc r : Nat) (rl : Bool) (x : trigger_input)
    (hr : r ≠ 0) (hx : trigger_input_pressed x = false) :
    trigger_tick ⟨trigger_state_t.TRIGGER_IDLE_ST, w, rc, false, rl, r⟩ x =
      (⟨trigger_state_t.TRIGGER_IDLE_ST, w, rc, false, rl, r⟩, []) := by
  simp [trigger_tick, trigger_tick_transition, trigger_tick_action, triggerPressed_enabled,
    hr, hx]

theorem trigger_tick_idle_empty (w rc : Nat) (rl : Bool) (x : trigger_input) :
    trigger_tick ⟨trigger_state_t.TRIGGER_IDLE_ST, w, rc, false, rl, 0⟩ x =
      (⟨trigger_state_t.TRIGGER_RELOAD_ST, w, 1, false, rl, 0⟩, []) := by
  simp [trigger_tick, trigger_tick_transition, trigger_tick_action]

theorem trigger_tick_count1_wait (w rc r : Nat) (rl : Bool) (x : trigger_input)
    (hw : w < DEBOUNCE_TICKS) (hx : trigger_input_pressed x = true) :
    trigger_tick ⟨trigger_state_t.TRIGGER_COUNT_1_ST, w, rc, false, rl, r⟩ x =
      (⟨trigger_state_t.TRIGGER_COUNT_1_ST, (w + 1) % 4294967296, rc, false, rl, r⟩, []) := by
  have hw' : ¬ w ≥ DEBOUNCE_TICKS := by omega
  simp [trigger_tick, trigger_tick_transition, trigger_tick_action, triggerPressed_enabled,
    hw', hx]

theorem trigger_tick_count1_fire (w rc r : Nat) (rl : Bool) (x : trigger_input)
    (hw : DEBOUNCE_TICKS ≤ w) (hr : r ≠ 0) (hx : trigger_input_pressed x = true) :
    trigger_tick ⟨trigger_state_t.TRIGGER_COUNT_1_ST, w, rc, false, rl, r⟩ x =
      (⟨trigger_state_t.TRIGGER_PRESSED_ST, 0, (rc + 1) % 4294967296, false, rl, r - 1⟩,
        [trigger_call.sound (sound_call.setSound sound_sounds_t.sound_gunFire_e),
          trigger_call.transmitter_run,
          trigger_call.sound sound_call.startSound]) := by
  have hw' : w ≥ DEBOUNCE_TICKS := hw
  simp [trigger_tick, trigger_tick_transition, trigger_tick_action, triggerPressed_enabled,
    hw', hx, hr]

theorem trigger_tick_pressed_hold (w rc r : Nat) (rl : Bool) (x : trigger_input)
    (hrc : rc ≤ RELOAD_TICKS) (hx : trigger_input_pressed x = true) :
    trigger_tick ⟨trigger_state_t.TRIGGER_PRESSED_ST, w, rc, false, rl, r⟩ x =
      (⟨trigger_state_t.TRIGGER_PRESSED_ST, w, (rc + 1) % 4294967296, false, rl, r⟩, []) := by
  have hrc' : ¬ rc > RELOAD_TICKS := by omega
  simp [trigger_tick, trigger_tick_transition, trigger_tick_action, triggerPressed_enabled,
    hrc', hx]

theorem trigger_tick_pressed_release (w rc r : Nat) (rl : Bool) (x : trigger_input)
    (hrc : rc ≤ RELOAD_TICKS) (hx : trigger_input_pressed x = false) :
    trigger_tick ⟨trigger_state_t.TRIGGER_PRESSED_ST, w, rc, false, rl, r⟩ x =
      (⟨trigger_state_t.TRIGGER_COUNT_2_ST, (w + 1) % 4294967296, 0, false, rl, r⟩, []) := by
  have hrc' : ¬ rc > RELOAD_TICKS := by omega
  simp [trigger_tick, trigger_tick_transition, trigger_tick_action, triggerPressed_enabled,
    hrc', hx]

theorem trigger_tick_count2_wait (w rc r : Nat) (rl : Bool) (x : trigger_input)
    (hw : w < DEBOUNCE_TICKS) (hx : trigger_input_pressed x = false) :
    trigger_tick ⟨trigger_state_t.TRIGGER_COUNT_2_ST, w, rc, false, rl, r⟩ x =
      (⟨trigger_state_t.TRIGGER_COUNT_2_ST, (w + 1) % 4294967296, rc, false, rl, r⟩, []) := by
  have hw' : ¬ w ≥ DEBOUNCE_TICKS := by omega
  simp [trigger_tick, trigger_tick_transition, trigger_tick_action, triggerPressed_enabled,
    hw', hx]

theorem trigger_tick_count2_done (w rc r : Nat) (rl : Bool) (x : trigger_input)
    (hw : DEBOUNCE_TICKS ≤ w) (hx : trigger_input_pressed x = false) :
    trigger_tick ⟨trigger_state_t.TRIGGER_COUNT_2_ST, w, rc, false, rl, r⟩ x =
      (⟨trigger_state_t.TRIGGER_IDLE_ST, w, rc, false, rl, r⟩, []) := by
  have hw' : w ≥ DEBOUNCE_TICKS := hw
  simp [trigger_tick, trigger_tick_transition, trigger_tick_action, triggerPressed_enabled,
    hw', hx]

theorem trigger_tick_reload_wait (w rc r : Nat) (rl : Bool) (x : trigger_input)
    (hrc : rc ≤ RELOAD_TICKS) :
    trigger_tick ⟨trigger_state_t.TRIGGER_RELOAD_ST, w, rc, false, rl, r⟩ x =
      (⟨trigger_state_t.TRIGGER_RELOAD_ST, w, (rc + 1) % 4294967296, false, rl, r⟩,
        if trigger_input_pressed x then
          [trigger_call.sound (sound_call.setSound sound_sounds_t.sound_gunClick_e),
            trigger_call.sound sound_call.startSound]
        else []) := by
  have hrc' : ¬ rc > RELOAD_TICKS := by omega
  cases hx : trigger_input_pressed x <;>
    simp [trigger_tick, trigger_tick_transition, trigger_tick_action, triggerPressed_enabled,
      hrc', hx]

theorem trigger_tick_reload_done (w rc r : Nat) (rl : Bool) (x : trigger_input)
    (hrc : RELOAD_TICKS < rc) :
    trigger_tick ⟨trigger_state_t.TRIGGER_RELOAD_ST, w, rc, false, rl, r⟩ x =
      (⟨trigger_state_t.TRIGGER_DISABLED_ST, w, 0, false, rl, SHOTS_PER_CLIP⟩,
        [trigger_call.sound (sound_call.setSound sound_sounds_t.sound_gunReload_e),
          trigger_call.sound sound_call.startSound]) := by
  have hrc' : rc > RELOAD_TICKS := hrc
  simp [trigger_tick, trigger_tick_transition, trigger_tick_action, hrc']

/-! ## Trigger: runs of ticks -/

theorem trigger_run_nil (t : trigger_t) : trigger_run t [] = (t, []) := rfl

theorem trigger_run_cons (t : trigger_t) (x : trigger_input) (xs : List trigger_input) :
    trigger_run t (x :: xs) =
      ((trigger_run (trigger_tick t x).1 xs).1,
        (trigger_tick t x).2 ++ (trigger_run (trigger_tick t x).1 xs).2) := rfl

theorem trigger_run_append (t : trigger_t) (xs ys : List trigger_input) :
    trigger_run t (xs ++ ys) =
      ((trigger_run (trigger_run t xs).1 ys).1,
        (trigger_run t xs).2 ++ (trigger_run (trigger_run t xs).1 ys).2) := by
  induction xs generalizing t with
  | nil => simp [trigger_run_nil]
  | cons x xs ih =>
    rw [List.cons_append, trigger_run_cons, ih, trigger_run_cons]
    simp [List.append_assoc]

theorem trigger_run_snoc (t : trigger_t) (xs : List trigger_input) (x : trigger_input) :
    trigger_run t (xs ++ [x]) =
      ((trigger_tick (trigger_run t xs).1 x).1,
        (trigger_run t xs).2 ++ (trigger_tick (trigger_run t xs).1 x).2) := by
  rw [trigger_run_append, trigger_run_cons, trigger_run_nil]
  simp

theorem trigger_shots_append (a b : List trigger_call) :
    trigger_shots (a ++ b) = trigger_shots a + trigger_shots b := by
  unfold trigger_shots
  exact List.count_append _ _ _

theorem trigger_mod_small (x : Nat) (h : x < 1000000) : (x + 1) % 4294967296 = x + 1 :=
  Nat.mod_eq_of_lt (by omega)

theorem trigger_fireTick_ge (w : Nat) : 2 ≤ trigger_fireTick w := by
  unfold trigger_fireTick DEBOUNCE_TICKS
  split <;> omega

theorem trigger_fireTick_le (w : Nat) : trigger_fireTick w ≤ DEBOUNCE_TICKS + 1 := by
  unfold trigger_fireTick DEBOUNCE_TICKS
  split <;> omega

theorem trigger_fireTick_lt (w n : Nat) (hn : 1 ≤ n) :
    n + 1 < trigger_fireTick w ↔ w + n < DEBOUNCE_TICKS := by
  unfold trigger_fireTick DEBOUNCE_TICKS at *
  split <;> omega

theorem trigger_pressAt_zero (w r : Nat) (rl : Bool) :
    trigger_pressAt w r rl 0 = ⟨trigger_state_t.TRIGGER_IDLE_ST, w, 0, false, rl, r⟩ := rfl

theorem trigger_pressAt_count (w r : Nat) (rl : Bool) (n : Nat) (h0 : n ≠ 0)
    (h : n < trigger_fireTick w) :
    trigger_pressAt w r rl n =
      ⟨trigger_state_t.TRIGGER_COUNT_1_ST, w + n, 0, false, rl, r⟩ := by
  unfold trigger_pressAt
  rw [if_neg h0, if_pos h]

theorem trigger_pressAt_pressed (w r : Nat) (rl : Bool) (n : Nat)
    (h : trigger_fireTick w ≤ n) :
    trigger_pressAt w r rl n =
      ⟨trigger_state_t.TRIGGER_PRESSED_ST, 0, n - trigger_fireTick w + 1, false, rl, r - 1⟩ := by
  have h2 := trigger_fireTick_ge w
  unfold trigger_pressAt
  rw [if_neg (show n ≠ 0 by omega), if_neg (show ¬ n < trigger_fireTick w by omega)]

theorem trigger_pressCalls_lt (w n : Nat) (h : n < trigger_fireTick w) :
    trigger_pressCalls w n = [] := by
  unfold trigger_pressCalls
  rw [if_pos h]

theorem trigger_pressCalls_ge (w n : Nat) (h : trigger_fireTick w ≤ n) :
    trigger_pressCalls w n =
      [trigger_call.sound (sound_call.setSound sound_sounds_t.sound_gunFire_e),
        trigger_call.transmitter_run,
        trigger_call.sound sound_call.startSound] := by
  unfold trigger_pressCalls
  rw [if_neg (show ¬ n < trigger_fireTick w by omega)]

theorem trigger_releaseAt_zero (c r : Nat) (rl : Bool) :
    trigger_releaseAt c r rl 0 = ⟨trigger_state_t.TRIGGER_PRESSED_ST, 0, c, false, rl, r⟩ := rfl

theorem trigger_releaseAt_count (c r : Nat) (rl : Bool) (n : Nat) (h0 : n ≠ 0)
    (h : n ≤ DEBOUNCE_TICKS) :
    trigger_releaseAt c r rl n =
      ⟨trigger_state_t.TRIGGER_COUNT_2_ST, n, 0, false, rl, r⟩ := by
  unfold trigger_releaseAt
  rw [if_neg h0, if_pos h]

theorem trigger_releaseAt_idle (c r : Nat) (rl : Bool) (n : Nat) (h : DEBOUNCE_TICKS < n) :
    trigger_releaseAt c r rl n =
      ⟨trigger_state_t.TRIGGER_IDLE_ST, DEBOUNCE_TICKS, 0, false, rl, r⟩ := by
  unfold trigger_releaseAt
  rw [if_neg (show n ≠ 0 by omega), if_neg (show ¬ n ≤ DEBOUNCE_TICKS by omega)]

/-- The state and the calls after `|ps|` ticks of a press from the idle state. -/
theorem trigger_run_press (w r : Nat) (rl : Bool) (hw : w < 4294967295) (hr : r ≠ 0)
    (ps : List trigger_input) (hps : ∀ x ∈ ps, trigger_input_pressed x = true)
    (hlen : ps.length ≤ RELOAD_TICKS) :
    trigger_run ⟨trigger_state_t.TRIGGER_IDLE_ST, w, 0, false, rl, r⟩ ps =
      (trigger_pressAt w r rl ps.length, trigger_pressCalls w ps.length) := by
  induction ps using List.reverseRecOn with
  | nil =>
    have h2 := trigger_fireTick_ge w
    rw [trigger_run_nil, List.length_nil, trigger_pressAt_zero,
      trigger_pressCalls_lt w 0 (by omega)]
  | append_singleton ps x ih =>
    have hx : trigger_input_pressed x = true := hps x (by simp)
    have hlen' : ps.length + 1 ≤ RELOAD_TICKS := by simpa using hlen
    have ih' := ih (fun y hy => hps y (by simp [hy])) (by omega)
    rw [trigger_run_snoc, ih', List.length_append, List.length_singleton]
    have h2 := trigger_fireTick_ge w
    have h3 := trigger_fireTick_le w
    unfold RELOAD_TICKS at hlen'
    by_cases h0 : ps.length = 0
    · rw [h0, trigger_pressAt_zero, trigger_pressCalls_lt w 0 (by omega),
        trigger_pressAt_count w r rl (0 + 1) (by omega) (by omega),
        trigger_pressCalls_lt w (0 + 1) (by omega),
        trigger_tick_idle_pressed w 0 r rl x hr hx,
        Nat.mod_eq_of_lt (show w + 1 < 4294967296 by omega)]
      rfl
    · by_cases h1 : ps.length + 1 < trigger_fireTick w
      · have hwn := (trigger_fireTick_lt w ps.length (by omega)).1 h1
        rw [trigger_pressAt_count w r rl ps.length h0 (by omega),
          trigger_pressCalls_lt w ps.length (by omega),
          trigger_pressAt_count w r rl (ps.length + 1) (by omega) h1,
          trigger_pressCalls_lt w (ps.length + 1) h1,
          trigger_tick_count1_wait _ 0 r rl x hwn hx,
          trigger_mod_small _ (by unfold DEBOUNCE_TICKS at hwn; omega)]
        rfl
      · by_cases h2 : ps.length < trigger_fireTick w
        · have hwn : DEBOUNCE_TICKS ≤ w + ps.length := by
            have := trigger_fireTick_lt w ps.length (by omega)
            omega
          rw [trigger_pressAt_count w r rl ps.length h0 h2,
            trigger_pressCalls_lt w ps.length h2,
            trigger_pressAt_pressed w r rl (ps.length + 1) (by omega),
            trigger_pressCalls_ge w (ps.length + 1) (by omega),
            trigger_tick_count1_fire _ 0 r rl x hwn hr hx]
          have e : ps.length + 1 - trigger_fireTick w + 1 = 1 := by omega
          rw [e]
          rfl
        · rw [trigger_pressAt_pressed w r rl ps.length (by omega),
            trigger_pressCalls_ge w ps.length (by omega),
            trigger_pressAt_pressed w r rl (ps.length + 1) (by omega),
            trigger_pressCalls_ge w (ps.length + 1) (by omega),
            trigger_tick_pressed_hold 0 _ (r - 1) rl x (by unfold RELOAD_TICKS; omega) hx,
            trigger_mod_small _ (by omega)]
          have e : ps.length - trigger_fireTick w + 1 + 1 =
              ps.length + 1 - trigger_fireTick w + 1 := by omega
          rw [e]
          simp

/-- The state after `|rs|` ticks of a release from the pressed state; with an
empty clip the closed form holds until the idle state is reached. -/
theorem trigger_run_release (c r : Nat) (rl : Bool) (hc : c ≤ RELOAD_TICKS)
    (rs : List trigger_input) (hrs : ∀ x ∈ rs, trigger_input_pressed x = false)
    (hr : r ≠ 0 ∨ rs.length ≤ DEBOUNCE_TICKS + 1) :
    trigger_run ⟨trigger_state_t.TRIGGER_PRESSED_ST, 0, c, false, rl, r⟩ rs =
      (trigger_releaseAt c r rl rs.length, []) := by
  induction rs using List.reverseRecOn with
  | nil => rfl
  | append_singleton rs x ih =>
    have hx : trigger_input_pressed x = false := hrs x (by simp)
    have hr' : r ≠ 0 ∨ rs.length + 1 ≤ DEBOUNCE_TICKS + 1 := by simpa using hr
    have ih' := ih (fun y hy => hrs y (by simp [hy])) (by omega)
    rw [trigger_run_snoc, ih', List.length_append, List.length_singleton]
    have hD : DEBOUNCE_TICKS = 5000 := rfl
    by_cases h0 : rs.length = 0
    · rw [h0, trigger_releaseAt_zero, trigger_releaseAt_count c r rl (0 + 1) (by omega)
        (by omega), trigger_tick_pressed_release 0 c r rl x hc hx]
      rfl
    · by_cases h1 : rs.length + 1 ≤ DEBOUNCE_TICKS
      · rw [trigger_releaseAt_count c r rl rs.length h0 (by omega),
          trigger_releaseAt_count c r rl (rs.length + 1) (by omega) h1,
          trigger_tick_count2_wait _ 0 r rl x (by omega) hx,
          trigger_mod_small _ (by omega)]
        rfl
      · by_cases h2 : rs.length ≤ DEBOUNCE_TICKS
        · have e : rs.length = DEBOUNCE_TICKS := by omega
          rw [trigger_releaseAt_count c r rl rs.length h0 h2,
            trigger_releaseAt_idle c r rl (rs.length + 1) (by omega), e,
            trigger_tick_count2_done _ 0 r rl x (le_refl _) hx]
          rfl
        · have hr0 : r ≠ 0 := by
            rcases hr' with h | h
            · exact h
            · omega
          rw [trigger_releaseAt_idle c r rl rs.length (by omega),
            trigger_releaseAt_idle c r rl (rs.length + 1) (by omega),
            trigger_tick_idle_released _ 0 r rl x hr0 hx]
          rfl

/-- While the reload lasts the machine stays in the reload state, fires no shot
and makes no call but the click. -/
theorem trigger_run_reload (w r : Nat) (rl : Bool) (xs : List trigger_input) (rc : Nat)
    (h : rc + xs.length ≤ RELOAD_TICKS + 1) :
    (trigger_run ⟨trigger_state_t.TRIGGER_RELOAD_ST, w, rc, false, rl, r⟩ xs).1 =
      ⟨trigger_state_t.TRIGGER_RELOAD_ST, w, rc + xs.length, false, rl, r⟩ ∧
    ∀ c ∈ (trigger_run ⟨trigger_state_t.TRIGGER_RELOAD_ST, w, rc, false, rl, r⟩ xs).2,
      c = trigger_call.sound (sound_call.setSound sound_sounds_t.sound_gunClick_e) ∨
        c = trigger_call.sound sound_call.startSound := by
  induction xs generalizing rc with
  | nil => exact ⟨rfl, fun c hc => by cases hc⟩
  | cons x xs ih =>
    have hlen : rc + (xs.length + 1) ≤ RELOAD_TICKS + 1 := by simpa using h
    unfold RELOAD_TICKS at hlen
    rw [trigger_run_cons, trigger_tick_reload_wait w rc r rl x (by unfold RELOAD_TICKS; omega),
      trigger_mod_small rc (by omega)]
    dsimp only
    obtain ⟨h1, h2⟩ := ih (rc + 1) (by unfold RELOAD_TICKS; omega)
    refine ⟨?_, fun c hc => ?_⟩
    · rw [h1, List.length_cons]
      have e : rc + 1 + xs.length = rc + (xs.length + 1) := by omega
      rw [e]
    · rcases List.mem_append.1 hc with hc | hc
      · split at hc
        · simpa using hc
        · cases hc
      · exact h2 c hc

/-! ## Trigger: press/release cycles and the reload -/

theorem trigger_shots_fire :
    trigger_shots
      [trigger_call.sound (sound_call.setSound sound_sounds_t.sound_gunFire_e),
        trigger_call.transmitter_run,
        trigger_call.sound sound_call.startSound] = 1 := by
  decide

/-- A press from the idle state with a shot left: one shot is fired and the
machine is in the pressed state with one shot less. -/
theorem trigger_run_one_press (w r : Nat) (rl : Bool) (hw : w < 4294967295) (hr : r ≠ 0)
    (ps : List trigger_input) (hps : trigger_press ps) :
    ∃ c, c ≤ RELOAD_TICKS ∧
      trigger_run ⟨trigger_state_t.TRIGGER_IDLE_ST, w, 0, false, rl, r⟩ ps =
        (⟨trigger_state_t.TRIGGER_PRESSED_ST, 0, c, false, rl, r - 1⟩,
          [trigger_call.sound (sound_call.setSound sound_sounds_t.sound_gunFire_e),
            trigger_call.transmitter_run,
            trigger_call.sound sound_call.startSound]) := by
  obtain ⟨h1, h2, h3⟩ := hps
  have hle := trigger_fireTick_le w
  have hge := trigger_fireTick_ge w
  refine ⟨ps.length - trigger_fireTick w + 1, by omega, ?_⟩
  rw [trigger_run_press w r rl hw hr ps h1 h3,
    trigger_pressAt_pressed w r rl ps.length (by omega),
    trigger_pressCalls_ge w ps.length (by omega)]

/-- A press and a release with at least two shots left: one shot is fired and
the machine is idle again with one shot less. -/
theorem trigger_run_cycle (w r : Nat) (rl : Bool) (hw : w < 4294967295) (hr : 2 ≤ r)
    (ps rs : List trigger_input) (hps : trigger_press ps) (hrs : trigger_release rs) :
    trigger_run ⟨trigger_state_t.TRIGGER_IDLE_ST, w, 0, false, rl, r⟩ (ps ++ rs) =
      (⟨trigger_state_t.TRIGGER_IDLE_ST, DEBOUNCE_TICKS, 0, false, rl, r - 1⟩,
        [trigger_call.sound (sound_call.setSound sound_sounds_t.sound_gunFire_e),
          trigger_call.transmitter_run,
          trigger_call.sound sound_call.startSound]) := by
  obtain ⟨c, hc, hp⟩ := trigger_run_one_press w r rl hw (by omega) ps hps
  rw [trigger_run_append, hp]
  dsimp only
  rw [trigger_run_release c (r - 1) rl hc rs hrs.1 (Or.inl (by omega)),
    trigger_releaseAt_idle c (r - 1) rl rs.length hrs.2]
  rfl

/-- After `k` press/release cycles that leave a shot in the clip, `k` shots
have been fired and the machine is idle with `k` shots less. -/
theorem trigger_run_cycles (rl : Bool)
    (cycles : List (List trigger_input × List trigger_input)) (w r : Nat)
    (hw : w < 4294967295) (hr : cycles.length < r)
    (hcyc : ∀ c ∈ cycles, trigger_press c.1 ∧ trigger_release c.2) :
    ∃ w' calls, w' < 4294967295 ∧ trigger_shots calls = cycles.length ∧
      trigger_run ⟨trigger_state_t.TRIGGER_IDLE_ST, w, 0, false, rl, r⟩
          (trigger_cycles cycles) =
        (⟨trigger_state_t.TRIGGER_IDLE_ST, w', 0, false, rl, r - cycles.length⟩, calls) := by
  induction cycles generalizing w r with
  | nil => exact ⟨w, [], hw, rfl, rfl⟩
  | cons c cs ih =>
    have hlen : cs.length + 1 < r := by simpa using hr
    obtain ⟨hp, hrl⟩ := hcyc c (List.mem_cons_self _ _)
    obtain ⟨w', calls, hw', hs, hrun⟩ := ih DEBOUNCE_TICKS (r - 1)
      (by unfold DEBOUNCE_TICKS; omega) (by omega)
      (fun x hx => hcyc x (List.mem_cons_of_mem _ hx))
    refine ⟨w',
      [trigger_call.sound (sound_call.setSound sound_sounds_t.sound_gunFire_e),
        trigger_call.transmitter_run,
        trigger_call.sound sound_call.startSound] ++ calls, hw', ?_, ?_⟩
    · rw [trigger_shots_append, trigger_shots_fire, hs, List.length_cons]
      omega
    · unfold trigger_cycles
      rw [trigger_run_append, trigger_run_cycle w r rl hw (by omega) c.1 c.2 hp hrl]
      dsimp only
      rw [hrun, List.length_cons]
      have e : r - 1 - cs.length = r - (cs.length + 1) := by omega
      rw [e]

theorem trigger_shots_of_clicks (calls : List trigger_call)
    (h : ∀ c ∈ calls,
      c = trigger_call.sound (sound_call.setSound sound_sounds_t.sound_gunClick_e) ∨
        c = trigger_call.sound sound_call.startSound) :
    trigger_shots calls = 0 := by
  unfold trigger_shots
  rw [List.count_eq_zero]
  intro hmem
  rcases h _ hmem with h | h <;> cases h

/-- Claim C25: from the idle state, enabled, with a full clip (`reloadCount` at
0 as in every idle state, `waitCount` below the largest 32-bit value), let the
trigger go through `k < SHOTS_PER_CLIP` press/release cycles and one more press, each
press longer than the debounce time and no longer than `RELOAD_TICKS`, each
release longer than the debounce time.  Then every press has fired exactly one
shot: `k` shots after the `k` cycles, `k + 1` shots and `SHOTS_PER_CLIP - (k + 1)`
shots left after the last press.  After the tenth press the clip is empty; once
the release has been debounced (`DEBOUNCE_TICKS + 1` ticks) the next tick enters
the reload state; during the following `RELOAD_TICKS` ticks, whatever the
trigger does, the machine stays in the reload state, fires no shot and makes no
call but the click; the tick after that resets `remainingShots` to
`SHOTS_PER_CLIP`. -/
theorem C25_clip_and_reload (t : trigger_t)
    (hidle : t.triggerState = trigger_state_t.TRIGGER_IDLE_ST) (hen : t.disabled = false)
    (hfull : t.remainingShots = SHOTS_PER_CLIP) (hw : t.waitCount < 4294967295)
    (hrc : t.reloadCount = 0)
    (cycles : List (List trigger_input × List trigger_input))
    (hk : cycles.length < SHOTS_PER_CLIP)
    (hcyc : ∀ c ∈ cycles, trigger_press c.1 ∧ trigger_release c.2)
    (ps : List trigger_input) (hps : trigger_press ps) :
    trigger_shots (trigger_run t (trigger_cycles cycles)).2 = cycles.length ∧
    trigger_shots (trigger_run t (trigger_cycles cycles ++ ps)).2 = cycles.length + 1 ∧
    (trigger_run t (trigger_cycles cycles ++ ps)).1.remainingShots =
      SHOTS_PER_CLIP - (cycles.length + 1) ∧
    (cycles.length + 1 = SHOTS_PER_CLIP →
      ∀ (rs : List trigger_input) (z : trigger_input),
        (∀ x ∈ rs, trigger_input_pressed x = false) → rs.length = DEBOUNCE_TICKS + 1 →
        (trigger_run t (trigger_cycles cycles ++ ps ++ rs)).1.triggerState =
          trigger_state_t.TRIGGER_IDLE_ST ∧
        (trigger_run t (trigger_cycles cycles ++ ps ++ rs ++ [z])).1.triggerState =
          trigger_state_t.TRIGGER_RELOAD_ST ∧
        trigger_shots (trigger_run t (trigger_cycles cycles ++ ps ++ rs ++ [z])).2 =
          SHOTS_PER_CLIP ∧
        ∀ xs : List trigger_input, xs.length ≤ RELOAD_TICKS →
          (trigger_run (trigger_run t (trigger_cycles cycles ++ ps ++ rs ++ [z])).1
            xs).1.triggerState = trigger_state_t.TRIGGER_RELOAD_ST ∧
          (trigger_run (trigger_run t (trigger_cycles cycles ++ ps ++ rs ++ [z])).1
            xs).1.remainingShots = 0 ∧
          trigger_shots (trigger_run (trigger_run t (trigger_cycles cycles ++ ps ++ rs ++ [z])).1
            xs).2 = 0 ∧
          (∀ c ∈ (trigger_run (trigger_run t (trigger_cycles cycles ++ ps ++ rs ++ [z])).1
              xs).2,
            c = trigger_call.sound (sound_call.setSound sound_sounds_t.sound_gunClick_e) ∨
              c = trigger_call.sound sound_call.startSound) ∧
          (xs.length = RELOAD_TICKS → ∀ y : trigger_input,
            (trigger_run (trigger_run t (trigger_cycles cycles ++ ps ++ rs ++ [z])).1
              (xs ++ [y])).1.remainingShots = SHOTS_PER_CLIP ∧
            trigger_shots (trigger_run
              (trigger_run t (trigger_cycles cycles ++ ps ++ rs ++ [z])).1
              (xs ++ [y])).2 = 0)) := by
  obtain ⟨st, w, rc, d, rl, r⟩ := t
  simp only at hidle hen hfull hw hrc
  subst hidle hen hfull hrc
  obtain ⟨w', calls, hw', hs, hrun⟩ := trigger_run_cycles rl cycles w SHOTS_PER_CLIP hw hk hcyc
  have hne : SHOTS_PER_CLIP - cycles.length ≠ 0 := by omega
  obtain ⟨c, hc, hp⟩ := trigger_run_one_press w' (SHOTS_PER_CLIP - cycles.length) rl hw' hne
    ps hps
  have hpress : trigger_run ⟨trigger_state_t.TRIGGER_IDLE_ST, w, 0, false, rl, SHOTS_PER_CLIP⟩
      (trigger_cycles cycles ++ ps) =
      (⟨trigger_state_t.TRIGGER_PRESSED_ST, 0, c, false, rl,
          SHOTS_PER_CLIP - cycles.length - 1⟩,
        calls ++
          [trigger_call.sound (sound_call.setSound sound_sounds_t.sound_gunFire_e),
            trigger_call.transmitter_run,
            trigger_call.sound sound_call.startSound]) := by
    rw [trigger_run_append, hrun]
    dsimp only
    rw [hp]
  refine ⟨?_, ?_, ?_, ?_⟩
  · rw [hrun]
    exact hs
  · rw [hpress]
    dsimp only
    rw [trigger_shots_append, trigger_shots_fire, hs]
  · rw [hpress]
    dsimp only
    omega
  · intro hten rs z hrs hlen
    have hzero : SHOTS_PER_CLIP - cycles.length - 1 = 0 := by omega
    rw [hzero] at hpress
    have hrel : trigger_run ⟨trigger_state_t.TRIGGER_IDLE_ST, w, 0, false, rl, SHOTS_PER_CLIP⟩
        (trigger_cycles cycles ++ ps ++ rs) =
        (⟨trigger_state_t.TRIGGER_IDLE_ST, DEBOUNCE_TICKS, 0, false, rl, 0⟩,
          calls ++
            [trigger_call.sound (sound_call.setSound sound_sounds_t.sound_gunFire_e),
              trigger_call.transmitter_run,
              trigger_call.sound sound_call.startSound]) := by
      rw [trigger_run_append, hpress]
      dsimp only
      rw [trigger_run_release c 0 rl hc rs hrs (Or.inr (by omega)),
        trigger_releaseAt_idle c 0 rl rs.length (by omega)]
      simp
    have hz : trigger_run ⟨trigger_state_t.TRIGGER_IDLE_ST, w, 0, false, rl, SHOTS_PER_CLIP⟩
        (trigger_cycles cycles ++ ps ++ rs ++ [z]) =
        (⟨trigger_state_t.TRIGGER_RELOAD_ST, DEBOUNCE_TICKS, 1, false, rl, 0⟩,
          calls ++
            [trigger_call.sound (sound_call.setSound sound_sounds_t.sound_gunFire_e),
              trigger_call.transmitter_run,
              trigger_call.sound sound_call.startSound]) := by
      rw [trigger_run_snoc, hrel]
      dsimp only
      rw [trigger_tick_idle_empty]
      simp
    refine ⟨?_, ?_, ?_, ?_⟩
    · rw [hrel]
    · rw [hz]
    · rw [hz]
      dsimp only
      rw [trigger_shots_append, trigger_shots_fire, hs]
      exact hten
    · intro xs hxs
      rw [hz]
      dsimp only
      obtain ⟨h1, h2⟩ := trigger_run_reload DEBOUNCE_TICKS 0 rl xs 1 (by omega)
      refine ⟨?_, ?_, trigger_shots_of_clicks _ h2, h2, ?_⟩
      · rw [h1]
      · rw [h1]
      · intro hfullreload y
        rw [trigger_run_snoc, h1]
        dsimp only
        rw [trigger_tick_reload_done _ _ _ _ _ (by omega)]
        dsimp only
        refine ⟨rfl, ?_⟩
        rw [trigger_shots_append, trigger_shots_of_clicks _ h2]
        decide

theorem trigger_press_replicate (n : Nat) (x : trigger_input)
    (hx : trigger_input_pressed x = true) (h1 : DEBOUNCE_TICKS < n) (h2 : n ≤ RELOAD_TICKS) :
    trigger_press (List.replicate n x) := by
  refine ⟨fun y hy => ?_, ?_, ?_⟩
  · rw [List.eq_of_mem_replicate hy]
    exact hx
  · rw [List.length_replicate]
    exact h1
  · rw [List.length_replicate]
    exact h2

theorem trigger_release_replicate (n : Nat) (x : trigger_input)
    (hx : trigger_input_pressed x = false) (h1 : DEBOUNCE_TICKS < n) :
    trigger_release (List.replicate n x) := by
  refine ⟨fun y hy => ?_, ?_⟩
  · rw [List.eq_of_mem_replicate hy]
    exact hx
  · rw [List.length_replicate]
    exact h1

/-- Claim C25 on nine cycles of 5001 ticks of gun-trigger press and 5001 ticks
of release followed by a tenth press: the clip is then empty. -/
theorem C25_clip_and_reload_witness :
    (trigger_run ⟨trigger_state_t.TRIGGER_IDLE_ST, 0, 0, false, false, SHOTS_PER_CLIP⟩
      (trigger_cycles (List.replicate 9
          (List.replicate 5001 (⟨1, false, false⟩ : trigger_input),
            List.replicate 5001 (⟨0, false, false⟩ : trigger_input))) ++
        List.replicate 5001 (⟨1, false, false⟩ : trigger_input))).1.remainingShots =
      SHOTS_PER_CLIP - ((List.replicate 9
          (List.replicate 5001 (⟨1, false, false⟩ : trigger_input),
            List.replicate 5001 (⟨0, false, false⟩ : trigger_input))).length + 1) :=
  (C25_clip_and_reload ⟨trigger_state_t.TRIGGER_IDLE_ST, 0, 0, false, false, SHOTS_PER_CLIP⟩
    rfl rfl rfl (by decide) rfl
    (List.replicate 9
      (List.replicate 5001 (⟨1, false, false⟩ : trigger_input),
        List.replicate 5001 (⟨0, false, false⟩ : trigger_input)))
    (by rw [List.length_replicate]; decide)
    (fun c hc => by
      rw [List.eq_of_mem_replicate hc]
      exact ⟨trigger_press_replicate 5001 _ rfl (by unfold DEBOUNCE_TICKS; omega)
          (by unfold RELOAD_TICKS; omega),
        trigger_release_replicate 5001 _ rfl (by unfold DEBOUNCE_TICKS; omega)⟩)
    (List.replicate 5001 (⟨1, false, false⟩ : trigger_input))
    (trigger_press_replicate 5001 _ rfl (by unfold DEBOUNCE_TICKS; omega)
      (by unfold RELOAD_TICKS; omega))).2.2.1

/-! ## Trigger: BTN0 while the trigger is disabled -/

theorem trigger_tick_count1_btn0_wait (w rc r : Nat) (d rl : Bool) (x : trigger_input)
    (hw : w < DEBOUNCE_TICKS) (hx : x.btn0 = true) :
    trigger_tick ⟨trigger_state_t.TRIGGER_COUNT_1_ST, w, rc, d, rl, r⟩ x =
      (⟨trigger_state_t.TRIGGER_COUNT_1_ST, (w + 1) % 4294967296, rc, d, rl, r⟩, []) := by
  have hw' : ¬ w ≥ DEBOUNCE_TICKS := by omega
  simp [trigger_tick, trigger_tick_transition, trigger_tick_action, triggerPressed, hw', hx]

/-- With BTN0 held down the press debounce counts on, whether or not the trigger
is disabled. -/
theorem trigger_run_count1_btn0 (rc r : Nat) (d rl : Bool) (x : trigger_input)
    (hx : x.btn0 = true) (n w : Nat) (h : w + n ≤ DEBOUNCE_TICKS) :
    (trigger_run ⟨trigger_state_t.TRIGGER_COUNT_1_ST, w, rc, d, rl, r⟩
      (List.replicate n x)).1 =
      ⟨trigger_state_t.TRIGGER_COUNT_1_ST, w + n, rc, d, rl, r⟩ := by
  induction n generalizing w with
  | zero => rfl
  | succ n ih =>
    have hD : DEBOUNCE_TICKS = 5000 := rfl
    rw [List.replicate_succ, trigger_run_cons,
      trigger_tick_count1_btn0_wait w rc r d rl x (by omega) hx,
      trigger_mod_small w (by omega)]
    dsimp only
    rw [ih (w + 1) (by omega)]
    have e : w + 1 + n = w + (n + 1) := by omega
    rw [e]

/-- Claim C26, evaluated: after `trigger_init`, `trigger_enable` and two ticks the
machine is idle; BTN0 goes down and the next tick starts the press debounce;
`trigger_disable` is called; BTN0 stays down for 4999 more ticks.  The state is
then `TRIGGER_COUNT_1_ST` with `waitCount = 5000` and `disabled = true`, and the
next tick with BTN0 down fires a shot: `transmitter_run` is called and
`remainingShots` goes from 10 to 9. -/
theorem C26_disabled_btn0_fires :
    (trigger_run
      (trigger_disable
        (trigger_run (trigger_enable (trigger_init trigger_programStart))
          [⟨0, false, false⟩, ⟨0, false, false⟩, ⟨0, true, false⟩]).1)
      (List.replicate 4999 ⟨0, true, false⟩)).1 =
      ⟨trigger_state_t.TRIGGER_COUNT_1_ST, 5000, 0, true, false, 10⟩ ∧
    trigger_tick ⟨trigger_state_t.TRIGGER_COUNT_1_ST, 5000, 0, true, false, 10⟩
        ⟨0, true, false⟩ =
      (⟨trigger_state_t.TRIGGER_PRESSED_ST, 0, 1, true, false, 9⟩,
        [trigger_call.sound (sound_call.setSound sound_sounds_t.sound_gunFire_e),
          trigger_call.transmitter_run,
          trigger_call.sound sound_call.startSound]) := by
  have h1 : trigger_disable
      (trigger_run (trigger_enable (trigger_init trigger_programStart))
        [⟨0, false, false⟩, ⟨0, false, false⟩, ⟨0, true, false⟩]).1 =
      ⟨trigger_state_t.TRIGGER_COUNT_1_ST, 1, 0, true, false, 10⟩ := by
    decide
  refine ⟨?_, by decide⟩
  rw [h1, trigger_run_count1_btn0 0 10 true false ⟨0, true, false⟩ rfl 4999 1
    (by unfold DEBOUNCE_TICKS; omega)]

/-! ## ADC buffer: invariant and contents -/

theorem buffer_push_of_lt (b : buffer_t) (v : Nat) (h : b.elementCount < BUFFER_SIZE) :
    buffer_push b v =
      { b with
        data := Function.update b.data b.indexIn v
        elementCount := b.elementCount + 1
        indexIn := if b.indexIn = BUFFER_SIZE - 1 then 0 else b.indexIn + 1 } := by
  unfold buffer_push
  rw [if_pos h]

theorem buffer_push_of_full (b : buffer_t) (v : Nat) (h : ¬ b.elementCount < BUFFER_SIZE) :
    buffer_push b v = b := by
  unfold buffer_push
  rw [if_neg h]

theorem buffer_pop_of_pos (b : buffer_t) (h : 0 < b.elementCount) :
    buffer_pop b =
      (b.data b.indexOut,
        { b with
          elementCount := b.elementCount - 1
          indexOut := if b.indexOut = BUFFER_SIZE - 1 then 0 else b.indexOut + 1 }) := by
  unfold buffer_pop
  rw [if_pos h]

theorem buffer_pop_of_empty (b : buffer_t) (h : b.elementCount = 0) :
    buffer_pop b = (0, b) := by
  unfold buffer_pop
  rw [if_neg (by omega)]

theorem buffer_wf_init (b : buffer_t) : buffer_wf (buffer_init b) := by
  refine ⟨?_, ?_, ?_⟩ <;> simp [buffer_init, BUFFER_SIZE, wrapIdx]

theorem buffer_wf_push (b : buffer_t) (v : Nat) (h : buffer_wf b) :
    buffer_wf (buffer_push b v) := by
  by_cases h1 : b.elementCount < BUFFER_SIZE
  · obtain ⟨ho, hc, hi⟩ := h
    rw [buffer_push_of_lt b v h1]
    unfold buffer_wf
    unfold BUFFER_SIZE wrapIdx at *
    refine ⟨ho, by simp only; omega, ?_⟩
    simp only
    split_ifs at hi ⊢ <;> omega
  · rw [buffer_push_of_full b v h1]
    exact h

theorem buffer_wf_pop (b : buffer_t) (h : buffer_wf b) : buffer_wf (buffer_pop b).2 := by
  by_cases h1 : 0 < b.elementCount
  · obtain ⟨ho, hc, hi⟩ := h
    rw [buffer_pop_of_pos b h1]
    unfold buffer_wf
    unfold BUFFER_SIZE wrapIdx at *
    refine ⟨?_, by simp only; omega, ?_⟩
    · simp only
      split_ifs <;> omega
    · simp only
      split_ifs at hi ⊢ <;> omega
  · rw [buffer_pop_of_empty b (by omega)]
    exact h

theorem buffer_wf_pushover (b : buffer_t) (v : Nat) (h : buffer_wf b) :
    buffer_wf (buffer_pushover b v) := by
  unfold buffer_pushover
  split
  · exact buffer_wf_push _ v (buffer_wf_pop b h)
  · exact buffer_wf_push b v h

theorem buffer_wf_of_reachable (b : buffer_t) (h : buffer_reachable b) : buffer_wf b := by
  obtain ⟨b0, ops, rfl⟩ := h
  induction ops using List.reverseRecOn with
  | nil => exact buffer_wf_init b0
  | append_singleton ops op ih =>
    rw [List.foldl_append, List.foldl_cons, List.foldl_nil]
    cases op with
    | push v => exact buffer_wf_push _ v ih
    | pop => exact buffer_wf_pop _ ih
    | pushover v => exact buffer_wf_pushover _ v ih

theorem buffer_contents_length (b : buffer_t) :
    (buffer_contents b).length = b.elementCount := by
  simp [buffer_contents]

theorem buffer_contents_push (b : buffer_t) (v : Nat) (h : buffer_wf b)
    (h1 : b.elementCount < BUFFER_SIZE) :
    buffer_contents (buffer_push b v) = buffer_contents b ++ [v] := by
  obtain ⟨ho, hc, hi⟩ := h
  rw [buffer_push_of_lt b v h1]
  simp only [buffer_contents, List.range_succ, List.map_append, List.map_singleton]
  congr 1
  · apply List.map_congr_left
    intro i hi'
    rw [List.mem_range] at hi'
    apply Function.update_noteq
    unfold BUFFER_SIZE wrapIdx at *
    split_ifs at hi ⊢ <;> omega
  · rw [← hi, Function.update_same]

theorem buffer_contents_pop (b : buffer_t) (h : buffer_wf b) (h1 : 0 < b.elementCount) :
    buffer_contents b = (buffer_pop b).1 :: buffer_contents (buffer_pop b).2 := by
  obtain ⟨ho, hc, hi⟩ := h
  rw [buffer_pop_of_pos b h1]
  obtain ⟨c, hc'⟩ : ∃ c, b.elementCount = c + 1 := ⟨b.elementCount - 1, by omega⟩
  simp only [buffer_contents, hc', List.range_succ_eq_map, List.map_cons, List.map_map,
    Nat.add_sub_cancel]
  congr 1
  · simp [wrapIdx, ho]
  · apply List.map_congr_left
    intro i hi'
    rw [List.mem_range] at hi'
    simp only [Function.comp]
    congr 1
    unfold BUFFER_SIZE wrapIdx at *
    split_ifs <;> omega

theorem buffer_popN_contents (n : Nat) (b : buffer_t) (h : buffer_wf b)
    (hn : n ≤ b.elementCount) :
    (buffer_popN n b).1 = (buffer_contents b).take n := by
  induction n generalizing b with
  | zero => simp [buffer_popN]
  | succ n ih =>
    have hpos : 0 < b.elementCount := by omega
    have hc := buffer_contents_pop b h hpos
    have hcount : (buffer_pop b).2.elementCount = b.elementCount - 1 := by
      rw [buffer_pop_of_pos b hpos]
    have h1 := ih (buffer_pop b).2 (buffer_wf_pop b h) (by omega)
    rw [buffer_popN]
    dsimp only
    rw [h1, hc, List.take_succ_cons]

/-- Draining a well-formed buffer returns its stored samples, oldest first. -/
theorem buffer_drain_eq_contents (b : buffer_t) (h : buffer_wf b) :
    buffer_drain b = buffer_contents b := by
  unfold buffer_drain buffer_elements
  rw [buffer_popN_contents _ b h (le_refl _), ← buffer_contents_length b, List.take_length]

/-- The contents after `buffer_pushover`: the new value is appended, and when
the buffer was full the oldest value is dropped. -/
theorem buffer_contents_pushover (b : buffer_t) (v : Nat) (h : buffer_wf b) :
    buffer_contents (buffer_pushover b v) =
      (if b.elementCount = BUFFER_SIZE then (buffer_contents b).tail else buffer_contents b)
        ++ [v] := by
  unfold buffer_pushover
  by_cases hfull : b.elementCount = BUFFER_SIZE
  · have hpos : 0 < b.elementCount := by rw [hfull]; unfold BUFFER_SIZE; omega
    have hc := buffer_contents_pop b h hpos
    have hcount : (buffer_pop b).2.elementCount < BUFFER_SIZE := by
      rw [buffer_pop_of_pos b hpos]
      simp only
      omega
    rw [if_pos hfull, if_pos hfull, buffer_contents_push _ v (buffer_wf_pop b h) hcount, hc,
      List.tail_cons]
  · have hlt : b.elementCount < BUFFER_SIZE := by
      have := h.2.1
      omega
    rw [if_neg hfull, if_neg hfull, buffer_contents_push b v h hlt]

theorem buffer_elements_pushover (b : buffer_t) (v : Nat) (h : buffer_wf b) :
    buffer_elements (buffer_pushover b v) = min (buffer_elements b + 1) BUFFER_SIZE := by
  have h1 := buffer_contents_length (buffer_pushover b v)
  rw [buffer_contents_pushover b v h] at h1
  have h2 := buffer_contents_length b
  have h3 := h.2.1
  unfold buffer_elements
  rw [← h1]
  split
  · rename_i hfull
    rw [List.length_append, List.length_tail, h2, List.length_singleton, hfull]
    unfold BUFFER_SIZE
    omega
  · rename_i hfull
    rw [List.length_append, h2, List.length_singleton]
    omega

/-- Claim C29: on a buffer reached from `buffer_init`, one call of
`isr_function` with ADC sample `x.adc` leaves `min(old + 1, 32768)` elements in
the buffer; draining the buffer afterwards returns what draining it before
would have returned, without the oldest sample if the buffer was full, followed
by the new sample as the last (newest) value. -/
theorem C29_isr_ingests_one_sample (expire : Nat) (w : world_t) (x : isr_input)
    (h : buffer_reachable w.buffer) :
    buffer_elements (isr_function expire w x).buffer =
      min (buffer_elements w.buffer + 1) 32768 ∧
    buffer_drain (isr_function expire w x).buffer =
      (if buffer_elements w.buffer = 32768 then (buffer_drain w.buffer).tail
        else buffer_drain w.buffer) ++ [x.adc] ∧
    (buffer_drain (isr_function expire w x).buffer).getLast? = some x.adc := by
  have hwf := buffer_wf_of_reachable w.buffer h
  have hb : (isr_function expire w x).buffer = buffer_pushover w.buffer x.adc := rfl
  have hd : buffer_drain (isr_function expire w x).buffer =
      (if buffer_elements w.buffer = 32768 then (buffer_drain w.buffer).tail
        else buffer_drain w.buffer) ++ [x.adc] := by
    rw [hb, buffer_drain_eq_contents _ (buffer_wf_pushover _ _ hwf),
      buffer_drain_eq_contents _ hwf, buffer_contents_pushover _ _ hwf]
    rfl
  refine ⟨?_, hd, ?_⟩
  · rw [hb, buffer_elements_pushover _ _ hwf]
    rfl
  · rw [hd, List.getLast?_append]
    rfl

/-- Claim C29 on the empty buffer after `buffer_init`: one interrupt leaves one
element. -/
theorem C29_isr_ingests_one_sample_witness :
    buffer_elements (isr_function 50000
      ⟨system_programStart, transmitter_init 0, buffer_init ⟨0, 0, 0, fun _ => 0⟩⟩
      ⟨⟨0, false, false⟩, 1234⟩).buffer =
      min (buffer_elements (buffer_init ⟨0, 0, 0, fun _ => 0⟩) + 1) 32768 :=
  (C29_isr_ingests_one_sample 50000
    ⟨system_programStart, transmitter_init 0, buffer_init ⟨0, 0, 0, fun _ => 0⟩⟩
    ⟨⟨0, false, false⟩, 1234⟩ ⟨⟨0, 0, 0, fun _ => 0⟩, [], rfl⟩).1

/-! ## detector: the calls around `buffer_pop` -/

theorem detector_bracketed_append (a b : List detector_call) (ha : detector_bracketed a)
    (hb : detector_bracketed b) : detector_bracketed (a ++ b) := by
  intro i hi
  by_cases hlt : i < a.length
  · rw [List.getElem?_append_left hlt] at hi
    obtain ⟨j, hj, h1, h2⟩ := ha i hi
    have hlt2 : i + 1 < a.length := by
      obtain ⟨h, -⟩ := List.getElem?_eq_some.1 h2
      exact h
    refine ⟨j, hj, ?_, ?_⟩
    · rw [List.getElem?_append_left (by omega)]
      exact h1
    · rw [List.getElem?_append_left hlt2]
      exact h2
  · rw [List.getElem?_append_right (by omega)] at hi
    obtain ⟨j, hj, h1, h2⟩ := hb (i - a.length) hi
    refine ⟨a.length + j, by omega, ?_, ?_⟩
    · rw [List.getElem?_append_right (by omega)]
      have e : a.length + j - a.length = j := by omega
      rw [e]
      exact h1
    · rw [List.getElem?_append_right (by omega)]
      have e : i + 1 - a.length = i - a.length + 1 := by omega
      rw [e]
      exact h2

theorem detector_bracketed_of_not_mem (l : List detector_call)
    (h : detector_call.buffer_pop ∉ l) : detector_bracketed l :=
  fun _ hi => absurd (List.getElem?_mem hi) h

theorem detector_bracketed_block :
    detector_bracketed
      [detector_call.interrupts_disableArmInts, detector_call.buffer_pop,
        detector_call.interrupts_enableArmInts] := by
  intro i hi
  match i, hi with
  | 0, hi => simp at hi
  | 1, _ => exact ⟨0, rfl, rfl, rfl⟩
  | 2, hi => simp at hi
  | n + 3, hi => simp at hi

/-- The calls of the filter bank are `filter_iirFilter` and `filter_computePower`. -/
theorem detector_filterBank_calls (fs : filter_t) :
    ∀ c ∈ (detector_filterBank fs).2,
      c ≠ detector_call.buffer_pop ∧ detector_call_isMasking c = false := by
  unfold detector_filterBank
  have key : ∀ (ns : List Nat) (r : filter_t × List detector_call),
      (∀ c ∈ r.2, c ≠ detector_call.buffer_pop ∧ detector_call_isMasking c = false) →
      ∀ c ∈ (ns.foldl
          (fun r filterNumber =>
            ((filter_computePower (filter_iirFilter r.1 filterNumber).2 filterNumber
                false false).2,
              r.2 ++ [detector_call.filter_iirFilter filterNumber,
                detector_call.filter_computePower filterNumber]))
          r).2,
        c ≠ detector_call.buffer_pop ∧ detector_call_isMasking c = false := by
    intro ns
    induction ns with
    | nil => exact fun r hr => hr
    | cons n ns ih =>
      intro r hr
      rw [List.foldl_cons]
      apply ih
      intro c hc
      rcases List.mem_append.1 hc with hc | hc
      · exact hr c hc
      · simp only [List.mem_cons, List.mem_singleton, List.not_mem_nil, or_false] at hc
        rcases hc with hc | hc <;> subst hc <;> exact ⟨(by intro h; cases h), rfl⟩
  exact key _ _ (fun c hc => by cases hc)

/-- Processing a sample makes no `buffer_pop` call and no masking call. -/
theorem detector_process_calls (s : system_t) (raw : Nat) :
    ∀ c ∈ (detector_process s raw).2,
      c ≠ detector_call.buffer_pop ∧ detector_call_isMasking c = false := by
  intro c hc
  unfold detector_process at hc
  dsimp only at hc
  split at hc
  · rcases List.mem_cons.1 hc with hc | hc
    · subst hc
      exact ⟨(by intro h; cases h), rfl⟩
    · unfold detector_decimate at hc
      dsimp only at hc
      rcases List.mem_cons.1 hc with hc | hc
      · subst hc
        exact ⟨(by intro h; cases h), rfl⟩
      · rcases List.mem_append.1 hc with hc | hc
        · exact detector_filterBank_calls _ c hc
        · split at hc
          · simp only [List.mem_cons, List.mem_singleton, List.not_mem_nil, or_false] at hc
            rcases hc with hc | hc <;> subst hc <;> exact ⟨(by intro h; cases h), rfl⟩
          · simp only [List.mem_singleton] at hc
            subst hc
            exact ⟨(by intro h; cases h), rfl⟩
  · simp only [List.mem_singleton] at hc
    subst hc
    exact ⟨(by intro h; cases h), rfl⟩

theorem detector_iteration_state (w : world_t) :
    (detector_iteration false w).1 = (detector_iteration true w).1 := rfl

theorem detector_iteration_calls (en : Bool) (w : world_t) :
    (detector_iteration en w).2 =
      (if en then
        [detector_call.interrupts_disableArmInts, detector_call.buffer_pop,
          detector_call.interrupts_enableArmInts]
      else [detector_call.buffer_pop]) ++
        (detector_process w.system ((buffer_pop w.buffer).1 % 4294967296)).2 := rfl

theorem detector_loop_succ (en : Bool) (n : Nat) (w : world_t) :
    detector_loop en (n + 1) w =
      ((detector_loop en n (detector_iteration en w).1).1,
        (detector_iteration en w).2 ++ (detector_loop en n (detector_iteration en w).1).2) :=
  rfl

/-- The loop of `detector`, with and without the masking calls: same final
state; with them every pop is bracketed and there is one pop per iteration;
without them the calls are the same ones minus the masking calls. -/
theorem detector_loop_spec (n : Nat) (w : world_t) :
    (detector_loop false n w).1 = (detector_loop true n w).1 ∧
    detector_bracketed (detector_loop true n w).2 ∧
    (detector_loop true n w).2.count detector_call.buffer_pop = n ∧
    (detector_loop false n w).2 =
      (detector_loop true n w).2.filter (fun c => !detector_call_isMasking c) := by
  induction n generalizing w with
  | zero => exact ⟨rfl, fun i hi => by simp [detector_loop] at hi, rfl, rfl⟩
  | succ n ih =>
    obtain ⟨h1, h2, h3, h4⟩ := ih (detector_iteration true w).1
    have hproc := detector_process_calls w.system ((buffer_pop w.buffer).1 % 4294967296)
    rw [detector_loop_succ, detector_loop_succ]
    dsimp only
    refine ⟨?_, ?_, ?_, ?_⟩
    · rw [detector_iteration_state, h1]
    · apply detector_bracketed_append _ _ _ h2
      rw [detector_iteration_calls, if_pos rfl]
      exact detector_bracketed_append _ _ detector_bracketed_block
        (detector_bracketed_of_not_mem _ (fun hm => (hproc _ hm).1 rfl))
    · rw [List.count_append, h3, detector_iteration_calls, if_pos rfl, List.count_append,
        List.count_eq_zero_of_not_mem (fun hm => (hproc _ hm).1 rfl)]
      have e : List.count detector_call.buffer_pop
          [detector_call.interrupts_disableArmInts, detector_call.buffer_pop,
            detector_call.interrupts_enableArmInts] = 1 := by
        decide
      rw [e]
      omega
    · rw [detector_iteration_state, h4, List.filter_append, detector_iteration_calls,
        detector_iteration_calls, List.filter_append]
      have hf : List.filter (fun c => !detector_call_isMasking c)
          (detector_process w.system ((buffer_pop w.buffer).1 % 4294967296)).2 =
          (detector_process w.system ((buffer_pop w.buffer).1 % 4294967296)).2 := by
        rw [List.filter_eq_self]
        intro c hc
        rw [(hproc c hc).2]
        rfl
      rw [hf]
      rfl

/-- Claim C30: in `detector(true)` every `buffer_pop` call has
`interrupts_disableArmInts()` right before it and `interrupts_enableArmInts()`
right after it, and there is one pop per buffered sample; `detector(false)` ends
in the same state, pops and processes the same samples, makes the same calls
except the masking calls, and makes no masking call.  (What an interrupt could
do between two calls is outside this sequential model.) -/
theorem C30_pop_between_masking_calls (w : world_t) :
    detector_bracketed (detector true w).2 ∧
    (detector true w).2.count detector_call.buffer_pop =
      buffer_elements w.buffer % 4294967296 ∧
    (detector false w).1 = (detector true w).1 ∧
    (detector false w).2 =
      (detector true w).2.filter (fun c => !detector_call_isMasking c) ∧
    (∀ c ∈ (detector false w).2, detector_call_isMasking c = false) := by
  unfold detector
  dsimp only
  obtain ⟨h1, h2, h3, h4⟩ := detector_loop_spec (buffer_elements w.buffer % 4294967296)
    { w with
      system :=
        { w.system with
          detector :=
            { w.system.detector with
              invocationCount := (w.system.detector.invocationCount + 1) % 4294967296
              elementCount := buffer_elements w.buffer % 4294967296 } } }
  have hfilter : detector_call.buffer_elements ::
      (detector_loop false (buffer_elements w.buffer % 4294967296)
        { w with
          system :=
            { w.system with
              detector :=
                { w.system.detector with
                  invocationCount := (w.system.detector.invocationCount + 1) % 4294967296
                  elementCount := buffer_elements w.buffer % 4294967296 } } }).2 =
      List.filter (fun c => !detector_call_isMasking c)
        (detector_call.buffer_elements ::
          (detector_loop true (buffer_elements w.buffer % 4294967296)
            { w with
              system :=
                { w.system with
                  detector :=
                    { w.system.detector with
                      invocationCount :=
                        (w.system.detector.invocationCount + 1) % 4294967296
                      elementCount := buffer_elements w.buffer % 4294967296 } } }).2) := by
    rw [h4]
    rfl
  refine ⟨?_, ?_, h1, hfilter, ?_⟩
  · exact detector_bracketed_append [detector_call.buffer_elements] _
      (detector_bracketed_of_not_mem _ (by decide)) h2
  · rw [List.count_cons, h3]
    simp
  · intro c hc
    rw [hfilter] at hc
    have := (List.mem_filter.1 hc).2
    simpa using this

/-! ## The sort loop of `hit_detect`: the properties -/

theorem hit_detect_sort_index_perm (p : Nat → ℚ) :
    ((List.range NUM_PLAYERS).map (hit_detect_sort p (fun i => i)).2).Perm
      (List.range NUM_PLAYERS) := by
  obtain ⟨_, hlt, hinj, hsurj, _⟩ := hit_detect_sort_inv p
  rw [List.perm_ext_iff_of_nodup _ (List.nodup_range _)]
  · intro g
    simp only [List.mem_map, List.mem_range]
    constructor
    · rintro ⟨x, hx, rfl⟩
      exact hlt x hx
    · intro hg
      exact hsurj g hg
  · apply List.Nodup.map_on _ (List.nodup_range _)
    intro x hx y hy hxy
    rw [List.mem_range] at hx hy
    exact hinj x y hx hy hxy

/-- Claim C31: for every vector `p` of 10 powers, after the sort loop of
`hit_detect` the array `tempArrayValues` is in ascending order and is a
permutation of the powers, `tempArrayIndeces` is a permutation of `0 .. 9` and
`tempArrayValues[k]` is the power of frequency `tempArrayIndeces[k]`; the value
at `MEDIAN_INDEX` is the rank-4 element of the ascending-sorted powers, the value
at `MAX_ARRAY_INDEX` is at least every power, and the frequency stored by every
`hit_detect` call in `frequencyDetected` is a frequency below 10 whose power is
that largest value. -/
theorem C31_sort_ascending_permutation (p : Nat → ℚ) :
    (∀ a b, a ≤ b → b < NUM_PLAYERS →
      (hit_detect_sort p (fun i => i)).1 a ≤ (hit_detect_sort p (fun i => i)).1 b) ∧
    ((List.range NUM_PLAYERS).map (hit_detect_sort p (fun i => i)).1).Perm
      ((List.range NUM_PLAYERS).map p) ∧
    ((List.range NUM_PLAYERS).map (hit_detect_sort p (fun i => i)).2).Perm
      (List.range NUM_PLAYERS) ∧
    (∀ k, (hit_detect_sort p (fun i => i)).1 k = p ((hit_detect_sort p (fun i => i)).2 k)) ∧
    (hit_detect_sort p (fun i => i)).1 MEDIAN_INDEX = (sorted_powers p).getD 4 0 ∧
    (∀ g, g < NUM_PLAYERS → p g ≤ (hit_detect_sort p (fun i => i)).1 MAX_ARRAY_INDEX) ∧
    (∀ s : system_t, detector_powers s = p →
      (hit_detect s).detector.frequencyDetected =
        (hit_detect_sort p (fun i => i)).2 MAX_ARRAY_INDEX ∧
      (hit_detect s).detector.frequencyDetected < NUM_PLAYERS ∧
      p (hit_detect s).detector.frequencyDetected =
        (hit_detect_sort p (fun i => i)).1 MAX_ARRAY_INDEX) := by
  refine ⟨fun a b hab hb => hit_detect_sort_sorted p a b hab hb, hit_detect_sort_perm p,
    hit_detect_sort_index_perm p, hit_detect_sort_value p, hit_detect_sort_median p,
    fun g hg => hit_detect_sort_max p g hg, ?_⟩
  intro s hs
  have hf := (hit_detect_frame s).2.2.2.2.1
  have htop : hit_topFrequency s = (hit_detect_sort p (fun i => i)).2 MAX_ARRAY_INDEX := by
    unfold hit_topFrequency
    rw [hs]
  rw [hf, htop]
  exact ⟨rfl, hit_detect_sort_index_lt p MAX_ARRAY_INDEX (by decide),
    (hit_detect_sort_value p MAX_ARRAY_INDEX).symm⟩

set_option maxRecDepth 100000 in
theorem powers_tie02_sort :
    (hit_detect_sort powers_tie02 (fun i => i)).2 8 = 2 ∧
    (hit_detect_sort powers_tie02 (fun i => i)).2 MAX_ARRAY_INDEX = 0 := by
  refine ⟨by decide, by decide⟩

/-- Claim C32, counterexample: on the powers `{1, 0, 1, 0, 0, 0, 0, 0, 0, 0}`
frequencies 0 and 2 tie for the largest power; the sort loop leaves frequency 2
in rank 8 and frequency 0 in the top rank 9, so equal powers are not in
ascending order of frequency and the top rank is not the highest-indexed
frequency of the tie. -/
theorem C32_sort_not_stable :
    powers_tie02 0 = 1 ∧ powers_tie02 2 = 1 ∧
    (∀ g, g < NUM_PLAYERS → powers_tie02 g ≤ 1) ∧
    (hit_detect_sort powers_tie02 (fun i => i)).2 8 = 2 ∧
    (hit_detect_sort powers_tie02 (fun i => i)).2 MAX_ARRAY_INDEX = 0 := by
  refine ⟨by decide, by decide, ?_, powers_tie02_sort.1, powers_tie02_sort.2⟩
  intro g hg
  unfold NUM_PLAYERS at hg
  interval_cases g <;> decide

/-- Claim C32, amended: the sort loop orders the ranks by ascending power, and
the frequency that a `hit_detect` call stores in `frequencyDetected` is a
frequency below 10 whose power is at least every other power: when several
frequencies tie for the largest power it is one of them. -/
theorem C32_top_rank_among_largest (s : system_t) :
    (∀ a b, a ≤ b → b < NUM_PLAYERS →
      (hit_detect_sort (detector_powers s) (fun i => i)).1 a ≤
        (hit_detect_sort (detector_powers s) (fun i => i)).1 b) ∧
    (hit_detect s).detector.frequencyDetected < NUM_PLAYERS ∧
    (∀ g, g < NUM_PLAYERS →
      detector_powers s g ≤ detector_powers s (hit_detect s).detector.frequencyDetected) := by
  have hf := (hit_detect_frame s).2.2.2.2.1
  rw [hf]
  exact ⟨fun a b hab hb => hit_detect_sort_sorted _ a b hab hb, hit_topFrequency_lt s,
    fun g hg => hit_topFrequency_max s g hg⟩

/-! ## Ring container: the error flags -/

theorem queue_flags_ok_push (q : queue_t) (v : queue_data_t) (hwf : queue_wf q)
    (h : queue_flags_ok q) : queue_flags_ok (queue_push q v) := by
  obtain ⟨ho, hu⟩ := h
  have hc := hwf.2.2.2.1
  rcases Nat.lt_or_ge q.elementCount q.size with h1 | h1
  · rw [queue_push_of_lt q v h1]
    refine ⟨fun hf => ?_, fun hf => ?_⟩
    · have := ho hf
      omega
    · cases hf
  · rw [queue_push_of_full q v (by omega)]
    exact ⟨fun _ => by simp only; omega, hu⟩

theorem queue_flags_ok_pop (q : queue_t) (h : queue_flags_ok q) :
    queue_flags_ok (queue_pop q).2 := by
  obtain ⟨ho, hu⟩ := h
  rcases Nat.eq_zero_or_pos q.elementCount with h1 | h1
  · rw [queue_pop_of_empty q h1]
    exact ⟨ho, fun _ => h1⟩
  · rw [queue_pop_of_pos q h1]
    refine ⟨fun hf => ?_, fun hf => ?_⟩
    · cases hf
    · have := hu hf
      omega

theorem queue_flags_ok_overwritePush (q : queue_t) (v : queue_data_t) (hwf : queue_wf q)
    (h : queue_flags_ok q) : queue_flags_ok (queue_overwritePush q v) := by
  unfold queue_overwritePush
  split
  · exact queue_flags_ok_push _ v (queue_wf_pop q hwf) (queue_flags_ok_pop q h)
  · exact queue_flags_ok_push q v hwf h

theorem queue_flags_ok_of_reachable (C : Nat) (hC : 1 ≤ C) (q : queue_t)
    (h : queue_reachable C q) : queue_wf q ∧ queue_flags_ok q := by
  obtain ⟨mem, ops, rfl⟩ := h
  unfold queue_run
  induction ops using List.reverseRecOn with
  | nil =>
    refine ⟨queue_wf_init C hC mem, ?_, ?_⟩
    · intro hf
      cases hf
    · intro hf
      cases hf
  | append_singleton ops op ih =>
    rw [List.foldl_append, List.foldl_cons, List.foldl_nil]
    obtain ⟨hwf, hfl⟩ := ih
    refine ⟨queue_wf_step _ op hwf, ?_⟩
    cases op with
    | push v => exact queue_flags_ok_push _ v hwf hfl
    | pop => exact queue_flags_ok_pop _ hfl
    | overwritePush v => exact queue_flags_ok_overwritePush _ v hwf hfl

/-- Claim C40: in every queue reached from `queue_init` with capacity `C ≥ 1` by
`queue_push`, `queue_pop` and `queue_overwritePush` calls, `overflowFlag` is set
only if the queue is full and `underflowFlag` only if it is empty, the two
flags are never both set, a `queue_push` on a queue that is not full leaves
`underflowFlag` false and a `queue_pop` on a queue that is not empty leaves
`overflowFlag` false. -/
theorem C40_queue_flags (C : Nat) (hC : 1 ≤ C) (q : queue_t) (h : queue_reachable C q) :
    (queue_overflow q = true → queue_full q = true) ∧
    (queue_underflow q = true → queue_empty q = true) ∧
    ¬ (queue_overflow q = true ∧ queue_underflow q = true) ∧
    (∀ v, queue_full q = false → queue_underflow (queue_push q v) = false) ∧
    (queue_empty q = false → queue_overflow (queue_pop q).2 = false) := by
  obtain ⟨hwf, ho, hu⟩ := queue_flags_ok_of_reachable C hC q h
  have hs := hwf.1
  have hc := hwf.2.2.2.1
  unfold queue_overflow queue_underflow queue_full queue_empty
  refine ⟨fun hf => by simp [ho hf], fun hf => by simp [hu hf], ?_, ?_, ?_⟩
  · rintro ⟨h1, h2⟩
    have := ho h1
    have := hu h2
    omega
  · intro v hfull
    have hne : q.elementCount ≠ q.size := by simpa using hfull
    rw [queue_push_of_lt q v (by omega)]
  · intro hempty
    have hne : q.elementCount ≠ 0 := by simpa using hempty
    rw [queue_pop_of_pos q (by omega)]

/-- Claim C40 on a queue of capacity 2 after a failed pop, two pushes and a
failed push: the overflow flag is set, the queue is full and the underflow flag
is clear. -/
theorem C40_queue_flags_witness :
    (queue_overflow (queue_run (queue_init 2 (fun _ => 0))
        [queue_op.pop, queue_op.push 1, queue_op.push 2, queue_op.push 3]) = true →
      queue_full (queue_run (queue_init 2 (fun _ => 0))
        [queue_op.pop, queue_op.push 1, queue_op.push 2, queue_op.push 3]) = true) ∧
    ¬ (queue_overflow (queue_run (queue_init 2 (fun _ => 0))
        [queue_op.pop, queue_op.push 1, queue_op.push 2, queue_op.push 3]) = true ∧
      queue_underflow (queue_run (queue_init 2 (fun _ => 0))
        [queue_op.pop, queue_op.push 1, queue_op.push 2, queue_op.push 3]) = true) :=
  have h := C40_queue_flags 2 (by decide) _
    ⟨fun _ => 0, [queue_op.pop, queue_op.push 1, queue_op.push 2, queue_op.push 3], rfl⟩
  ⟨h.1, h.2.2.1⟩

/-! ## `filter_init`: the queues are full of zeros -/

theorem filter_initQueue_contents (size : Nat) (hs : 1 ≤ size) (mem : Nat → queue_data_t) :
    queue_wf (filter_initQueue size mem) ∧
    (filter_initQueue size mem).size = size ∧
    (filter_initQueue size mem).elementCount = size ∧
    queue_contents (filter_initQueue size mem) = List.replicate size 0 := by
  obtain ⟨h1, h2, h3⟩ := queue_contents_foldl_overwritePush
    (List.replicate size QUEUE_INIT_VALUE) (queue_init size mem) (queue_wf_init size hs mem)
  have hsz : (queue_init size mem).size = size := rfl
  have hcnt : (queue_init size mem).elementCount = 0 := rfl
  rw [hsz] at h2
  rw [queue_contents_init, hsz, hcnt, List.length_replicate, List.nil_append,
    Nat.zero_add, Nat.sub_self, List.drop_zero] at h3
  refine ⟨h1, h2, ?_, h3⟩
  have hlen := queue_contents_length (filter_initQueue size mem)
  unfold filter_initQueue at hlen ⊢
  rw [h3, List.length_replicate] at hlen
  exact hlen.symm

theorem filter_initQueue_zero_filled (size : Nat) (hs : 1 ≤ size)
    (mem : Nat → queue_data_t) : queue_zero_filled size (filter_initQueue size mem) := by
  obtain ⟨hwf, hsz, hcnt, hcont⟩ := filter_initQueue_contents size hs mem
  refine ⟨hsz, ?_, fun k hk => ?_⟩
  · unfold queue_full
    rw [hcnt, hsz]
    exact beq_self_eq_true size
  · rw [queue_readElementAt_contents _ k hwf (by omega), hcont]
    refine ⟨?_, rfl⟩
    simp [List.getD_eq_getElem?_getD, hk]

/-- Claim C35: after `filter_init`, whatever the memory handed out by `malloc`
held, the `xQueue` has capacity 81, the `yQueue` capacity 11, every `zQueue`
capacity 10 and every output queue capacity 2000; each of them is full, and
`queue_readElementAt` returns 0 at every valid index of each of them. -/
theorem C35_filter_init_queues_zero (fs : filter_t) (mem : Nat → Nat → queue_data_t)
    (i : Nat) :
    queue_zero_filled 81 (filter_init fs mem).xQueue ∧
    queue_zero_filled 11 (filter_init fs mem).yQueue ∧
    queue_zero_filled 10 ((filter_init fs mem).zQueues i) ∧
    queue_zero_filled 2000 ((filter_init fs mem).outputQueues i) := by
  obtain ⟨hx, hy, hz⟩ := filter_init_queues fs mem i
  rw [hx, hy, hz, filter_init_outputQueues]
  exact ⟨filter_initQueue_zero_filled X_QUEUE_SIZE (by decide) _,
    filter_initQueue_zero_filled Y_QUEUE_SIZE (by decide) _,
    filter_initQueue_zero_filled Z_QUEUE_SIZE (by decide) _,
    filter_initQueue_zero_filled OUTPUT_QUEUE_SIZE (by decide) _⟩

/-! ## Power computation in the decimation block -/

/-- The invariant of the incremental power holds after `filter_init` at program
start: the output queue holds 2000 zeros and `prevPower`, `oldestValue` are 0. -/
theorem filter_powerInv_init (g : Nat) (mem : Nat → Nat → queue_data_t) :
    filter_powerInv g (filter_init filter_programStart mem) := by
  obtain ⟨hwf, hsz, hcnt, hcont⟩ :=
    filter_initQueue_contents OUTPUT_QUEUE_SIZE (by decide) (mem (12 + g))
  unfold filter_powerInv queue_sumSquares
  rw [filter_init_outputQueues, hcont]
  refine ⟨hwf, hsz, hcnt, ?_, ?_⟩
  · have hz : (List.map (fun v : ℚ => v * v) (List.replicate OUTPUT_QUEUE_SIZE 0)).sum = 0 := by
      rw [List.map_replicate, List.sum_replicate]
      simp
    rw [hz]
    rfl
  · have hz : (List.replicate OUTPUT_QUEUE_SIZE (0 : ℚ)).getD 0 0 = 0 := by
      simp [List.getD_eq_getElem?_getD]
    rw [hz]
    rfl

theorem filter_iirFilter_eq_pushOutput (fs : filter_t) (f : Nat) :
    (filter_iirFilter fs f).2 =
      filter_pushOutput
        { fs with
          zQueues := Function.update fs.zQueues f
            (queue_overwritePush (fs.zQueues f) (filter_iirFilter fs f).1) }
        f (filter_iirFilter fs f).1 := rfl

/-- One `filter_iirFilter(f)` followed by `filter_computePower(f, false, false)`
keeps the invariant of every filter `g`. -/
theorem filter_powerInv_iirPower (f g : Nat) (fs : filter_t) (h : filter_powerInv g fs) :
    filter_powerInv g (filter_computePower (filter_iirFilter fs f).2 f false false).2 := by
  by_cases hgf : g = f
  · subst hgf
    rw [filter_iirFilter_eq_pushOutput]
    exact (filter_powerStep_spec g _ _ h).2
  · have h1 : (filter_computePower (filter_iirFilter fs f).2 f false false).2.outputQueues g =
        fs.outputQueues g := by
      simp [filter_computePower, filter_iirFilter, Function.update_noteq hgf]
    have h2 : (filter_computePower (filter_iirFilter fs f).2 f false false).2.prevPower g =
        fs.prevPower g := by
      simp [filter_computePower, filter_iirFilter, Function.update_noteq hgf]
    have h3 : (filter_computePower (filter_iirFilter fs f).2 f false false).2.oldestValue g =
        fs.oldestValue g := by
      simp [filter_computePower, filter_iirFilter, Function.update_noteq hgf]
    unfold filter_powerInv at h ⊢
    rw [h1, h2, h3]
    exact h

theorem filter_powerInv_filterBank (fs : filter_t) (h : ∀ g, filter_powerInv g fs) :
    ∀ g, filter_powerInv g (detector_filterBank fs).1 := by
  unfold detector_filterBank
  have key : ∀ (ns : List Nat) (r : filter_t × List detector_call),
      (∀ g, filter_powerInv g r.1) →
      ∀ g, filter_powerInv g (ns.foldl
          (fun r filterNumber =>
            ((filter_computePower (filter_iirFilter r.1 filterNumber).2 filterNumber
                false false).2,
              r.2 ++ [detector_call.filter_iirFilter filterNumber,
                detector_call.filter_computePower filterNumber]))
          r).1 := by
    intro ns
    induction ns with
    | nil => exact fun r hr => hr
    | cons n ns ih =>
      intro r hr
      rw [List.foldl_cons]
      exact ih _ (fun g => filter_powerInv_iirPower n g r.1 (hr g))
  exact key _ _ h

theorem filter_powerInv_run (events : List filter_event) (fs : filter_t)
    (h : ∀ g, filter_powerInv g fs) : ∀ g, filter_powerInv g (filter_run fs events) := by
  unfold filter_run
  induction events generalizing fs with
  | nil => exact h
  | cons e es ih =>
    rw [List.foldl_cons]
    apply ih
    cases e with
    | addNewInput x => exact h
    | decimate => exact filter_powerInv_filterBank _ h

theorem queue_sumSquares_nonneg (q : queue_t) : 0 ≤ queue_sumSquares q := by
  unfold queue_sumSquares
  apply List.sum_nonneg
  intro x hx
  obtain ⟨v, -, rfl⟩ := List.mem_map.1 hx
  exact mul_self_nonneg v

/-- Claim C34: over exact arithmetic, start at program start, call `filter_init`,
then let the detector add input samples and run its decimation block any number
of times.  Then for every filter number `f < 10` the value returned by
`filter_getCurrentPowerValue(f)` is the sum that the from-scratch loop would
compute on `outputQueues[f]`, that is the sum of the squares of its 2000 stored
elements, and it is not negative. -/
theorem C34_power_is_sum_of_squares (mem : Nat → Nat → queue_data_t)
    (events : List filter_event) (f : Nat) (_hf : f < FILTER_IIR_FILTER_COUNT) :
    filter_getCurrentPowerValue (filter_run (filter_init filter_programStart mem) events) f =
      filter_powerFromScratch
        ((filter_run (filter_init filter_programStart mem) events).outputQueues f) ∧
    filter_getCurrentPowerValue (filter_run (filter_init filter_programStart mem) events) f =
      ((queue_elements
        ((filter_run (filter_init filter_programStart mem) events).outputQueues f)).map
          (fun v => v * v)).sum ∧
    (queue_elements
      ((filter_run (filter_init filter_programStart mem) events).outputQueues f)).length =
        2000 ∧
    0 ≤ filter_getCurrentPowerValue
      (filter_run (filter_init filter_programStart mem) events) f := by
  obtain ⟨hwf, hsz, hcnt, hprev, -⟩ :=
    filter_powerInv_run events _ (fun g => filter_powerInv_init g mem) f
  unfold filter_getCurrentPowerValue
  rw [hprev]
  refine ⟨(filter_powerFromScratch_eq _ hwf hcnt).symm, ?_, ?_, queue_sumSquares_nonneg _⟩
  · rw [queue_elements_eq_contents _ hwf]
    rfl
  · rw [queue_elements_eq_contents _ hwf, queue_contents_length, hcnt]
    rfl

/-- Claim C34 after two input samples and one decimation block, for filter 3. -/
theorem C34_power_is_sum_of_squares_witness :
    0 ≤ filter_getCurrentPowerValue
      (filter_run (filter_init filter_programStart (fun _ _ => 0))
        [filter_event.addNewInput 1, filter_event.addNewInput (-1), filter_event.decimate]) 3 :=
  (C34_power_is_sum_of_squares (fun _ _ => 0)
    [filter_event.addNewInput 1, filter_event.addNewInput (-1), filter_event.decimate] 3
    (by decide)).2.2.2

/-! ## Detector: lives and the frozen flag -/

/-- What `hit_detect` does to `lives` and `frozen`: an accepted hit on a frozen
shooter revives it, an accepted hit on a shooter that is not frozen freezes it,
and every other call leaves both as they are. -/
theorem hit_detect_lives_frozen (s : system_t) :
    (hit_accepted s → s.detector.frozen = true →
      hit_topFrequency s = s.detector.ownFrequency ∧
      (hit_detect s).detector.lives = TOTAL_LIVES ∧ (hit_detect s).detector.frozen = false) ∧
    (hit_accepted s → s.detector.frozen = false →
      hit_topFrequency s ≠ s.detector.ownFrequency ∧
      (hit_detect s).detector.lives = 0 ∧ (hit_detect s).detector.frozen = true) ∧
    (¬ hit_accepted s →
      (hit_detect s).detector.lives = s.detector.lives ∧
      (hit_detect s).detector.frozen = s.detector.frozen) := by
  refine ⟨fun ha hfz => ?_, fun ha hfz => ?_, fun hna => ?_⟩
  · obtain ⟨hr, h1, -⟩ := (hit_accepted_iff s).1 ha
    rw [hit_detect_revive s hr hfz (h1 hfz)]
    exact ⟨h1 hfz, rfl, rfl⟩
  · obtain ⟨hr, -, h2⟩ := (hit_accepted_iff s).1 ha
    rw [hit_detect_freeze s hr hfz (h2 hfz)]
    exact ⟨h2 hfz, rfl, rfl⟩
  · by_cases hr : hit_recognized s
    · have hrej : (s.detector.frozen = true ∧ hit_topFrequency s ≠ s.detector.ownFrequency) ∨
          (s.detector.frozen = false ∧ hit_topFrequency s = s.detector.ownFrequency) := by
        cases hfz : s.detector.frozen with
        | true =>
          refine Or.inl ⟨rfl, fun ho => hna ((hit_accepted_iff s).2 ⟨hr, fun _ => ho, ?_⟩)⟩
          intro h
          rw [hfz] at h
          cases h
        | false =>
          refine Or.inr ⟨rfl, ?_⟩
          by_contra ho
          refine hna ((hit_accepted_iff s).2 ⟨hr, ?_, fun _ => ho⟩)
          intro h
          rw [hfz] at h
          cases h
      rw [hit_detect_rejected s hr hrej]
      exact ⟨rfl, rfl⟩
    · rw [hit_detect_unrecognized s hr]
      exact ⟨rfl, rfl⟩

/-- The invariant of the detector: `lives` is 0 or `TOTAL_LIVES`, and the
shooter is frozen exactly when `lives` is 0. -/
theorem detector_reachable_inv (s : system_t) (h : detector_reachable s) :
    (s.detector.lives = 0 ∨ s.detector.lives = TOTAL_LIVES) ∧
    (s.detector.frozen = true ↔ s.detector.lives = 0) := by
  obtain ⟨s0, fsetting, events, rfl⟩ := h
  induction events using List.reverseRecOn with
  | nil =>
    refine ⟨Or.inr rfl, ?_⟩
    simp [detector_init, TOTAL_LIVES]
  | append_singleton es e ih =>
    rw [List.foldl_append, List.foldl_cons, List.foldl_nil]
    generalize List.foldl detector_event_step
      { s0 with detector := detector_init s0.detector fsetting } es = s at ih
    cases e with
    | hit_detect =>
      obtain ⟨h1, h2, h3⟩ := hit_detect_lives_frozen s
      simp only [detector_event_step]
      by_cases ha : hit_accepted s
      · cases hfz : s.detector.frozen with
        | true =>
          obtain ⟨-, hl, hf⟩ := h1 ha hfz
          rw [hl, hf]
          simp [TOTAL_LIVES]
        | false =>
          obtain ⟨-, hl, hf⟩ := h2 ha hfz
          rw [hl, hf]
          simp
      · obtain ⟨hl, hf⟩ := h3 ha
        rw [hl, hf]
        exact ih
    | setIgnoredFrequencies a => exact ih
    | ignoreAllHits b => exact ih
    | setFudgeFactorIndex n => exact ih
    | setOwnFrequency n => exact ih
    | clearHit => exact ih
    | surroundings f l hl t snd => exact ih

/-- Claim C39: in every state reached from `detector_init` by `hit_detect` calls,
calls of the detector's setter functions and changes outside the detector,
`lives` is 0 or `TOTAL_LIVES` and the shooter is frozen exactly when `lives` is
0.  An accepted hit on a frozen shooter is on the own frequency and leaves it
not frozen; an accepted hit on a shooter that is not frozen is on a foreign
frequency and leaves it frozen; a `hit_detect` call that accepts no hit, and
every other step, leaves the frozen flag as it is: accepted hits alternate
between a freezing hit and a reviving hit. -/
theorem C39_lives_and_frozen (s : system_t) (h : detector_reachable s) :
    (detector_getLives s = 0 ∨ detector_getLives s = TOTAL_LIVES) ∧
    (s.detector.frozen = true ↔ detector_getLives s = 0) ∧
    (hit_accepted s → s.detector.frozen = true →
      hit_topFrequency s = s.detector.ownFrequency ∧
      (hit_detect s).detector.frozen = false) ∧
    (hit_accepted s → s.detector.frozen = false →
      hit_topFrequency s ≠ s.detector.ownFrequency ∧
      (hit_detect s).detector.frozen = true) ∧
    (¬ hit_accepted s → (hit_detect s).detector.frozen = s.detector.frozen) ∧
    (∀ e : detector_event, e = detector_event.hit_detect ∨
      (detector_event_step s e).detector.frozen = s.detector.frozen) := by
  obtain ⟨hl, hf⟩ := detector_reachable_inv s h
  obtain ⟨h1, h2, h3⟩ := hit_detect_lives_frozen s
  refine ⟨hl, hf, fun ha hfz => ⟨(h1 ha hfz).1, (h1 ha hfz).2.2⟩,
    fun ha hfz => ⟨(h2 ha hfz).1, (h2 ha hfz).2.2⟩, fun hna => (h3 hna).2, ?_⟩
  intro e
  cases e with
  | hit_detect => exact Or.inl rfl
  | setIgnoredFrequencies a => exact Or.inr rfl
  | ignoreAllHits b => exact Or.inr rfl
  | setFudgeFactorIndex n => exact Or.inr rfl
  | setOwnFrequency n => exact Or.inr rfl
  | clearHit => exact Or.inr rfl
  | surroundings f l hl t snd => exact Or.inr rfl

/-- Claim C39 on the state after `detector_init` and one `hit_detect` call on
`testData1`. -/
theorem C39_lives_and_frozen_witness :
    detector_getLives (detector_event_step
        { system_withPowers testData1 with
          detector := detector_init (system_withPowers testData1).detector 0 }
        detector_event.hit_detect) = 0 ∨
      detector_getLives (detector_event_step
        { system_withPowers testData1 with
          detector := detector_init (system_withPowers testData1).detector 0 }
        detector_event.hit_detect) = TOTAL_LIVES :=
  (C39_lives_and_frozen _
    ⟨system_withPowers testData1, 0, [detector_event.hit_detect], rfl⟩).1

/-! ## Transmitter: a frequency set while idle -/

/-- Claim C37, evaluated: after `transmitter_init` and one tick the machine is
idle with frequency number 0 and half-period 34.  `transmitter_setFrequencyNumber(9)`
and `transmitter_run()` are called and the next tick starts the burst: the
half-period in use is still 34, not `filter_frequencyTickTable[9] / 2 = 12`, and
the pin is high after the 13th and the 34th tick and goes low at the 35th. -/
theorem C37_stale_half_period :
    (transmitter_tick (transmitter_init 0)).transmitterState =
      transmitter_state_t.TRANSMITTER_IDLE_ST ∧
    transmitter_halfPeriod 9 = 12 ∧
    (transmitter_tick (transmitter_run (transmitter_setFrequencyNumber
      (transmitter_tick (transmitter_init 0)) 9))).transmitterState =
      transmitter_state_t.TRANSMITTER_HIGH_ST ∧
    (transmitter_tick (transmitter_run (transmitter_setFrequencyNumber
      (transmitter_tick (transmitter_init 0)) 9))).timeOnTicks = 34 ∧
    (transmitter_ticks 13 (transmitter_run (transmitter_setFrequencyNumber
      (transmitter_tick (transmitter_init 0)) 9))).jf1 = TRANSMITTER_HIGH_VALUE ∧
    (transmitter_ticks 34 (transmitter_run (transmitter_setFrequencyNumber
      (transmitter_tick (transmitter_init 0)) 9))).jf1 = TRANSMITTER_HIGH_VALUE ∧
    (transmitter_ticks 35 (transmitter_run (transmitter_setFrequencyNumber
      (transmitter_tick (transmitter_init 0)) 9))).jf1 = TRANSMITTER_LOW_VALUE := by
  refine ⟨by decide, by decide, by decide, by decide, by decide, by decide, by decide⟩

/-! ## Trigger: the debounce counter is not reset -/

theorem trigger_tick_count1_released (w rc r : Nat) (rl : Bool) (x : trigger_input)
    (hx : trigger_input_pressed x = false) :
    trigger_tick ⟨trigger_state_t.TRIGGER_COUNT_1_ST, w, rc, false, rl, r⟩ x =
      (⟨trigger_state_t.TRIGGER_IDLE_ST, w, rc, false, rl, r⟩, []) := by
  simp [trigger_tick, trigger_tick_transition, trigger_tick_action, triggerPressed_enabled, hx]

theorem trigger_fireTick_eq (w : Nat) (hw : w + 2 ≤ DEBOUNCE_TICKS + 1) :
    trigger_fireTick w = DEBOUNCE_TICKS + 1 - w := by
  unfold trigger_fireTick
  rw [if_pos hw]

theorem trigger_fireTick_late (w : Nat) (hw : DEBOUNCE_TICKS ≤ w + 1) :
    trigger_fireTick w = 2 := by
  unfold trigger_fireTick DEBOUNCE_TICKS at *
  split <;> omega

/-- Claim C36, evaluated.  After `trigger_init`, `trigger_enable` and two ticks
the machine is idle with a full clip.  First run: the gun trigger is down for
5001 ticks (first shot) and up for 5001 ticks; the machine is idle again with
`waitCount` still 5000; the trigger goes down again and the second shot is
fired at the second tick of this press.  Second run: the trigger is down for
3000 ticks, up for one tick and down for 2001 ticks; a shot is fired at the last
tick although the trigger was never down for 5000 consecutive ticks. -/
theorem C36_debounce_not_restarted :
    (trigger_run (trigger_enable (trigger_init trigger_programStart))
      [⟨0, false, false⟩, ⟨0, false, false⟩]).1 =
      ⟨trigger_state_t.TRIGGER_IDLE_ST, 0, 0, false, false, 10⟩ ∧
    trigger_run ⟨trigger_state_t.TRIGGER_IDLE_ST, 0, 0, false, false, 10⟩
        (List.replicate 5001 ⟨1, false, false⟩ ++ List.replicate 5001 ⟨0, false, false⟩) =
      (⟨trigger_state_t.TRIGGER_IDLE_ST, 5000, 0, false, false, 9⟩,
        [trigger_call.sound (sound_call.setSound sound_sounds_t.sound_gunFire_e),
          trigger_call.transmitter_run,
          trigger_call.sound sound_call.startSound]) ∧
    trigger_run ⟨trigger_state_t.TRIGGER_IDLE_ST, 5000, 0, false, false, 9⟩
        [⟨1, false, false⟩, ⟨1, false, false⟩] =
      (⟨trigger_state_t.TRIGGER_PRESSED_ST, 0, 1, false, false, 8⟩,
        [trigger_call.sound (sound_call.setSound sound_sounds_t.sound_gunFire_e),
          trigger_call.transmitter_run,
          trigger_call.sound sound_call.startSound]) ∧
    trigger_run ⟨trigger_state_t.TRIGGER_IDLE_ST, 0, 0, false, false, 10⟩
        (List.replicate 3000 ⟨1, false, false⟩ ++ [⟨0, false, false⟩]) =
      (⟨trigger_state_t.TRIGGER_IDLE_ST, 3000, 0, false, false, 10⟩, []) ∧
    trigger_run ⟨trigger_state_t.TRIGGER_IDLE_ST, 3000, 0, false, false, 10⟩
        (List.replicate 2001 ⟨1, false, false⟩) =
      (⟨trigger_state_t.TRIGGER_PRESSED_ST, 0, 1, false, false, 9⟩,
        [trigger_call.sound (sound_call.setSound sound_sounds_t.sound_gunFire_e),
          trigger_call.transmitter_run,
          trigger_call.sound sound_call.startSound]) := by
  have hP : ∀ y ∈ List.replicate 3000 (⟨1, false, false⟩ : trigger_input),
      trigger_input_pressed y = true := by
    intro y hy
    rw [List.eq_of_mem_replicate hy]
    rfl
  have hP2 : ∀ y ∈ List.replicate 2001 (⟨1, false, false⟩ : trigger_input),
      trigger_input_pressed y = true := by
    intro y hy
    rw [List.eq_of_mem_replicate hy]
    rfl
  have hD : DEBOUNCE_TICKS = 5000 := rfl
  have hR : RELOAD_TICKS = 300000 := rfl
  refine ⟨by decide, ?_, by decide, ?_, ?_⟩
  · exact trigger_run_cycle 0 10 false (by omega) (by omega) _ _
      (trigger_press_replicate 5001 _ rfl (by omega) (by omega))
      (trigger_release_replicate 5001 _ rfl (by omega))
  · have hf : trigger_fireTick 0 = 5001 := by
      rw [trigger_fireTick_eq 0 (by omega)]
      omega
    rw [trigger_run_snoc,
      trigger_run_press 0 10 false (by omega) (by omega) _ hP
        (by rw [List.length_replicate]; omega),
      List.length_replicate,
      trigger_pressAt_count 0 10 false 3000 (by omega) (by omega),
      trigger_pressCalls_lt 0 3000 (by omega)]
    dsimp only
    rw [trigger_tick_count1_released _ _ _ _ ⟨0, false, false⟩ rfl]
    rfl
  · have hf : trigger_fireTick 3000 = 2001 := by
      rw [trigger_fireTick_eq 3000 (by omega)]
      omega
    rw [trigger_run_press 3000 10 false (by omega) (by omega) _ hP2
        (by rw [List.length_replicate]; omega),
      List.length_replicate,
      trigger_pressAt_pressed 3000 10 false 2001 (by omega),
      trigger_pressCalls_ge 3000 2001 (by omega), hf]

/-! ## Trigger: the disabled state with an empty clip -/

theorem trigger_events_ticks (t : trigger_t) (xs : List trigger_input) :
    trigger_events t (xs.map trigger_event.tick) = (trigger_run t xs).1 := by
  unfold trigger_events
  induction xs generalizing t with
  | nil => rfl
  | cons x xs ih =>
    rw [List.map_cons, List.foldl_cons, trigger_run_cons]
    exact ih _

theorem trigger_events_append (t : trigger_t) (a b : List trigger_event) :
    trigger_events t (a ++ b) = trigger_events (trigger_events t a) b := by
  unfold trigger_events
  rw [List.foldl_append]

/-- A tick in the disabled state with an empty clip changes nothing and makes
no call, whatever the disabled flag and the inputs. -/
theorem trigger_tick_disabled_empty (w rc : Nat) (d rl : Bool) (x : trigger_input) :
    trigger_tick ⟨trigger_state_t.TRIGGER_DISABLED_ST, w, rc, d, rl, 0⟩ x =
      (⟨trigger_state_t.TRIGGER_DISABLED_ST, w, rc, d, rl, 0⟩, []) := by
  cases d <;> rfl

theorem trigger_events_disabled_empty (events : List trigger_event) (t : trigger_t)
    (hs : t.triggerState = trigger_state_t.TRIGGER_DISABLED_ST) (h0 : t.remainingShots = 0) :
    (trigger_events t events).triggerState = trigger_state_t.TRIGGER_DISABLED_ST ∧
    (trigger_events t events).remainingShots = 0 := by
  unfold trigger_events
  induction events generalizing t with
  | nil => exact ⟨hs, h0⟩
  | cons e es ih =>
    rw [List.foldl_cons]
    obtain ⟨st, w, rc, d, rl, r⟩ := t
    simp only at hs h0
    subst hs h0
    cases e with
    | tick x =>
      simp only [trigger_event_step]
      rw [trigger_tick_disabled_empty]
      exact ih _ rfl rfl
    | enable => exact ih _ rfl rfl
    | disable => exact ih _ rfl rfl

/-- After nine press/release cycles, a tenth press and the debounced release
the machine is idle with an empty clip. -/
theorem trigger_run_empty_clip (w : Nat) (rl : Bool) (hw : w < 4294967295)
    (cycles : List (List trigger_input × List trigger_input))
    (hk : cycles.length + 1 = SHOTS_PER_CLIP)
    (hcyc : ∀ c ∈ cycles, trigger_press c.1 ∧ trigger_release c.2)
    (ps : List trigger_input) (hps : trigger_press ps)
    (rs : List trigger_input) (hrs : ∀ x ∈ rs, trigger_input_pressed x = false)
    (hlen : rs.length = DEBOUNCE_TICKS + 1) :
    (trigger_run ⟨trigger_state_t.TRIGGER_IDLE_ST, w, 0, false, rl, SHOTS_PER_CLIP⟩
      (trigger_cycles cycles ++ ps ++ rs)).1 =
      ⟨trigger_state_t.TRIGGER_IDLE_ST, DEBOUNCE_TICKS, 0, false, rl, 0⟩ := by
  obtain ⟨w', calls, hw', -, hrun⟩ :=
    trigger_run_cycles rl cycles w SHOTS_PER_CLIP hw (by omega) hcyc
  obtain ⟨c, hc, hp⟩ := trigger_run_one_press w' (SHOTS_PER_CLIP - cycles.length) rl hw'
    (by omega) ps hps
  have hzero : SHOTS_PER_CLIP - cycles.length - 1 = 0 := by omega
  rw [hzero] at hp
  rw [trigger_run_append, trigger_run_append, hrun]
  dsimp only
  rw [hp]
  dsimp only
  rw [trigger_run_release c 0 rl hc rs hrs (Or.inr (by omega)),
    trigger_releaseAt_idle c 0 rl rs.length (by omega)]

/-- The disabled state with an empty clip is reached from `trigger_init`. -/
theorem trigger_reachable_disabled_empty :
    trigger_reachable ⟨trigger_state_t.TRIGGER_DISABLED_ST, DEBOUNCE_TICKS, 0, true, false, 0⟩ := by
  have hD : DEBOUNCE_TICKS = 5000 := rfl
  have hR : RELOAD_TICKS = 300000 := rfl
  have h1 : trigger_events (trigger_init trigger_programStart)
      [trigger_event.enable, trigger_event.tick ⟨0, false, false⟩,
        trigger_event.tick ⟨0, false, false⟩] =
      ⟨trigger_state_t.TRIGGER_IDLE_ST, 0, 0, false, false, SHOTS_PER_CLIP⟩ := by
    decide
  have h2 := trigger_run_empty_clip 0 false (by omega)
    (List.replicate 9
      (List.replicate 5001 (⟨1, false, false⟩ : trigger_input),
        List.replicate 5001 (⟨0, false, false⟩ : trigger_input)))
    (by rw [List.length_replicate]; decide)
    (fun c hc => by
      rw [List.eq_of_mem_replicate hc]
      exact ⟨trigger_press_replicate 5001 _ rfl (by omega) (by omega),
        trigger_release_replicate 5001 _ rfl (by omega)⟩)
    (List.replicate 5001 (⟨1, false, false⟩ : trigger_input))
    (trigger_press_replicate 5001 _ rfl (by omega) (by omega))
    (List.replicate 5001 (⟨0, false, false⟩ : trigger_input))
    (fun y hy => by rw [List.eq_of_mem_replicate hy]; rfl)
    (by rw [List.length_replicate, hD])
  have h3 : trigger_events
      ⟨trigger_state_t.TRIGGER_IDLE_ST, DEBOUNCE_TICKS, 0, false, false, 0⟩
      [trigger_event.disable, trigger_event.tick ⟨0, false, false⟩] =
      ⟨trigger_state_t.TRIGGER_DISABLED_ST, DEBOUNCE_TICKS, 0, true, false, 0⟩ := rfl
  refine ⟨[trigger_event.enable, trigger_event.tick ⟨0, false, false⟩,
        trigger_event.tick ⟨0, false, false⟩] ++
      (trigger_cycles (List.replicate 9
          (List.replicate 5001 (⟨1, false, false⟩ : trigger_input),
            List.replicate 5001 (⟨0, false, false⟩ : trigger_input))) ++
        List.replicate 5001 (⟨1, false, false⟩ : trigger_input) ++
        List.replicate 5001 (⟨0, false, false⟩ : trigger_input)).map trigger_event.tick ++
      [trigger_event.disable, trigger_event.tick ⟨0, false, false⟩], ?_⟩
  rw [trigger_events_append, trigger_events_append, h1, trigger_events_ticks, h2, h3]

/-- Claim C38: in the disabled state with `remainingShots = 0`, every tick, for
every value of the disabled flag and of the inputs, and every `trigger_enable`
or `trigger_disable` call leaves the machine in the disabled state with
`remainingShots = 0`, and a tick makes no call; and such a state is reached from
`trigger_init`: enable the trigger, fire the ten shots of the clip, release the
trigger, call `trigger_disable` while the machine is idle, and tick once. -/
theorem C38_disabled_empty_is_a_trap (t : trigger_t)
    (hs : t.triggerState = trigger_state_t.TRIGGER_DISABLED_ST) (h0 : t.remainingShots = 0) :
    (∀ x, (trigger_tick t x).1.triggerState = trigger_state_t.TRIGGER_DISABLED_ST ∧
      (trigger_tick t x).1.remainingShots = 0 ∧ (trigger_tick t x).2 = []) ∧
    (trigger_enable t).triggerState = trigger_state_t.TRIGGER_DISABLED_ST ∧
    (∀ events, (trigger_events t events).triggerState = trigger_state_t.TRIGGER_DISABLED_ST ∧
      (trigger_events t events).remainingShots = 0) ∧
    (∃ t', trigger_reachable t' ∧
      t'.triggerState = trigger_state_t.TRIGGER_DISABLED_ST ∧ t'.remainingShots = 0) := by
  refine ⟨fun x => ?_, hs, fun events => trigger_events_disabled_empty events t hs h0,
    ⟨_, trigger_reachable_disabled_empty, rfl, rfl⟩⟩
  obtain ⟨st, w, rc, d, rl, r⟩ := t
  simp only at hs h0
  subst hs h0
  rw [trigger_tick_disabled_empty]
  exact ⟨rfl, rfl, rfl⟩

/-- Claim C38 at the disabled state with an empty clip reached from
`trigger_init`: after `trigger_enable` and a tick with BTN0 down the machine is
still disabled with an empty clip. -/
theorem C38_disabled_empty_is_a_trap_witness :
    (trigger_events ⟨trigger_state_t.TRIGGER_DISABLED_ST, DEBOUNCE_TICKS, 0, true, false, 0⟩
      [trigger_event.enable, trigger_event.tick ⟨1, true, false⟩]).triggerState =
        trigger_state_t.TRIGGER_DISABLED_ST ∧
    (trigger_events ⟨trigger_state_t.TRIGGER_DISABLED_ST, DEBOUNCE_TICKS, 0, true, false, 0⟩
      [trigger_event.enable, trigger_event.tick ⟨1, true, false⟩]).remainingShots = 0 :=
  (C38_disabled_empty_is_a_trap
    ⟨trigger_state_t.TRIGGER_DISABLED_ST, DEBOUNCE_TICKS, 0, true, false, 0⟩ rfl rfl).2.2.1
    [trigger_event.enable, trigger_event.tick ⟨1, true, false⟩]

/-! ## detector: what one call does -/

theorem hit_detect_frame_counters (s : system_t) :
    (hit_detect s).detector.sampleCnt = s.detector.sampleCnt ∧
    (hit_detect s).detector.invocationCount = s.detector.invocationCount ∧
    (hit_detect s).detector.elementCount = s.detector.elementCount := by
  rw [hit_detect_unfold]
  split_ifs <;> exact ⟨rfl, rfl, rfl⟩

theorem detector_hitStep_frame (s : system_t) :
    (detector_hitStep s).filter = s.filter ∧
    (detector_hitStep s).detector.sampleCnt = s.detector.sampleCnt ∧
    (detector_hitStep s).detector.invocationCount = s.detector.invocationCount := by
  unfold detector_hitStep
  split
  · exact ⟨(hit_detect_frame s).1, (hit_detect_frame_counters s).1,
      (hit_detect_frame_counters s).2.1⟩
  · exact ⟨rfl, rfl, rfl⟩

theorem detector_filterBank_fold (ns : List Nat) (r : filter_t × List detector_call) :
    (ns.foldl
        (fun r filterNumber =>
          ((filter_computePower (filter_iirFilter r.1 filterNumber).2 filterNumber
              false false).2,
            r.2 ++ [detector_call.filter_iirFilter filterNumber,
              detector_call.filter_computePower filterNumber]))
        r).1.xQueue = r.1.xQueue ∧
    (ns.foldl
        (fun r filterNumber =>
          ((filter_computePower (filter_iirFilter r.1 filterNumber).2 filterNumber
              false false).2,
            r.2 ++ [detector_call.filter_iirFilter filterNumber,
              detector_call.filter_computePower filterNumber]))
        r).2 =
      ns.foldl
        (fun acc filterNumber =>
          acc ++ [detector_call.filter_iirFilter filterNumber,
            detector_call.filter_computePower filterNumber])
        r.2 := by
  induction ns generalizing r with
  | nil => exact ⟨rfl, rfl⟩
  | cons n ns ih =>
    rw [List.foldl_cons, List.foldl_cons]
    obtain ⟨h1, h2⟩ := ih
      ((filter_computePower (filter_iirFilter r.1 n).2 n false false).2,
        r.2 ++ [detector_call.filter_iirFilter n, detector_call.filter_computePower n])
    exact ⟨h1, h2⟩

theorem detector_filterBank_spec (fs : filter_t) :
    (detector_filterBank fs).1.xQueue = fs.xQueue ∧
    (detector_filterBank fs).2 = detector_bankCalls :=
  detector_filterBank_fold _ (fs, [])

theorem detector_bankCalls_counts (f : Nat) (hf : f < FILTER_FREQUENCY_COUNT) :
    detector_bankCalls.count (detector_call.filter_iirFilter f) = 1 ∧
    detector_bankCalls.count (detector_call.filter_computePower f) = 1 := by
  unfold FILTER_FREQUENCY_COUNT at hf
  interval_cases f <;> exact ⟨by decide, by decide⟩

theorem detector_decimate_spec (s : system_t) :
    (detector_decimate s).1.detector.sampleCnt = 0 ∧
    (detector_decimate s).1.detector.invocationCount = s.detector.invocationCount ∧
    (detector_decimate s).1.filter.xQueue = s.filter.xQueue ∧
    ((detector_decimate s).2 =
        detector_call.filter_firFilter :: detector_bankCalls ++
          [detector_call.lockoutTimer_running, detector_call.hit_detect] ∨
      (detector_decimate s).2 =
        detector_call.filter_firFilter :: detector_bankCalls ++
          [detector_call.lockoutTimer_running]) := by
  unfold detector_decimate
  dsimp only
  obtain ⟨hx, hcalls⟩ := detector_filterBank_spec (filter_firFilter s.filter).2
  rw [hcalls]
  refine ⟨(detector_hitStep_frame _).2.1, (detector_hitStep_frame _).2.2, ?_, ?_⟩
  · rw [(detector_hitStep_frame _).1]
    exact hx
  · split
    · exact Or.inl rfl
    · exact Or.inr rfl

theorem detector_decimateCalls_counts (tail : List detector_call)
    (ht : tail = [detector_call.lockoutTimer_running, detector_call.hit_detect] ∨
      tail = [detector_call.lockoutTimer_running]) :
    detector_inputs (detector_call.filter_firFilter :: detector_bankCalls ++ tail) = [] ∧
    (detector_call.filter_firFilter :: detector_bankCalls ++ tail).count
      detector_call.buffer_pop = 0 ∧
    (detector_call.filter_firFilter :: detector_bankCalls ++ tail).count
      detector_call.filter_firFilter = 1 ∧
    ∀ f, f < FILTER_FREQUENCY_COUNT →
      (detector_call.filter_firFilter :: detector_bankCalls ++ tail).count
        (detector_call.filter_iirFilter f) = 1 ∧
      (detector_call.filter_firFilter :: detector_bankCalls ++ tail).count
        (detector_call.filter_computePower f) = 1 := by
  rcases ht with ht | ht <;> subst ht
  · refine ⟨by decide, by decide, by decide, fun f hf => ?_⟩
    unfold FILTER_FREQUENCY_COUNT at hf
    interval_cases f <;> exact ⟨by decide, by decide⟩
  · refine ⟨by decide, by decide, by decide, fun f hf => ?_⟩
    unfold FILTER_FREQUENCY_COUNT at hf
    interval_cases f <;> exact ⟨by decide, by decide⟩

theorem detector_process_of_tenth (sys : system_t) (raw : Nat)
    (h : (sys.detector.sampleCnt + 1) % 256 = INPUT_BEFORE_CALCULATION) :
    detector_process sys raw =
      ((detector_decimate
          { sys with
            filter := filter_addNewInput sys.filter
              ((raw : ℚ) / SCALED_ADC_FACTOR - SCALED_ADC_RANGE)
            detector :=
              { sys.detector with sampleCnt := (sys.detector.sampleCnt + 1) % 256 } }).1,
        detector_call.filter_addNewInput ((raw : ℚ) / SCALED_ADC_FACTOR - SCALED_ADC_RANGE) ::
          (detector_decimate
            { sys with
              filter := filter_addNewInput sys.filter
                ((raw : ℚ) / SCALED_ADC_FACTOR - SCALED_ADC_RANGE)
              detector :=
                { sys.detector with
                  sampleCnt := (sys.detector.sampleCnt + 1) % 256 } }).2) := by
  unfold detector_process
  dsimp only
  rw [if_pos h]

theorem detector_process_of_not_tenth (sys : system_t) (raw : Nat)
    (h : ¬ (sys.detector.sampleCnt + 1) % 256 = INPUT_BEFORE_CALCULATION) :
    detector_process sys raw =
      ({ sys with
          filter := filter_addNewInput sys.filter
            ((raw : ℚ) / SCALED_ADC_FACTOR - SCALED_ADC_RANGE)
          detector :=
            { sys.detector with sampleCnt := (sys.detector.sampleCnt + 1) % 256 } },
        [detector_call.filter_addNewInput
          ((raw : ℚ) / SCALED_ADC_FACTOR - SCALED_ADC_RANGE)]) := by
  unfold detector_process
  dsimp only
  rw [if_neg h]

/-- What `detector` does with one sample when the sample counter is below 10 on
entry. -/
theorem detector_process_spec (sys : system_t) (raw : Nat)
    (hs : sys.detector.sampleCnt < INPUT_BEFORE_CALCULATION) :
    (detector_process sys raw).1.detector.sampleCnt = (sys.detector.sampleCnt + 1) % 10 ∧
    (detector_process sys raw).1.detector.invocationCount = sys.detector.invocationCount ∧
    (detector_process sys raw).1.filter.xQueue =
      queue_overwritePush sys.filter.xQueue
        ((raw : ℚ) / SCALED_ADC_FACTOR - SCALED_ADC_RANGE) ∧
    detector_inputs (detector_process sys raw).2 =
      [(raw : ℚ) / SCALED_ADC_FACTOR - SCALED_ADC_RANGE] ∧
    (detector_process sys raw).2.count detector_call.buffer_pop = 0 ∧
    (detector_process sys raw).2.count detector_call.filter_firFilter =
      (sys.detector.sampleCnt + 1) / 10 ∧
    ∀ f, f < FILTER_FREQUENCY_COUNT →
      (detector_process sys raw).2.count (detector_call.filter_iirFilter f) =
        (sys.detector.sampleCnt + 1) / 10 ∧
      (detector_process sys raw).2.count (detector_call.filter_computePower f) =
        (sys.detector.sampleCnt + 1) / 10 := by
  unfold INPUT_BEFORE_CALCULATION at hs
  by_cases h : (sys.detector.sampleCnt + 1) % 256 = INPUT_BEFORE_CALCULATION
  · rw [detector_process_of_tenth sys raw h]
    unfold INPUT_BEFORE_CALCULATION at h
    have h9 : sys.detector.sampleCnt = 9 := by omega
    obtain ⟨d1, d2, d3, d4⟩ := detector_decimate_spec
      { sys with
        filter := filter_addNewInput sys.filter
          ((raw : ℚ) / SCALED_ADC_FACTOR - SCALED_ADC_RANGE)
        detector :=
          { sys.detector with sampleCnt := (sys.detector.sampleCnt + 1) % 256 } }
    dsimp only
    have hdiv : (sys.detector.sampleCnt + 1) / 10 = 1 := by omega
    have hmod : (sys.detector.sampleCnt + 1) % 10 = 0 := by omega
    rw [hdiv, hmod]
    refine ⟨d1, d2, d3, ?_⟩
    rcases d4 with d4 | d4 <;> rw [d4]
    · obtain ⟨c1, c2, c3, c4⟩ := detector_decimateCalls_counts _ (Or.inl rfl)
      refine ⟨?_, ?_, ?_, fun f hf => ⟨?_, ?_⟩⟩
      · show _ :: detector_inputs _ = _
        rw [c1]
      · rw [List.count_cons_of_ne (by intro hh; cases hh), c2]
      · rw [List.count_cons_of_ne (by intro hh; cases hh), c3]
      · rw [List.count_cons_of_ne (by intro hh; cases hh), (c4 f hf).1]
      · rw [List.count_cons_of_ne (by intro hh; cases hh), (c4 f hf).2]
    · obtain ⟨c1, c2, c3, c4⟩ := detector_decimateCalls_counts _ (Or.inr rfl)
      refine ⟨?_, ?_, ?_, fun f hf => ⟨?_, ?_⟩⟩
      · show _ :: detector_inputs _ = _
        rw [c1]
      · rw [List.count_cons_of_ne (by intro hh; cases hh), c2]
      · rw [List.count_cons_of_ne (by intro hh; cases hh), c3]
      · rw [List.count_cons_of_ne (by intro hh; cases hh), (c4 f hf).1]
      · rw [List.count_cons_of_ne (by intro hh; cases hh), (c4 f hf).2]
  · rw [detector_process_of_not_tenth sys raw h]
    unfold INPUT_BEFORE_CALCULATION at h
    have hlt : sys.detector.sampleCnt + 1 < 10 := by omega
    have hdiv : (sys.detector.sampleCnt + 1) / 10 = 0 := by omega
    have hmod : (sys.detector.sampleCnt + 1) % 10 = sys.detector.sampleCnt + 1 := by omega
    have h256 : (sys.detector.sampleCnt + 1) % 256 = sys.detector.sampleCnt + 1 := by omega
    dsimp only
    rw [hdiv, hmod, h256]
    refine ⟨rfl, rfl, rfl, rfl, ?_, ?_, fun f hf => ⟨?_, ?_⟩⟩ <;>
      exact List.count_cons_of_ne (by intro hh; cases hh) _

theorem detector_inputs_append (a b : List detector_call) :
    detector_inputs (a ++ b) = detector_inputs a ++ detector_inputs b := by
  induction a with
  | nil => rfl
  | cons c a ih =>
    cases c <;> simp [detector_inputs, ih]

theorem buffer_popN_elementCount (n : Nat) (b : buffer_t) :
    (buffer_popN n b).2.elementCount = b.elementCount - n := by
  induction n generalizing b with
  | zero => rfl
  | succ n ih =>
    rw [buffer_popN]
    dsimp only
    rw [ih]
    by_cases h : 0 < b.elementCount
    · rw [buffer_pop_of_pos b h]
      dsimp only
      omega
    · rw [buffer_pop_of_empty b (by omega)]
      dsimp only
      omega

theorem detector_iteration_spec (en : Bool) (w : world_t)
    (hs : w.system.detector.sampleCnt < INPUT_BEFORE_CALCULATION) :
    (detector_iteration en w).1.buffer = (buffer_pop w.buffer).2 ∧
    (detector_iteration en w).1.system.detector.sampleCnt =
      (w.system.detector.sampleCnt + 1) % 10 ∧
    (detector_iteration en w).1.system.detector.invocationCount =
      w.system.detector.invocationCount ∧
    (detector_iteration en w).1.system.filter.xQueue =
      queue_overwritePush w.system.filter.xQueue (detector_scaled (buffer_pop w.buffer).1) ∧
    detector_inputs (detector_iteration en w).2 = [detector_scaled (buffer_pop w.buffer).1] ∧
    (detector_iteration en w).2.count detector_call.buffer_pop = 1 ∧
    (detector_iteration en w).2.count detector_call.filter_firFilter =
      (w.system.detector.sampleCnt + 1) / 10 ∧
    ∀ f, f < FILTER_FREQUENCY_COUNT →
      (detector_iteration en w).2.count (detector_call.filter_iirFilter f) =
        (w.system.detector.sampleCnt + 1) / 10 ∧
      (detector_iteration en w).2.count (detector_call.filter_computePower f) =
        (w.system.detector.sampleCnt + 1) / 10 := by
  obtain ⟨p1, p2, p3, p4, p5, p6, p7⟩ :=
    detector_process_spec w.system ((buffer_pop w.buffer).1 % 4294967296) hs
  refine ⟨rfl, p1, p2, p3, ?_, ?_, ?_, fun f hf => ⟨?_, ?_⟩⟩
  · rw [detector_iteration_calls, detector_inputs_append, p4]
    cases en <;> rfl
  · rw [detector_iteration_calls, List.count_append, p5]
    cases en <;> decide
  · rw [detector_iteration_calls, List.count_append, p6]
    cases en <;> simp
  · rw [detector_iteration_calls, List.count_append, (p7 f hf).1]
    cases en <;> simp
  · rw [detector_iteration_calls, List.count_append, (p7 f hf).2]
    cases en <;> simp

/-- The loop of `detector` on `n` samples, started with a sample counter below 10. -/
theorem detector_loop_counts (en : Bool) (n : Nat) (w : world_t)
    (hs : w.system.detector.sampleCnt < INPUT_BEFORE_CALCULATION) :
    (detector_loop en n w).1.buffer = (buffer_popN n w.buffer).2 ∧
    (detector_loop en n w).1.system.detector.sampleCnt =
      (w.system.detector.sampleCnt + n) % 10 ∧
    (detector_loop en n w).1.system.detector.invocationCount =
      w.system.detector.invocationCount ∧
    (detector_loop en n w).1.system.filter.xQueue =
      ((buffer_popN n w.buffer).1.map detector_scaled).foldl queue_overwritePush
        w.system.filter.xQueue ∧
    detector_inputs (detector_loop en n w).2 =
      (buffer_popN n w.buffer).1.map detector_scaled ∧
    (detector_loop en n w).2.count detector_call.buffer_pop = n ∧
    (detector_loop en n w).2.count detector_call.filter_firFilter =
      (w.system.detector.sampleCnt + n) / 10 ∧
    ∀ f, f < FILTER_FREQUENCY_COUNT →
      (detector_loop en n w).2.count (detector_call.filter_iirFilter f) =
        (w.system.detector.sampleCnt + n) / 10 ∧
      (detector_loop en n w).2.count (detector_call.filter_computePower f) =
        (w.system.detector.sampleCnt + n) / 10 := by
  induction n generalizing w with
  | zero =>
    unfold INPUT_BEFORE_CALCULATION at hs
    have hmod : (w.system.detector.sampleCnt + 0) % 10 = w.system.detector.sampleCnt := by
      omega
    have hdiv : (w.system.detector.sampleCnt + 0) / 10 = 0 := by omega
    rw [hmod, hdiv]
    exact ⟨rfl, rfl, rfl, rfl, rfl, rfl, rfl, fun f _ => ⟨rfl, rfl⟩⟩
  | succ n ih =>
    obtain ⟨i1, i2, i3, i4, i5, i6, i7, i8⟩ := detector_iteration_spec en w hs
    have hs' : (detector_iteration en w).1.system.detector.sampleCnt <
        INPUT_BEFORE_CALCULATION := by
      rw [i2]
      unfold INPUT_BEFORE_CALCULATION
      omega
    obtain ⟨l1, l2, l3, l4, l5, l6, l7, l8⟩ := ih (detector_iteration en w).1 hs'
    unfold INPUT_BEFORE_CALCULATION at hs
    have hmod : ((w.system.detector.sampleCnt + 1) % 10 + n) % 10 =
        (w.system.detector.sampleCnt + (n + 1)) % 10 := by omega
    have hdiv : (w.system.detector.sampleCnt + 1) / 10 +
        ((w.system.detector.sampleCnt + 1) % 10 + n) / 10 =
        (w.system.detector.sampleCnt + (n + 1)) / 10 := by omega
    rw [detector_loop_succ]
    dsimp only
    rw [buffer_popN]
    dsimp only
    refine ⟨?_, ?_, ?_, ?_, ?_, ?_, ?_, fun f hf => ⟨?_, ?_⟩⟩
    · rw [l1, i1]
    · rw [l2, i2, hmod]
    · rw [l3, i3]
    · rw [l4, i4, i1, List.map_cons, List.foldl_cons]
    · rw [detector_inputs_append, i5, l5, i1, List.map_cons]
      rfl
    · rw [List.count_append, i6, l6]
      omega
    · rw [List.count_append, i7, l7, i2, hdiv]
    · rw [List.count_append, (i8 f hf).1, (l8 f hf).1, i2, hdiv]
    · rw [List.count_append, (i8 f hf).2, (l8 f hf).2, i2, hdiv]

/-- Function `detector` on a well-formed buffer and a sample counter below 10:
the buffer is drained oldest first into the FIR input queue, and the decimated
filter bank runs once per tenth sample. -/
theorem detector_drain (en : Bool) (w : world_t) (hb : buffer_wf w.buffer)
    (hs : w.system.detector.sampleCnt < INPUT_BEFORE_CALCULATION) :
    (detector en w).2.count detector_call.buffer_pop = buffer_elements w.buffer ∧
    detector_inputs (detector en w).2 = (buffer_contents w.buffer).map detector_scaled ∧
    (detector en w).1.system.filter.xQueue =
      ((buffer_contents w.buffer).map detector_scaled).foldl queue_overwritePush
        w.system.filter.xQueue ∧
    buffer_elements (detector en w).1.buffer = 0 ∧
    detector_getInvocationCount (detector en w).1.system =
      (detector_getInvocationCount w.system + 1) % 4294967296 ∧
    (detector en w).2.count detector_call.filter_firFilter =
      (w.system.detector.sampleCnt + buffer_elements w.buffer) / 10 ∧
    (∀ f, f < FILTER_FREQUENCY_COUNT →
      (detector en w).2.count (detector_call.filter_iirFilter f) =
        (w.system.detector.sampleCnt + buffer_elements w.buffer) / 10 ∧
      (detector en w).2.count (detector_call.filter_computePower f) =
        (w.system.detector.sampleCnt + buffer_elements w.buffer) / 10) ∧
    (detector en w).1.system.detector.sampleCnt =
      (w.system.detector.sampleCnt + buffer_elements w.buffer) % 10 := by
  have hn : buffer_elements w.buffer % 4294967296 = buffer_elements w.buffer := by
    have h2 := hb.2.1
    unfold BUFFER_SIZE at h2
    unfold buffer_elements
    omega
  have hd : buffer_drain w.buffer = buffer_contents w.buffer :=
    buffer_drain_eq_contents w.buffer hb
  unfold buffer_drain at hd
  unfold detector
  dsimp only
  rw [hn]
  obtain ⟨l1, l2, l3, l4, l5, l6, l7, l8⟩ :=
    detector_loop_counts en (buffer_elements w.buffer)
      { w with
        system :=
          { w.system with
            detector :=
              { w.system.detector with
                invocationCount := (w.system.detector.invocationCount + 1) % 4294967296
                elementCount := buffer_elements w.buffer } } } hs
  dsimp only at l1 l2 l3 l4 l5 l6 l7 l8
  rw [hd] at l4 l5
  refine ⟨?_, ?_, l4, ?_, ?_, ?_, fun f hf => ⟨?_, ?_⟩, l2⟩
  · rw [List.count_cons, l6]
    simp
  · exact l5
  · show buffer_t.elementCount _ = 0
    rw [l1, buffer_popN_elementCount]
    unfold buffer_elements
    omega
  · unfold detector_getInvocationCount
    exact l3
  · rw [List.count_cons, l7]
    simp
  · rw [List.count_cons, (l8 f hf).1]
    simp
  · rw [List.count_cons, (l8 f hf).2]
    simp

theorem world_lastInvocation_buffer_wf : buffer_wf world_lastInvocation.buffer :=
  buffer_wf_init _

/-- C33 as stated fails when the invocation count is at its top value: with an
empty buffer and sample counter 0, a call of `detector` at invocation count
4294967295 leaves the `uint32_t` count at 0, not at 4294967296. -/
theorem C33_invocation_count_wraps :
    buffer_reachable world_lastInvocation.buffer ∧
    buffer_elements world_lastInvocation.buffer = 0 ∧
    world_lastInvocation.system.detector.sampleCnt = 0 ∧
    detector_getInvocationCount world_lastInvocation.system = 4294967295 ∧
    detector_getInvocationCount (detector true world_lastInvocation).1.system = 0 ∧
    ¬ (detector_getInvocationCount (detector true world_lastInvocation).1.system =
      detector_getInvocationCount world_lastInvocation.system + 1) := by
  have h := (detector_drain true world_lastInvocation world_lastInvocation_buffer_wf
    (by decide)).2.2.2.2.1
  have h0 : detector_getInvocationCount world_lastInvocation.system = 4294967295 := rfl
  rw [h0] at h
  refine ⟨⟨_, [], rfl⟩, rfl, rfl, h0, h, ?_⟩
  rw [h, h0]
  decide

/-- C33, amended: a call of `detector` on a buffer of the execution holding `n`
samples, entered with sample counter `s < 10` and with no push during the
call, pops exactly `n` samples; the samples reach `filter_addNewInput` oldest
first, each scaled, and the FIR input queue is the old one with these values
pushed in that order; the buffer is empty on return; the invocation count is
the old one plus 1 modulo 2^32; the FIR filter and each of the ten IIR and
power updates run exactly `(s + n) / 10` times; and the sample counter on
return is `(s + n) % 10`. -/
theorem C33_detector_drains_buffer (interruptsCurrentlyEnabled : Bool) (w : world_t)
    (hb : buffer_reachable w.buffer)
    (hs : w.system.detector.sampleCnt < INPUT_BEFORE_CALCULATION) :
    (detector interruptsCurrentlyEnabled w).2.count detector_call.buffer_pop =
      buffer_elements w.buffer ∧
    detector_inputs (detector interruptsCurrentlyEnabled w).2 =
      (buffer_contents w.buffer).map detector_scaled ∧
    (detector interruptsCurrentlyEnabled w).1.system.filter.xQueue =
      ((buffer_contents w.buffer).map detector_scaled).foldl queue_overwritePush
        w.system.filter.xQueue ∧
    buffer_elements (detector interruptsCurrentlyEnabled w).1.buffer = 0 ∧
    detector_getInvocationCount (detector interruptsCurrentlyEnabled w).1.system =
      (detector_getInvocationCount w.system + 1) % 4294967296 ∧
    (detector interruptsCurrentlyEnabled w).2.count detector_call.filter_firFilter =
      (w.system.detector.sampleCnt + buffer_elements w.buffer) / 10 ∧
    (∀ f, f < FILTER_FREQUENCY_COUNT →
      (detector interruptsCurrentlyEnabled w).2.count (detector_call.filter_iirFilter f) =
        (w.system.detector.sampleCnt + buffer_elements w.buffer) / 10 ∧
      (detector interruptsCurrentlyEnabled w).2.count (detector_call.filter_computePower f) =
        (w.system.detector.sampleCnt + buffer_elements w.buffer) / 10) ∧
    (detector interruptsCurrentlyEnabled w).1.system.detector.sampleCnt =
      (w.system.detector.sampleCnt + buffer_elements w.buffer) % 10 :=
  detector_drain interruptsCurrentlyEnabled w (buffer_wf_of_reachable w.buffer hb) hs

theorem world_threeSamples_elements : buffer_elements world_threeSamples.buffer = 3 := by
  decide

theorem world_threeSamples_contents :
    buffer_contents world_threeSamples.buffer = [0, 4095, 2048] := by
  decide

/-- Claim C33, amended, on a buffer holding the samples 0, 4095, 2048 with sample
counter 8: three pops, the three samples scaled in FIFO order, one run of the
FIR filter, sample counter 1 and invocation count 1 on return. -/
theorem C33_detector_drains_buffer_witness :
    buffer_reachable world_threeSamples.buffer ∧
    world_threeSamples.system.detector.sampleCnt < INPUT_BEFORE_CALCULATION ∧
    (detector true world_threeSamples).2.count detector_call.buffer_pop = 3 ∧
    detector_inputs (detector true world_threeSamples).2 =
      [0, 4095, 2048].map detector_scaled ∧
    buffer_elements (detector true world_threeSamples).1.buffer = 0 ∧
    (detector true world_threeSamples).2.count detector_call.filter_firFilter = (8 + 3) / 10 ∧
    (detector true world_threeSamples).1.system.detector.sampleCnt = (8 + 3) % 10 := by
  have h := C33_detector_drains_buffer true world_threeSamples ⟨_, _, rfl⟩ (by decide)
  rw [world_threeSamples_elements, world_threeSamples_contents] at h
  exact ⟨⟨_, _, rfl⟩, by decide, h.1, h.2.1, h.2.2.2.1, h.2.2.2.2.2.1, h.2.2.2.2.2.2.2⟩

/-! ## The threshold of `hit_detect` in `double` arithmetic -/

theorem roundHalfEven_intCast (m : ℤ) : roundHalfEven (m : ℚ) = m := by
  unfold roundHalfEven
  rw [Int.floor_intCast, sub_self, if_pos (by norm_num)]

theorem double_exponent_eq (x : ℚ) (e : ℤ) (h1 : (2 : ℚ) ^ e ≤ |x|)
    (h2 : |x| < (2 : ℚ) ^ (e + 1)) (he : -1022 ≤ e) : double_exponent x = e := by
  have hpos : 0 < |x| := lt_of_lt_of_le (zpow_pos (by norm_num) e) h1
  have hle : e ≤ Int.log 2 |x| :=
    (Int.zpow_le_iff_le_log (by norm_num) hpos).1 (by exact_mod_cast h1)
  have hlt : Int.log 2 |x| < e + 1 :=
    (Int.lt_zpow_iff_log_lt (by norm_num) hpos).1 (by exact_mod_cast h2)
  unfold double_exponent
  omega

/-- Zero is a double. -/
theorem double_round_zero : double_round 0 = double_t.finite 0 := by
  unfold double_round
  have h : roundHalfEven (0 / double_ulp 0) = 0 := by
    rw [zero_div]
    exact roundHalfEven_intCast 0
  rw [h, Int.cast_zero, zero_mul, abs_zero, if_pos (zpow_pos (by norm_num) _)]

/-- A normal double, `m * 2^(e - 52)` with a 53-bit significand `m` and an
exponent `e` between `-1022` and `1023`, is a fixed point of the rounding. -/
theorem double_round_normal (m e : ℤ) (hm1 : 2 ^ 52 ≤ |m|) (hm2 : |m| < 2 ^ 53)
    (he1 : -1022 ≤ e) (he2 : e ≤ 1023) :
    double_round ((m : ℚ) * 2 ^ (e - 52)) = double_t.finite ((m : ℚ) * 2 ^ (e - 52)) := by
  have h2 : (0 : ℚ) < 2 := by norm_num
  have hu : (0 : ℚ) < 2 ^ (e - 52) := zpow_pos h2 _
  have habs : |(m : ℚ) * 2 ^ (e - 52)| = (|m| : ℤ) * 2 ^ (e - 52) := by
    rw [abs_mul, abs_of_pos hu, Int.cast_abs]
  have hlo : (2 : ℚ) ^ e ≤ |(m : ℚ) * 2 ^ (e - 52)| := by
    rw [habs]
    have hsplit : (2 : ℚ) ^ e = 2 ^ (52 : ℕ) * 2 ^ (e - 52) := by
      rw [← zpow_natCast, ← zpow_add₀ (by norm_num)]
      congr 1
      push_cast
      ring
    rw [hsplit]
    apply mul_le_mul_of_nonneg_right _ hu.le
    exact_mod_cast hm1
  have hhi : |(m : ℚ) * 2 ^ (e - 52)| < (2 : ℚ) ^ (e + 1) := by
    rw [habs]
    have hsplit : (2 : ℚ) ^ (e + 1) = 2 ^ (53 : ℕ) * 2 ^ (e - 52) := by
      rw [← zpow_natCast, ← zpow_add₀ (by norm_num)]
      congr 1
      push_cast
      ring
    rw [hsplit]
    apply mul_lt_mul_of_pos_right _ hu
    exact_mod_cast hm2
  have hexp := double_exponent_eq _ e hlo hhi he1
  have hulp : double_ulp ((m : ℚ) * 2 ^ (e - 52)) = 2 ^ (e - 52) := by
    unfold double_ulp
    rw [hexp]
  have hq : roundHalfEven ((m : ℚ) * 2 ^ (e - 52) / 2 ^ (e - 52)) = m := by
    rw [mul_div_assoc, div_self (ne_of_gt hu), mul_one]
    exact roundHalfEven_intCast m
  unfold double_round
  rw [hulp, hq, if_pos]
  calc |(m : ℚ) * 2 ^ (e - 52)| < (2 : ℚ) ^ (e + 1) := hhi
    _ ≤ (2 : ℚ) ^ (1024 : ℤ) := zpow_le_zpow_right₀ (by norm_num) (by omega)

/-! ## `double_round`: nearest double, ties to even -/

theorem roundHalfEven_abs_sub_le (x : ℚ) : |(roundHalfEven x : ℚ) - x| ≤ 1 / 2 := by
  have h1 := Int.floor_le x
  have h2 := Int.lt_floor_add_one x
  unfold roundHalfEven
  split_ifs with ha hb hc
  · rw [abs_le]
    constructor <;> linarith
  · rw [abs_le]
    push_cast
    constructor <;> linarith
  · have he : x - ⌊x⌋ = 1 / 2 := le_antisymm (not_lt.mp hb) (not_lt.mp ha)
    rw [abs_le]
    constructor <;> linarith
  · have he : x - ⌊x⌋ = 1 / 2 := le_antisymm (not_lt.mp hb) (not_lt.mp ha)
    rw [abs_le]
    push_cast
    constructor <;> linarith

theorem double_ulp_pos (x : ℚ) : 0 < double_ulp x := by
  unfold double_ulp
  exact zpow_pos (by norm_num) _

/-- A finite result of `double_round` is a multiple of the spacing of the doubles
around the exact value, at most half a spacing away from it. -/
theorem double_round_nearest (x r : ℚ) (h : double_round x = double_t.finite r) :
    (∃ k : ℤ, r = k * double_ulp x) ∧ |r - x| ≤ double_ulp x / 2 := by
  have hu := double_ulp_pos x
  unfold double_round at h
  split_ifs at h with hfin
  have hr : (roundHalfEven (x / double_ulp x) : ℚ) * double_ulp x = r := by
    injection h
  refine ⟨⟨roundHalfEven (x / double_ulp x), hr.symm⟩, ?_⟩
  have herr := roundHalfEven_abs_sub_le (x / double_ulp x)
  have hx : r - x = ((roundHalfEven (x / double_ulp x) : ℚ) - x / double_ulp x)
      * double_ulp x := by
    rw [← hr]
    field_simp
  rw [hx, abs_mul, abs_of_pos hu]
  calc |(roundHalfEven (x / double_ulp x) : ℚ) - x / double_ulp x| * double_ulp x
      ≤ 1 / 2 * double_ulp x := mul_le_mul_of_nonneg_right herr hu.le
    _ = double_ulp x / 2 := by ring

/-- A tie goes to the even significand: `1 + 2^-53` lies half way between the
doubles `1` and `1 + 2^-52` and is rounded down, `1 + 3 * 2^-53` lies half way
between `1 + 2^-52` and `1 + 2^-51` and is rounded up. -/
theorem double_round_ties :
    double_round (1 + 1 / 2 ^ 53) = double_t.finite 1 ∧
    double_round (1 + 3 / 2 ^ 53) = double_t.finite (1 + 1 / 2 ^ 51) := by
  have hbig : (2 : ℚ) ≤ 2 ^ (1024 : ℤ) := by
    have h1 : (2 : ℚ) = 2 ^ (1 : ℤ) := by norm_num
    nth_rewrite 1 [h1]
    exact zpow_le_zpow_right₀ (by norm_num) (by norm_num)
  constructor
  · have hexp : double_exponent (1 + 1 / 2 ^ 53) = 0 :=
      double_exponent_eq _ 0 (by norm_num [abs_of_pos]) (by norm_num [abs_of_pos])
        (by norm_num)
    have hulp : double_ulp (1 + 1 / 2 ^ 53) = 2 ^ (-52 : ℤ) := by
      unfold double_ulp
      rw [hexp]
      norm_num
    have hfloor : ⌊(1 + 1 / 2 ^ 53 : ℚ) / 2 ^ (-52 : ℤ)⌋ = 4503599627370496 := by
      rw [Int.floor_eq_iff]
      norm_num
    have hq : roundHalfEven ((1 + 1 / 2 ^ 53 : ℚ) / 2 ^ (-52 : ℤ)) = 4503599627370496 := by
      unfold roundHalfEven
      rw [hfloor, if_neg (by norm_num), if_neg (by norm_num), if_pos (by norm_num)]
    unfold double_round
    rw [hulp, hq, if_pos (lt_of_lt_of_le (by norm_num [abs_of_pos]) hbig)]
    norm_num
  · have hexp : double_exponent (1 + 3 / 2 ^ 53) = 0 :=
      double_exponent_eq _ 0 (by norm_num [abs_of_pos]) (by norm_num [abs_of_pos])
        (by norm_num)
    have hulp : double_ulp (1 + 3 / 2 ^ 53) = 2 ^ (-52 : ℤ) := by
      unfold double_ulp
      rw [hexp]
      norm_num
    have hfloor : ⌊(1 + 3 / 2 ^ 53 : ℚ) / 2 ^ (-52 : ℤ)⌋ = 4503599627370497 := by
      rw [Int.floor_eq_iff]
      norm_num
    have hq : roundHalfEven ((1 + 3 / 2 ^ 53 : ℚ) / 2 ^ (-52 : ℤ)) = 4503599627370498 := by
      unfold roundHalfEven
      rw [hfloor, if_neg (by norm_num), if_neg (by norm_num), if_neg (by norm_num)]
      norm_num
    unfold double_round
    rw [hulp, hq, if_pos (lt_of_lt_of_le (by norm_num [abs_of_pos]) hbig)]
    norm_num

theorem THRESHOLD_FACTOR_double_eq :
    THRESHOLD_FACTOR_double = ((7205759403792794 : ℤ) : ℚ) * 2 ^ ((-4 : ℤ) - 52) := by
  unfold THRESHOLD_FACTOR_double
  norm_num

theorem THRESHOLD_FACTOR_double_pos : 0 < THRESHOLD_FACTOR_double := by
  unfold THRESHOLD_FACTOR_double
  norm_num

/-- The literal of `THRESHOLD_FACTOR` is a double. -/
theorem double_round_THRESHOLD_FACTOR_double :
    double_round THRESHOLD_FACTOR_double = double_t.finite THRESHOLD_FACTOR_double := by
  rw [THRESHOLD_FACTOR_double_eq]
  exact double_round_normal 7205759403792794 (-4) (by norm_num) (by norm_num) (by norm_num)
    (by norm_num)

/-- The literal `.1` denotes `THRESHOLD_FACTOR_double`: the rounding of `1/10`. -/
theorem double_round_THRESHOLD_FACTOR :
    double_round THRESHOLD_FACTOR = double_t.finite THRESHOLD_FACTOR_double := by
  have hexp : double_exponent (1 / 10) = -4 :=
    double_exponent_eq _ (-4) (by norm_num [abs_of_pos]) (by norm_num [abs_of_pos])
      (by norm_num)
  have hulp : double_ulp (1 / 10) = 2 ^ (-56 : ℤ) := by
    unfold double_ulp
    rw [hexp]
    norm_num
  have hfloor : ⌊(1 / 10 : ℚ) / 2 ^ (-56 : ℤ)⌋ = 7205759403792793 := by
    rw [Int.floor_eq_iff]
    norm_num
  have hq : roundHalfEven ((1 / 10 : ℚ) / 2 ^ (-56 : ℤ)) = 7205759403792794 := by
    unfold roundHalfEven
    rw [hfloor, if_neg (by norm_num), if_pos (by norm_num)]
    norm_num
  have hone : (1 : ℚ) ≤ 2 ^ (1024 : ℤ) := one_le_zpow₀ (by norm_num) (by norm_num)
  unfold THRESHOLD_FACTOR double_round
  rw [hulp, hq, if_pos (lt_of_lt_of_le (by norm_num [abs_of_pos]) hone)]
  unfold THRESHOLD_FACTOR_double
  norm_num

/-- With median 0 the threshold is the literal itself. -/
theorem hit_detect_threshold_zero (fudgeFactor : ℚ) :
    hit_detect_threshold 0 fudgeFactor = double_t.finite THRESHOLD_FACTOR_double := by
  unfold hit_detect_threshold
  rw [zero_mul, double_round_zero]
  dsimp only
  rw [zero_add, double_round_THRESHOLD_FACTOR_double]

theorem system_atThreshold_powers (g : Nat) (hg : g < NUM_PLAYERS) :
    detector_powers system_atThreshold g = if g = 7 then THRESHOLD_FACTOR_double else 0 := by
  unfold NUM_PLAYERS at hg
  interval_cases g <;> rfl

theorem system_atThreshold_topFrequency : hit_topFrequency system_atThreshold = 7 := by
  have hlt := hit_topFrequency_lt system_atThreshold
  have hmax := hit_topFrequency_max system_atThreshold 7 (by decide)
  rw [system_atThreshold_powers 7 (by decide),
    system_atThreshold_powers _ hlt, if_pos rfl] at hmax
  by_contra hne
  rw [if_neg hne] at hmax
  exact absurd hmax (not_le.mpr THRESHOLD_FACTOR_double_pos)

theorem system_atThreshold_median :
    power_median (detector_powers system_atThreshold) = 0 := by
  have hlist : (List.range NUM_PLAYERS).map (detector_powers system_atThreshold) =
      [0, 0, 0, 0, 0, 0, 0, THRESHOLD_FACTOR_double, 0, 0] := rfl
  have hpos := THRESHOLD_FACTOR_double_pos
  unfold power_median sorted_powers
  rw [hlist]
  simp [List.insertionSort, List.orderedInsert, hpos.le, not_le.mpr hpos, MEDIAN_INDEX]

theorem hit_detect_double_cond_iff (s : system_t) :
    (double_gt ((hit_detect_sort (detector_powers s) (fun i => i)).1 MAX_ARRAY_INDEX)
        (hit_detect_threshold
          ((hit_detect_sort (detector_powers s) (fun i => i)).1 MEDIAN_INDEX)
          (fudgeFactors.getD s.detector.fudgeFactorIndex 0))
      ∧ s.detector.ignoredSignals
          ((hit_detect_sort (detector_powers s) (fun i => i)).2 MAX_ARRAY_INDEX) = false
      ∧ lockoutTimer_running s.lockoutTimer = false) ↔ hit_recognized_double s := by
  unfold hit_recognized_double hit_topFrequency
  rw [hit_detect_sort_median, hit_detect_sort_value]

theorem hit_detect_double_unfold (s : system_t) :
    hit_detect_double s =
      if hit_recognized_double s then
        if s.detector.frozen then
          if hit_topFrequency s = s.detector.ownFrequency then
            { s with
              detector :=
                { s.detector with
                  frequencyDetected := hit_topFrequency s
                  lives := TOTAL_LIVES
                  hitDetected := true
                  hitCounts := hitCounts_increment s.detector.hitCounts (hit_topFrequency s)
                  frozen := false }
              trigger := trigger_enable s.trigger
              hitLedTimer := hitLedTimer_start s.hitLedTimer
              lockoutTimer := lockoutTimer_start s.lockoutTimer
              sound := s.sound ++
                [sound_call.setSound sound_sounds_t.sound_gameStart_e,
                  sound_call.startSound] }
          else
            { s with detector := { s.detector with frequencyDetected := hit_topFrequency s } }
        else
          if hit_topFrequency s ≠ s.detector.ownFrequency then
            { s with
              detector :=
                { s.detector with
                  frequencyDetected := hit_topFrequency s
                  lives := 0
                  hitDetected := true
                  frozen := true
                  hitCounts := hitCounts_increment s.detector.hitCounts (hit_topFrequency s) }
              lockoutTimer := lockoutTimer_start s.lockoutTimer
              hitLedTimer := hitLedTimer_start s.hitLedTimer
              sound := s.sound ++
                [sound_call.setSound sound_sounds_t.sound_loseLife_e,
                  sound_call.startSound]
              trigger := trigger_disable s.trigger }
          else
            { s with detector := { s.detector with frequencyDetected := hit_topFrequency s } }
      else
        { s with
          detector :=
            { s.detector with
              frequencyDetected := hit_topFrequency s
              hitDetected := false } } := by
  by_cases h : hit_recognized_double s
  · have h' := (hit_detect_double_cond_iff s).mpr h
    rw [if_pos h]
    unfold hit_detect_double
    dsimp only
    rw [if_pos h']
    rfl
  · have h' := (not_congr (hit_detect_double_cond_iff s)).mpr h
    rw [if_neg h]
    unfold hit_detect_double
    dsimp only
    rw [if_neg h']
    rfl

/-- The two embeddings of `hit_detect` differ in the threshold comparison only:
on a state on which the comparison over the rationals and the one in `double`
arithmetic agree, they return the same state. -/
theorem hit_detect_double_eq (s : system_t)
    (h : hit_recognized_double s ↔ hit_recognized s) :
    hit_detect_double s = hit_detect s := by
  rw [hit_detect_double_unfold, hit_detect_unfold]
  by_cases hr : hit_recognized s
  · rw [if_pos hr, if_pos (h.mpr hr)]
  · rw [if_neg hr, if_neg (fun hd => hr (h.mp hd))]

theorem hit_accepted_double_iff (s : system_t) :
    hit_accepted_double s ↔
      (hit_recognized_double s ∧
        (s.detector.frozen = true → hit_topFrequency s = s.detector.ownFrequency) ∧
        (s.detector.frozen = false → hit_topFrequency s ≠ s.detector.ownFrequency)) := by
  unfold hit_accepted_double
  rw [hit_detect_double_unfold]
  split_ifs with hr hfz ho ho
  · exact ⟨fun _ => ⟨hr, fun _ => ho, fun h => by simp [hfz] at h⟩,
      fun _ => ⟨rfl, hit_topFrequency s, rfl⟩⟩
  · refine ⟨fun h => ?_, fun h => absurd (h.2.1 hfz) ho⟩
    obtain ⟨_, f, hf⟩ := h
    exact absurd hf (hitCounts_increment_ne _ f)
  · exact ⟨fun _ => ⟨hr, fun h => absurd h hfz, fun _ => ho⟩,
      fun _ => ⟨rfl, hit_topFrequency s, rfl⟩⟩
  · refine ⟨fun h => ?_, fun h => ?_⟩
    · obtain ⟨_, f, hf⟩ := h
      exact absurd hf (hitCounts_increment_ne _ f)
    · have hfz' : s.detector.frozen = false := by simpa using hfz
      exact absurd (not_not.mp ho) (h.2.2 hfz')
  · refine ⟨fun h => ?_, fun h => absurd h.1 hr⟩
    obtain ⟨_, f, hf⟩ := h
    exact absurd hf (hitCounts_increment_ne _ f)

theorem system_atThreshold_not_recognized : ¬ hit_recognized_double system_atThreshold := by
  unfold hit_recognized_double
  rw [system_atThreshold_topFrequency, system_atThreshold_median,
    system_atThreshold_powers 7 (by decide), if_pos rfl, hit_detect_threshold_zero]
  intro h
  exact lt_irrefl _ h.1

/-- C1 as stated fails at the threshold, which the code computes in `double`
arithmetic.  After `detector_init` (not frozen, own frequency 4, fudge factor
100, nothing ignored, lock-out timer not running) let the power of frequency 7
be the double nearest to 0.1 and the other powers 0.  The max-power frequency
is 7, the median is 0, and the largest power is strictly greater than
`median * 100 + 0.1`: all conditions of the claim hold.  The threshold of the
code is `0 * 100 + .1` in `double` arithmetic, the double nearest to 0.1
itself, so `hit_detect` accepts no hit: the lock-out timer is not started, no
hit counter changes and `hitDetected` is false. -/
theorem C1_threshold_is_rounded :
    hit_topFrequency system_atThreshold = 7 ∧
    power_median (detector_powers system_atThreshold) = 0 ∧
    fudgeFactors.getD system_atThreshold.detector.fudgeFactorIndex 0 = 100 ∧
    detector_powers system_atThreshold 7 = THRESHOLD_FACTOR_double ∧
    double_round (1 / 10) = double_t.finite THRESHOLD_FACTOR_double ∧
    detector_powers system_atThreshold (hit_topFrequency system_atThreshold) >
      power_median (detector_powers system_atThreshold)
        * fudgeFactors.getD system_atThreshold.detector.fudgeFactorIndex 0 + 1 / 10 ∧
    system_atThreshold.detector.ignoredSignals (hit_topFrequency system_atThreshold)
      = false ∧
    lockoutTimer_running system_atThreshold.lockoutTimer = false ∧
    system_atThreshold.detector.frozen = false ∧
    hit_topFrequency system_atThreshold ≠ system_atThreshold.detector.ownFrequency ∧
    hit_detect_threshold (power_median (detector_powers system_atThreshold))
      (fudgeFactors.getD system_atThreshold.detector.fudgeFactorIndex 0) =
        double_t.finite THRESHOLD_FACTOR_double ∧
    ¬ hit_accepted_double system_atThreshold ∧
    (hit_detect_double system_atThreshold).lockoutTimer = system_atThreshold.lockoutTimer ∧
    (hit_detect_double system_atThreshold).detector.hitCounts =
      system_atThreshold.detector.hitCounts ∧
    (hit_detect_double system_atThreshold).detector.hitDetected = false := by
  have htop := system_atThreshold_topFrequency
  have hmed := system_atThreshold_median
  have hp := system_atThreshold_powers 7 (by decide)
  rw [if_pos rfl] at hp
  have hnr := system_atThreshold_not_recognized
  have hff : fudgeFactors.getD system_atThreshold.detector.fudgeFactorIndex 0 = 100 := rfl
  have htenth : double_round (1 / 10) = double_t.finite THRESHOLD_FACTOR_double :=
    double_round_THRESHOLD_FACTOR
  refine ⟨htop, hmed, hff, hp, htenth, ?_, ?_, rfl, rfl, ?_, ?_, ?_, ?_, ?_, ?_⟩
  · rw [htop, hmed, hp, hff]
    unfold THRESHOLD_FACTOR_double
    norm_num
  · rw [htop]
    rfl
  · rw [htop]
    decide
  · rw [hmed, hit_detect_threshold_zero]
  · rw [hit_accepted_double_iff]
    exact fun h => hnr h.1
  · rw [hit_detect_double_unfold, if_neg hnr]
  · rw [hit_detect_double_unfold, if_neg hnr]
  · rw [hit_detect_double_unfold, if_neg hnr]

/-- C1, amended: for every state (powers, ignore mask, own frequency, frozen
flag) and fudge-factor index in `0 .. 4`: the frequency `hit_detect` takes as the
max-power frequency is one of the 10 and no power exceeds its power, and
`hit_detect` accepts a hit (starts the lock-out timer and increments a hit
counter) iff that largest power is strictly greater than the threshold that the
code computes in `double` arithmetic, the product
`median * fudgeFactors[fudgeFactorIndex]` rounded to the nearest double plus the
double nearest to 0.1, rounded again (an infinity if the product overflows); the
max-power frequency is not ignored; `lockoutTimer_running()` is false; and the
max-power frequency equals `ownFrequency` when frozen and differs from it when
not frozen. -/
theorem C1_hit_accepted_iff_double (s : system_t)
    (_hi : s.detector.fudgeFactorIndex < FUDGE_FACTOR_ARRAY_SIZE) :
    hit_topFrequency s < NUM_PLAYERS ∧
    (∀ g, g < NUM_PLAYERS →
      detector_powers s g ≤ detector_powers s (hit_topFrequency s)) ∧
    (hit_accepted_double s ↔
      (double_gt (detector_powers s (hit_topFrequency s))
          (hit_detect_threshold (power_median (detector_powers s))
            (fudgeFactors.getD s.detector.fudgeFactorIndex 0))
        ∧ s.detector.ignoredSignals (hit_topFrequency s) = false
        ∧ lockoutTimer_running s.lockoutTimer = false
        ∧ (s.detector.frozen = true → hit_topFrequency s = s.detector.ownFrequency)
        ∧ (s.detector.frozen = false → hit_topFrequency s ≠ s.detector.ownFrequency))) := by
  refine ⟨hit_topFrequency_lt s, hit_topFrequency_max s, ?_⟩
  rw [hit_accepted_double_iff]
  unfold hit_recognized_double
  tauto

/-- The threshold for median 5 and fudge factor 100: the product 500 is a
double, and `500 + .1` rounds to `8797852240812442 / 2^44`, just above 500.1. -/
theorem hit_detect_threshold_five :
    hit_detect_threshold 5 100 = double_t.finite (8797852240812442 / 17592186044416) := by
  have hprod : (5 : ℚ) * 100 = ((8796093022208000 : ℤ) : ℚ) * 2 ^ ((8 : ℤ) - 52) := by
    norm_num
  have h500 : double_round (5 * 100) = double_t.finite 500 := by
    rw [hprod, double_round_normal 8796093022208000 8 (by norm_num) (by norm_num)
      (by norm_num) (by norm_num)]
    norm_num
  have hexp : double_exponent (500 + THRESHOLD_FACTOR_double) = 8 := by
    unfold THRESHOLD_FACTOR_double
    exact double_exponent_eq _ 8 (by norm_num [abs_of_pos]) (by norm_num [abs_of_pos])
      (by norm_num)
  have hulp : double_ulp (500 + THRESHOLD_FACTOR_double) = 2 ^ (-44 : ℤ) := by
    unfold double_ulp
    rw [hexp]
    norm_num
  have hfloor : ⌊(500 + THRESHOLD_FACTOR_double) / 2 ^ (-44 : ℤ)⌋ = 8797852240812441 := by
    unfold THRESHOLD_FACTOR_double
    rw [Int.floor_eq_iff]
    norm_num
  have hq : roundHalfEven ((500 + THRESHOLD_FACTOR_double) / 2 ^ (-44 : ℤ)) =
      8797852240812442 := by
    unfold roundHalfEven
    rw [hfloor]
    unfold THRESHOLD_FACTOR_double
    rw [if_neg (by norm_num), if_pos (by norm_num)]
    norm_num
  have hbig : (1024 : ℚ) ≤ 2 ^ (1024 : ℤ) := by
    have h10 : (1024 : ℚ) = 2 ^ (10 : ℤ) := by norm_num
    rw [h10]
    exact zpow_le_zpow_right₀ (by norm_num) (by norm_num)
  unfold hit_detect_threshold
  rw [h500]
  dsimp only
  unfold double_round
  rw [hulp, hq, if_pos (lt_of_lt_of_le (by norm_num [abs_of_pos]) hbig)]
  norm_num

set_option maxRecDepth 100000 in
theorem system_unfrozen_median :
    power_median (detector_powers (system_unfrozen 0)) = 5 ∧
    detector_powers (system_unfrozen 0) 7 = 5000 := by
  constructor <;> decide

/-- Witness of C1, amended, at the state after `detector_init` with a dominant
power 5000 on frequency 7 and median 5: the threshold is the double
`8797852240812442 / 2^44`, just above 500.1, and the hit is accepted. -/
theorem C1_hit_accepted_iff_double_witness :
    (system_unfrozen 0).detector.fudgeFactorIndex < FUDGE_FACTOR_ARRAY_SIZE ∧
    hit_detect_threshold (power_median (detector_powers (system_unfrozen 0)))
      (fudgeFactors.getD (system_unfrozen 0).detector.fudgeFactorIndex 0) =
        double_t.finite (8797852240812442 / 17592186044416) ∧
    hit_accepted_double (system_unfrozen 0) := by
  have htop := (system_unfrozen_recognized 0).2
  obtain ⟨hmed, hp⟩ := system_unfrozen_median
  have hff : fudgeFactors.getD (system_unfrozen 0).detector.fudgeFactorIndex 0 = 100 := rfl
  have hthr : hit_detect_threshold (power_median (detector_powers (system_unfrozen 0)))
      (fudgeFactors.getD (system_unfrozen 0).detector.fudgeFactorIndex 0) =
        double_t.finite (8797852240812442 / 17592186044416) := by
    rw [hmed, hff, hit_detect_threshold_five]
  refine ⟨by decide, hthr,
    (C1_hit_accepted_iff_double (system_unfrozen 0) (by decide)).2.2.mpr
      ⟨?_, ?_, rfl, ?_, ?_⟩⟩
  · rw [hthr, htop, hp]
    unfold double_gt
    norm_num
  · rw [htop]
    rfl
  · intro hfz
    exact absurd hfz (by decide)
  · intro _
    rw [htop]
    decide

end Lasertag
